import Mathlib

/-!
The freezelib library: configuration, escape-sequence dispatcher and layout core

A shallow embedding of `config.go`, `ansi.go`, `generator.go`, `freeze.go`,
`language_detector.go`, `presets.go` and the dimension readers of `svg/svg.go`.

* Go `float64` values are kept abstract: every definition is written over a
  carrier `F` with the operations of the class `Float64`, and no arithmetic
  law is assumed of them.  A statement over every `F` therefore holds for
  IEEE-754 doubles as well as for the rationals.  Two carriers are used to
  evaluate concrete inputs: the rationals (exact arithmetic) and `Binary64`,
  in which every operation rounds its exact result to the nearest number with
  a 53-bit significand, a tie to the even one.  `Binary64` has no bound on the
  exponent: it agrees with Go on every computation whose results are finite
  and not subnormal.  Where a statement needs the order of the numbers, it
  takes the laws `MonotoneArithmetic`, which both carriers have.
* Go `int` values are `Int` (or `Nat` where the code only ever counts up
  from zero).  The one sum the code forms from a configured `int`, the line
  number `i + 1 + offsetLine` of the gutter, wraps around at 64 bits
  (`wrapInt64`).
* Go `string` values are `String`; the only byte-level operation used,
  splitting on the newline byte, agrees with splitting on the character.
* A run-time panic (index out of range) is the result `none` of a dispatcher
  call and the result `Outcome.panic` of a render.
* The libraries the program calls (chroma, etree parsing, ansi, cellbuf,
  lipgloss, runewidth) are parameters: `RuneWidth` for the dispatcher and the
  structure `Collaborators` for the generator.  `plainText` is one instance of
  them, used to run the generator on concrete plain-text inputs.
-/

namespace Freezelib

/-! ## Numbers -/

/-- The operations the code uses on `float64`, with no laws attached. -/
class Float64 (F : Type) extends Zero F, Add F, Sub F, Mul F, Div F,
    NatCast F, IntCast F, OfScientific F, LT F, LE F, BEq F where
  /-- Comparison `a < b` is a test the program can run. -/
  decLt : DecidableRel (α := F) (· < ·)
  /-- Comparison `a <= b` is a test the program can run. -/
  decLe : DecidableRel (α := F) (· ≤ ·)

instance {F : Type} [Float64 F] : DecidableRel (α := F) (· < ·) := Float64.decLt
instance {F : Type} [Float64 F] : DecidableRel (α := F) (· ≤ ·) := Float64.decLe

/-- Exact rational arithmetic, used to evaluate the definitions on concrete inputs. -/
instance instFloat64Rat : Float64 ℚ where
  beq a b := decide (a = b)
  decLt := inferInstance
  decLe := inferInstance

/-! ### Binary64 -/

/-- The number of binary digits of `n` after the first: `log2Fuel n n` is the `k` with
`2 ^ k ≤ n < 2 ^ (k + 1)`, for `n > 0`. -/
def log2Fuel : Nat → Nat → Nat
  | 0, _ => 0
  | fuel + 1, n => if n < 2 then 0 else log2Fuel fuel (n / 2) + 1

/-- The power `2 ^ k` of an integer `k`. -/
def pow2 (k : Int) : ℚ :=
  if 0 ≤ k then ((2 ^ k.toNat : Nat) : ℚ) else 1 / ((2 ^ (-k).toNat : Nat) : ℚ)

/-- The binary exponent of a positive number `q`: the `e` with `2 ^ e ≤ q < 2 ^ (e + 1)`. -/
def binade (q : ℚ) : Int :=
  if pow2 ((log2Fuel q.num.natAbs q.num.natAbs : Int) - (log2Fuel q.den q.den : Int)) ≤ q
  then (log2Fuel q.num.natAbs q.num.natAbs : Int) - (log2Fuel q.den q.den : Int)
  else (log2Fuel q.num.natAbs q.num.natAbs : Int) - (log2Fuel q.den q.den : Int) - 1

/-- Rounding to the nearest integer, a tie to the even one. -/
def roundHalfEven (x : ℚ) : Int :=
  if x - ⌊x⌋ < 1 / 2 then ⌊x⌋
  else if 1 / 2 < x - ⌊x⌋ then ⌊x⌋ + 1
  else if ⌊x⌋ % 2 = 0 then ⌊x⌋ else ⌊x⌋ + 1

/-- Rounding to the nearest number with a significand of 53 bits, a tie to the even
significand: the rounding of every binary64 operation. -/
def roundFloat64 (q : ℚ) : ℚ :=
  if q = 0 then 0
  else (roundHalfEven (q / pow2 (binade |q| - 52)) : ℚ) * pow2 (binade |q| - 52)

/-- A finite binary64 number, as the rational it stands for. -/
structure Binary64 where
  val : ℚ
deriving DecidableEq

instance instFloat64Binary64 : Float64 Binary64 where
  zero := ⟨0⟩
  add a b := ⟨roundFloat64 (a.val + b.val)⟩
  sub a b := ⟨roundFloat64 (a.val - b.val)⟩
  mul a b := ⟨roundFloat64 (a.val * b.val)⟩
  div a b := ⟨roundFloat64 (a.val / b.val)⟩
  natCast n := ⟨roundFloat64 (n : ℚ)⟩
  intCast n := ⟨roundFloat64 (n : ℚ)⟩
  ofScientific m s e := ⟨roundFloat64 (OfScientific.ofScientific m s e : ℚ)⟩
  lt a b := a.val < b.val
  le a b := a.val ≤ b.val
  beq a b := decide (a.val = b.val)
  decLt := fun a b => inferInstanceAs (Decidable (a.val < b.val))
  decLe := fun a b => inferInstanceAs (Decidable (a.val ≤ b.val))

variable {F : Type} [Float64 F]

/-- Go `int` on a 64-bit platform: the value in `-2^63 .. 2^63 - 1` that the
result of an addition wraps around to. -/
def wrapInt64 (n : Int) : Int :=
  (n + 2 ^ 63) % 2 ^ 64 - 2 ^ 63

/-! ## `config.go` -/

/-- Shadow configuration for drop shadow effects. -/
structure Shadow (F : Type) where
  Blur : F
  X : F
  Y : F
deriving DecidableEq

/-- Border configuration for window borders. -/
structure Border (F : Type) where
  Radius : F
  Width : F
  Color : String
deriving DecidableEq

/-- Font configuration. -/
structure Font (F : Type) where
  Family : String
  File : String
  Size : F
  Ligatures : Bool
deriving DecidableEq

/-- Config represents the configuration for generating code screenshots. -/
structure Config (F : Type) where
  Background : String
  Margin : List F
  Padding : List F
  Window : Bool
  Width : F
  Height : F
  Language : String
  Theme : String
  Wrap : Int
  Border : Border F
  Shadow : Shadow F
  Font : Font F
  LineHeight : F
  Lines : List Int
  ShowLineNumbers : Bool
deriving DecidableEq

/-- DefaultConfig returns a default configuration. -/
def DefaultConfig : Config F :=
  { Background := "#171717"
    Margin := [0]
    Padding := [((20 : Nat) : F)]
    Window := false
    Width := 0
    Height := 0
    Language := ""
    Theme := "charm"
    Wrap := 0
    Border := { Radius := 0, Width := 0, Color := "#515151" }
    Shadow := { Blur := 0, X := 0, Y := 0 }
    Font := { Family := "JetBrains Mono", File := "", Size := ((14 : Nat) : F), Ligatures := true }
    LineHeight := (1.2 : F)
    Lines := []
    ShowLineNumbers := false }

/-- SetLanguage sets the programming language for syntax highlighting. -/
def Config.SetLanguage (c : Config F) (language : String) : Config F :=
  { c with Language := language }

/-- SetLines sets the line range to capture (1-indexed); `stop` is the source's `end`. -/
def Config.SetLines (c : Config F) (start stop : Int) : Config F :=
  if start > 0 ∧ stop > 0 ∧ start ≤ stop then
    { c with Lines := [start - 1, stop - 1] }
  else c

/-- expandPadding expands padding values according to CSS rules. -/
def Config.expandPadding (c : Config F) (scale : F) : List F :=
  match c.Padding with
  | [p0] => [p0 * scale, p0 * scale, p0 * scale, p0 * scale]
  | [p0, p1] => [p0 * scale, p1 * scale, p0 * scale, p1 * scale]
  | [p0, p1, p2, p3] => [p0 * scale, p1 * scale, p2 * scale, p3 * scale]
  | _ => [0, 0, 0, 0]

/-- expandMargin expands margin values according to CSS rules. -/
def Config.expandMargin (c : Config F) (scale : F) : List F :=
  match c.Margin with
  | [m0] => [m0 * scale, m0 * scale, m0 * scale, m0 * scale]
  | [m0, m1] => [m0 * scale, m1 * scale, m0 * scale, m1 * scale]
  | [m0, m1, m2, m3] => [m0 * scale, m1 * scale, m2 * scale, m3 * scale]
  | _ => [0, 0, 0, 0]

/-- Validate checks if the configuration is valid; `none` is Go's `nil` error. -/
def Config.Validate (c : Config F) : Option String :=
  if c.Font.Size ≤ 0 then
    some "font size must be positive"
  else if c.LineHeight ≤ 0 then
    some "line height must be positive"
  else
    match c.Lines with
    | [l0, l1] =>
      if l0 > l1 then some "start line must be less than or equal to end line" else none
    | _ => none

/-- Side constants for padding/margin indexing. -/
def top : Nat := 0

/-- Index of the right side. -/
def right : Nat := 1

/-- Index of the bottom side. -/
def bottom : Nat := 2

/-- Index of the left side. -/
def left : Nat := 3

/-! ## The `etree` elements the program builds

Only what the code reads or writes is kept: an element that sits inside a text
line or in front of the text group is a leaf with a tag, its attributes in
order and its leading character data.  An attribute written with
`fmt.Sprintf("%.2fpx", v)` is kept as the number `v` itself.
-/

/-- The value of an attribute: a plain string, or a number printed as `%.2fpx`. -/
inductive AttrValue (F : Type) where
  | str (s : String)
  | px (v : F)
deriving DecidableEq

/-- One `etree.Attr`. -/
structure Attr (F : Type) where
  Key : String
  Value : AttrValue F
deriving DecidableEq

/-- A leaf `etree.Element` (`tspan`, `rect`): tag, attributes, text. -/
structure Element (F : Type) where
  Tag : String
  Attr : List (Attr F)
  Text : String
deriving DecidableEq

/-- The call `etree.NewElement(tag)`. -/
def NewElement (tag : String) : Element F :=
  { Tag := tag, Attr := [], Text := "" }

/-- The loop of `CreateAttr` over the attributes: overwrite the value of the first one with the key. -/
def setAttr (key : String) (value : AttrValue F) : List (Attr F) → Option (List (Attr F))
  | [] => none
  | a :: as =>
    if a.Key = key then some ({ a with Value := value } :: as)
    else (setAttr key value as).map (fun as1 => a :: as1)

/-- The method `CreateAttr`: the value of an existing key is replaced, a new key is appended. -/
def Element.CreateAttr (e : Element F) (key : String) (value : AttrValue F) : Element F :=
  match setAttr key value e.Attr with
  | some as => { e with Attr := as }
  | none => { e with Attr := e.Attr ++ [{ Key := key, Value := value }] }

/-- The method `SetText`. -/
def Element.SetText (e : Element F) (text : String) : Element F :=
  { e with Text := text }

/-- The method `SelectAttr`, giving the value of the attribute with the key. -/
def Element.SelectAttr (e : Element F) (key : String) : Option (AttrValue F) :=
  (e.Attr.find? (fun a => a.Key = key)).map (fun a => a.Value)

/-- A child of a text line: character data or an element. -/
inductive Token (F : Type) where
  | CharData (s : String)
  | Elem (e : Element F)
deriving DecidableEq

/-- A `text` element of the text layer: its attributes and its children in order. -/
structure TextElement (F : Type) where
  Attr : List (Attr F)
  Child : List (Token F)
deriving DecidableEq

/-- The method `ChildElements`: the children that are elements, in order. -/
def TextElement.ChildElements (t : TextElement F) : List (Element F) :=
  t.Child.filterMap (fun c => match c with
    | Token.Elem e => some e
    | Token.CharData _ => none)

/-- The method `AddChild` for an element that has no parent yet: it becomes the last child. -/
def TextElement.AddChild (t : TextElement F) (e : Element F) : TextElement F :=
  { t with Child := t.Child ++ [Token.Elem e] }

/-- The call `InsertChildAt(0, e)`. -/
def TextElement.InsertChildAt0 (t : TextElement F) (e : Element F) : TextElement F :=
  { t with Child := Token.Elem e :: t.Child }

/-- Does the list hold an element? -/
def hasElem : List (Token F) → Bool
  | [] => false
  | Token.Elem _ :: _ => true
  | Token.CharData _ :: cs => hasElem cs

/-- Write through the pointer `children[len(children)-1]`: the last element child is replaced. -/
def replaceLastElem (e : Element F) : List (Token F) → List (Token F)
  | [] => []
  | c :: cs =>
    if hasElem cs then c :: replaceLastElem e cs
    else match c with
      | Token.Elem _ => Token.Elem e :: cs
      | Token.CharData s => Token.CharData s :: cs

/-- The line after a write through the pointer to its last element child. -/
def TextElement.setLastChildElement (t : TextElement F) (e : Element F) : TextElement F :=
  { t with Child := replaceLastElem e t.Child }

/-- The text runs of a line, in order: the text of each element child. -/
def TextElement.runs (t : TextElement F) : List String :=
  t.ChildElements.map (fun e => e.Text)

/-- The concatenated text of the runs of a line. -/
def TextElement.runText (t : TextElement F) : String :=
  t.runs.foldr (fun a b => a ++ b) ""

/-! ## `ansi.go` -/

/-- The constant `fontHeightToWidthRatio = 1.68`. -/
def fontHeightToWidthRatio : F := (1.68 : F)

/-- ANSI color palette: a Go map, so a missing key reads as the empty string. -/
def ansiPalette (v : Nat) : String :=
  if v = 30 then "#000000" else if v = 31 then "#FF0000" else if v = 32 then "#00FF00"
  else if v = 33 then "#FFFF00" else if v = 34 then "#0000FF" else if v = 35 then "#FF00FF"
  else if v = 36 then "#00FFFF" else if v = 37 then "#FFFFFF" else if v = 90 then "#808080"
  else if v = 91 then "#FF8080" else if v = 92 then "#80FF80" else if v = 93 then "#FFFF80"
  else if v = 94 then "#8080FF" else if v = 95 then "#FF80FF" else if v = 96 then "#80FFFF"
  else if v = 97 then "#FFFFFF" else ""

/-- The 256-color palette. -/
def palette : List String :=
  [
   "#000000", "#800000", "#008000", "#808000", "#000080", "#800080", "#008080", "#c0c0c0",
   "#808080", "#ff0000", "#00ff00", "#ffff00", "#0000ff", "#ff00ff", "#00ffff", "#ffffff",
   "#000000", "#00005f", "#000087", "#0000af", "#0000d7", "#0000ff", "#005f00", "#005f5f",
   "#005f87", "#005faf", "#005fd7", "#005fff", "#008700", "#00875f", "#008787", "#0087af",
   "#0087d7", "#0087ff", "#00af00", "#00af5f", "#00af87", "#00afaf", "#00afd7", "#00afff",
   "#00d700", "#00d75f", "#00d787", "#00d7af", "#00d7d7", "#00d7ff", "#00ff00", "#00ff5f",
   "#00ff87", "#00ffaf", "#00ffd7", "#00ffff", "#5f0000", "#5f005f", "#5f0087", "#5f00af",
   "#5f00d7", "#5f00ff", "#5f5f00", "#5f5f5f", "#5f5f87", "#5f5faf", "#5f5fd7", "#5f5fff",
   "#5f8700", "#5f875f", "#5f8787", "#5f87af", "#5f87d7", "#5f87ff", "#5faf00", "#5faf5f",
   "#5faf87", "#5fafaf", "#5fafd7", "#5fafff", "#5fd700", "#5fd75f", "#5fd787", "#5fd7af",
   "#5fd7d7", "#5fd7ff", "#5fff00", "#5fff5f", "#5fff87", "#5fffaf", "#5fffd7", "#5fffff",
   "#870000", "#87005f", "#870087", "#8700af", "#8700d7", "#8700ff", "#875f00", "#875f5f",
   "#875f87", "#875faf", "#875fd7", "#875fff", "#878700", "#87875f", "#878787", "#8787af",
   "#8787d7", "#8787ff", "#87af00", "#87af5f", "#87af87", "#87afaf", "#87afd7", "#87afff",
   "#87d700", "#87d75f", "#87d787", "#87d7af", "#87d7d7", "#87d7ff", "#87ff00", "#87ff5f",
   "#87ff87", "#87ffaf", "#87ffd7", "#87ffff", "#af0000", "#af005f", "#af0087", "#af00af",
   "#af00d7", "#af00ff", "#af5f00", "#af5f5f", "#af5f87", "#af5faf", "#af5fd7", "#af5fff",
   "#af8700", "#af875f", "#af8787", "#af87af", "#af87d7", "#af87ff", "#afaf00", "#afaf5f",
   "#afaf87", "#afafaf", "#afafd7", "#afafff", "#afd700", "#afd75f", "#afd787", "#afd7af",
   "#afd7d7", "#afd7ff", "#afff00", "#afff5f", "#afff87", "#afffaf", "#afffd7", "#afffff",
   "#d70000", "#d7005f", "#d70087", "#d700af", "#d700d7", "#d700ff", "#d75f00", "#d75f5f",
   "#d75f87", "#d75faf", "#d75fd7", "#d75fff", "#d78700", "#d7875f", "#d78787", "#d787af",
   "#d787d7", "#d787ff", "#d7af00", "#d7af5f", "#d7af87", "#d7afaf", "#d7afd7", "#d7afff",
   "#d7d700", "#d7d75f", "#d7d787", "#d7d7af", "#d7d7d7", "#d7d7ff", "#d7ff00", "#d7ff5f",
   "#d7ff87", "#d7ffaf", "#d7ffd7", "#d7ffff", "#ff0000", "#ff005f", "#ff0087", "#ff00af",
   "#ff00d7", "#ff00ff", "#ff5f00", "#ff5f5f", "#ff5f87", "#ff5faf", "#ff5fd7", "#ff5fff",
   "#ff8700", "#ff875f", "#ff8787", "#ff87af", "#ff87d7", "#ff87ff", "#ffaf00", "#ffaf5f",
   "#ffaf87", "#ffafaf", "#ffafd7", "#ffafff", "#ffd700", "#ffd75f", "#ffd787", "#ffd7af",
   "#ffd7d7", "#ffd7ff", "#ffff00", "#ffff5f", "#ffff87", "#ffffaf", "#ffffd7", "#ffffff",
   "#080808", "#121212", "#1c1c1c", "#262626", "#303030", "#3a3a3a", "#444444", "#4e4e4e",
   "#585858", "#626262", "#6c6c6c", "#767676", "#808080", "#8a8a8a", "#949494", "#9e9e9e",
   "#a8a8a8", "#b2b2b2", "#bcbcbc", "#c6c6c6", "#d0d0d0", "#dadada", "#e4e4e4", "#eeeeee"
  ]

/-- clamp constrains a value between min and max. -/
def clamp (value min max : Int) : Int :=
  if value < min then min
  else if value > max then max
  else value

/-- The Go index expression `xs[i]`: `none` is the index-out-of-range panic. -/
def index {α : Type} (xs : List α) (i : Int) : Option α :=
  if i < 0 then none else xs.get? i.toNat

/-- The dispatcher handles ANSI escape sequences and converts them to SVG.

The pointer `bg` always points at the rectangle the dispatcher inserted last,
which is child 0 of `svg` (every `InsertChildAt(0, _)` is followed by
`p.bg = ` that element, and the only later write to the rectangle is the
`width` of `endBackground`).  The open rectangle is therefore kept in `bg`
and `svg` lists the rectangles already closed, newest first: the children
this dispatcher has put in front of the group are `bg.toList ++ svg`. -/
structure dispatcher (F : Type) where
  lines : List (TextElement F)
  svg : List (Element F)
  config : Config F
  scale : F
  row : Int
  col : Nat
  bg : Option (Element F)
  bgWidth : Nat
deriving DecidableEq

/-- newDispatcher creates a new ANSI dispatcher. -/
def newDispatcher (lines : List (TextElement F)) (config : Config F) (scale : F) : dispatcher F :=
  { lines := lines, svg := [], config := config, scale := scale,
    row := 0, col := 0, bg := none, bgWidth := 0 }

/-- The children the dispatcher has inserted in front of the group, open rectangle included. -/
def dispatcher.rects (p : dispatcher F) : List (Element F) :=
  p.bg.toList ++ p.svg

/-- Print handles printable characters; `RuneWidth` is `runewidth.RuneWidth`. -/
def dispatcher.Print (RuneWidth : Char → Nat) (p : dispatcher F) (r : Char) : Option (dispatcher F) :=
  let row := clamp p.row 0 ((p.lines.length : Int) - 1)
  match index p.lines row with
  | none => none
  | some line =>
    let children := line.ChildElements
    let isFirstChild := children.length = 0
    let fresh : Element F := (NewElement "tspan").CreateAttr "xml:space" (AttrValue.str "preserve")
    let line1 := if isFirstChild then line.AddChild fresh else line
    let lastChild := if isFirstChild then fresh else children.getLastD fresh
    let line2 :=
      if RuneWidth r > 1 then
        let newChild := (lastChild.SetText (String.singleton r)).CreateAttr "dx"
          (AttrValue.px ((p.config.Font.Size / ((5 : Nat) : F)) * p.scale))
        line1.AddChild newChild
      else
        line1.setLastChildElement (lastChild.SetText (lastChild.Text ++ String.singleton r))
    some { p with
      row := row
      lines := p.lines.set row.toNat line2
      col := p.col + RuneWidth r
      bgWidth := if p.bg.isSome then p.bgWidth + RuneWidth r else p.bgWidth }

/-- endBackground ends the current background span. -/
def dispatcher.endBackground (p : dispatcher F) : dispatcher F :=
  match p.bg with
  | none => p
  | some bg =>
    { p with
      svg := bg.CreateAttr "width" (AttrValue.px
        (((p.bgWidth : Nat) : F) * (p.config.Font.Size / fontHeightToWidthRatio) * p.scale)) :: p.svg
      bg := none
      bgWidth := 0 }

/-- The loop `for p.col%16 != 0 { p.Print(' ') }` of Execute, run for at most `fuel` rounds.
Every round adds the same width to `col`, so the residues of `col` repeat
after at most 16 rounds: with fuel 16 the result `none` of an exhausted fuel
is a loop that never ends. -/
def dispatcher.tabLoop (RuneWidth : Char → Nat) : Nat → dispatcher F → Option (dispatcher F)
  | 0, p => if p.col % 16 = 0 then some p else none
  | fuel + 1, p =>
    if p.col % 16 = 0 then some p
    else match p.Print RuneWidth ' ' with
      | none => none
      | some p1 => dispatcher.tabLoop RuneWidth fuel p1

/-- Execute handles control characters (`'\t'` is 9, `'\n'` is 10). -/
def dispatcher.Execute (RuneWidth : Char → Nat) (p : dispatcher F) (code : Nat) : Option (dispatcher F) :=
  match (if code = 9 then dispatcher.tabLoop RuneWidth 16 p else some p) with
  | none => none
  | some p1 =>
    if code = 10 then
      let p2 := p1.endBackground
      some { p2 with row := p2.row + 1, col := 0 }
    else some p1

/-- The state of one call of CsiDispatch: the dispatcher, the local `span`, and
whether `span` has been added to the line `p.lines[p.row]`.

`span` is one element shared by the local variable and the line: `AddChild` of
an element that already has a parent detaches it first and appends it again,
and nothing else is appended to that line during the call.  So during the call
the children of the line are its children at entry, followed by `span` once
it has been added; `commit` writes that to the line. -/
structure sgrState (F : Type) where
  p : dispatcher F
  span : Element F
  added : Bool
deriving DecidableEq

/-- The statement `p.lines[p.row].AddChild(span)`. -/
def sgrState.addSpan (s : sgrState F) : Option (sgrState F) :=
  match index s.p.lines s.p.row with
  | none => none
  | some _ => some { s with added := true }

/-- The statement `span.CreateAttr(key, value)`. -/
def sgrState.createAttr (s : sgrState F) (key value : String) : sgrState F :=
  { s with span := s.span.CreateAttr key (AttrValue.str value) }

/-- The closure `reset` of CsiDispatch. -/
def sgrState.reset (s : sgrState F) : Option (sgrState F) :=
  match (if s.p.row < (s.p.lines.length : Int) then s.addSpan else some s) with
  | none => none
  | some s1 => some { s1 with p := s1.p.endBackground }

/-- The lines at the end of the call: the shared `span` is the last child of its line. -/
def sgrState.commit (s : sgrState F) : dispatcher F :=
  if s.added then
    match index s.p.lines s.p.row with
    | some line => { s.p with lines := s.p.lines.set s.p.row.toNat (line.AddChild s.span) }
    | none => s.p
  else s.p

/-- The block that opens a background rectangle, the same in the three background cases. -/
def dispatcher.openBackground (p : dispatcher F) (fill : String) : dispatcher F :=
  let p1 := p.endBackground
  let bg : Element F :=
    ((((NewElement "rect").CreateAttr "fill" (AttrValue.str fill)).CreateAttr "height"
      (AttrValue.px (p1.config.Font.Size * p1.config.LineHeight))).CreateAttr "x"
      (AttrValue.px (((p1.col : Nat) : F) * (p1.config.Font.Size / fontHeightToWidthRatio) * p1.scale))).CreateAttr "y"
      (AttrValue.px (((p1.row : Int) : F) * p1.config.Font.Size * p1.config.LineHeight))
  { p1 with bg := some bg }

/-- The result of `fmt.Sprintf("rgb(%d,%d,%d)", r, g, b)`. -/
def rgb (r g b : Nat) : String :=
  "rgb(" ++ toString r ++ "," ++ toString g ++ "," ++ toString b ++ ")"

/-- The codes of the sixteen-colour foreground case. -/
def fgCodes : List Nat := [30, 31, 32, 33, 34, 35, 36, 37, 90, 91, 92, 93, 94, 95, 96, 97]

/-- The codes of the sixteen-colour background case. -/
def bgCodes : List Nat := [40, 41, 42, 43, 44, 45, 46, 47, 100, 101, 102, 103, 104, 105, 106, 107]

/-- One round of the loop `for i < len(params)` of CsiDispatch: the switch on the
code `v = params[i]`, with `rest` the parameters after it.  The result is the
state after the switch and the number of parameters of `rest` the index has
moved past when the closing `i++` is reached.  In the cases 38 and 48 the index
moves to the sub-parameter; a complete form moves it on to its last operand.
When `2` is followed by fewer than three parameters the index stays on the
`2`, so the parameters after it are scanned as codes. -/
def sgrStep (v : Nat) (rest : List Nat) (s : sgrState F) : Option (Nat × sgrState F) :=
  if v = 0 then
    s.reset.map (fun s1 => (0, s1))
  else if v = 1 then
    s.addSpan.map (fun s1 => (0, s1))
  else if v = 9 then
    (s.createAttr "text-decoration" "line-through").addSpan.map (fun s1 => (0, s1))
  else if v = 3 then
    (s.createAttr "font-style" "italic").addSpan.map (fun s1 => (0, s1))
  else if v = 4 then
    (s.createAttr "text-decoration" "underline").addSpan.map (fun s1 => (0, s1))
  else if v ∈ fgCodes then
    (s.createAttr "fill" (ansiPalette v)).addSpan.map (fun s1 => (0, s1))
  else if v = 38 then
    match rest with
    | [] => some (1, s)
    | sub :: rest1 =>
      if sub = 5 then
        match rest1 with
        | [] => some (1, s)
        | n :: _ =>
          match palette.get? n with
          | none => none
          | some fill => (s.createAttr "fill" fill).addSpan.map (fun s1 => (2, s1))
      else if sub = 2 then
        match rest1 with
        | r :: g :: b :: _ => (s.createAttr "fill" (rgb r g b)).addSpan.map (fun s1 => (4, s1))
        | _ => some (1, s)
      else some (1, s)
  else if v ∈ bgCodes then
    some (0, { s with p := s.p.openBackground (ansiPalette (v - 10)) })
  else if v = 48 then
    match rest with
    | [] => some (1, s)
    | sub :: rest1 =>
      if sub = 5 then
        match rest1 with
        | [] => some (1, s)
        | n :: _ =>
          match palette.get? n with
          | none => none
          | some fill => some (2, { s with p := s.p.openBackground fill })
      else if sub = 2 then
        match rest1 with
        | r :: g :: b :: _ => some (4, { s with p := s.p.openBackground (rgb r g b) })
        | _ => some (1, s)
      else some (1, s)
  else some (0, s)

/-- The loop `for i < len(params)` of CsiDispatch on the parameters from the current one
on; `skip` is the number of them the index has already moved past. -/
def sgrLoop : List Nat → Nat → sgrState F → Option (sgrState F)
  | [], _, s => some s
  | _ :: rest, skip + 1, s => sgrLoop rest skip s
  | v :: rest, 0, s =>
    match sgrStep v rest s with
    | none => none
    | some (skip, s1) => sgrLoop rest skip s1

/-- The codes that have a case in the switch of CsiDispatch. -/
def sgrRecognized (v : Nat) : Prop :=
  v ∈ [0, 1, 9, 3, 4] ∨ v ∈ fgCodes ∨ v = 38 ∨ v ∈ bgCodes ∨ v = 48

instance (v : Nat) : Decidable (sgrRecognized v) := by
  unfold sgrRecognized
  infer_instance

/-- The parameter lists that select a background colour, with the fill each one gives:
40-47 and 100-107, `48;5;N` with `N` an index of the 256-colour palette, and
`48;2;R;G;B`. -/
def IsBackgroundCode (params : List Nat) (fill : String) : Prop :=
  (∃ v, v ∈ bgCodes ∧ params = [v] ∧ fill = ansiPalette (v - 10)) ∨
  (∃ n, n < 256 ∧ params = [48, 5, n] ∧ palette.get? n = some fill) ∨
  (∃ r g b, params = [48, 2, r, g, b] ∧ fill = rgb r g b)

/-- The rectangle of a background run opened at row `row` and column `col` and closed
after `cells` character cells. -/
def backgroundRect (config : Config F) (scale : F) (fill : String) (row : Int) (col cells : Nat) :
    Element F :=
  { Tag := "rect"
    Attr :=
      [{ Key := "fill", Value := AttrValue.str fill },
       { Key := "height", Value := AttrValue.px (config.Font.Size * config.LineHeight) },
       { Key := "x", Value := AttrValue.px
          (((col : Nat) : F) * (config.Font.Size / fontHeightToWidthRatio) * scale) },
       { Key := "y", Value := AttrValue.px (((row : Int) : F) * config.Font.Size * config.LineHeight) },
       { Key := "width", Value := AttrValue.px
          (((cells : Nat) : F) * (config.Font.Size / fontHeightToWidthRatio) * scale) }]
    Text := "" }

/-- CsiDispatch handles CSI (Control Sequence Introducer) sequences; the command `'m'` is 109
and each parameter is the value `params[i].Param(0)`. -/
def dispatcher.CsiDispatch (p : dispatcher F) (cmd : Int) (params : List Nat) : Option (dispatcher F) :=
  if cmd ≠ 109 then some p
  else
    let s : sgrState F :=
      { p := p
        span := (NewElement "tspan").CreateAttr "xml:space" (AttrValue.str "preserve")
        added := false }
    if params.length = 0 then s.reset.map sgrState.commit
    else (sgrLoop params 0 s).map sgrState.commit

/-- The calls the parser makes on its handler. -/
inductive Event where
  | Print (r : Char)
  | Execute (code : Nat)
  | CsiDispatch (cmd : Int) (params : List Nat)
deriving DecidableEq

/-- One handler call. -/
def dispatcher.handle (RuneWidth : Char → Nat) (p : dispatcher F) : Event → Option (dispatcher F)
  | Event.Print r => p.Print RuneWidth r
  | Event.Execute code => p.Execute RuneWidth code
  | Event.CsiDispatch cmd params => p.CsiDispatch cmd params

/-- The handler calls of a whole event sequence, in order. -/
def dispatcher.run (RuneWidth : Char → Nat) : List Event → dispatcher F → Option (dispatcher F)
  | [], p => some p
  | e :: es, p =>
    match p.handle RuneWidth e with
    | none => none
    | some p1 => dispatcher.run RuneWidth es p1

/-- The event sequence with every CsiDispatch call removed. -/
def stripCsi (es : List Event) : List Event :=
  es.filter (fun e => match e with
    | Event.CsiDispatch _ _ => false
    | _ => true)

/-- The concatenated text of the runs of each line of the dispatcher. -/
def dispatcher.lineTexts (p : dispatcher F) : List String :=
  p.lines.map TextElement.runText

/-- Two dispatcher states that show the same text at the same cursor position. -/
def sameText (p q : dispatcher F) : Prop :=
  p.lineTexts = q.lineTexts ∧ p.row = q.row ∧ p.col = q.col

/-! ## `generator.go` -/

/-- The constant `defaultFontSize = 14.0`. -/
def defaultFontSize : F := (14.0 : F)

/-- The constant `defaultLineHeight = 1.2`. -/
def defaultLineHeight : F := (1.2 : F)

/-- The result of a call: a value, a Go `error`, or a run-time panic. -/
inductive Outcome (α : Type) where
  | ok (out : α)
  | error (msg : String)
  | panic
deriving DecidableEq

/-- The pieces of `strings.Split(s, "\n")`, on characters. -/
def splitLines : List Char → List (List Char)
  | [] => [[]]
  | c :: cs =>
    if c = '\n' then [] :: splitLines cs
    else match splitLines cs with
      | [] => [[c]]
      | l :: ls => (c :: l) :: ls

/-- The call `strings.Split(input, "\n")`. -/
def Split (input : String) : List String :=
  (splitLines input.data).map String.mk

/-- The call `strings.Join(parts, "\n")`. -/
def Join (parts : List String) : String :=
  "\n".intercalate parts

/-- The Go slice expression `xs[lo:hi]`: `none` is the slice-bounds panic. -/
def slice {α : Type} (xs : List α) (lo hi : Int) : Option (List α) :=
  if 0 ≤ lo ∧ lo ≤ hi ∧ hi ≤ (xs.length : Int) then
    some ((xs.drop lo.toNat).take (hi.toNat - lo.toNat))
  else none

/-- cutLines cuts the input to the specified line range. -/
def cutLines (input : String) (lines : List Int) : Option String :=
  match lines with
  | [l0, l1] =>
    let inputLines := Split input
    let start := if l0 < 0 then 0 else l0
    let stop := if l1 ≥ (inputLines.length : Int) ∨ l1 < 0 then (inputLines.length : Int) - 1 else l1
    if start > stop then some ""
    else (slice inputLines start (stop + 1)).map Join
  | _ => some input

/-- The lines `lo..hi` inclusive of a list of lines, read off by index: the wording of
the specification, to compare cutLines with. -/
def linesFromTo (xs : List String) (lo hi : Int) : List String :=
  (List.range (hi + 1 - lo).toNat).map (fun k => xs.getD (lo.toNat + k) "")

/-- The function `max` of generator.go: the maximum of two float64 values. -/
def max (a b : F) : F :=
  if a > b then a else b

/-- What generateSVGFromIterator reads from the document the formatter wrote:
`svg.GetDimensions(image)`, whether `image.SelectElement("rect")` exists, and
the `text` children of `image.SelectElement("g")` when that group exists. -/
structure Skeleton (F : Type) where
  w : Int
  h : Int
  terminal : Bool
  textGroup : Option (List (TextElement F))

/-- The libraries the generator calls (chroma, ansi, cellbuf, lipgloss,
runewidth, etree parsing), taken as parameters. -/
structure Collaborators (F : Type) where
  /-- The type `chroma.Lexer`. -/
  Lexer : Type
  /-- The type `chroma.Iterator`. -/
  Iterator : Type
  /-- The state of an `ansi.Parser`. -/
  ParserState : Type
  /-- The call `g.languageDetector.GetLexer(language, code)`; `none` is a nil lexer. -/
  GetLexer : String → String → Option Lexer
  /-- The call `chroma.Coalesce(lexer).Tokenise(nil, input)`. -/
  Tokenise : Lexer → String → Except String Iterator
  /-- The call `chroma.Literator(chroma.Token{Type: chroma.Text, Value: s})`. -/
  Literator : String → Iterator
  /-- The call `ansi.Strip(s)`. -/
  Strip : String → String
  /-- The call `cellbuf.Wrap(s, limit, "")`. -/
  Wrap : String → Int → String
  /-- Style lookup (from `config.Theme` and `config.Background`), font options (from
  `config.Font`), `f.Format`, `doc.ReadFrom` and `doc.ChildElements()[0]`, with the
  error of the first step that fails. -/
  Format : String → String → Font F → Iterator → Except String (Skeleton F)
  /-- The string `style.Get(chroma.LineNumbers).Colour.String()` of the style looked up
  from `config.Theme` and `config.Background`. -/
  LineNumbersColour : String → String → String
  /-- The call `lipgloss.Width(s)`. -/
  Width : String → Int
  /-- The call `runewidth.RuneWidth(r)`. -/
  RuneWidth : Char → Nat
  /-- The parser made by `ansi.NewParser()`. -/
  NewParser : ParserState
  /-- The handler calls `parser.Parse([]byte(line))` makes, and the parser afterwards. -/
  Parse : ParserState → String → ParserState × List Event

/-- The loop of processANSI over the lines of the input. -/
def processLines (X : Collaborators F) : List String → X.ParserState → dispatcher F → Option (dispatcher F)
  | [], _, d => some d
  | line :: rest, parser, d =>
    match d.run X.RuneWidth (X.Parse parser line).2 with
    | none => none
    | some d1 =>
      match d1.Execute X.RuneWidth 10 with
      | none => none
      | some d2 => processLines X rest (X.Parse parser line).1 d2

/-- processANSI processes ANSI escape sequences in the input text. -/
def processANSI (X : Collaborators F) (input : String) (lines : List (TextElement F))
    (config : Config F) (scale : F) : Option (dispatcher F) :=
  processLines X (Split input) X.NewParser (newDispatcher lines config scale)

/-- The method `SetText("")` on a text line: its leading character data is removed. -/
def TextElement.clearText (t : TextElement F) : TextElement F :=
  { t with Child := t.Child.dropWhile (fun c => match c with
      | Token.CharData _ => true
      | Token.Elem _ => false) }

/-- The method `CreateAttr` on a text line. -/
def TextElement.CreateAttr (t : TextElement F) (key : String) (value : AttrValue F) : TextElement F :=
  match setAttr key value t.Attr with
  | some as => { t with Attr := as }
  | none => { t with Attr := t.Attr ++ [{ Key := key, Value := value }] }

/-- The method `SelectAttr` on a text line. -/
def TextElement.SelectAttr (t : TextElement F) (key : String) : Option (AttrValue F) :=
  (t.Attr.find? (fun a => a.Key = key)).map (fun a => a.Value)

/-- The call `svg.Move(line, x, y)`. -/
def Move (t : TextElement F) (x y : F) : TextElement F :=
  (t.CreateAttr "x" (AttrValue.px x)).CreateAttr "y" (AttrValue.px y)

/-- The string `fmt.Sprintf("%3d  ", n)`. -/
def lineNumberText (n : Int) : String :=
  String.mk (List.replicate (3 - (toString n).length) ' ') ++ toString n ++ "  "

/-- The call `strings.ReplaceAll(s, "\t", strings.Repeat(" ", tabWidth))`. -/
def expandTabs (tabWidth : Nat) (s : String) : String :=
  String.join (s.data.map (fun c =>
    if c = '\t' then String.mk (List.replicate tabWidth ' ') else String.singleton c))

/-- The side `i` of an expanded padding or margin. -/
def side (v : List F) (i : Nat) : F :=
  v.getD i 0

/-- What the generator has written into the document when it serialises it. -/
structure Document (F : Type) where
  /-- The size given to `svg.SetDimensions(image, _, _)`. -/
  imageWidth : F
  imageHeight : F
  /-- The size given to `svg.SetDimensions(terminal, _, _)`. -/
  terminalWidth : F
  terminalHeight : F
  /-- The position given to `svg.Move(terminal, _, _)`. -/
  terminalX : F
  terminalY : F
  /-- The position of the window controls, when they are added. -/
  windowControls : Option (F × F)
  /-- The radius given to `svg.AddCornerRadius`, when it is called. -/
  cornerRadius : Option F
  /-- The offsets and blur given to `svg.AddShadow`, when it is called. -/
  shadow : Option (F × F × F)
  /-- The width and colour given to `svg.AddOutline`, when it is called. -/
  outline : Option (F × String)
  /-- The rectangle given to `svg.AddClipPath`, when it is called. -/
  clipPath : Option (F × F × F × F)
  /-- The rectangles the dispatcher put in front of the text group. -/
  backgrounds : List (Element F)
  /-- The `text` elements left in the text group, in order. -/
  text : List (TextElement F)

/-- The body of the loop `for i, line := range text`: the line as it is left,
and whether it stays in the text group. -/
def placeLine (X : Collaborators F) (config : Config F) (isAnsi : Bool) (scale : F)
    (expandedPadding expandedMargin : List F) (imageHeight : F) (i : Nat)
    (line : TextElement F) : TextElement F × Bool :=
  let offsetLine : Int := if config.Lines.length > 0 then config.Lines.getD 0 0 else 0
  let lineHeight := config.LineHeight * scale
  let line1 := if isAnsi then line.clearText else line
  let line2 :=
    if config.ShowLineNumbers then
      line1.InsertChildAt0
        ((((NewElement "tspan").CreateAttr "xml:space" (AttrValue.str "preserve")).CreateAttr "fill"
          (AttrValue.str (X.LineNumbersColour config.Theme config.Background))).SetText
          (lineNumberText (wrapInt64 ((i : Int) + 1 + offsetLine))))
    else line1
  let x := side expandedPadding left + side expandedMargin left
  let y := (((i + 1 : Nat) : F)) * (config.Font.Size * lineHeight)
    + side expandedPadding top + side expandedMargin top
  (Move line2 x y, !(decide (y > imageHeight - side expandedMargin bottom - side expandedPadding bottom)))

/-- The loop `for i, line := range text`, from index `i` on. -/
def placeLines (X : Collaborators F) (config : Config F) (isAnsi : Bool) (scale : F)
    (expandedPadding expandedMargin : List F) (imageHeight : F) :
    Nat → List (TextElement F) → List (TextElement F × Bool)
  | _, [] => []
  | i, line :: rest =>
    placeLine X config isAnsi scale expandedPadding expandedMargin imageHeight i line ::
      placeLines X config isAnsi scale expandedPadding expandedMargin imageHeight (i + 1) rest

/-- The lines that were not removed from the text group. -/
def keptLines (lines : List (TextElement F)) (kept : List Bool) : List (TextElement F) :=
  ((lines.zip kept).filter (fun lk => lk.2)).map (fun lk => lk.1)

/-- The text layer: the block `if textGroup != nil` of generateSVGFromIterator.
The result is the rectangles put in front of the group and the text lines left in it. -/
def textLayer (X : Collaborators F) (config : Config F) (isAnsi : Bool) (scale : F)
    (expandedPadding expandedMargin : List F) (imageHeight : F) (processedInput : String)
    (textGroup : Option (List (TextElement F))) : Option (List (Element F) × List (TextElement F)) :=
  match textGroup with
  | none => some ([], [])
  | some text =>
    let placed := placeLines X config isAnsi scale expandedPadding expandedMargin imageHeight 0 text
    if isAnsi then
      match processANSI X processedInput (placed.map (fun lk => lk.1)) config scale with
      | none => none
      | some d => some (d.rects, keptLines d.lines (placed.map (fun lk => lk.2)))
    else some ([], keptLines (placed.map (fun lk => lk.1)) (placed.map (fun lk => lk.2)))

/-- generateSVGFromIterator generates SVG from a token iterator. -/
def generateSVGFromIterator (X : Collaborators F) (config : Config F) (input : String)
    (it : X.Iterator) (isAnsi : Bool) : Outcome (Document F) :=
  let scale : F := (1.0 : F)
  let autoHeight := config.Height == 0
  let autoWidth := config.Width == 0
  let expandedMargin := config.expandMargin scale
  let expandedPadding := config.expandPadding scale
  match (if config.Lines.length = 2 then cutLines input config.Lines else some input) with
  | none => Outcome.panic
  | some cut =>
  let processedInput := if config.Wrap > 0 then X.Wrap cut config.Wrap else cut
  match X.Format config.Theme config.Background config.Font it with
  | Except.error e => Outcome.error e
  | Except.ok image =>
  let imageWidth0 := ((image.w : Int) : F) * scale
  let imageHeight0 := ((image.h : Int) : F) * scale
    * (config.Font.Size / defaultFontSize) * (config.LineHeight / defaultLineHeight)
  let hPadding := side expandedPadding left + side expandedPadding right
  let hMargin := side expandedMargin left + side expandedMargin right
  let vMargin := side expandedMargin top + side expandedMargin bottom
  let vPadding := side expandedPadding top + side expandedPadding bottom
  let imageWidth1 := if !autoWidth then config.Width else imageWidth0 + (hMargin + hPadding)
  let terminalWidth1 := if !autoWidth then config.Width - hMargin else imageWidth0 + hPadding
  let imageHeight := if !autoHeight then config.Height else imageHeight0 + (vMargin + vPadding)
  let terminalHeight1 := if !autoHeight then config.Height - vMargin else imageHeight0 + vPadding
  if !image.terminal then Outcome.error "could not find terminal background element"
  else
  let windowControls :=
    if config.Window then some (side expandedMargin left, side expandedMargin top) else none
  let expandedPadding1 :=
    if config.Window then
      expandedPadding.set top (side expandedPadding top + ((15 : Nat) : F) * scale)
    else expandedPadding
  let cornerRadius := if config.Border.Radius > 0 then some (config.Border.Radius * scale) else none
  let shadow :=
    if config.Shadow.Blur > 0 ∨ config.Shadow.X > 0 ∨ config.Shadow.Y > 0 then
      some (config.Shadow.X * scale, config.Shadow.Y * scale, config.Shadow.Blur * scale)
    else none
  match textLayer X config isAnsi scale expandedPadding1 expandedMargin imageHeight
      processedInput image.textGroup with
  | none => Outcome.panic
  | some (backgrounds, text) =>
  let tabWidth : Nat := if isAnsi then 6 else 4
  let longestLine := X.Width (expandTabs tabWidth (X.Strip processedInput))
  let terminalWidth2 :=
    if autoWidth then
      ((longestLine + 1 : Int) : F) * (config.Font.Size / fontHeightToWidthRatio) * scale + hPadding
    else terminalWidth1
  let imageWidth2 := if autoWidth then terminalWidth2 + hMargin else imageWidth1
  let outline :=
    if config.Border.Width > 0 then some (config.Border.Width, config.Border.Color) else none
  let terminalHeight :=
    if config.Border.Width > 0 then terminalHeight1 - config.Border.Width * ((2 : Nat) : F)
    else terminalHeight1
  let terminalWidth3 :=
    if config.Border.Width > 0 then terminalWidth2 - config.Border.Width * ((2 : Nat) : F)
    else terminalWidth2
  let terminalWidth :=
    if config.ShowLineNumbers then
      if autoWidth then terminalWidth3 + config.Font.Size * ((3 : Nat) : F) * scale
      else terminalWidth3 - config.Font.Size * ((3 : Nat) : F)
    else terminalWidth3
  let imageWidth :=
    if config.ShowLineNumbers && autoWidth then imageWidth2 + config.Font.Size * ((3 : Nat) : F) * scale
    else imageWidth2
  let clipPath :=
    if !autoHeight || !autoWidth then
      some (side expandedMargin left, side expandedMargin top,
        terminalWidth, terminalHeight - side expandedPadding1 bottom)
    else none
  Outcome.ok
    { imageWidth := imageWidth
      imageHeight := imageHeight
      terminalWidth := terminalWidth
      terminalHeight := terminalHeight
      terminalX := Freezelib.max (side expandedMargin left) (config.Border.Width / ((2 : Nat) : F))
      terminalY := Freezelib.max (side expandedMargin top) (config.Border.Width / ((2 : Nat) : F))
      windowControls := windowControls
      cornerRadius := cornerRadius
      shadow := shadow
      outline := outline
      clipPath := clipPath
      backgrounds := backgrounds
      text := text }

/-- generateSVG is the core SVG generation function. -/
def generateSVG (X : Collaborators F) (config : Config F) (input : String) (lexer : X.Lexer)
    (isAnsi : Bool) : Outcome (Document F) :=
  if isAnsi then
    generateSVGFromIterator X config input (X.Literator (X.Strip input)) isAnsi
  else
    match X.Tokenise lexer input with
    | Except.error e => Outcome.error ("could not tokenize input: " ++ e)
    | Except.ok it => generateSVGFromIterator X config input it isAnsi

/-- GenerateFromCode generates an SVG from source code.  The generator holds a
pointer to its configuration, so the configuration after the call is returned too. -/
def GenerateFromCode (X : Collaborators F) (config : Config F) (code language : String) :
    Config F × Outcome (Document F) :=
  match config.Validate with
  | some err => (config, Outcome.error ("invalid config: " ++ err))
  | none =>
    let config1 := if language ≠ "" then { config with Language := language } else config
    match X.GetLexer config1.Language code with
    | none => (config1, Outcome.error "could not determine language for syntax highlighting")
    | some lexer => (config1, generateSVG X config1 code lexer false)

/-- GenerateFromANSI generates an SVG from ANSI terminal output. -/
def GenerateFromANSI (X : Collaborators F) (config : Config F) (ansiOutput : String) :
    Config F × Outcome (Document F) :=
  match config.Validate with
  | some err => (config, Outcome.error ("invalid config: " ++ err))
  | none =>
    (config, generateSVGFromIterator X config ansiOutput (X.Literator (X.Strip ansiOutput)) true)

/-- The text a line shows: its character data and the text of its elements, in order. -/
def TextElement.content (t : TextElement F) : String :=
  String.join (t.Child.map (fun c => match c with
    | Token.CharData s => s
    | Token.Elem e => e.Text))

/-- The text lines of a rendered document, as the strings they show. -/
def Outcome.lines : Outcome (Document F) → Option (List String)
  | Outcome.ok doc => some (doc.text.map TextElement.content)
  | Outcome.error _ => none
  | Outcome.panic => none

/-- A stand-in for the libraries, for running the generator on plain text (no escape
sequence, no wrapping).  The formatter writes one text line per line of the
tokenised text, each holding that line as character data, and declares the
size chroma's SVG formatter declares: `8 * maxLineWidth` by
`10 + int(16.8 * (lines + 1))`. -/
def plainText : Collaborators F where
  Lexer := Unit
  Iterator := String
  ParserState := Unit
  GetLexer := fun _ _ => some ()
  Tokenise := fun _ input => Except.ok input
  Literator := fun s => s
  Strip := fun s => s
  Wrap := fun s _ => s
  Format := fun _ _ _ it =>
    Except.ok
      { w := 8 * (((Split it).map String.length).foldl Nat.max 0 : Nat)
        h := 10 + (168 * (((Split it).length : Int) + 1)) / 10
        terminal := true
        textGroup := some ((Split it).map (fun l => { Attr := [], Child := [Token.CharData l] })) }
  LineNumbersColour := fun _ _ => "#7f7f7f"
  Width := fun s => ((((Split s).map String.length).foldl Nat.max 0 : Nat) : Int)
  RuneWidth := fun r => if 0x1100 ≤ r.toNat then 2 else 1
  NewParser := ()
  Parse := fun _ line => ((), line.data.map Event.Print)

/-- The style attributes of a run: its `fill`, `font-style` and `text-decoration`. -/
def styleOf (e : Element F) : Option (AttrValue F) × Option (AttrValue F) × Option (AttrValue F) :=
  (e.SelectAttr "fill", e.SelectAttr "font-style", e.SelectAttr "text-decoration")

/-- The style attributes that apply to a rune printed in state `p`: those of the run that
holds the rune after `Print`, the last element child of the line printed on. -/
def styleOfPrinted (RuneWidth : Char → Nat) (p : dispatcher F) (r : Char) :
    Option (Option (AttrValue F) × Option (AttrValue F) × Option (AttrValue F)) :=
  match p.Print RuneWidth r with
  | none => none
  | some p1 =>
    match index p1.lines p1.row with
    | none => none
    | some line => line.ChildElements.getLast?.map styleOf

/-! ## Configurations and slices in memory

`Config` values are handled through pointers and hold slices, so whether one
call can change what another configuration shows depends on which structs and
backing arrays are shared.  The memory lists the `Config` structs and the
backing arrays of `[]float64` and `[]int` by address; allocation appends.  A
slice is the address of its backing array and spans it: every slice the
program makes itself (a composite literal, `make`) is of that kind.
-/

/-- The struct `Config` as it lies in memory: a slice field holds the address of its
backing array. -/
structure ConfigCell (F : Type) where
  Background : String
  Margin : Nat
  Padding : Nat
  Window : Bool
  Width : F
  Height : F
  Language : String
  Theme : String
  Wrap : Int
  Border : Border F
  Shadow : Shadow F
  Font : Font F
  LineHeight : F
  Lines : Nat
  ShowLineNumbers : Bool
deriving DecidableEq

/-- The memory: backing arrays of `[]float64` and of `[]int`, and `Config` structs. -/
structure Memory (F : Type) where
  floats : List (List F)
  ints : List (List Int)
  configs : List (ConfigCell F)
deriving DecidableEq

/-- Allocation of a `[]float64` backing array: the memory after it and the new address. -/
def Memory.allocFloats (m : Memory F) (xs : List F) : Memory F × Nat :=
  ({ m with floats := m.floats ++ [xs] }, m.floats.length)

/-- Allocation of a `[]int` backing array. -/
def Memory.allocInts (m : Memory F) (xs : List Int) : Memory F × Nat :=
  ({ m with ints := m.ints ++ [xs] }, m.ints.length)

/-- Allocation of a `Config` struct. -/
def Memory.allocConfig (m : Memory F) (cell : ConfigCell F) : Memory F × Nat :=
  ({ m with configs := m.configs ++ [cell] }, m.configs.length)

/-- The configuration a pointer shows: the struct with every slice read element by
element.  The result `none` is a pointer or slice that points at nothing. -/
def Memory.load (m : Memory F) (c : Nat) : Option (Config F) :=
  match m.configs.get? c with
  | none => none
  | some cell =>
    match m.floats.get? cell.Margin, m.floats.get? cell.Padding, m.ints.get? cell.Lines with
    | some margin, some padding, some lines =>
      some
        { Background := cell.Background
          Margin := margin
          Padding := padding
          Window := cell.Window
          Width := cell.Width
          Height := cell.Height
          Language := cell.Language
          Theme := cell.Theme
          Wrap := cell.Wrap
          Border := cell.Border
          Shadow := cell.Shadow
          Font := cell.Font
          LineHeight := cell.LineHeight
          Lines := lines
          ShowLineNumbers := cell.ShowLineNumbers }
    | _, _, _ => none

/-- One later change to the memory: an element of a `[]float64`, an element of an `[]int`,
or the fields of a `Config` struct. -/
inductive Write (F : Type) where
  | float (a i : Nat) (v : F)
  | int (a i : Nat) (v : Int)
  | config (c : Nat) (cell : ConfigCell F)

/-- The memory after one change. -/
def Memory.write (m : Memory F) : Write F → Memory F
  | Write.float a i v => { m with floats := m.floats.set a ((m.floats.getD a []).set i v) }
  | Write.int a i v => { m with ints := m.ints.set a ((m.ints.getD a []).set i v) }
  | Write.config c cell => { m with configs := m.configs.set c cell }

/-- The memory after a sequence of changes. -/
def Memory.writes (m : Memory F) : List (Write F) → Memory F
  | [] => m
  | w :: ws => (m.write w).writes ws

/-- A change to the configuration struct at `c` or to an element of one of the backing
arrays `margin`, `padding`, `lines`. -/
def Write.within (c margin padding lines : Nat) : Write F → Prop
  | Write.float a _ _ => a = margin ∨ a = padding
  | Write.int a _ _ => a = lines
  | Write.config c1 _ => c1 = c

/-- The built-in `copy(dst, src)`: the first `min(len(dst), len(src))` elements of `dst`
are those of `src`. -/
def goCopy {α : Type} (dst src : List α) : List α :=
  src.take dst.length ++ dst.drop src.length

/-- Clone creates a deep copy of the configuration: the memory after the call and the
pointer returned; `none` is the nil-pointer panic. -/
def Clone (m : Memory F) (c : Nat) : Option (Memory F × Nat) :=
  match m.configs.get? c with
  | none => none
  | some cell =>
    match m.floats.get? cell.Margin, m.floats.get? cell.Padding, m.ints.get? cell.Lines with
    | some margin, some padding, some lines =>
      let m1 := m.allocFloats (goCopy (List.replicate margin.length 0) margin)
      let m2 := m1.1.allocFloats (goCopy (List.replicate padding.length 0) padding)
      let m3 := m2.1.allocInts (goCopy (List.replicate lines.length 0) lines)
      some (m3.1.allocConfig { cell with Margin := m1.2, Padding := m2.2, Lines := m3.2 })
    | _, _, _ => none

/-- Every struct and backing array of `m` is in `m1` at the same address with the same
content. -/
def Memory.keeps (m m1 : Memory F) : Prop :=
  (∀ a x, m.floats.get? a = some x → m1.floats.get? a = some x) ∧
  (∀ a x, m.ints.get? a = some x → m1.ints.get? a = some x) ∧
  (∀ a x, m.configs.get? a = some x → m1.configs.get? a = some x)

/-- The configuration a struct shows: its slices read element by element. -/
def Memory.read (m : Memory F) (cell : ConfigCell F) : Option (Config F) :=
  match m.floats.get? cell.Margin, m.floats.get? cell.Padding, m.ints.get? cell.Lines with
  | some margin, some padding, some lines =>
    some
      { Background := cell.Background
        Margin := margin
        Padding := padding
        Window := cell.Window
        Width := cell.Width
        Height := cell.Height
        Language := cell.Language
        Theme := cell.Theme
        Wrap := cell.Wrap
        Border := cell.Border
        Shadow := cell.Shadow
        Font := cell.Font
        LineHeight := cell.LineHeight
        Lines := lines
        ShowLineNumbers := cell.ShowLineNumbers }
  | _, _, _ => none

/-- A method called through the pointer `c` that assigns fields of the struct; `none` is
the nil-pointer panic. -/
def Memory.update (m : Memory F) (c : Nat) (set : ConfigCell F → ConfigCell F) :
    Option (Memory F) :=
  match m.configs.get? c with
  | none => none
  | some cell => some { m with configs := m.configs.set c (set cell) }

/-- The function DefaultConfig of config.go, which returns a pointer: the memory after the
allocation of the three slices and of the struct, and the pointer. -/
def DefaultConfigMem (m : Memory F) : Memory F × Nat :=
  let m1 := m.allocFloats [0]
  let m2 := m1.1.allocFloats [((20 : Nat) : F)]
  let m3 := m2.1.allocInts []
  m3.1.allocConfig
    { Background := "#171717"
      Margin := m1.2
      Padding := m2.2
      Window := false
      Width := 0
      Height := 0
      Language := ""
      Theme := "charm"
      Wrap := 0
      Border := { Radius := 0, Width := 0, Color := "#515151" }
      Shadow := { Blur := 0, X := 0, Y := 0 }
      Font := { Family := "JetBrains Mono", File := "", Size := ((14 : Nat) : F), Ligatures := true }
      LineHeight := (1.2 : F)
      Lines := m3.2
      ShowLineNumbers := false }

/-- SetPadding sets padding for all sides or specific sides: the field takes the slice
`values` itself. -/
def ConfigCell.SetPadding (c : ConfigCell F) (values : Nat) : ConfigCell F :=
  { c with Padding := values }

/-- SetMargin sets margin for all sides or specific sides. -/
def ConfigCell.SetMargin (c : ConfigCell F) (values : Nat) : ConfigCell F :=
  { c with Margin := values }

/-- SetFont sets font family and size. -/
def ConfigCell.SetFont (c : ConfigCell F) (family : String) (size : F) : ConfigCell F :=
  { c with Font := { c.Font with Family := family, Size := size } }

/-- SetTheme sets the syntax highlighting theme. -/
def ConfigCell.SetTheme (c : ConfigCell F) (theme : String) : ConfigCell F :=
  { c with Theme := theme }

/-- SetBackground sets the background color. -/
def ConfigCell.SetBackground (c : ConfigCell F) (color : String) : ConfigCell F :=
  { c with Background := color }

/-- SetWindow enables or disables window controls. -/
def ConfigCell.SetWindow (c : ConfigCell F) (enabled : Bool) : ConfigCell F :=
  { c with Window := enabled }

/-- SetLineNumbers enables or disables line numbers. -/
def ConfigCell.SetLineNumbers (c : ConfigCell F) (enabled : Bool) : ConfigCell F :=
  { c with ShowLineNumbers := enabled }

/-- SetShadow sets shadow properties. -/
def ConfigCell.SetShadow (c : ConfigCell F) (blur x y : F) : ConfigCell F :=
  { c with Shadow := { Blur := blur, X := x, Y := y } }

/-- SetBorder sets border properties. -/
def ConfigCell.SetBorder (c : ConfigCell F) (width radius : F) (color : String) : ConfigCell F :=
  { c with Border := { Width := width, Radius := radius, Color := color } }

/-- SetDimensions sets the output dimensions. -/
def ConfigCell.SetDimensions (c : ConfigCell F) (width height : F) : ConfigCell F :=
  { c with Width := width, Height := height }

/-! ## `language_detector.go` and `freeze.go` -/

/-- LanguageDetector provides enhanced language detection capabilities.  The map
`CustomMappings` is its entries; `none` is the nil map. -/
structure LanguageDetector where
  EnableContentAnalysis : Bool
  EnableFilenameAnalysis : Bool
  FallbackLanguage : String
  CustomMappings : Option (List (String × String))
deriving DecidableEq

/-- NewLanguageDetector creates a new language detector with default settings. -/
def NewLanguageDetector : LanguageDetector :=
  { EnableContentAnalysis := true
    EnableFilenameAnalysis := true
    FallbackLanguage := "text"
    CustomMappings := some [] }

/-- Generator handles the core screenshot generation logic. -/
structure Generator where
  config : Nat
  languageDetector : LanguageDetector
deriving DecidableEq

/-- Freeze is the main interface for generating code screenshots. -/
structure Freeze where
  generator : Generator
  config : Nat
deriving DecidableEq

/-- NewGenerator creates a new generator with the given configuration; `none` is nil. -/
def NewGenerator (m : Memory F) (config : Option Nat) : Memory F × Generator :=
  match config with
  | none =>
    ((DefaultConfigMem m).1,
      { config := (DefaultConfigMem m).2, languageDetector := NewLanguageDetector })
  | some c => (m, { config := c, languageDetector := NewLanguageDetector })

/-- NewWithConfig creates a new Freeze instance with the provided configuration. -/
def NewWithConfig (m : Memory F) (config : Option Nat) : Memory F × Freeze :=
  match config with
  | none =>
    ((NewGenerator (DefaultConfigMem m).1 (some (DefaultConfigMem m).2)).1,
      { generator := (NewGenerator (DefaultConfigMem m).1 (some (DefaultConfigMem m).2)).2
        config := (DefaultConfigMem m).2 })
  | some c => ((NewGenerator m (some c)).1, { generator := (NewGenerator m (some c)).2, config := c })

/-- Clone creates a copy of the Freeze instance with the same configuration. -/
def Freeze.Clone (f : Freeze) (m : Memory F) : Option (Memory F × Freeze) :=
  match Freezelib.Clone m f.config with
  | none => none
  | some r => some (NewWithConfig r.1 (some r.2))

/-- The body shared, statement for statement, by the ten With methods of Freeze:
`clone := f.Clone()`, one setter called on `clone.config`,
`clone.generator = NewGenerator(clone.config)`, `return clone`. -/
def Freeze.withSetter (f : Freeze) (m : Memory F) (set : ConfigCell F → ConfigCell F) :
    Option (Memory F × Freeze) :=
  match f.Clone m with
  | none => none
  | some r =>
    match r.1.update r.2.config set with
    | none => none
    | some m2 =>
      some ((NewGenerator m2 (some r.2.config)).1,
        { r.2 with generator := (NewGenerator m2 (some r.2.config)).2 })

/-- WithTheme creates a new Freeze instance with the specified theme. -/
def Freeze.WithTheme (f : Freeze) (m : Memory F) (theme : String) : Option (Memory F × Freeze) :=
  f.withSetter m (fun c => c.SetTheme theme)

/-- WithFont creates a new Freeze instance with the specified font. -/
def Freeze.WithFont (f : Freeze) (m : Memory F) (family : String) (size : F) :
    Option (Memory F × Freeze) :=
  f.withSetter m (fun c => c.SetFont family size)

/-- WithBackground creates a new Freeze instance with the specified background color. -/
def Freeze.WithBackground (f : Freeze) (m : Memory F) (color : String) :
    Option (Memory F × Freeze) :=
  f.withSetter m (fun c => c.SetBackground color)

/-- WithWindow creates a new Freeze instance with window controls enabled/disabled. -/
def Freeze.WithWindow (f : Freeze) (m : Memory F) (enabled : Bool) : Option (Memory F × Freeze) :=
  f.withSetter m (fun c => c.SetWindow enabled)

/-- WithLineNumbers creates a new Freeze instance with line numbers enabled/disabled. -/
def Freeze.WithLineNumbers (f : Freeze) (m : Memory F) (enabled : Bool) :
    Option (Memory F × Freeze) :=
  f.withSetter m (fun c => c.SetLineNumbers enabled)

/-- WithShadow creates a new Freeze instance with shadow settings. -/
def Freeze.WithShadow (f : Freeze) (m : Memory F) (blur x y : F) : Option (Memory F × Freeze) :=
  f.withSetter m (fun c => c.SetShadow blur x y)

/-- WithBorder creates a new Freeze instance with border settings. -/
def Freeze.WithBorder (f : Freeze) (m : Memory F) (width radius : F) (color : String) :
    Option (Memory F × Freeze) :=
  f.withSetter m (fun c => c.SetBorder width radius color)

/-- WithPadding creates a new Freeze instance with padding settings; `values` is the slice
of the arguments. -/
def Freeze.WithPadding (f : Freeze) (m : Memory F) (values : Nat) : Option (Memory F × Freeze) :=
  f.withSetter m (fun c => c.SetPadding values)

/-- WithMargin creates a new Freeze instance with margin settings. -/
def Freeze.WithMargin (f : Freeze) (m : Memory F) (values : Nat) : Option (Memory F × Freeze) :=
  f.withSetter m (fun c => c.SetMargin values)

/-- WithDimensions creates a new Freeze instance with specific dimensions. -/
def Freeze.WithDimensions (f : Freeze) (m : Memory F) (width height : F) :
    Option (Memory F × Freeze) :=
  f.withSetter m (fun c => c.SetDimensions width height)

/-- The result `r` of a method on the Freeze instance `f`, whose pointer showed `cfg`, is a
new instance: its pointer is another one and shows `cfg1`, its generator holds
the same pointer, and the pointer of `f` still shows `cfg`. -/
def IsNewInstance (f : Freeze) (cfg : Config F) (r : Option (Memory F × Freeze))
    (cfg1 : Config F) : Prop :=
  ∃ m2 f1, r = some (m2, f1) ∧ m2.load f1.config = some cfg1 ∧ m2.load f.config = some cfg ∧
    f1.config ≠ f.config ∧ f1.generator.config = f1.config

/-- A memory that holds nothing. -/
def emptyMemory : Memory F :=
  { floats := [], ints := [], configs := [] }

/-- New creates a new Freeze instance with default configuration. -/
def New (m : Memory F) : Memory F × Freeze :=
  ((NewGenerator (DefaultConfigMem m).1 (some (DefaultConfigMem m).2)).1,
    { generator := (NewGenerator (DefaultConfigMem m).1 (some (DefaultConfigMem m).2)).2
      config := (DefaultConfigMem m).2 })

/-- generateSVGFromIterator as it acts on the memory.  `config := g.config` is a pointer;
`expandMargin` and `expandPadding` each return a slice literal, which is a new
backing array; the statement `expandedPadding[top] += 15 * scale`, reached
when the formatter has returned a document with its rectangle and `Window` is
set, writes element `top` of the array `expandPadding` returned.  The document
is the one computed from the configuration the pointer shows.  The result
`none` is the nil-pointer panic. -/
def generateSVGFromIteratorMem (X : Collaborators F) (m : Memory F) (config : Nat)
    (input : String) (it : X.Iterator) (isAnsi : Bool) :
    Option (Memory F × Outcome (Document F)) :=
  match m.load config with
  | none => none
  | some cfg =>
    let scale : F := (1.0 : F)
    let expandedMargin := m.allocFloats (cfg.expandMargin scale)
    let expandedPadding := expandedMargin.1.allocFloats (cfg.expandPadding scale)
    let reached : Bool :=
      match X.Format cfg.Theme cfg.Background cfg.Font it with
      | Except.ok image => image.terminal
      | Except.error _ => false
    let m1 :=
      if reached && cfg.Window then
        expandedPadding.1.write (Write.float expandedPadding.2 top
          (side (cfg.expandPadding scale) top + ((15 : Nat) : F) * scale))
      else expandedPadding.1
    some (m1, generateSVGFromIterator X cfg input it isAnsi)

/-- An example memory: the default configuration with window chrome and a four-value
padding, held at address 0; the margin is array 0 and the padding array 1. -/
def windowMemory : Memory ℚ :=
  { floats := [[0], [20, 10, 20, 10]]
    ints := [[]]
    configs := [
      { Background := "#171717"
        Margin := 0
        Padding := 1
        Window := true
        Width := 0
        Height := 0
        Language := ""
        Theme := "charm"
        Wrap := 0
        Border := { Radius := 0, Width := 0, Color := "#515151" }
        Shadow := { Blur := 0, X := 0, Y := 0 }
        Font := { Family := "JetBrains Mono", File := "", Size := 14, Ligatures := true }
        LineHeight := 1.2
        Lines := 0
        ShowLineNumbers := false }] }

/-- The configuration that `windowMemory` holds at address 0. -/
def windowConfig : Config ℚ :=
  { (DefaultConfig : Config ℚ) with Window := true, Padding := [20, 10, 20, 10] }

/-- The default configuration with the canvas height 73.6, in binary64. -/
def heightConfig : Config Binary64 :=
  { (DefaultConfig : Config Binary64) with Height := (73.6 : Binary64) }

/-! ### Language detection -/

/-- The `chroma.Config` of a lexer, as far as the detector reads it. -/
structure LexerConfig where
  Name : String
  Aliases : List String
deriving DecidableEq

/-- The packages the detector calls: `strings.ToLower`, `filepath.Ext`, and `lexers.Match`
and `lexers.Analyse`, whose result is `none` for a nil lexer and `some none` for
a lexer whose `Config()` is nil. -/
structure Packages where
  ToLower : String → String
  Ext : String → String
  Match : String → Option (Option LexerConfig)
  Analyse : String → Option (Option LexerConfig)

/-- The read `lang, exists := m[k]` of a map; a nil map has no entry. -/
def mapIndex (m : Option (List (String × String))) (k : String) : Option String :=
  match m with
  | none => none
  | some kvs => kvs.lookup k

/-- The builtin `delete(m, k)` on the entries of a map. -/
def mapDelete (kvs : List (String × String)) (k : String) : List (String × String) :=
  kvs.filter (fun kv => kv.1 != k)

/-- The assignment `m[k] = v` on the entries of a map: the key has one entry afterwards. -/
def mapAssign (kvs : List (String × String)) (k v : String) : List (String × String) :=
  (k, v) :: mapDelete kvs k

/-- The table `commonMappings` of `detectFromExtension`. -/
def commonMappings : List (String × String) :=
  [(".go", "go"), (".py", "python"), (".js", "javascript"), (".ts", "typescript"),
   (".jsx", "jsx"), (".tsx", "tsx"), (".java", "java"), (".c", "c"), (".cpp", "cpp"),
   (".cc", "cpp"), (".cxx", "cpp"), (".h", "c"), (".hpp", "cpp"), (".cs", "csharp"),
   (".php", "php"), (".rb", "ruby"), (".rs", "rust"), (".swift", "swift"),
   (".kt", "kotlin"), (".scala", "scala"), (".clj", "clojure"), (".hs", "haskell"),
   (".ml", "ocaml"), (".fs", "fsharp"), (".vb", "vbnet"), (".pl", "perl"), (".r", "r"),
   (".m", "matlab"), (".lua", "lua"), (".sh", "bash"), (".bash", "bash"), (".zsh", "zsh"),
   (".fish", "fish"), (".ps1", "powershell"), (".bat", "batch"), (".cmd", "batch"),
   (".html", "html"), (".htm", "html"), (".xml", "xml"), (".css", "css"),
   (".scss", "scss"), (".sass", "sass"), (".less", "less"), (".json", "json"),
   (".yaml", "yaml"), (".yml", "yaml"), (".toml", "toml"), (".ini", "ini"),
   (".cfg", "ini"), (".conf", "ini"), (".sql", "sql"), (".md", "markdown"),
   (".markdown", "markdown"), (".tex", "latex"), (".dockerfile", "dockerfile"),
   (".makefile", "makefile"), (".mk", "makefile"), (".vim", "vim"), (".proto", "protobuf"),
   (".graphql", "graphql"), (".gql", "graphql"), (".dart", "dart"), (".elm", "elm"),
   (".ex", "elixir"), (".exs", "elixir"), (".erl", "erlang"), (".hrl", "erlang"),
   (".jl", "julia"), (".nim", "nim"), (".zig", "zig"), (".v", "v"), (".d", "d"),
   (".pas", "pascal"), (".pp", "pascal"), (".ada", "ada"), (".adb", "ada"),
   (".ads", "ada"), (".f", "fortran"), (".f90", "fortran"), (".f95", "fortran"),
   (".f03", "fortran"), (".f08", "fortran"), (".cob", "cobol"), (".cbl", "cobol"),
   (".asm", "nasm"), (".s", "gas")]

/-- The function detectFromExtension provides fallback extension-based detection. -/
def LanguageDetector.detectFromExtension (ld : LanguageDetector) (ext : String) : String :=
  match commonMappings.lookup ext with
  | some lang => lang
  | none => ld.FallbackLanguage

/-- DetectLanguage detects the programming language from code content. -/
def LanguageDetector.DetectLanguage (ld : LanguageDetector) (L : Packages) (code : String) :
    String :=
  if !ld.EnableContentAnalysis then ld.FallbackLanguage
  else
    match L.Analyse code with
    | some (some config) =>
      match config.Aliases with
      | alias0 :: _ => alias0
      | [] => if config.Name != "" then L.ToLower config.Name else ld.FallbackLanguage
    | some none => ld.FallbackLanguage
    | none => ld.FallbackLanguage

/-- DetectLanguageFromFilename detects the programming language from filename. -/
def LanguageDetector.DetectLanguageFromFilename (ld : LanguageDetector) (L : Packages)
    (filename : String) : String :=
  if !ld.EnableFilenameAnalysis then ld.FallbackLanguage
  else
    match mapIndex ld.CustomMappings (L.ToLower (L.Ext filename)) with
    | some lang => lang
    | none =>
      match L.Match filename with
      | some (some config) =>
        match config.Aliases with
        | alias0 :: _ => alias0
        | [] =>
          if config.Name != "" then L.ToLower config.Name
          else ld.detectFromExtension (L.ToLower (L.Ext filename))
      | some none => ld.detectFromExtension (L.ToLower (L.Ext filename))
      | none => ld.detectFromExtension (L.ToLower (L.Ext filename))

/-- DetectLanguageFromFile detects language from both filename and content. -/
def LanguageDetector.DetectLanguageFromFile (ld : LanguageDetector) (L : Packages)
    (filename content : String) : String :=
  if ld.EnableFilenameAnalysis ∧ ld.DetectLanguageFromFilename L filename ≠ ld.FallbackLanguage then
    ld.DetectLanguageFromFilename L filename
  else if ld.EnableContentAnalysis ∧ ld.DetectLanguage L content ≠ ld.FallbackLanguage then
    ld.DetectLanguage L content
  else ld.FallbackLanguage

/-- AddCustomMapping adds a custom file extension to language mapping; a nil map is made
first. -/
def LanguageDetector.AddCustomMapping (ld : LanguageDetector) (L : Packages)
    (extension language : String) : LanguageDetector :=
  { ld with
    CustomMappings :=
      some (mapAssign (match ld.CustomMappings with
        | none => []
        | some kvs => kvs) (L.ToLower extension) language) }

/-- RemoveCustomMapping removes a custom file extension mapping. -/
def LanguageDetector.RemoveCustomMapping (ld : LanguageDetector) (L : Packages)
    (extension : String) : LanguageDetector :=
  match ld.CustomMappings with
  | none => ld
  | some kvs => { ld with CustomMappings := some (mapDelete kvs (L.ToLower extension)) }

/-- The scan of `filepath.Ext` from the end of the path: the suffix that starts at the
last dot of the last element, empty when there is no dot. -/
def extFrom : List Char → List Char → List Char
  | [], _ => []
  | c :: rest, acc =>
    if c = '/' then []
    else if c = '.' then '.' :: acc
    else extFrom rest (c :: acc)

/-- A stand-in for the packages: ASCII lower case, `filepath.Ext` with `/` as the
separator, a `lexers.Match` that knows Go files by their `.go` name, and a
`lexers.Analyse` that recognises nothing. -/
def stubPackages : Packages :=
  { ToLower := fun s => String.mk (s.data.map Char.toLower)
    Ext := fun path => String.mk (extFrom path.data.reverse [])
    Match := fun filename =>
      if String.mk (extFrom filename.data.reverse []) = ".go" then
        some (some { Name := "Go", Aliases := ["go", "golang"] })
      else none
    Analyse := fun _ => none }

/-! ## `svg/svg.go`: reading the dimensions back -/

/-- The call `strings.TrimSuffix(s, suffix)`. -/
def TrimSuffix (s suffix : String) : String :=
  if suffix.data.isSuffixOf s.data then
    String.mk (s.data.take (s.data.length - suffix.data.length))
  else s

/-- The number a run of decimal digits stands for, read as the loop
`n = n*10 + int(ch - '0')` of `strconv.Atoi` reads it. -/
def digitsValue (ds : List Char) : Nat :=
  ds.foldl (fun n ch => n * 10 + (ch.toNat - '0'.toNat)) 0

/-- The call `strconv.Atoi(s)` for a 64-bit `int`: an optional sign `+` or `-` followed
by one or more decimal digits, with a value from `-2^63` to `2^63 - 1`.  The
result `none` is a non-nil error (syntax or range). -/
def Atoi (s : String) : Option Int :=
  let digits : List Char :=
    match s.data with
    | '-' :: ds => ds
    | '+' :: ds => ds
    | ds => ds
  let negative : Bool :=
    match s.data with
    | '-' :: _ => true
    | _ => false
  if digits = [] ∨ ¬ (∀ ch ∈ digits, ch.isDigit = true) then none
  else
    let v : Int := if negative then -(digitsValue digits : Int) else (digitsValue digits : Int)
    if v < -(2 : Int) ^ 63 ∨ v ≥ (2 : Int) ^ 63 then none else some v

/-- The function dimensionToInt converts dimension strings to integers. -/
def dimensionToInt (dimension : String) : Int :=
  match Atoi (TrimSuffix dimension "px") with
  | none => 0
  | some val => val

/-- The string an attribute value is written as; `Sprintf2` is `fmt.Sprintf("%.2f", v)`. -/
def AttrValue.text (Sprintf2 : F → String) : AttrValue F → String
  | AttrValue.str s => s
  | AttrValue.px v => Sprintf2 v ++ "px"

/-- The method `SelectAttrValue(key, dflt)`. -/
def Element.SelectAttrValue (Sprintf2 : F → String) (e : Element F) (key dflt : String) : String :=
  match e.SelectAttr key with
  | some v => v.text Sprintf2
  | none => dflt

/-- GetDimensions returns the width and height of the element. -/
def GetDimensions (Sprintf2 : F → String) (element : Element F) : Int × Int :=
  (dimensionToInt (element.SelectAttrValue Sprintf2 "width" "0px"),
    dimensionToInt (element.SelectAttrValue Sprintf2 "height" "0px"))

/-! ## `presets.go` -/

/-- SetPadding sets padding for all sides or specific sides (on a configuration value). -/
def Config.SetPadding (c : Config F) (values : List F) : Config F :=
  { c with Padding := values }

/-- SetMargin sets margin for all sides or specific sides (on a configuration value). -/
def Config.SetMargin (c : Config F) (values : List F) : Config F :=
  { c with Margin := values }

/-- BasePreset returns a basic configuration for simple code screenshots. -/
def BasePreset : Config F :=
  { ((({ (DefaultConfig : Config F) with Background := "#171717" }).SetPadding
      [((20 : Nat) : F)]).SetMargin [((0 : Nat) : F)]) with
    Window := false
    Border := { Radius := ((0 : Nat) : F), Width := ((0 : Nat) : F), Color := "#515151" }
    Shadow := { Blur := ((0 : Nat) : F), X := ((0 : Nat) : F), Y := ((0 : Nat) : F) }
    ShowLineNumbers := false }

/-- FullPreset returns a macOS-like configuration with window controls and shadow. -/
def FullPreset : Config F :=
  { ((({ (DefaultConfig : Config F) with Background := "#282c34" }).SetPadding
      [((20 : Nat) : F), ((40 : Nat) : F), ((20 : Nat) : F), ((20 : Nat) : F)]).SetMargin
      [((20 : Nat) : F)]) with
    Window := true
    Border := { Radius := ((8 : Nat) : F), Width := ((0 : Nat) : F), Color := "#515151" }
    Shadow := { Blur := ((20 : Nat) : F), X := ((0 : Nat) : F), Y := ((10 : Nat) : F) }
    ShowLineNumbers := false
    Theme := "github-dark" }

/-- TerminalPreset returns a configuration optimized for terminal output. -/
def TerminalPreset : Config F :=
  { ((({ (DefaultConfig : Config F) with Background := "#0d1117" }).SetPadding
      [((15 : Nat) : F)]).SetMargin [((10 : Nat) : F)]) with
    Window := false
    Border := { Radius := ((6 : Nat) : F), Width := ((1 : Nat) : F), Color := "#30363d" }
    Shadow := { Blur := ((15 : Nat) : F), X := ((0 : Nat) : F), Y := ((5 : Nat) : F) }
    ShowLineNumbers := false
    Theme := "github-dark"
    Font := { (DefaultConfig : Config F).Font with
      Family := "JetBrains Mono", Size := ((13 : Nat) : F) } }

/-- PresentationPreset returns a configuration suitable for presentations. -/
def PresentationPreset : Config F :=
  { ((({ (DefaultConfig : Config F) with Background := "#ffffff" }).SetPadding
      [((40 : Nat) : F)]).SetMargin [((30 : Nat) : F)]) with
    Window := true
    Border := { Radius := ((12 : Nat) : F), Width := ((2 : Nat) : F), Color := "#e1e4e8" }
    Shadow := { Blur := ((30 : Nat) : F), X := ((0 : Nat) : F), Y := ((15 : Nat) : F) }
    ShowLineNumbers := true
    Theme := "github"
    Font := { (DefaultConfig : Config F).Font with Size := ((16 : Nat) : F) }
    LineHeight := (1.4 : F) }

/-- MinimalPreset returns a minimal configuration with no decorations. -/
def MinimalPreset : Config F :=
  { ((({ (DefaultConfig : Config F) with Background := "#ffffff" }).SetPadding
      [((10 : Nat) : F)]).SetMargin [((0 : Nat) : F)]) with
    Window := false
    Border := { Radius := ((0 : Nat) : F), Width := ((0 : Nat) : F), Color := "" }
    Shadow := { Blur := ((0 : Nat) : F), X := ((0 : Nat) : F), Y := ((0 : Nat) : F) }
    ShowLineNumbers := false
    Theme := "github" }

/-- DarkPreset returns a dark theme configuration. -/
def DarkPreset : Config F :=
  { ((({ (DefaultConfig : Config F) with Background := "#1e1e1e" }).SetPadding
      [((25 : Nat) : F)]).SetMargin [((15 : Nat) : F)]) with
    Window := false
    Border := { Radius := ((8 : Nat) : F), Width := ((1 : Nat) : F), Color := "#3c3c3c" }
    Shadow := { Blur := ((20 : Nat) : F), X := ((0 : Nat) : F), Y := ((8 : Nat) : F) }
    ShowLineNumbers := false
    Theme := "dracula"
    Font := { (DefaultConfig : Config F).Font with
      Family := "Fira Code", Size := ((14 : Nat) : F), Ligatures := true } }

/-- LightPreset returns a light theme configuration. -/
def LightPreset : Config F :=
  { ((({ (DefaultConfig : Config F) with Background := "#fafbfc" }).SetPadding
      [((25 : Nat) : F)]).SetMargin [((15 : Nat) : F)]) with
    Window := false
    Border := { Radius := ((8 : Nat) : F), Width := ((1 : Nat) : F), Color := "#d1d5da" }
    Shadow := { Blur := ((20 : Nat) : F), X := ((0 : Nat) : F), Y := ((8 : Nat) : F) }
    ShowLineNumbers := false
    Theme := "github"
    Font := { (DefaultConfig : Config F).Font with
      Family := "SF Mono", Size := ((14 : Nat) : F) } }

/-- RetroPreset returns a retro terminal-style configuration. -/
def RetroPreset : Config F :=
  { ((({ (DefaultConfig : Config F) with Background := "#000000" }).SetPadding
      [((20 : Nat) : F)]).SetMargin [((10 : Nat) : F)]) with
    Window := false
    Border := { Radius := ((0 : Nat) : F), Width := ((2 : Nat) : F), Color := "#00ff00" }
    Shadow := { Blur := ((0 : Nat) : F), X := ((0 : Nat) : F), Y := ((0 : Nat) : F) }
    ShowLineNumbers := false
    Theme := "monokai"
    Font := { (DefaultConfig : Config F).Font with
      Family := "Courier New", Size := ((12 : Nat) : F), Ligatures := false } }

/-- NeonPreset returns a neon-style configuration. -/
def NeonPreset : Config F :=
  { ((({ (DefaultConfig : Config F) with Background := "#0a0a0a" }).SetPadding
      [((30 : Nat) : F)]).SetMargin [((20 : Nat) : F)]) with
    Window := false
    Border := { Radius := ((10 : Nat) : F), Width := ((2 : Nat) : F), Color := "#ff00ff" }
    Shadow := { Blur := ((25 : Nat) : F), X := ((0 : Nat) : F), Y := ((0 : Nat) : F) }
    ShowLineNumbers := false
    Theme := "vim"
    Font := { (DefaultConfig : Config F).Font with
      Family := "Fira Code", Size := ((14 : Nat) : F), Ligatures := true } }

/-- CompactPreset returns a compact configuration for small code snippets. -/
def CompactPreset : Config F :=
  { ((({ (DefaultConfig : Config F) with Background := "#f6f8fa" }).SetPadding
      [((10 : Nat) : F)]).SetMargin [((5 : Nat) : F)]) with
    Window := false
    Border := { Radius := ((4 : Nat) : F), Width := ((1 : Nat) : F), Color := "#d0d7de" }
    Shadow := { Blur := ((5 : Nat) : F), X := ((0 : Nat) : F), Y := ((2 : Nat) : F) }
    ShowLineNumbers := false
    Theme := "github"
    Font := { (DefaultConfig : Config F).Font with Size := ((12 : Nat) : F) }
    LineHeight := (1.1 : F) }

/-- PresetMap contains all available presets. -/
def PresetMap : List (String × Config F) :=
  [("base", BasePreset), ("full", FullPreset), ("terminal", TerminalPreset),
   ("presentation", PresentationPreset), ("minimal", MinimalPreset), ("dark", DarkPreset),
   ("light", LightPreset), ("retro", RetroPreset), ("neon", NeonPreset),
   ("compact", CompactPreset)]

/-- GetPreset returns a preset configuration by name. -/
def GetPreset (name : String) : Config F :=
  match (PresetMap : List (String × Config F)).lookup name with
  | some preset => preset
  | none => DefaultConfig

/-- IsValidPreset checks if a preset name is valid. -/
def IsValidPreset (F : Type) [Float64 F] (name : String) : Bool :=
  ((PresetMap : List (String × Config F)).lookup name).isSome

/-! ## `GenerateFromCode` on the shared configuration -/

/-- GenerateFromCode of the generator as it acts on the memory: `g.config` is a pointer,
and `g.config.Language = language` assigns a field of the struct it points
at.  The last two matches are `g.generateSVG(code, lexer, false)`: the
tokeniser, then generateSVGFromIterator.  The result `none` is the nil-pointer
panic. -/
def Generator.GenerateFromCode (g : Generator) (X : Collaborators F) (m : Memory F)
    (code language : String) : Option (Memory F × Outcome (Document F)) :=
  match m.load g.config with
  | none => none
  | some cfg =>
    match cfg.Validate with
    | some err => some (m, Outcome.error ("invalid config: " ++ err))
    | none =>
      match (if language ≠ "" then m.update g.config (fun c => { c with Language := language })
          else some m) with
      | none => none
      | some m1 =>
        match m1.load g.config with
        | none => none
        | some cfg1 =>
          match X.GetLexer cfg1.Language code with
          | none =>
            some (m1, Outcome.error "could not determine language for syntax highlighting")
          | some lexer =>
            match X.Tokenise lexer code with
            | Except.error e => some (m1, Outcome.error ("could not tokenize input: " ++ e))
            | Except.ok it => generateSVGFromIteratorMem X m1 g.config code it false

/-- GenerateFromCode of Freeze generates an SVG from source code. -/
def Freeze.GenerateFromCode (f : Freeze) (X : Collaborators F) (m : Memory F)
    (code language : String) : Option (Memory F × Outcome (Document F)) :=
  f.generator.GenerateFromCode X m code language

/-! ### Order laws of the arithmetic -/

/-- Order laws of the arithmetic of a carrier.  Exact arithmetic has them, and so has
binary64 arithmetic on finite numbers, where every operation rounds its exact
result and rounding keeps the order. -/
structure MonotoneArithmetic (F : Type) [Float64 F] : Prop where
  le_trans : ∀ a b c : F, a ≤ b → b ≤ c → a ≤ c
  le_total : ∀ a b : F, a ≤ b ∨ b ≤ a
  not_lt : ∀ a b : F, ¬ b < a ↔ a ≤ b
  add_le_add : ∀ a b c d : F, a ≤ b → c ≤ d → a + c ≤ b + d
  sub_le_sub_right : ∀ a b c : F, a ≤ b → a - c ≤ b - c
  mul_le_mul_left : ∀ a b c : F, 0 ≤ c → a ≤ b → c * a ≤ c * b
  mul_le_mul_right : ∀ a b c : F, 0 ≤ c → a ≤ b → a * c ≤ b * c
  mul_nonneg : ∀ a b : F, 0 ≤ a → 0 ≤ b → 0 ≤ a * b
  div_le_div_right : ∀ a b c : F, 0 < c → a ≤ b → a / c ≤ b / c
  natCast_le : ∀ m n : Nat, m ≤ n → (m : F) ≤ (n : F)
  natCast_nonneg : ∀ n : Nat, (0 : F) ≤ (n : F)
  intCast_nonneg : ∀ n : Int, 0 ≤ n → (0 : F) ≤ (n : F)
  one_nonneg : (0 : F) ≤ (1.0 : F)
  fontRatio_pos : (0 : F) < (fontHeightToWidthRatio : F)

/-! ## Theorems -/

/-! ### The rounding of binary64 -/

theorem log2Fuel_eq (fuel n : Nat) (h : n ≤ fuel) : log2Fuel fuel n = Nat.log 2 n := by
  induction fuel generalizing n with
  | zero =>
    have : n = 0 := by omega
    subst this
    simp [log2Fuel]
  | succ f ih =>
    unfold log2Fuel
    split
    · rename_i hlt
      exact (Nat.log_of_lt hlt).symm
    · rename_i hge
      rw [ih (n / 2) (by omega)]
      exact (Nat.log_of_one_lt_of_le (by norm_num) (by omega)).symm

theorem pow2_eq (k : Int) : pow2 k = (2 : ℚ) ^ k := by
  unfold pow2
  split
  · rename_i h
    obtain ⟨n, rfl⟩ := Int.eq_ofNat_of_zero_le h
    simp
  · rename_i h
    obtain ⟨n, hn⟩ := Int.eq_ofNat_of_zero_le (by omega : 0 ≤ -k)
    have hk : k = -(n : Int) := by omega
    subst hk
    simp

theorem pow2_pos (k : Int) : 0 < pow2 k := by
  rw [pow2_eq]
  positivity


theorem binade_spec (q : ℚ) (hq : 0 < q) :
    (2 : ℚ) ^ binade q ≤ q ∧ q < (2 : ℚ) ^ (binade q + 1) := by
  have hnum : 0 < q.num := Rat.num_pos.mpr hq
  obtain ⟨n, hn⟩ := Int.eq_ofNat_of_zero_le (le_of_lt hnum)
  have hn0 : n ≠ 0 := by
    rintro rfl
    rw [hn] at hnum
    exact absurd hnum (by simp)
  have hd0 : q.den ≠ 0 := q.den_nz
  have hqe : q = (n : ℚ) / (q.den : ℚ) := by
    have hc : (q.num : ℚ) = (n : ℚ) := by rw [hn]; simp
    rw [← hc]
    exact (Rat.num_div_den q).symm
  have hna : q.num.natAbs = n := by rw [hn]; rfl
  have ha1 := Nat.pow_log_le_self 2 hn0
  have ha2 := Nat.lt_pow_succ_log_self (by norm_num : 1 < 2) n
  have hb1 := Nat.pow_log_le_self 2 hd0
  have hb2 := Nat.lt_pow_succ_log_self (by norm_num : 1 < 2) q.den
  have ha1q : (2 : ℚ) ^ (Nat.log 2 n) ≤ (n : ℚ) := by exact_mod_cast ha1
  have ha2q : (n : ℚ) < (2 : ℚ) ^ (Nat.log 2 n + 1) := by exact_mod_cast ha2
  have hb1q : (2 : ℚ) ^ (Nat.log 2 q.den) ≤ (q.den : ℚ) := by exact_mod_cast hb1
  have hb2q : (q.den : ℚ) < (2 : ℚ) ^ (Nat.log 2 q.den + 1) := by exact_mod_cast hb2
  have hdpos : (0 : ℚ) < (q.den : ℚ) := by exact_mod_cast q.den_pos
  -- the quotient lies strictly between `2 ^ (k - 1)` and `2 ^ (k + 1)`
  have hup : q < (2 : ℚ) ^ ((Nat.log 2 n : Int) - (Nat.log 2 q.den : Int) + 1) := by
    rw [show ((Nat.log 2 n : Int) - (Nat.log 2 q.den : Int) + 1)
      = ((Nat.log 2 n + 1 : Nat) : Int) - ((Nat.log 2 q.den : Nat) : Int) by push_cast; ring]
    rw [zpow_sub₀ (by norm_num), zpow_natCast, zpow_natCast]
    calc q = (n : ℚ) / (q.den : ℚ) := hqe
      _ < (2 : ℚ) ^ (Nat.log 2 n + 1) / (q.den : ℚ) :=
          div_lt_div_of_pos_right ha2q hdpos
      _ ≤ (2 : ℚ) ^ (Nat.log 2 n + 1) / (2 : ℚ) ^ (Nat.log 2 q.den) :=
          div_le_div_of_nonneg_left (by positivity) (by positivity) hb1q
  have hlow : (2 : ℚ) ^ ((Nat.log 2 n : Int) - (Nat.log 2 q.den : Int) - 1) ≤ q := by
    rw [show ((Nat.log 2 n : Int) - (Nat.log 2 q.den : Int) - 1)
      = ((Nat.log 2 n : Nat) : Int) - ((Nat.log 2 q.den + 1 : Nat) : Int) by push_cast; ring]
    rw [zpow_sub₀ (by norm_num), zpow_natCast, zpow_natCast]
    calc (2 : ℚ) ^ (Nat.log 2 n) / (2 : ℚ) ^ (Nat.log 2 q.den + 1)
        ≤ (2 : ℚ) ^ (Nat.log 2 n) / (q.den : ℚ) :=
          div_le_div_of_nonneg_left (by positivity) hdpos (le_of_lt hb2q)
      _ ≤ (n : ℚ) / (q.den : ℚ) := div_le_div_of_nonneg_right ha1q (le_of_lt hdpos)
      _ = q := hqe.symm
  unfold binade
  rw [hna, log2Fuel_eq n n (le_refl _), log2Fuel_eq q.den q.den (le_refl _), pow2_eq]
  split
  · rename_i hle
    exact ⟨hle, hup⟩
  · rename_i hnle
    refine ⟨hlow, ?_⟩
    rw [show ((Nat.log 2 n : Int) - (Nat.log 2 q.den : Int) - 1 + 1)
      = (Nat.log 2 n : Int) - (Nat.log 2 q.den : Int) by ring]
    exact lt_of_not_le hnle

theorem binade_mono (x y : ℚ) (hx : 0 < x) (hxy : x ≤ y) : binade x ≤ binade y := by
  by_contra hlt
  have h1 := (binade_spec x hx).1
  have h2 := (binade_spec y (lt_of_lt_of_le hx hxy)).2
  have h3 : (2 : ℚ) ^ (binade y + 1) ≤ (2 : ℚ) ^ binade x :=
    zpow_le_zpow_right₀ (by norm_num) (by omega)
  linarith

theorem roundHalfEven_bounds (x : ℚ) : ⌊x⌋ ≤ roundHalfEven x ∧ roundHalfEven x ≤ ⌊x⌋ + 1 := by
  unfold roundHalfEven
  split_ifs <;> omega

theorem roundHalfEven_intCast (n : Int) : roundHalfEven (n : ℚ) = n := by
  unfold roundHalfEven
  simp

theorem roundHalfEven_mono (x y : ℚ) (h : x ≤ y) : roundHalfEven x ≤ roundHalfEven y := by
  have hf : ⌊x⌋ ≤ ⌊y⌋ := Int.floor_mono h
  rcases lt_or_eq_of_le hf with hlt | heq
  · have := (roundHalfEven_bounds x).2
    have := (roundHalfEven_bounds y).1
    omega
  · unfold roundHalfEven
    rw [heq]
    split_ifs <;> first | omega | (exfalso; linarith)


theorem roundFloat64_of_ne (q : ℚ) (hq : q ≠ 0) :
    roundFloat64 q = (roundHalfEven (q / pow2 (binade |q| - 52)) : ℚ) * pow2 (binade |q| - 52) := by
  unfold roundFloat64
  rw [if_neg hq]

/-- A multiple of the unit in the last place below a number is below its rounding. -/
theorem roundFloat64_ge_grid (q : ℚ) (hq : q ≠ 0) (m : Int)
    (h : (m : ℚ) * pow2 (binade |q| - 52) ≤ q) :
    (m : ℚ) * pow2 (binade |q| - 52) ≤ roundFloat64 q := by
  rw [roundFloat64_of_ne q hq]
  have hu := pow2_pos (binade |q| - 52)
  have h1 : (m : ℚ) ≤ q / pow2 (binade |q| - 52) := (le_div_iff₀ hu).mpr h
  have h2 := roundHalfEven_mono _ _ h1
  rw [roundHalfEven_intCast] at h2
  have h3 : (m : ℚ) ≤ (roundHalfEven (q / pow2 (binade |q| - 52)) : ℚ) := by exact_mod_cast h2
  exact mul_le_mul_of_nonneg_right h3 (le_of_lt hu)

/-- A multiple of the unit in the last place above a number is above its rounding. -/
theorem roundFloat64_le_grid (q : ℚ) (hq : q ≠ 0) (m : Int)
    (h : q ≤ (m : ℚ) * pow2 (binade |q| - 52)) :
    roundFloat64 q ≤ (m : ℚ) * pow2 (binade |q| - 52) := by
  rw [roundFloat64_of_ne q hq]
  have hu := pow2_pos (binade |q| - 52)
  have h1 : q / pow2 (binade |q| - 52) ≤ (m : ℚ) := (div_le_iff₀ hu).mpr h
  have h2 := roundHalfEven_mono _ _ h1
  rw [roundHalfEven_intCast] at h2
  have h3 : (roundHalfEven (q / pow2 (binade |q| - 52)) : ℚ) ≤ (m : ℚ) := by exact_mod_cast h2
  exact mul_le_mul_of_nonneg_right h3 (le_of_lt hu)

theorem grid_low (e : Int) : ((2 ^ 52 : Int) : ℚ) * pow2 (e - 52) = (2 : ℚ) ^ e := by
  rw [pow2_eq]
  have : ((2 ^ 52 : Int) : ℚ) = (2 : ℚ) ^ (52 : Int) := by norm_num
  rw [this, ← zpow_add₀ (by norm_num)]
  congr 1
  ring

theorem grid_high (e : Int) : ((2 ^ 53 : Int) : ℚ) * pow2 (e - 52) = (2 : ℚ) ^ (e + 1) := by
  rw [pow2_eq]
  have : ((2 ^ 53 : Int) : ℚ) = (2 : ℚ) ^ (53 : Int) := by norm_num
  rw [this, ← zpow_add₀ (by norm_num)]
  congr 1
  ring

/-- A positive number and its rounding lie in the same binade, ends included. -/
theorem roundFloat64_pos_bounds (q : ℚ) (hq : 0 < q) :
    (2 : ℚ) ^ binade q ≤ roundFloat64 q ∧ roundFloat64 q ≤ (2 : ℚ) ^ (binade q + 1) := by
  obtain ⟨h1, h2⟩ := binade_spec q hq
  have habs : |q| = q := abs_of_pos hq
  have hge := roundFloat64_ge_grid q (ne_of_gt hq) (2 ^ 52)
  have hle := roundFloat64_le_grid q (ne_of_gt hq) (2 ^ 53)
  rw [habs, grid_low] at hge
  rw [habs, grid_high] at hle
  exact ⟨hge h1, hle (le_of_lt h2)⟩

/-- The same for a negative number. -/
theorem roundFloat64_neg_bounds (q : ℚ) (hq : q < 0) :
    -(2 : ℚ) ^ (binade (-q) + 1) ≤ roundFloat64 q ∧ roundFloat64 q ≤ -(2 : ℚ) ^ binade (-q) := by
  obtain ⟨h1, h2⟩ := binade_spec (-q) (by linarith)
  have habs : |q| = -q := abs_of_neg hq
  have hge := roundFloat64_ge_grid q (ne_of_lt hq) (-(2 ^ 53))
  have hle := roundFloat64_le_grid q (ne_of_lt hq) (-(2 ^ 52))
  rw [habs] at hge hle
  have e1 : ((-(2 ^ 53) : Int) : ℚ) * pow2 (binade (-q) - 52) = -(2 : ℚ) ^ (binade (-q) + 1) := by
    rw [← grid_high]; push_cast; ring
  have e2 : ((-(2 ^ 52) : Int) : ℚ) * pow2 (binade (-q) - 52) = -(2 : ℚ) ^ binade (-q) := by
    rw [← grid_low]; push_cast; ring
  rw [e1] at hge
  rw [e2] at hle
  exact ⟨hge (by linarith), hle (by linarith)⟩

theorem roundFloat64_nonneg (q : ℚ) (hq : 0 ≤ q) : 0 ≤ roundFloat64 q := by
  rcases eq_or_lt_of_le hq with h0 | hpos
  · rw [← h0]; simp [roundFloat64]
  · have := (roundFloat64_pos_bounds q hpos).1
    have : (0 : ℚ) < (2 : ℚ) ^ binade q := by positivity
    linarith

theorem roundFloat64_pos (q : ℚ) (hq : 0 < q) : 0 < roundFloat64 q := by
  have := (roundFloat64_pos_bounds q hq).1
  have : (0 : ℚ) < (2 : ℚ) ^ binade q := by positivity
  linarith

theorem roundFloat64_nonpos (q : ℚ) (hq : q ≤ 0) : roundFloat64 q ≤ 0 := by
  rcases eq_or_lt_of_le hq with h0 | hneg
  · rw [h0]; simp [roundFloat64]
  · have := (roundFloat64_neg_bounds q hneg).2
    have : (0 : ℚ) < (2 : ℚ) ^ binade (-q) := by positivity
    linarith

/-- Rounding keeps the order: the fact behind the order laws of binary64 arithmetic. -/
theorem roundFloat64_mono (x y : ℚ) (h : x ≤ y) : roundFloat64 x ≤ roundFloat64 y := by
  rcases lt_trichotomy 0 x with hx | hx | hx
  · -- both positive
    have hy : 0 < y := lt_of_lt_of_le hx h
    have hb := binade_mono x y hx h
    rcases lt_or_eq_of_le hb with hlt | heq
    · have h1 := (roundFloat64_pos_bounds x hx).2
      have h2 := (roundFloat64_pos_bounds y hy).1
      have h3 : (2 : ℚ) ^ (binade x + 1) ≤ (2 : ℚ) ^ binade y :=
        zpow_le_zpow_right₀ (by norm_num) (by omega)
      linarith
    · rw [roundFloat64_of_ne x (ne_of_gt hx), roundFloat64_of_ne y (ne_of_gt hy),
        abs_of_pos hx, abs_of_pos hy, heq]
      have hu := pow2_pos (binade y - 52)
      have hq : x / pow2 (binade y - 52) ≤ y / pow2 (binade y - 52) :=
        div_le_div_of_nonneg_right h (le_of_lt hu)
      have := roundHalfEven_mono _ _ hq
      have hc : (roundHalfEven (x / pow2 (binade y - 52)) : ℚ)
          ≤ (roundHalfEven (y / pow2 (binade y - 52)) : ℚ) := by exact_mod_cast this
      exact mul_le_mul_of_nonneg_right hc (le_of_lt hu)
  · -- `x` is zero
    rw [← hx] at h ⊢
    have := roundFloat64_nonneg y h
    simpa [roundFloat64] using this
  · rcases lt_or_le y 0 with hy | hy
    · -- both negative
      have hb := binade_mono (-y) (-x) (by linarith) (by linarith)
      rcases lt_or_eq_of_le hb with hlt | heq
      · have h1 := (roundFloat64_neg_bounds x hx).2
        have h2 := (roundFloat64_neg_bounds y hy).1
        have h3 : (2 : ℚ) ^ (binade (-y) + 1) ≤ (2 : ℚ) ^ binade (-x) :=
          zpow_le_zpow_right₀ (by norm_num) (by omega)
        linarith
      · rw [roundFloat64_of_ne x (ne_of_lt hx), roundFloat64_of_ne y (ne_of_lt hy),
          abs_of_neg hx, abs_of_neg hy, heq]
        have hu := pow2_pos (binade (-x) - 52)
        have hq : x / pow2 (binade (-x) - 52) ≤ y / pow2 (binade (-x) - 52) :=
          div_le_div_of_nonneg_right h (le_of_lt hu)
        have := roundHalfEven_mono _ _ hq
        have hc : (roundHalfEven (x / pow2 (binade (-x) - 52)) : ℚ)
            ≤ (roundHalfEven (y / pow2 (binade (-x) - 52)) : ℚ) := by exact_mod_cast this
        exact mul_le_mul_of_nonneg_right hc (le_of_lt hu)
    · have h1 := roundFloat64_nonpos x (le_of_lt hx)
      have h2 := roundFloat64_nonneg y hy
      linarith

/-- Exact arithmetic has the order laws. -/
theorem monotoneArithmetic_rat : MonotoneArithmetic ℚ where
  le_trans := fun _ _ _ => le_trans
  le_total := fun a b => le_total a b
  not_lt := fun _ _ => not_lt
  add_le_add := fun _ _ _ _ h1 h2 => add_le_add h1 h2
  sub_le_sub_right := fun _ _ c h => sub_le_sub_right h c
  mul_le_mul_left := fun _ _ _ hc h => mul_le_mul_of_nonneg_left h hc
  mul_le_mul_right := fun _ _ _ hc h => mul_le_mul_of_nonneg_right h hc
  mul_nonneg := fun _ _ ha hb => mul_nonneg ha hb
  div_le_div_right := fun _ _ _ hc h => div_le_div_of_nonneg_right h (le_of_lt hc)
  natCast_le := fun _ _ h => by exact_mod_cast h
  natCast_nonneg := fun n => Nat.cast_nonneg n
  intCast_nonneg := fun n h => by exact_mod_cast h
  one_nonneg := by norm_num
  fontRatio_pos := by unfold fontHeightToWidthRatio; norm_num

/-- Binary64 arithmetic has the order laws. -/
theorem monotoneArithmetic_binary64 : MonotoneArithmetic Binary64 where
  le_trans := fun a b c (h1 : a.val ≤ b.val) (h2 : b.val ≤ c.val) => le_trans h1 h2
  le_total := fun a b => le_total a.val b.val
  not_lt := fun a b => (not_lt : ¬ b.val < a.val ↔ a.val ≤ b.val)
  add_le_add := fun a b c d (h1 : a.val ≤ b.val) (h2 : c.val ≤ d.val) =>
    roundFloat64_mono _ _ (add_le_add h1 h2)
  sub_le_sub_right := fun a b c (h : a.val ≤ b.val) =>
    roundFloat64_mono _ _ (sub_le_sub_right h c.val)
  mul_le_mul_left := fun a b c (hc : (0 : ℚ) ≤ c.val) (h : a.val ≤ b.val) =>
    roundFloat64_mono _ _ (mul_le_mul_of_nonneg_left h hc)
  mul_le_mul_right := fun a b c (hc : (0 : ℚ) ≤ c.val) (h : a.val ≤ b.val) =>
    roundFloat64_mono _ _ (mul_le_mul_of_nonneg_right h hc)
  mul_nonneg := fun a b (ha : (0 : ℚ) ≤ a.val) (hb : (0 : ℚ) ≤ b.val) =>
    roundFloat64_nonneg _ (mul_nonneg ha hb)
  div_le_div_right := fun a b c (hc : (0 : ℚ) < c.val) (h : a.val ≤ b.val) =>
    roundFloat64_mono _ _ (div_le_div_of_nonneg_right h (le_of_lt hc))
  natCast_le := fun m n h => roundFloat64_mono _ _ (by exact_mod_cast h)
  natCast_nonneg := fun n => roundFloat64_nonneg _ (Nat.cast_nonneg n)
  intCast_nonneg := fun n h => roundFloat64_nonneg _ (by exact_mod_cast h)
  one_nonneg := roundFloat64_nonneg _ (by norm_num)
  fontRatio_pos := roundFloat64_pos _ (by norm_num)


/-- C1: expandPadding and expandMargin return four equal sides for one value, the
pair repeated for two values, the four values for four values, each times the
scale, and four zeros for every other length; the two functions agree on equal
lists. -/
theorem expand_by_length (c : Config F) (s : F) :
    (∀ p0, c.Padding = [p0] → c.expandPadding s = [p0 * s, p0 * s, p0 * s, p0 * s]) ∧
    (∀ p0 p1, c.Padding = [p0, p1] → c.expandPadding s = [p0 * s, p1 * s, p0 * s, p1 * s]) ∧
    (∀ p0 p1 p2 p3, c.Padding = [p0, p1, p2, p3] →
      c.expandPadding s = [p0 * s, p1 * s, p2 * s, p3 * s]) ∧
    (c.Padding.length ≠ 1 → c.Padding.length ≠ 2 → c.Padding.length ≠ 4 →
      c.expandPadding s = [0, 0, 0, 0]) ∧
    (∀ c2 : Config F, c2.Margin = c.Padding → c2.expandMargin s = c.expandPadding s) := by
  refine ⟨?_, ?_, ?_, ?_, ?_⟩
  · intro p0 h
    simp [Config.expandPadding, h]
  · intro p0 p1 h
    simp [Config.expandPadding, h]
  · intro p0 p1 p2 p3 h
    simp [Config.expandPadding, h]
  · intro h1 h2 h4
    unfold Config.expandPadding
    split <;> simp_all
  · intro c2 h
    unfold Config.expandMargin Config.expandPadding
    rw [h]

/-- C1, evaluated: the default padding `[20]` at scale 2 gives four sides `20 * 2`, the
default margin `[0]` gives the same sides as a padding `[0]`, and a padding of three
values gives four zeros. -/
theorem expand_by_length_witness :
    (DefaultConfig : Config ℚ).expandPadding 2 = [40, 40, 40, 40] ∧
    ({ (DefaultConfig : Config ℚ) with Padding := [1, 2, 3] }).expandPadding 2 = [0, 0, 0, 0] ∧
    (DefaultConfig : Config ℚ).expandMargin 2 =
      ({ (DefaultConfig : Config ℚ) with Padding := [0] }).expandPadding 2 := by
  refine ⟨?_, ?_, ?_⟩
  · rw [(expand_by_length (DefaultConfig : Config ℚ) 2).1 20 (by simp [DefaultConfig])]
    norm_num
  · exact (expand_by_length ({ (DefaultConfig : Config ℚ) with Padding := [1, 2, 3] }) 2).2.2.2.1
      (by simp) (by simp) (by simp)
  · exact (expand_by_length ({ (DefaultConfig : Config ℚ) with Padding := [0] }) 2).2.2.2.2
      DefaultConfig rfl

/-- C2: Validate returns an error exactly when the font size is not positive, or the
line height is not positive, or Lines has two entries with the first above the
second; for every other configuration it returns nil. -/
theorem Validate_error_iff (c : Config F) :
    (c.Validate ≠ none ↔
      (c.Font.Size ≤ 0 ∨ c.LineHeight ≤ 0 ∨
        (c.Lines.length = 2 ∧ c.Lines.getD 0 0 > c.Lines.getD 1 0))) ∧
    (c.Validate = none ↔
      ¬ (c.Font.Size ≤ 0 ∨ c.LineHeight ≤ 0 ∨
        (c.Lines.length = 2 ∧ c.Lines.getD 0 0 > c.Lines.getD 1 0))) := by
  have key : c.Validate = none ↔
      ¬ (c.Font.Size ≤ 0 ∨ c.LineHeight ≤ 0 ∨
        (c.Lines.length = 2 ∧ c.Lines.getD 0 0 > c.Lines.getD 1 0)) := by
    unfold Config.Validate
    by_cases h1 : c.Font.Size ≤ 0
    · simp [h1]
    · by_cases h2 : c.LineHeight ≤ 0
      · simp [h1, h2]
      · simp only [h1, h2, if_false, false_or]
        split
        · rename_i l0 l1 hl
          by_cases h3 : l0 > l1 <;> simp [hl, h3]
        · rename_i hl
          constructor
          · intro _ h
            obtain ⟨hlen, _⟩ := h
            match hc : c.Lines, hlen with
            | [a, b], _ => exact hl a b hc
          · intro _
            rfl
  exact ⟨by rw [Ne, key, not_not], key⟩

/-- C2, evaluated: the default configuration passes, a font size 0 and an inverted
range are rejected. -/
theorem Validate_error_iff_examples :
    (DefaultConfig : Config ℚ).Validate = none ∧
    ({ (DefaultConfig : Config ℚ) with Lines := [4, 2] }).Validate ≠ none ∧
    ({ (DefaultConfig : Config ℚ) with Font := { (DefaultConfig : Config ℚ).Font with Size := 0 } }).Validate
      ≠ none := by
  refine ⟨?_, ?_, ?_⟩
  · norm_num [Config.Validate, DefaultConfig]
  · norm_num [Config.Validate, DefaultConfig]
    exact Option.some_ne_none _
  · simp [Config.Validate, DefaultConfig]

/-- C6: SetLines with a 1-indexed range `0 < start <= stop` stores `[start-1, stop-1]`
and changes nothing else; with any other pair it changes nothing; and a
configuration that passes Validate passes it after SetLines. -/
theorem SetLines_spec (c : Config F) (start stop : Int) :
    (0 < start → 0 < stop → start ≤ stop →
      c.SetLines start stop = { c with Lines := [start - 1, stop - 1] }) ∧
    (¬ (0 < start ∧ 0 < stop ∧ start ≤ stop) → c.SetLines start stop = c) ∧
    (c.Validate = none → (c.SetLines start stop).Validate = none) := by
  refine ⟨?_, ?_, ?_⟩
  · intro h1 h2 h3
    simp [Config.SetLines, h1, h2, h3]
  · intro h
    unfold Config.SetLines
    rw [if_neg]
    simpa using h
  · intro hv
    unfold Config.SetLines
    split
    · rename_i h
      obtain ⟨_, _, h3⟩ := h
      unfold Config.Validate at hv ⊢
      by_cases h1 : c.Font.Size ≤ 0
      · simp [h1] at hv
      · by_cases h2 : c.LineHeight ≤ 0
        · simp [h1, h2] at hv
        · have : ¬ (start - 1 > stop - 1) := by omega
          simp [h1, h2, this]
    · exact hv

/-- C6, evaluated on the default configuration with the 1-indexed range 3..5. -/
theorem SetLines_spec_witness :
    ((DefaultConfig : Config ℚ).SetLines 3 5).Lines = [2, 4] ∧
    (DefaultConfig : Config ℚ).SetLines 5 3 = DefaultConfig ∧
    ((DefaultConfig : Config ℚ).SetLines 3 5).Validate = none := by
  have h := SetLines_spec (DefaultConfig : Config ℚ) 3 5
  have h' := SetLines_spec (DefaultConfig : Config ℚ) 5 3
  refine ⟨?_, ?_, ?_⟩
  · rw [h.1 (by decide) (by decide) (by decide)]
    rfl
  · exact h'.2.1 (by decide)
  · apply h.2.2
    norm_num [Config.Validate, DefaultConfig]

theorem splitLines_ne_nil (cs : List Char) : splitLines cs ≠ [] := by
  induction cs with
  | nil => simp [splitLines]
  | cons c cs ih =>
    unfold splitLines
    split
    · simp
    · split <;> simp

theorem Split_length_pos (input : String) : 0 < (Split input).length := by
  unfold Split
  rw [List.length_map]
  exact List.length_pos.mpr (splitLines_ne_nil _)

theorem drop_take_eq_map_range {α : Type} (xs : List α) (a m : Nat) (d : α)
    (h : a + m ≤ xs.length) :
    (xs.drop a).take m = (List.range m).map (fun k => xs.getD (a + k) d) := by
  apply List.ext_getElem
  · simp
    omega
  · intro i h1 h2
    simp at h1 h2 ⊢
    rw [List.getElem?_eq_getElem (by omega)]
    rfl

/-- C5 as stated fails: on the two-line input `"a\nb"` the range `[0, -1]` has
start > end, and cutLines returns the whole input, not the empty string. -/
theorem cutLines_negative_end_counterexample :
    (0 : Int) > -1 ∧ cutLines "a\nb" [0, -1] = some "a\nb" ∧ cutLines "a\nb" [0, -1] ≠ some "" := by
  decide

/-- C5, amended: with `n` input lines, a start below 0 clamps to 0 and an end that is
past the last line or below 0 clamps to `n-1`; cutLines returns the lines from
the clamped start to the clamped end joined by newlines, the empty string when
the clamped start is above the clamped end, and so the empty string for every
range with `start > end >= 0`. -/
theorem cutLines_range (input : String) (l0 l1 : Int) :
    (∀ lo hi : Int, lo = (if l0 < 0 then 0 else l0) →
      hi = (if l1 < 0 ∨ ((Split input).length : Int) ≤ l1 then ((Split input).length : Int) - 1 else l1) →
      (lo ≤ hi → cutLines input [l0, l1] = some (Join (linesFromTo (Split input) lo hi))) ∧
      (hi < lo → cutLines input [l0, l1] = some "")) ∧
    (0 ≤ l1 → l1 < l0 → cutLines input [l0, l1] = some "") := by
  have hn := Split_length_pos input
  have main : ∀ lo hi : Int, lo = (if l0 < 0 then 0 else l0) →
      hi = (if l1 < 0 ∨ ((Split input).length : Int) ≤ l1 then ((Split input).length : Int) - 1 else l1) →
      (lo ≤ hi → cutLines input [l0, l1] = some (Join (linesFromTo (Split input) lo hi))) ∧
      (hi < lo → cutLines input [l0, l1] = some "") := by
    intro lo hi hlo hhi
    have hstop : (if l1 ≥ ((Split input).length : Int) ∨ l1 < 0
        then ((Split input).length : Int) - 1 else l1) = hi := by
      rw [hhi]
      by_cases h : l1 < 0 ∨ ((Split input).length : Int) ≤ l1
      · rw [if_pos h, if_pos (by omega)]
      · rw [if_neg h, if_neg (by omega)]
    have hlo0 : 0 ≤ lo := by rw [hlo]; split <;> omega
    have hhi1 : hi < ((Split input).length : Int) := by rw [hhi]; split <;> omega
    constructor
    · intro hle
      simp only [cutLines, hstop, ← hlo]
      rw [if_neg (by omega)]
      unfold slice
      rw [if_pos ⟨hlo0, by omega, by omega⟩]
      simp only [Option.map_some']
      congr 2
      unfold linesFromTo
      have e1 : (hi + 1).toNat - lo.toNat = (hi + 1 - lo).toNat := by omega
      rw [e1]
      apply drop_take_eq_map_range
      omega
    · intro hlt
      simp only [cutLines, hstop, ← hlo]
      rw [if_pos (by omega)]
  refine ⟨main, ?_⟩
  intro h0 hlt
  refine (main _ _ rfl rfl).2 ?_
  split <;> split <;> omega

/-- C5 amended, evaluated: lines 1..2 of four; an end past the last line; an end below 0;
and an inverted range. -/
theorem cutLines_range_witness :
    cutLines "a\nb\nc\nd" [1, 2] = some (Join (linesFromTo (Split "a\nb\nc\nd") 1 2)) ∧
    cutLines "a\nb\nc\nd" [1, 2] = some "b\nc" ∧
    cutLines "a\nb\nc\nd" [3, 1] = some "" := by
  have h := (cutLines_range "a\nb\nc\nd" 1 2).1 1 2 (by decide) (by decide)
  refine ⟨h.1 (by decide), ?_, (cutLines_range "a\nb\nc\nd" 3 1).2 (by decide) (by decide)⟩
  rw [h.1 (by decide)]
  decide

/-- C3: when Validate fails, GenerateFromCode and GenerateFromANSI return an error, so no
document, and leave the configuration as it was, whatever the input, the
language and the libraries. -/
theorem Generate_rejects_invalid_config (X : Collaborators F) (c : Config F)
    (code language ansiOutput : String) (h : c.Validate ≠ none) :
    (∃ msg, GenerateFromCode X c code language = (c, Outcome.error msg)) ∧
    (∃ msg, GenerateFromANSI X c ansiOutput = (c, Outcome.error msg)) := by
  cases hv : c.Validate with
  | none => exact absurd hv h
  | some err =>
    exact ⟨⟨"invalid config: " ++ err, by simp [GenerateFromCode, hv]⟩,
      ⟨"invalid config: " ++ err, by simp [GenerateFromANSI, hv]⟩⟩

/-- C3, evaluated on the default configuration with an inverted line range. -/
theorem Generate_rejects_invalid_config_witness :
    ({ (DefaultConfig : Config ℚ) with Lines := [4, 2] }).Validate ≠ none ∧
    (∃ msg, GenerateFromCode plainText { (DefaultConfig : Config ℚ) with Lines := [4, 2] } "a\nb" "go"
      = ({ (DefaultConfig : Config ℚ) with Lines := [4, 2] }, Outcome.error msg)) ∧
    (∃ msg, GenerateFromANSI plainText { (DefaultConfig : Config ℚ) with Lines := [4, 2] } "a\nb"
      = ({ (DefaultConfig : Config ℚ) with Lines := [4, 2] }, Outcome.error msg)) :=
  ⟨by decide!,
    Generate_rejects_invalid_config plainText { (DefaultConfig : Config ℚ) with Lines := [4, 2] }
      "a\nb" "go" "a\nb" (by decide!)⟩

/-- C4 fails on the code: ten input lines rendered by GenerateFromCode with
`Lines = [2, 4]` leave all ten lines in the text layer, lines 0, 1 and 5..9
included, where the claim has exactly the lines 2, 3, 4. -/
theorem GenerateFromCode_keeps_all_lines :
    ({ (DefaultConfig : Config ℚ) with Lines := [2, 4] }).Validate = none ∧
    (GenerateFromCode plainText { (DefaultConfig : Config ℚ) with Lines := [2, 4] }
        "l0\nl1\nl2\nl3\nl4\nl5\nl6\nl7\nl8\nl9" "go").2.lines
      = some ["l0", "l1", "l2", "l3", "l4", "l5", "l6", "l7", "l8", "l9"] ∧
    cutLines "l0\nl1\nl2\nl3\nl4\nl5\nl6\nl7\nl8\nl9" [2, 4] = some "l2\nl3\nl4" := by
  decide!

/-- An unrecognized code leaves the state of the call as it is and consumes nothing more. -/
theorem sgrStep_unrecognized (v : Nat) (rest : List Nat) (s : sgrState F)
    (h : ¬ sgrRecognized v) : sgrStep v rest s = some (0, s) := by
  unfold sgrRecognized at h
  simp only [not_or] at h
  obtain ⟨h5, hfg, h38, hbg, h48⟩ := h
  simp only [List.mem_cons, List.mem_singleton, not_or, List.not_mem_nil, or_false] at h5
  obtain ⟨h0, h1, h9, h3, h4⟩ := h5
  unfold sgrStep
  rw [if_neg h0, if_neg h1, if_neg h9, if_neg h3, if_neg h4, if_neg hfg, if_neg h38,
    if_neg hbg, if_neg h48]

/-- The cases 38 and 48 when no complete colour form follows: nothing is done and the
index moves past the sub-parameter only. -/
theorem sgrStep_extended_short (c : Nat) (hc : c = 38 ∨ c = 48) (s : sgrState F) :
    sgrStep c [] s = some (1, s) ∧ sgrStep c [5] s = some (1, s) ∧
    (∀ rest : List Nat, rest.length < 3 → sgrStep c (2 :: rest) s = some (1, s)) := by
  have hfg38 : (38 : Nat) ∉ fgCodes := by decide
  have hfg48 : (48 : Nat) ∉ fgCodes := by decide
  have hbg48 : (48 : Nat) ∉ bgCodes := by decide
  rcases hc with rfl | rfl
  · refine ⟨by simp [sgrStep, hfg38], by simp [sgrStep, hfg38], ?_⟩
    intro rest hlen
    match rest, hlen with
    | [], _ => simp [sgrStep, hfg38]
    | [a], _ => simp [sgrStep, hfg38]
    | [a, b], _ => simp [sgrStep, hfg38]
  · refine ⟨by simp [sgrStep, hfg48, hbg48], by simp [sgrStep, hfg48, hbg48], ?_⟩
    intro rest hlen
    match rest, hlen with
    | [], _ => simp [sgrStep, hfg48, hbg48]
    | [a], _ => simp [sgrStep, hfg48, hbg48]
    | [a, b], _ => simp [sgrStep, hfg48, hbg48]

/-- C10 as stated fails: the truncated form `38;2;1` leaves the component 1 to be read
as the code for bold, which adds a run to the line. -/
theorem CsiDispatch_truncated_rgb_counterexample :
    (newDispatcher [{ Attr := [], Child := [] }] (DefaultConfig : Config ℚ) 1).CsiDispatch 109 [38, 2, 1]
      ≠ some (newDispatcher [{ Attr := [], Child := [] }] (DefaultConfig : Config ℚ) 1) ∧
    ((newDispatcher [{ Attr := [], Child := [] }] (DefaultConfig : Config ℚ) 1).CsiDispatch 109
      [38, 2, 1]).map (fun p => p.lines.map TextElement.runs) = some [[""]] := by
  decide!

/-- C10, amended: CsiDispatch leaves the whole dispatcher state unchanged for a
parameter list that is one unrecognized code, or 38 or 48 followed by nothing,
by a bare 5, by a bare 2, or by 2 and one or two components that are
themselves unrecognized codes. -/
theorem CsiDispatch_skips (p : dispatcher F) (cmd : Int) (params : List Nat)
    (h : (∃ v, params = [v] ∧ ¬ sgrRecognized v) ∨
      (∃ c, (c = 38 ∨ c = 48) ∧
        (params = [c] ∨ params = [c, 5] ∨ params = [c, 2] ∨
          (∃ a, params = [c, 2, a] ∧ ¬ sgrRecognized a) ∨
          (∃ a b, params = [c, 2, a, b] ∧ ¬ sgrRecognized a ∧ ¬ sgrRecognized b)))) :
    p.CsiDispatch cmd params = some p := by
  unfold dispatcher.CsiDispatch
  by_cases hc : cmd ≠ 109
  · rw [if_pos hc]
  · rw [if_neg hc]
    rcases h with ⟨v, rfl, hv⟩ | ⟨c, hc38, h⟩
    · simp [sgrLoop, sgrStep_unrecognized v [] _ hv, sgrState.commit]
    · have hs := fun s : sgrState F => sgrStep_extended_short c hc38 s
      rcases h with rfl | rfl | rfl | ⟨a, rfl, ha⟩ | ⟨a, b, rfl, ha, hb⟩
      · simp [sgrLoop, (hs _).1, sgrState.commit]
      · simp [sgrLoop, (hs _).2.1, sgrState.commit]
      · simp [sgrLoop, (hs _).2.2 [] (by simp), sgrState.commit]
      · simp [sgrLoop, (hs _).2.2 [a] (by simp), sgrStep_unrecognized a _ _ ha, sgrState.commit]
      · simp [sgrLoop, (hs _).2.2 [a, b] (by simp), sgrStep_unrecognized a _ _ ha,
          sgrStep_unrecognized b _ _ hb, sgrState.commit]

/-- C10 amended, evaluated on a fresh dispatcher: the unrecognized code 2 and the
truncated form 38;2;200;201. -/
theorem CsiDispatch_skips_witness :
    (newDispatcher [{ Attr := [], Child := [] }] (DefaultConfig : Config ℚ) 1).CsiDispatch 109 [2]
      = some (newDispatcher [{ Attr := [], Child := [] }] (DefaultConfig : Config ℚ) 1) ∧
    (newDispatcher [{ Attr := [], Child := [] }] (DefaultConfig : Config ℚ) 1).CsiDispatch 109
      [38, 2, 200, 201]
      = some (newDispatcher [{ Attr := [], Child := [] }] (DefaultConfig : Config ℚ) 1) :=
  ⟨CsiDispatch_skips _ 109 [2] (Or.inl ⟨2, rfl, by decide⟩),
    CsiDispatch_skips _ 109 [38, 2, 200, 201]
      (Or.inr ⟨38, Or.inl rfl, Or.inr (Or.inr (Or.inr (Or.inr
        ⟨200, 201, rfl, by decide, by decide⟩)))⟩)⟩

set_option linter.unusedSectionVars false

/-! ### Lines and their element children -/

theorem clamp_of_index {α : Type} (xs : List α) (i : Int) (x : α) (h : index xs i = some x) :
    clamp i 0 ((xs.length : Int) - 1) = i := by
  unfold index at h
  split at h
  · exact absurd h (by simp)
  · rename_i hi
    have hlt : i.toNat < xs.length := by
      rcases Nat.lt_or_ge i.toNat xs.length with hl | hl
      · exact hl
      · rw [List.get?_eq_none.mpr hl] at h
        exact absurd h (by simp)
    unfold clamp
    rw [if_neg hi, if_neg (by omega)]

theorem index_set {α : Type} (xs : List α) (i : Int) (x y : α) (h : index xs i = some x) :
    index (xs.set i.toNat y) i = some y := by
  unfold index at h ⊢
  split at h
  · exact absurd h (by simp)
  · rename_i hi
    rw [if_neg hi]
    have hlt : i.toNat < xs.length := by
      rcases Nat.lt_or_ge i.toNat xs.length with hl | hl
      · exact hl
      · rw [List.get?_eq_none.mpr hl] at h
        exact absurd h (by simp)
    simp [List.getElem?_set, hlt]

theorem ChildElements_AddChild (t : TextElement F) (e : Element F) :
    (t.AddChild e).ChildElements = t.ChildElements ++ [e] := by
  simp [TextElement.AddChild, TextElement.ChildElements, List.filterMap_append]

theorem hasElem_iff (cs : List (Token F)) :
    hasElem cs = true ↔
      cs.filterMap (fun c => match c with
        | Token.Elem e => some e
        | Token.CharData _ => none) ≠ [] := by
  induction cs with
  | nil => simp [hasElem]
  | cons c cs ih =>
    cases c with
    | CharData s => simp [hasElem, ih, List.filterMap_cons]
    | Elem e => simp [hasElem, List.filterMap_cons]

theorem filterMap_replaceLastElem (e : Element F) (cs : List (Token F)) (h : hasElem cs = true) :
    (replaceLastElem e cs).filterMap (fun c => match c with
        | Token.Elem e => some e
        | Token.CharData _ => none)
      = (cs.filterMap (fun c => match c with
        | Token.Elem e => some e
        | Token.CharData _ => none)).dropLast ++ [e] := by
  induction cs with
  | nil => simp [hasElem] at h
  | cons c cs ih =>
    unfold replaceLastElem
    by_cases hcs : hasElem cs = true
    · rw [if_pos hcs]
      have hne := (hasElem_iff cs).mp hcs
      cases c with
      | CharData s => simp [List.filterMap_cons, ih hcs]
      | Elem e0 =>
        simp only [List.filterMap_cons, ih hcs]
        rw [List.dropLast_cons_of_ne_nil hne]
        simp
    · rw [if_neg hcs]
      have hnil : cs.filterMap (fun c => match c with
        | Token.Elem e => some e
        | Token.CharData _ => none) = [] := by
        by_contra hne
        exact hcs ((hasElem_iff cs).mpr hne)
      cases c with
      | CharData s => simp [hasElem, hcs] at h
      | Elem e0 => simp [List.filterMap_cons, hnil]

theorem ChildElements_setLastChildElement (t : TextElement F) (e : Element F)
    (h : t.ChildElements ≠ []) :
    (t.setLastChildElement e).ChildElements = t.ChildElements.dropLast ++ [e] := by
  unfold TextElement.setLastChildElement TextElement.ChildElements
  exact filterMap_replaceLastElem e t.Child ((hasElem_iff t.Child).mpr h)

/-- The fresh run `Print` and `CsiDispatch` create. -/
theorem freshSpan_eq :
    ((NewElement "tspan").CreateAttr "xml:space" (AttrValue.str "preserve") : Element F)
      = { Tag := "tspan", Attr := [{ Key := "xml:space", Value := AttrValue.str "preserve" }],
          Text := "" } := by
  simp [NewElement, Element.CreateAttr, setAttr]

/-- Print on a row inside the grid: the state it returns, and the effect on the element
children of the line. -/
theorem Print_inside (RuneWidth : Char → Nat) (p : dispatcher F) (r : Char) (line : TextElement F)
    (h : index p.lines p.row = some line) :
    ∃ line1 : TextElement F,
      p.Print RuneWidth r = some { p with
        lines := p.lines.set p.row.toNat line1
        col := p.col + RuneWidth r
        bgWidth := if p.bg.isSome then p.bgWidth + RuneWidth r else p.bgWidth } ∧
      (RuneWidth r > 1 → line.ChildElements = [] →
        line1.ChildElements =
          [{ Tag := "tspan", Attr := [{ Key := "xml:space", Value := AttrValue.str "preserve" }],
             Text := "" },
           { Tag := "tspan",
             Attr := [{ Key := "xml:space", Value := AttrValue.str "preserve" },
               { Key := "dx", Value := AttrValue.px ((p.config.Font.Size / ((5 : Nat) : F)) * p.scale) }],
             Text := String.singleton r }]) ∧
      (RuneWidth r > 1 → ∀ es e, line.ChildElements = es ++ [e] →
        line1.ChildElements =
          es ++ [e, (e.SetText (String.singleton r)).CreateAttr "dx"
            (AttrValue.px ((p.config.Font.Size / ((5 : Nat) : F)) * p.scale))]) ∧
      (¬ RuneWidth r > 1 → line.ChildElements = [] →
        line1.ChildElements =
          [{ Tag := "tspan", Attr := [{ Key := "xml:space", Value := AttrValue.str "preserve" }],
             Text := String.singleton r }]) ∧
      (¬ RuneWidth r > 1 → ∀ es e, line.ChildElements = es ++ [e] →
        line1.ChildElements = es ++ [e.SetText (e.Text ++ String.singleton r)]) := by
  have hcl := clamp_of_index p.lines p.row line h
  unfold dispatcher.Print
  simp only [hcl, h]
  refine ⟨_, rfl, ?_, ?_, ?_, ?_⟩
  · intro hw he
    simp [hw, he, ChildElements_AddChild, NewElement, Element.SetText, Element.CreateAttr, setAttr]
  · intro hw es e he
    simp [hw, he, ChildElements_AddChild]
  · intro hw he
    rw [if_neg hw]
    simp only [he, List.length_nil, if_true]
    rw [ChildElements_setLastChildElement _ _ (by simp [ChildElements_AddChild])]
    simp [ChildElements_AddChild, he, NewElement, Element.SetText, Element.CreateAttr, setAttr]
  · intro hw es e he
    rw [if_neg hw]
    simp only [he, List.length_append, List.length_singleton]
    rw [if_neg (by omega), if_neg (by omega)]
    rw [ChildElements_setLastChildElement _ _ (by simp [he])]
    simp [he, List.getLastD_eq_getLast?]

/-- C8 as stated fails: after the double-width rune and the letter on an empty line, the
line has two runs, but the first is the empty run made for the line (no nudge)
and the second holds the wide rune followed by the letter and carries the nudge. -/
theorem Print_wide_then_narrow_counterexample :
    ((newDispatcher [{ Attr := [], Child := [] }] (DefaultConfig : Config ℚ) 1).run
        (plainText : Collaborators ℚ).RuneWidth [Event.Print '世', Event.Print 'a']).map
        (fun p => p.lines.map TextElement.ChildElements)
      = some [[{ Tag := "tspan",
                 Attr := [{ Key := "xml:space", Value := AttrValue.str "preserve" }],
                 Text := "" },
               { Tag := "tspan",
                 Attr := [{ Key := "xml:space", Value := AttrValue.str "preserve" },
                   { Key := "dx", Value := AttrValue.px (14 / 5 * 1) }],
                 Text := "世a" }]] ∧
    ¬ (∃ r1 r2 : Element ℚ,
        ((newDispatcher [{ Attr := [], Child := [] }] (DefaultConfig : Config ℚ) 1).run
          (plainText : Collaborators ℚ).RuneWidth [Event.Print '世', Event.Print 'a']).map
          (fun p => p.lines.map TextElement.ChildElements) = some [[r1, r2]] ∧
        r1.Text = "世" ∧ r1.SelectAttr "dx" ≠ none ∧ r2.Text = "a" ∧ r2.SelectAttr "dx" = none) := by
  have h : ((newDispatcher [{ Attr := [], Child := [] }] (DefaultConfig : Config ℚ) 1).run
        (plainText : Collaborators ℚ).RuneWidth [Event.Print '世', Event.Print 'a']).map
        (fun p => p.lines.map TextElement.ChildElements)
      = some [[{ Tag := "tspan",
                 Attr := [{ Key := "xml:space", Value := AttrValue.str "preserve" }],
                 Text := "" },
               { Tag := "tspan",
                 Attr := [{ Key := "xml:space", Value := AttrValue.str "preserve" },
                   { Key := "dx", Value := AttrValue.px (14 / 5 * 1) }],
                 Text := "世a" }]] := by
    decide!
  refine ⟨h, ?_⟩
  rintro ⟨r1, r2, hr, ht, -⟩
  rw [h] at hr
  simp only [Option.some.injEq, List.cons.injEq, and_true] at hr
  rw [← hr.1] at ht
  exact absurd ht (by decide)

/-- C8, amended: printing a double-width rune `w` and then a narrow character `c` on a
line without runs leaves exactly two runs on that line: first the empty run
created for the line, without nudge, then one run that holds `w` followed by
`c` and carries the nudge `dx = fontSize/5 * scale`. -/
theorem Print_wide_then_narrow (RuneWidth : Char → Nat) (p : dispatcher F) (w c : Char)
    (line : TextElement F) (hrow : index p.lines p.row = some line)
    (hempty : line.ChildElements = []) (hw : RuneWidth w > 1) (hc : RuneWidth c ≤ 1) :
    ∃ p2 line2, p.run RuneWidth [Event.Print w, Event.Print c] = some p2 ∧
      index p2.lines p.row = some line2 ∧
      line2.ChildElements =
        [{ Tag := "tspan", Attr := [{ Key := "xml:space", Value := AttrValue.str "preserve" }],
           Text := "" },
         { Tag := "tspan",
           Attr := [{ Key := "xml:space", Value := AttrValue.str "preserve" },
             { Key := "dx", Value := AttrValue.px ((p.config.Font.Size / ((5 : Nat) : F)) * p.scale) }],
           Text := String.singleton w ++ String.singleton c }] := by
  obtain ⟨line1, hp1, hwide, -, -, -⟩ := Print_inside RuneWidth p w line hrow
  have hl1 := hwide hw hempty
  have hidx1 := index_set p.lines p.row line line1 hrow
  generalize hq : ({ p with
        lines := p.lines.set p.row.toNat line1
        col := p.col + RuneWidth w
        bgWidth := if p.bg.isSome then p.bgWidth + RuneWidth w else p.bgWidth } : dispatcher F) = q
    at hp1
  have hqrow : q.row = p.row := by rw [← hq]
  have hqlines : q.lines = p.lines.set p.row.toNat line1 := by rw [← hq]
  have hqcfg : q.config = p.config := by rw [← hq]
  have hqscale : q.scale = p.scale := by rw [← hq]
  rw [← hqlines, ← hqrow] at hidx1
  obtain ⟨line2, hp2, -, -, -, hnarrow⟩ := Print_inside RuneWidth q c line1 hidx1
  have hl2 := hnarrow (by omega) [_] _ hl1
  generalize hq2 : ({ q with
        lines := q.lines.set q.row.toNat line2
        col := q.col + RuneWidth c
        bgWidth := if q.bg.isSome then q.bgWidth + RuneWidth c else q.bgWidth } : dispatcher F) = q2
    at hp2
  have hq2lines : q2.lines = q.lines.set q.row.toNat line2 := by rw [← hq2]
  refine ⟨q2, line2, ?_, ?_, ?_⟩
  · simp only [dispatcher.run, dispatcher.handle, hp1, hp2]
  · simp only [hq2lines, hqlines, hqrow, List.set_set]
    exact index_set p.lines p.row line line2 hrow
  · rw [hl2]
    simp [Element.SetText]

/-- C8 amended, evaluated on a fresh dispatcher over one empty line. -/
theorem Print_wide_then_narrow_witness :
    ∃ p2 line2,
      (newDispatcher [{ Attr := [], Child := [] }] (DefaultConfig : Config ℚ) 1).run
        (plainText : Collaborators ℚ).RuneWidth [Event.Print '世', Event.Print 'a'] = some p2 ∧
      index p2.lines 0 = some line2 ∧
      line2.ChildElements =
        [{ Tag := "tspan", Attr := [{ Key := "xml:space", Value := AttrValue.str "preserve" }],
           Text := "" },
         { Tag := "tspan",
           Attr := [{ Key := "xml:space", Value := AttrValue.str "preserve" },
             { Key := "dx", Value := AttrValue.px (((14 : Nat) : ℚ) / ((5 : Nat) : ℚ) * 1) }],
           Text := String.singleton '世' ++ String.singleton 'a' }] :=
  Print_wide_then_narrow (plainText : Collaborators ℚ).RuneWidth
    (newDispatcher [{ Attr := [], Child := [] }] (DefaultConfig : Config ℚ) 1) '世' 'a'
    { Attr := [], Child := [] } (by decide!) (by decide!) (by decide!) (by decide!)

/-! ### Frame properties of the handler calls -/

theorem clamp_bounds (v : Int) (n : Nat) (h : 0 < n) :
    0 ≤ clamp v 0 ((n : Int) - 1) ∧ clamp v 0 ((n : Int) - 1) < n := by
  unfold clamp
  split
  · omega
  · split <;> omega

theorem index_of_bounds {α : Type} (xs : List α) (i : Int) (h0 : 0 ≤ i) (h1 : i < xs.length) :
    ∃ x, index xs i = some x := by
  unfold index
  rw [if_neg (by omega)]
  have hlt : i.toNat < xs.length := by omega
  exact ⟨xs[i.toNat], by simp [List.getElem?_eq_getElem hlt]⟩

/-- Print never fails over a non-empty line list; it leaves the rectangles, the open
background, the configuration and the number of lines as they are, and brings
the row inside the grid. -/
theorem Print_frame (RuneWidth : Char → Nat) (p : dispatcher F) (r : Char) (h : p.lines ≠ []) :
    ∃ p1, p.Print RuneWidth r = some p1 ∧ p1.svg = p.svg ∧ p1.bg = p.bg ∧
      p1.config = p.config ∧ p1.scale = p.scale ∧ p1.lines.length = p.lines.length ∧
      p1.bgWidth = (if p.bg.isSome then p.bgWidth + RuneWidth r else p.bgWidth) ∧
      p1.col = p.col + RuneWidth r ∧ 0 ≤ p1.row ∧ p1.row < p1.lines.length := by
  have hpos : 0 < p.lines.length := List.length_pos.mpr h
  obtain ⟨hb0, hb1⟩ := clamp_bounds p.row p.lines.length hpos
  obtain ⟨line, hline⟩ := index_of_bounds p.lines _ hb0 hb1
  unfold dispatcher.Print
  simp only [hline]
  refine ⟨_, rfl, rfl, rfl, rfl, rfl, ?_, rfl, rfl, hb0, ?_⟩
  · simp
  · simpa using hb1

/-- What a run of prints does to the background state. -/
theorem run_prints_frame (RuneWidth : Char → Nat) (cs : List Char) (p : dispatcher F)
    (h : p.lines ≠ []) (hrow : 0 ≤ p.row ∧ p.row < p.lines.length) :
    ∃ p1, p.run RuneWidth (cs.map Event.Print) = some p1 ∧ p1.svg = p.svg ∧ p1.bg = p.bg ∧
      p1.config = p.config ∧ p1.scale = p.scale ∧ p1.lines.length = p.lines.length ∧
      p1.bgWidth = (if p.bg.isSome then p.bgWidth + (cs.map RuneWidth).sum else p.bgWidth) ∧
      0 ≤ p1.row ∧ p1.row < p1.lines.length := by
  induction cs generalizing p with
  | nil =>
    refine ⟨p, rfl, rfl, rfl, rfl, rfl, rfl, ?_, hrow.1, hrow.2⟩
    simp
  | cons c cs ih =>
    obtain ⟨p1, hp1, hsvg, hbg, hcfg, hsc, hlen, hw, -, hr0, hr1⟩ := Print_frame RuneWidth p c h
    have hne : p1.lines ≠ [] := by
      intro hnil
      rw [hnil] at hlen
      exact h (List.length_eq_zero.mp hlen.symm)
    obtain ⟨p2, hp2, hsvg2, hbg2, hcfg2, hsc2, hlen2, hw2, hr2⟩ := ih p1 hne ⟨hr0, hr1⟩
    refine ⟨p2, ?_, by rw [hsvg2, hsvg], by rw [hbg2, hbg], by rw [hcfg2, hcfg],
      by rw [hsc2, hsc], by rw [hlen2, hlen], ?_, hr2⟩
    · simp only [List.map_cons, dispatcher.run, dispatcher.handle, hp1, hp2]
    · rw [hw2, hw, hbg]
      cases hb : p.bg <;> simp [Nat.add_assoc]

/-- A background code closes the open background and opens a new one; nothing else. -/
theorem CsiDispatch_background (p : dispatcher F) (params : List Nat) (fill : String)
    (h : IsBackgroundCode params fill) :
    p.CsiDispatch 109 params = some (p.openBackground fill) := by
  rcases h with ⟨v, hv, rfl, rfl⟩ | ⟨n, -, rfl, hn⟩ | ⟨r, g, b, rfl, rfl⟩
  · simp only [bgCodes, List.mem_cons, List.mem_singleton, List.not_mem_nil, or_false] at hv
    rcases hv with rfl | rfl | rfl | rfl | rfl | rfl | rfl | rfl | rfl | rfl | rfl | rfl | rfl |
      rfl | rfl | rfl <;>
      simp [dispatcher.CsiDispatch, sgrLoop, sgrStep, fgCodes, bgCodes, sgrState.commit]
  · have hn1 : palette[n]? = some fill := by simpa using hn
    simp [dispatcher.CsiDispatch, sgrLoop, sgrStep, fgCodes, bgCodes, sgrState.commit, hn1]
  · simp [dispatcher.CsiDispatch, sgrLoop, sgrStep, fgCodes, bgCodes, sgrState.commit]

/-- The state after a background is opened on a dispatcher that has none open. -/
theorem openBackground_of_closed (p : dispatcher F) (fill : String) (h : p.bg = none) :
    p.openBackground fill = { p with bg := some (
      { Tag := "rect"
        Attr :=
          [{ Key := "fill", Value := AttrValue.str fill },
           { Key := "height", Value := AttrValue.px (p.config.Font.Size * p.config.LineHeight) },
           { Key := "x", Value := AttrValue.px
              (((p.col : Nat) : F) * (p.config.Font.Size / fontHeightToWidthRatio) * p.scale) },
           { Key := "y", Value := AttrValue.px
              (((p.row : Int) : F) * p.config.Font.Size * p.config.LineHeight) }]
        Text := "" } : Element F) } := by
  simp [dispatcher.openBackground, dispatcher.endBackground, h, NewElement, Element.CreateAttr,
    setAttr]

/-- SGR 0 on a row inside the grid closes the open background and leaves none open. -/
theorem CsiDispatch_reset (p : dispatcher F) (h0 : 0 ≤ p.row) (h1 : p.row < p.lines.length) :
    ∃ p1, p.CsiDispatch 109 [0] = some p1 ∧ p1.svg = p.endBackground.svg ∧ p1.bg = none ∧
      p1.lines.length = p.lines.length ∧ p1.row = p.row := by
  obtain ⟨line, hline⟩ := index_of_bounds p.lines p.row h0 h1
  have hbg : p.endBackground.bg = none := by
    unfold dispatcher.endBackground
    cases hb : p.bg <;> simp [hb]
  have hlines : p.endBackground.lines = p.lines := by
    unfold dispatcher.endBackground
    cases hb : p.bg <;> simp
  have hrow : p.endBackground.row = p.row := by
    unfold dispatcher.endBackground
    cases hb : p.bg <;> simp
  refine ⟨{ p.endBackground with lines := (p.lines.set p.row.toNat
      (line.AddChild ((NewElement "tspan").CreateAttr "xml:space" (AttrValue.str "preserve")))) },
    ?_, rfl, hbg, by simp, hrow⟩
  simp [dispatcher.CsiDispatch, sgrLoop, sgrStep, sgrState.reset, sgrState.addSpan, h1, hline,
    sgrState.commit, hlines, hrow]

theorem run_append (RuneWidth : Char → Nat) (es fs : List Event) (p : dispatcher F) :
    p.run RuneWidth (es ++ fs) = (p.run RuneWidth es).bind (fun p1 => p1.run RuneWidth fs) := by
  induction es generalizing p with
  | nil => simp [dispatcher.run]
  | cons e es ih =>
    simp only [List.cons_append, dispatcher.run]
    cases p.handle RuneWidth e with
    | none => simp
    | some p1 => simp [ih]

theorem sum_widths_narrow (RuneWidth : Char → Nat) (cs : List Char)
    (h : ∀ c ∈ cs, RuneWidth c = 1) : (cs.map RuneWidth).sum = cs.length := by
  induction cs with
  | nil => simp
  | cons c cs ih =>
    have hc := h c (by simp)
    have hcs : ∀ d ∈ cs, RuneWidth d = 1 := fun d hd => h d (by simp [hd])
    simp [hc, ih hcs, Nat.add_comm]

/-- C7: on a fresh dispatcher over at least one line, a background code, then `k`
narrow characters, then SGR 0 leave exactly one background rectangle, closed,
of width `k` cells (`k * (fontSize / 1.68) * scale`); the characters and the
newline that follow leave that one rectangle as it is. -/
theorem background_run_fixed_at_reset (RuneWidth : Char → Nat) (lines : List (TextElement F))
    (config : Config F) (scale : F) (params : List Nat) (fill : String) (cs ds : List Char)
    (hlines : lines ≠ []) (hcode : IsBackgroundCode params fill)
    (hnarrow : ∀ c ∈ cs, RuneWidth c = 1) :
    ∃ p3 p5,
      (newDispatcher lines config scale).run RuneWidth
        (Event.CsiDispatch 109 params :: cs.map Event.Print ++ [Event.CsiDispatch 109 [0]]) = some p3 ∧
      p3.rects = [backgroundRect config scale fill 0 0 cs.length] ∧
      p3.run RuneWidth (ds.map Event.Print ++ [Event.Execute 10]) = some p5 ∧
      p5.rects = [backgroundRect config scale fill 0 0 cs.length] := by
  have hpos : 0 < lines.length := List.length_pos.mpr hlines
  -- the background code
  have h1 := CsiDispatch_background (newDispatcher lines config scale) params fill hcode
  rw [openBackground_of_closed _ _ rfl] at h1
  generalize hp1 : ({ newDispatcher lines config scale with bg := some (
      { Tag := "rect"
        Attr :=
          [{ Key := "fill", Value := AttrValue.str fill },
           { Key := "height", Value := AttrValue.px
              ((newDispatcher lines config scale).config.Font.Size *
                (newDispatcher lines config scale).config.LineHeight) },
           { Key := "x", Value := AttrValue.px
              ((((newDispatcher lines config scale).col : Nat) : F) *
                ((newDispatcher lines config scale).config.Font.Size / fontHeightToWidthRatio) *
                (newDispatcher lines config scale).scale) },
           { Key := "y", Value := AttrValue.px
              ((((newDispatcher lines config scale).row : Int) : F) *
                (newDispatcher lines config scale).config.Font.Size *
                (newDispatcher lines config scale).config.LineHeight) }]
        Text := "" } : Element F) } : dispatcher F) = p1 at h1
  have p1lines : p1.lines = lines := by rw [← hp1]; rfl
  have p1svg : p1.svg = [] := by rw [← hp1]; rfl
  have p1cfg : p1.config = config := by rw [← hp1]; rfl
  have p1scale : p1.scale = scale := by rw [← hp1]; rfl
  have p1row : p1.row = 0 := by rw [← hp1]; rfl
  have p1w : p1.bgWidth = 0 := by rw [← hp1]; rfl
  have p1bg : p1.bg = some
      { Tag := "rect"
        Attr :=
          [{ Key := "fill", Value := AttrValue.str fill },
           { Key := "height", Value := AttrValue.px (config.Font.Size * config.LineHeight) },
           { Key := "x", Value := AttrValue.px
              (((0 : Nat) : F) * (config.Font.Size / fontHeightToWidthRatio) * scale) },
           { Key := "y", Value := AttrValue.px (((0 : Int) : F) * config.Font.Size * config.LineHeight) }]
        Text := "" } := by rw [← hp1]; rfl
  -- the narrow characters
  obtain ⟨p2, hp2, p2svg, p2bg, p2cfg, p2scale, p2len, p2w, p2r0, p2r1⟩ :=
    run_prints_frame RuneWidth cs p1 (by rw [p1lines]; exact hlines)
      ⟨by rw [p1row], by rw [p1row, p1lines]; exact_mod_cast hpos⟩
  rw [p1bg] at p2bg
  rw [p1bg, sum_widths_narrow RuneWidth cs hnarrow, p1w] at p2w
  simp only [Option.isSome_some, if_true, Nat.zero_add] at p2w
  -- the reset
  obtain ⟨p3, hp3, p3svg, p3bg, p3len, p3row⟩ := CsiDispatch_reset p2 p2r0 p2r1
  have p3rects : p3.rects = [backgroundRect config scale fill 0 0 cs.length] := by
    unfold dispatcher.rects
    rw [p3bg, p3svg]
    unfold dispatcher.endBackground
    simp [p2bg, p2svg, p1svg, p2w, p2cfg, p1cfg, p2scale, p1scale, backgroundRect,
      Element.CreateAttr, setAttr]
  -- what follows
  have p3ne : p3.lines ≠ [] := by
    intro hnil
    rw [hnil, p2len, p1lines] at p3len
    exact hlines (List.length_eq_zero.mp p3len.symm)
  obtain ⟨p4, hp4, p4svg, p4bg, -, -, -, -, -, -⟩ :=
    run_prints_frame RuneWidth ds p3 p3ne
      ⟨by rw [p3row]; exact p2r0, by rw [p3row, p3len]; exact p2r1⟩
  rw [p3bg] at p4bg
  refine ⟨p3, { p4 with row := p4.row + 1, col := 0 }, ?_, p3rects, ?_, ?_⟩
  · rw [List.cons_append, dispatcher.run]
    simp only [dispatcher.handle, h1]
    rw [run_append, hp2]
    simp [dispatcher.run, dispatcher.handle, hp3]
  · rw [run_append, hp4]
    simp [dispatcher.run, dispatcher.handle, dispatcher.Execute, dispatcher.endBackground, p4bg]
  · unfold dispatcher.rects at p3rects ⊢
    simp only [p4bg, p4svg]
    rw [p3bg] at p3rects
    exact p3rects

/-- C7, evaluated on the events of `"\x1b[41mAB\x1b[0mC\n"`: one rectangle, two cells wide. -/
theorem background_run_fixed_at_reset_witness :
    ∃ p3 p5,
      (newDispatcher [{ Attr := [], Child := [] }] (DefaultConfig : Config ℚ) 1).run
        (plainText : Collaborators ℚ).RuneWidth
        (Event.CsiDispatch 109 [41] :: ['A', 'B'].map Event.Print ++ [Event.CsiDispatch 109 [0]])
        = some p3 ∧
      p3.rects = [backgroundRect (DefaultConfig : Config ℚ) 1 "#FF0000" 0 0 2] ∧
      p3.run (plainText : Collaborators ℚ).RuneWidth (['C'].map Event.Print ++ [Event.Execute 10])
        = some p5 ∧
      p5.rects = [backgroundRect (DefaultConfig : Config ℚ) 1 "#FF0000" 0 0 2] :=
  background_run_fixed_at_reset (plainText : Collaborators ℚ).RuneWidth
    [{ Attr := [], Child := [] }] (DefaultConfig : Config ℚ) 1 [41] "#FF0000" ['A', 'B'] ['C']
    (by simp) (Or.inl ⟨41, by decide, rfl, by decide⟩) (by decide)

/-! ### Text of the lines -/

theorem foldr_append_string (xs : List String) (b : String) :
    xs.foldr (fun a b => a ++ b) b = xs.foldr (fun a b => a ++ b) "" ++ b := by
  induction xs with
  | nil => simp
  | cons x xs ih =>
    simp only [List.foldr_cons]
    rw [ih, String.append_assoc]

theorem concat_snoc (xs : List String) (a : String) :
    (xs ++ [a]).foldr (fun a b => a ++ b) "" = xs.foldr (fun a b => a ++ b) "" ++ a := by
  rw [List.foldr_append]
  simp only [List.foldr_cons, List.foldr_nil, String.append_empty]
  exact foldr_append_string xs a

theorem runText_of_children (t : TextElement F) (es : List (Element F))
    (h : t.ChildElements = es) :
    t.runText = (es.map (fun e => e.Text)).foldr (fun a b => a ++ b) "" := by
  simp [TextElement.runText, TextElement.runs, h]

theorem clamp_idem (v : Int) (n : Int) (h : 0 < n) :
    clamp (clamp v 0 (n - 1)) 0 (n - 1) = clamp v 0 (n - 1) := by
  unfold clamp
  split_ifs <;> omega

/-- Print reads the row only through `clamp`. -/
theorem Print_clamped (RuneWidth : Char → Nat) (p : dispatcher F) (r : Char) (h : p.lines ≠ []) :
    p.Print RuneWidth r =
      ({ p with row := clamp p.row 0 ((p.lines.length : Int) - 1) } : dispatcher F).Print RuneWidth r := by
  have hpos : (0 : Int) < p.lines.length := by exact_mod_cast List.length_pos.mpr h
  unfold dispatcher.Print
  simp only [clamp_idem _ _ hpos]

/-- Print appends the rune to the text of the line it prints on. -/
theorem Print_inside_text (RuneWidth : Char → Nat) (p : dispatcher F) (r : Char)
    (line : TextElement F) (h : index p.lines p.row = some line) :
    ∃ line1 : TextElement F,
      p.Print RuneWidth r = some { p with
        lines := p.lines.set p.row.toNat line1
        col := p.col + RuneWidth r
        bgWidth := if p.bg.isSome then p.bgWidth + RuneWidth r else p.bgWidth } ∧
      line1.runText = line.runText ++ String.singleton r := by
  obtain ⟨line1, hp, h1, h2, h3, h4⟩ := Print_inside RuneWidth p r line h
  refine ⟨line1, hp, ?_⟩
  rcases List.eq_nil_or_concat line.ChildElements with he | ⟨es, e, he⟩
  · by_cases hw : RuneWidth r > 1
    · rw [runText_of_children line1 _ (h1 hw he), runText_of_children line _ he]
      simp
    · rw [runText_of_children line1 _ (h3 hw he), runText_of_children line _ he]
      simp
  · rw [List.concat_eq_append] at he
    by_cases hw : RuneWidth r > 1
    · rw [runText_of_children line1 _ (h2 hw es e he), runText_of_children line _ he]
      have : es ++ [e, (e.SetText (String.singleton r)).CreateAttr "dx"
          (AttrValue.px ((p.config.Font.Size / ((5 : Nat) : F)) * p.scale))]
          = (es ++ [e]) ++ [(e.SetText (String.singleton r)).CreateAttr "dx"
          (AttrValue.px ((p.config.Font.Size / ((5 : Nat) : F)) * p.scale))] := by simp
      rw [this, List.map_append, List.map_cons, List.map_nil, concat_snoc]
      congr 1
      unfold Element.CreateAttr Element.SetText
      split <;> rfl
    · rw [runText_of_children line1 _ (h4 hw es e he), runText_of_children line _ he]
      rw [List.map_append, List.map_append, List.map_cons, List.map_nil, List.map_cons,
        List.map_nil, concat_snoc, concat_snoc, String.append_assoc]
      rfl

theorem Print_nil (RuneWidth : Char → Nat) (p : dispatcher F) (r : Char) (h : p.lines = []) :
    p.Print RuneWidth r = none := by
  unfold dispatcher.Print
  have : index p.lines (clamp p.row 0 ((p.lines.length : Int) - 1)) = none := by
    rw [h]
    unfold index
    split <;> simp
  simp only [this]

/-- Print over a non-empty line list, in terms of the texts of the lines. -/
theorem Print_texts (RuneWidth : Char → Nat) (p : dispatcher F) (r : Char) (h : p.lines ≠ []) :
    ∃ p1, p.Print RuneWidth r = some p1 ∧
      p1.row = clamp p.row 0 ((p.lineTexts.length : Int) - 1) ∧ p1.col = p.col + RuneWidth r ∧
      p1.lineTexts = p.lineTexts.set (clamp p.row 0 ((p.lineTexts.length : Int) - 1)).toNat
        (p.lineTexts.getD (clamp p.row 0 ((p.lineTexts.length : Int) - 1)).toNat "" ++
          String.singleton r) := by
  have hlen : p.lineTexts.length = p.lines.length := by simp [dispatcher.lineTexts]
  rw [hlen]
  have hpos : 0 < p.lines.length := List.length_pos.mpr h
  obtain ⟨hb0, hb1⟩ := clamp_bounds p.row p.lines.length hpos
  obtain ⟨line, hline⟩ := index_of_bounds p.lines _ hb0 hb1
  obtain ⟨line1, hp, htext⟩ := Print_inside_text RuneWidth
    ({ p with row := clamp p.row 0 ((p.lines.length : Int) - 1) } : dispatcher F) r line hline
  rw [← Print_clamped RuneWidth p r h] at hp
  refine ⟨_, hp, rfl, rfl, ?_⟩
  simp only [dispatcher.lineTexts, List.map_set, htext]
  congr 2
  unfold index at hline
  rw [if_neg (by omega)] at hline
  rw [List.getD_eq_getElem?_getD, List.getElem?_map, ← List.get?_eq_getElem?, hline]
  rfl

theorem sameText_length (p q : dispatcher F) (h : sameText p q) :
    p.lines.length = q.lines.length := by
  have := congrArg List.length h.1
  simpa [dispatcher.lineTexts] using this

/-- Print keeps two states that show the same text in step. -/
theorem Print_sim (RuneWidth : Char → Nat) (p q p1 : dispatcher F) (r : Char)
    (hR : sameText p q) (h : p.Print RuneWidth r = some p1) :
    ∃ q1, q.Print RuneWidth r = some q1 ∧ sameText p1 q1 := by
  have hlen := sameText_length p q hR
  have hp : p.lines ≠ [] := by
    intro hnil
    rw [Print_nil RuneWidth p r hnil] at h
    exact absurd h (by simp)
  have hq : q.lines ≠ [] := by
    intro hnil
    rw [hnil] at hlen
    exact hp (List.length_eq_zero.mp hlen)
  obtain ⟨p1', hp1, hrow, hcol, htx⟩ := Print_texts RuneWidth p r hp
  obtain ⟨q1, hq1, hrow', hcol', htx'⟩ := Print_texts RuneWidth q r hq
  rw [hp1] at h
  cases h
  obtain ⟨ht, hr, hc⟩ := hR
  refine ⟨q1, hq1, ?_, ?_, ?_⟩
  · rw [htx, htx', ht, hr]
  · rw [hrow, hrow', ht, hr]
  · rw [hcol, hcol', hc]

theorem tabLoop_sim (RuneWidth : Char → Nat) (fuel : Nat) (p q p1 : dispatcher F)
    (hR : sameText p q) (h : dispatcher.tabLoop RuneWidth fuel p = some p1) :
    ∃ q1, dispatcher.tabLoop RuneWidth fuel q = some q1 ∧ sameText p1 q1 := by
  induction fuel generalizing p q with
  | zero =>
    unfold dispatcher.tabLoop at h ⊢
    rw [← hR.2.2]
    by_cases hc : p.col % 16 = 0
    · rw [if_pos hc] at h ⊢
      cases h
      exact ⟨q, rfl, hR⟩
    · rw [if_neg hc] at h
      exact absurd h (by simp)
  | succ n ih =>
    unfold dispatcher.tabLoop at h ⊢
    rw [← hR.2.2]
    by_cases hc : p.col % 16 = 0
    · rw [if_pos hc] at h ⊢
      cases h
      exact ⟨q, rfl, hR⟩
    · rw [if_neg hc] at h ⊢
      cases hp : p.Print RuneWidth ' ' with
      | none => rw [hp] at h; exact absurd h (by simp)
      | some p2 =>
        rw [hp] at h
        obtain ⟨q2, hq2, hR2⟩ := Print_sim RuneWidth p q p2 ' ' hR hp
        rw [hq2]
        exact ih p2 q2 hR2 h

theorem endBackground_frame (p : dispatcher F) :
    p.endBackground.lines = p.lines ∧ p.endBackground.row = p.row ∧
      p.endBackground.col = p.col := by
  unfold dispatcher.endBackground
  cases p.bg <;> simp

theorem Execute_sim (RuneWidth : Char → Nat) (p q p1 : dispatcher F) (code : Nat)
    (hR : sameText p q) (h : p.Execute RuneWidth code = some p1) :
    ∃ q1, q.Execute RuneWidth code = some q1 ∧ sameText p1 q1 := by
  unfold dispatcher.Execute at h ⊢
  have key : ∀ p2, (if code = 9 then dispatcher.tabLoop RuneWidth 16 p else some p) = some p2 →
      ∃ q2, (if code = 9 then dispatcher.tabLoop RuneWidth 16 q else some q) = some q2 ∧
        sameText p2 q2 := by
    intro p2 h2
    by_cases hc : code = 9
    · rw [if_pos hc] at h2 ⊢
      exact tabLoop_sim RuneWidth 16 p q p2 hR h2
    · rw [if_neg hc] at h2 ⊢
      cases h2
      exact ⟨q, rfl, hR⟩
  cases h2 : (if code = 9 then dispatcher.tabLoop RuneWidth 16 p else some p) with
  | none => rw [h2] at h; exact absurd h (by simp)
  | some p2 =>
    rw [h2] at h
    obtain ⟨q2, hq2, hR2⟩ := key p2 h2
    rw [hq2]
    simp only at h ⊢
    by_cases hc : code = 10
    · rw [if_pos hc] at h ⊢
      cases h
      refine ⟨_, rfl, ?_⟩
      obtain ⟨e1, e2, e3⟩ := endBackground_frame p2
      obtain ⟨f1, f2, f3⟩ := endBackground_frame q2
      refine ⟨?_, ?_, rfl⟩
      · simp only [dispatcher.lineTexts, e1, f1]
        exact hR2.1
      · simp only [e2, f2, hR2.2.1]
    · rw [if_neg hc] at h ⊢
      cases h
      exact ⟨q2, rfl, hR2⟩

theorem CreateAttr_Text (e : Element F) (key : String) (value : AttrValue F) :
    (e.CreateAttr key value).Text = e.Text := by
  unfold Element.CreateAttr
  split <;> rfl

theorem openBackground_frame (p : dispatcher F) (fill : String) :
    (p.openBackground fill).lines = p.lines ∧ (p.openBackground fill).row = p.row ∧
      (p.openBackground fill).col = p.col := by
  obtain ⟨e1, e2, e3⟩ := endBackground_frame p
  exact ⟨e1, e2, e3⟩

theorem addSpan_frame (s s1 : sgrState F) (h : s.addSpan = some s1) :
    s1.p = s.p ∧ s1.span = s.span := by
  unfold sgrState.addSpan at h
  split at h
  · exact absurd h (by simp)
  · cases h
    exact ⟨rfl, rfl⟩

theorem reset_frame (s s1 : sgrState F) (h : s.reset = some s1) :
    s1.p.lines = s.p.lines ∧ s1.p.row = s.p.row ∧ s1.p.col = s.p.col ∧ s1.span = s.span := by
  unfold sgrState.reset at h
  split at h
  · exact absurd h (by simp)
  · rename_i s2 hs2
    cases h
    obtain ⟨e1, e2, e3⟩ := endBackground_frame s2.p
    have hs : s2.p = s.p ∧ s2.span = s.span := by
      split at hs2
      · exact addSpan_frame s s2 hs2
      · cases hs2
        exact ⟨rfl, rfl⟩
    exact ⟨by rw [e1, hs.1], by rw [e2, hs.1], by rw [e3, hs.1], hs.2⟩

/-- One round of the loop of CsiDispatch leaves the lines, the cursor and the text of
the span as they are. -/
theorem sgrStep_frame (v : Nat) (rest : List Nat) (s s1 : sgrState F) (k : Nat)
    (h : sgrStep v rest s = some (k, s1)) :
    s1.p.lines = s.p.lines ∧ s1.p.row = s.p.row ∧ s1.p.col = s.p.col ∧
      s1.span.Text = s.span.Text := by
  have hadd : ∀ (t : sgrState F) (j : Nat), t.p = s.p → t.span.Text = s.span.Text →
      t.addSpan.map (fun s1 => (j, s1)) = some (k, s1) →
      s1.p.lines = s.p.lines ∧ s1.p.row = s.p.row ∧ s1.p.col = s.p.col ∧
        s1.span.Text = s.span.Text := by
    intro t j ht1 ht2 hm
    cases ha : t.addSpan with
    | none => rw [ha] at hm; exact absurd hm (by simp)
    | some t1 =>
      rw [ha] at hm
      simp only [Option.map_some', Option.some.injEq, Prod.mk.injEq] at hm
      obtain ⟨f1, f2⟩ := addSpan_frame t t1 ha
      rw [← hm.2, f1, f2, ht1, ht2]
      exact ⟨rfl, rfl, rfl, rfl⟩
  have hattr : ∀ key value, (s.createAttr key value).p = s.p ∧
      (s.createAttr key value).span.Text = s.span.Text := by
    intro key value
    exact ⟨rfl, CreateAttr_Text _ _ _⟩
  have hbg : ∀ (fill : String) (j : Nat),
      (some (j, { s with p := s.p.openBackground fill }) : Option (Nat × sgrState F)) = some (k, s1) →
      s1.p.lines = s.p.lines ∧ s1.p.row = s.p.row ∧ s1.p.col = s.p.col ∧
        s1.span.Text = s.span.Text := by
    intro fill j hm
    simp only [Option.some.injEq, Prod.mk.injEq] at hm
    obtain ⟨e1, e2, e3⟩ := openBackground_frame s.p fill
    rw [← hm.2]
    exact ⟨e1, e2, e3, rfl⟩
  have hid : ∀ j : Nat, (some (j, s) : Option (Nat × sgrState F)) = some (k, s1) →
      s1.p.lines = s.p.lines ∧ s1.p.row = s.p.row ∧ s1.p.col = s.p.col ∧
        s1.span.Text = s.span.Text := by
    intro j hm
    simp only [Option.some.injEq, Prod.mk.injEq] at hm
    rw [← hm.2]
    exact ⟨rfl, rfl, rfl, rfl⟩
  unfold sgrStep at h
  by_cases h0 : v = 0
  · rw [if_pos h0] at h
    cases hr : s.reset with
    | none => rw [hr] at h; exact absurd h (by simp)
    | some t =>
      rw [hr] at h
      simp only [Option.map_some', Option.some.injEq, Prod.mk.injEq] at h
      obtain ⟨e1, e2, e3, e4⟩ := reset_frame s t hr
      rw [← h.2]
      exact ⟨e1, e2, e3, by rw [e4]⟩
  rw [if_neg h0] at h
  by_cases h1 : v = 1
  · rw [if_pos h1] at h
    exact hadd s 0 rfl rfl h
  rw [if_neg h1] at h
  by_cases h9 : v = 9
  · rw [if_pos h9] at h
    exact hadd _ 0 (hattr _ _).1 (hattr _ _).2 h
  rw [if_neg h9] at h
  by_cases h3 : v = 3
  · rw [if_pos h3] at h
    exact hadd _ 0 (hattr _ _).1 (hattr _ _).2 h
  rw [if_neg h3] at h
  by_cases h4 : v = 4
  · rw [if_pos h4] at h
    exact hadd _ 0 (hattr _ _).1 (hattr _ _).2 h
  rw [if_neg h4] at h
  by_cases hfg : v ∈ fgCodes
  · rw [if_pos hfg] at h
    exact hadd _ 0 (hattr _ _).1 (hattr _ _).2 h
  rw [if_neg hfg] at h
  by_cases h38 : v = 38
  · rw [if_pos h38] at h
    match rest, h with
    | [], h => exact hid 1 h
    | sub :: rest1, h =>
      simp only at h
      by_cases hs5 : sub = 5
      · rw [if_pos hs5] at h
        match rest1, h with
        | [], h => exact hid 1 h
        | n :: _, h =>
          simp only at h
          cases hp : palette.get? n with
          | none => rw [hp] at h; exact absurd h (by simp)
          | some fill =>
            rw [hp] at h
            exact hadd _ 2 (hattr _ _).1 (hattr _ _).2 h
      · rw [if_neg hs5] at h
        by_cases hs2 : sub = 2
        · rw [if_pos hs2] at h
          match rest1, h with
          | [], h => exact hid 1 h
          | [_], h => exact hid 1 h
          | [_, _], h => exact hid 1 h
          | r :: g :: b :: _, h => exact hadd _ 4 (hattr _ _).1 (hattr _ _).2 h
        · rw [if_neg hs2] at h
          exact hid 1 h
  rw [if_neg h38] at h
  by_cases hbgc : v ∈ bgCodes
  · rw [if_pos hbgc] at h
    exact hbg _ 0 h
  rw [if_neg hbgc] at h
  by_cases h48 : v = 48
  · rw [if_pos h48] at h
    match rest, h with
    | [], h => exact hid 1 h
    | sub :: rest1, h =>
      simp only at h
      by_cases hs5 : sub = 5
      · rw [if_pos hs5] at h
        match rest1, h with
        | [], h => exact hid 1 h
        | n :: _, h =>
          simp only at h
          cases hp : palette.get? n with
          | none => rw [hp] at h; exact absurd h (by simp)
          | some fill =>
            rw [hp] at h
            exact hbg _ 2 h
      · rw [if_neg hs5] at h
        by_cases hs2 : sub = 2
        · rw [if_pos hs2] at h
          match rest1, h with
          | [], h => exact hid 1 h
          | [_], h => exact hid 1 h
          | [_, _], h => exact hid 1 h
          | r :: g :: b :: _, h => exact hbg _ 4 h
        · rw [if_neg hs2] at h
          exact hid 1 h
  rw [if_neg h48] at h
  exact hid 0 h

theorem sgrLoop_frame (params : List Nat) (skip : Nat) (s s1 : sgrState F)
    (h : sgrLoop params skip s = some s1) :
    s1.p.lines = s.p.lines ∧ s1.p.row = s.p.row ∧ s1.p.col = s.p.col ∧
      s1.span.Text = s.span.Text := by
  induction params generalizing skip s with
  | nil =>
    rw [sgrLoop] at h
    cases h
    exact ⟨rfl, rfl, rfl, rfl⟩
  | cons v rest ih =>
    cases skip with
    | succ k =>
      rw [sgrLoop] at h
      exact ih k s h
    | zero =>
      rw [sgrLoop] at h
      cases hs : sgrStep v rest s with
      | none => rw [hs] at h; exact absurd h (by simp)
      | some r =>
        obtain ⟨k, s2⟩ := r
        rw [hs] at h
        obtain ⟨e1, e2, e3, e4⟩ := sgrStep_frame v rest s s2 k hs
        obtain ⟨f1, f2, f3, f4⟩ := ih k s2 h
        exact ⟨by rw [f1, e1], by rw [f2, e2], by rw [f3, e3], by rw [f4, e4]⟩

theorem runText_AddChild (t : TextElement F) (e : Element F) (h : e.Text = "") :
    (t.AddChild e).runText = t.runText := by
  rw [runText_of_children (t.AddChild e) _ (ChildElements_AddChild t e), List.map_append,
    List.map_cons, List.map_nil, concat_snoc, h, String.append_empty]
  rfl

theorem commit_frame (s : sgrState F) (h : s.span.Text = "") :
    s.commit.lineTexts = s.p.lineTexts ∧ s.commit.row = s.p.row ∧ s.commit.col = s.p.col := by
  unfold sgrState.commit
  split
  · split
    · rename_i line hline
      refine ⟨?_, rfl, rfl⟩
      simp only [dispatcher.lineTexts, List.map_set, runText_AddChild line s.span h]
      unfold index at hline
      split at hline
      · exact absurd hline (by simp)
      · apply List.ext_getElem?
        intro i
        rw [List.getElem?_set]
        split
        · rename_i hi
          subst hi
          split
          · rw [List.getElem?_map, ← List.get?_eq_getElem?, hline]
            rfl
          · rename_i hlt
            simp only [List.length_map] at hlt
            rw [List.getElem?_eq_none (by simpa using hlt)]
        · rfl
    · exact ⟨rfl, rfl, rfl⟩
  · exact ⟨rfl, rfl, rfl⟩

/-- CsiDispatch never changes the text of a line or the cursor position. -/
theorem CsiDispatch_frame (p p1 : dispatcher F) (cmd : Int) (params : List Nat)
    (h : p.CsiDispatch cmd params = some p1) : sameText p1 p := by
  have key : ∀ s s1 : sgrState F, s.span.Text = "" →
      (s.reset = some s1 ∨ sgrLoop params 0 s = some s1) → sameText s1.commit s.p := by
    intro s s1 hs hor
    have hf : s1.p.lines = s.p.lines ∧ s1.p.row = s.p.row ∧ s1.p.col = s.p.col ∧
        s1.span.Text = s.span.Text := by
      rcases hor with hr | hl
      · obtain ⟨e1, e2, e3, e4⟩ := reset_frame s s1 hr
        exact ⟨e1, e2, e3, by rw [e4]⟩
      · exact sgrLoop_frame params 0 s s1 hl
    obtain ⟨e1, e2, e3, e4⟩ := hf
    obtain ⟨c1, c2, c3⟩ := commit_frame s1 (by rw [e4, hs])
    exact ⟨by rw [c1]; simp only [dispatcher.lineTexts, e1], by rw [c2, e2], by rw [c3, e3]⟩
  unfold dispatcher.CsiDispatch at h
  split_ifs at h
  · cases h
    exact ⟨rfl, rfl, rfl⟩
  · simp only [Option.map_eq_some'] at h
    obtain ⟨s1, hs1, rfl⟩ := h
    exact key _ s1 (by rw [CreateAttr_Text]; rfl) (Or.inl hs1)
  · simp only [Option.map_eq_some'] at h
    obtain ⟨s1, hs1, rfl⟩ := h
    exact key _ s1 (by rw [CreateAttr_Text]; rfl) (Or.inr hs1)

/-- A run and the run of the same events without the CsiDispatch calls stay in step on
the text of every line and on the cursor. -/
theorem run_sim (RuneWidth : Char → Nat) (es : List Event) (p q p1 : dispatcher F)
    (hR : sameText p q) (h : p.run RuneWidth es = some p1) :
    ∃ q1, q.run RuneWidth (stripCsi es) = some q1 ∧ sameText p1 q1 := by
  induction es generalizing p q with
  | nil =>
    simp only [dispatcher.run] at h
    cases h
    exact ⟨q, rfl, hR⟩
  | cons e es ih =>
    simp only [dispatcher.run] at h
    cases hp : p.handle RuneWidth e with
    | none => rw [hp] at h; exact absurd h (by simp)
    | some p2 =>
      rw [hp] at h
      cases e with
      | Print r =>
        obtain ⟨q2, hq2, hR2⟩ := Print_sim RuneWidth p q p2 r hR hp
        obtain ⟨q1, hq1, hR1⟩ := ih p2 q2 hR2 h
        exact ⟨q1, by simp only [stripCsi, List.filter_cons, if_true, dispatcher.run,
          dispatcher.handle, hq2]; exact hq1, hR1⟩
      | Execute code =>
        obtain ⟨q2, hq2, hR2⟩ := Execute_sim RuneWidth p q p2 code hR hp
        obtain ⟨q1, hq1, hR1⟩ := ih p2 q2 hR2 h
        exact ⟨q1, by simp only [stripCsi, List.filter_cons, if_true, dispatcher.run,
          dispatcher.handle, hq2]; exact hq1, hR1⟩
      | CsiDispatch cmd params =>
        have hf := CsiDispatch_frame p p2 cmd params hp
        have hR2 : sameText p2 q :=
          ⟨hf.1.trans hR.1, hf.2.1.trans hR.2.1, hf.2.2.trans hR.2.2⟩
        obtain ⟨q1, hq1, hR1⟩ := ih p2 q hR2 h
        exact ⟨q1, by simp only [stripCsi, List.filter_cons, Bool.false_eq_true, if_false]; exact hq1,
          hR1⟩

/-- Styling does not change text where the dispatcher does not panic: when a run of
events completes, the run of the same events without the CsiDispatch calls
completes too, and every line has the same concatenated text in both. -/
theorem styling_preserves_text (RuneWidth : Char → Nat) (es : List Event) (p p1 : dispatcher F)
    (h : p.run RuneWidth es = some p1) :
    ∃ q1, p.run RuneWidth (stripCsi es) = some q1 ∧ p1.lineTexts = q1.lineTexts := by
  obtain ⟨q1, hq1, hR⟩ := run_sim RuneWidth es p p p1 ⟨rfl, rfl, rfl⟩ h
  exact ⟨q1, hq1, hR.1⟩

/-- The text-preservation theorem, evaluated on the events of `"\x1b[1;31mA\x1b[0m\tB"`. -/
theorem styling_preserves_text_witness :
    ∃ p1 q1,
      (newDispatcher [{ Attr := [], Child := [] }] (DefaultConfig : Config ℚ) 1).run
        (plainText : Collaborators ℚ).RuneWidth
        [Event.CsiDispatch 109 [1, 31], Event.Print 'A', Event.CsiDispatch 109 [0],
          Event.Execute 9, Event.Print 'B'] = some p1 ∧
      (newDispatcher [{ Attr := [], Child := [] }] (DefaultConfig : Config ℚ) 1).run
        (plainText : Collaborators ℚ).RuneWidth
        (stripCsi [Event.CsiDispatch 109 [1, 31], Event.Print 'A', Event.CsiDispatch 109 [0],
          Event.Execute 9, Event.Print 'B']) = some q1 ∧
      p1.lineTexts = q1.lineTexts := by
  cases h : (newDispatcher [{ Attr := [], Child := [] }] (DefaultConfig : Config ℚ) 1).run
        (plainText : Collaborators ℚ).RuneWidth
        [Event.CsiDispatch 109 [1, 31], Event.Print 'A', Event.CsiDispatch 109 [0],
          Event.Execute 9, Event.Print 'B'] with
  | none => exact absurd h (by decide!)
  | some p1 =>
    obtain ⟨q1, hq1, ht⟩ := styling_preserves_text _ _ _ p1 h
    exact ⟨p1, q1, rfl, hq1, ht⟩

/-- C9 fails on the code: the events of `"\x1b[38;5;256mA"` stay on row 0 of a one-line
grid, and the dispatcher panics on them (`palette[256]` is out of range), while
the same events without the CsiDispatch call print the text `A`. -/
theorem styled_run_panics_on_palette_index :
    (newDispatcher [{ Attr := [], Child := [] }] (DefaultConfig : Config ℚ) 1).run
      (plainText : Collaborators ℚ).RuneWidth
      [Event.CsiDispatch 109 [38, 5, 256], Event.Print 'A'] = none ∧
    ((newDispatcher [{ Attr := [], Child := [] }] (DefaultConfig : Config ℚ) 1).run
      (plainText : Collaborators ℚ).RuneWidth
      (stripCsi [Event.CsiDispatch 109 [38, 5, 256], Event.Print 'A'])).map
      (fun q => (q.lineTexts, q.row)) = some (["A"], 0) := by
  decide!

/-- cutLines never panics: the bounds of its slice expression always hold. -/
theorem cutLines_some (input : String) (lines : List Int) : ∃ s, cutLines input lines = some s := by
  have hn := Split_length_pos input
  unfold cutLines
  split
  · rename_i l0 l1
    simp only
    have hs : 0 ≤ (if l0 < 0 then 0 else l0) := by split <;> omega
    have he : (if l1 ≥ ((Split input).length : Int) ∨ l1 < 0
        then ((Split input).length : Int) - 1 else l1) < ((Split input).length : Int) := by
      split <;> omega
    generalize (if l0 < 0 then 0 else l0) = start at hs
    generalize (if l1 ≥ ((Split input).length : Int) ∨ l1 < 0
        then ((Split input).length : Int) - 1 else l1) = stop at he
    by_cases hgt : start > stop
    · rw [if_pos hgt]
      exact ⟨_, rfl⟩
    · rw [if_neg hgt]
      unfold slice
      rw [if_pos ⟨hs, by omega, by omega⟩]
      exact ⟨_, rfl⟩
  · exact ⟨_, rfl⟩

/-- Without line numbers, placing the lines of a syntax-highlighted render does not read
`config.Lines`. -/
theorem placeLines_ignores_Lines (X : Collaborators F) (c : Config F) (l : List Int)
    (scale : F) (pad mar : List F) (h : F) (hn : c.ShowLineNumbers = false)
    (i : Nat) (text : List (TextElement F)) :
    placeLines X { c with Lines := l } false scale pad mar h i text =
      placeLines X c false scale pad mar h i text := by
  induction text generalizing i with
  | nil => rfl
  | cons line rest ih =>
    simp only [placeLines, ih]
    congr 1
    simp [placeLine, hn]

/-- In a syntax-highlighted render the token iterator, and with it the text layer, is
built from the whole input: without line numbers the text lines of the
document are the same whatever the line range. -/
theorem generateSVG_lines_ignore_Lines (X : Collaborators F) (c : Config F) (input : String)
    (lexer : X.Lexer) (l : List Int) (hn : c.ShowLineNumbers = false) :
    (generateSVG X { c with Lines := l } input lexer false).lines =
      (generateSVG X c input lexer false).lines := by
  unfold generateSVG
  simp only [Bool.false_eq_true, if_false]
  cases X.Tokenise lexer input with
  | error e => rfl
  | ok it =>
    simp only
    unfold generateSVGFromIterator
    obtain ⟨s1, hs1⟩ : ∃ s, (if ({ c with Lines := l } : Config F).Lines.length = 2
        then cutLines input ({ c with Lines := l } : Config F).Lines else some input) = some s := by
      split
      · exact cutLines_some _ _
      · exact ⟨_, rfl⟩
    obtain ⟨s2, hs2⟩ : ∃ s, (if c.Lines.length = 2 then cutLines input c.Lines else some input)
        = some s := by
      split
      · exact cutLines_some _ _
      · exact ⟨_, rfl⟩
    simp only [hs1, hs2]
    cases X.Format c.Theme c.Background c.Font it with
    | error e => rfl
    | ok image =>
      simp only
      cases image.terminal with
      | false => rfl
      | true =>
        simp only [Bool.not_true, Bool.false_eq_true, if_false, textLayer,
          placeLines_ignores_Lines X _ l _ _ _ _ hn]
        cases image.textGroup <;> rfl

/-! ### Failures of the handler calls -/

/-- C11 fails on the code: over a one-line grid CsiDispatch panics on the 256-colour
index 256 (foreground and background form), and it panics on the bold code
once the newline of the last line has moved the row past the grid, where the
reset code, which tests `p.row < len(p.lines)`, completes. -/
theorem CsiDispatch_panics :
    (newDispatcher [{ Attr := [], Child := [] }] (DefaultConfig : Config ℚ) 1).CsiDispatch 109
      [38, 5, 256] = none ∧
    (newDispatcher [{ Attr := [], Child := [] }] (DefaultConfig : Config ℚ) 1).CsiDispatch 109
      [48, 5, 256] = none ∧
    ((newDispatcher [{ Attr := [], Child := [] }] (DefaultConfig : Config ℚ) 1).Execute
      (plainText : Collaborators ℚ).RuneWidth 10).map (fun p => (p.row, p.lines.length)) = some (1, 1) ∧
    ((newDispatcher [{ Attr := [], Child := [] }] (DefaultConfig : Config ℚ) 1).Execute
      (plainText : Collaborators ℚ).RuneWidth 10).bind (fun p => p.CsiDispatch 109 [1]) = none ∧
    ((newDispatcher [{ Attr := [], Child := [] }] (DefaultConfig : Config ℚ) 1).Execute
      (plainText : Collaborators ℚ).RuneWidth 10).bind (fun p => p.CsiDispatch 109 [0]) ≠ none := by
  decide!

theorem addSpan_some (s : sgrState F) (line : TextElement F)
    (h : index s.p.lines s.p.row = some line) : s.addSpan = some { s with added := true } := by
  unfold sgrState.addSpan
  rw [h]

theorem reset_some (s : sgrState F) (line : TextElement F)
    (h : index s.p.lines s.p.row = some line) : ∃ s1, s.reset = some s1 := by
  unfold sgrState.reset
  split_ifs
  · rw [addSpan_some s line h]
    exact ⟨_, rfl⟩
  · exact ⟨_, rfl⟩

theorem palette_length : palette.length = 256 := by decide!

theorem palette_some (n : Nat) (h : n < 256) : ∃ fill, palette.get? n = some fill := by
  have hn : n < palette.length := lt_of_lt_of_eq h palette_length.symm
  exact ⟨palette.get ⟨n, hn⟩, List.get?_eq_get hn⟩

/-- One round of the loop of CsiDispatch completes when the row is inside the grid and the
parameters that follow are below 256. -/
theorem sgrStep_some (v : Nat) (rest : List Nat) (s : sgrState F) (line : TextElement F)
    (h : index s.p.lines s.p.row = some line) (hpal : ∀ n ∈ rest, n < 256) :
    ∃ k s1, sgrStep v rest s = some (k, s1) := by
  have hadd : ∀ (t : sgrState F) (j : Nat), t.p = s.p →
      ∃ k s1, t.addSpan.map (fun s1 => (j, s1)) = some (k, s1) := by
    intro t j ht
    rw [addSpan_some t line (by rw [ht]; exact h)]
    exact ⟨_, _, rfl⟩
  unfold sgrStep
  by_cases h0 : v = 0
  · rw [if_pos h0]
    obtain ⟨s1, hs1⟩ := reset_some s line h
    rw [hs1]
    exact ⟨_, _, rfl⟩
  rw [if_neg h0]
  by_cases h1 : v = 1
  · rw [if_pos h1]
    exact hadd s 0 rfl
  rw [if_neg h1]
  by_cases h9 : v = 9
  · rw [if_pos h9]
    exact hadd _ 0 rfl
  rw [if_neg h9]
  by_cases h3 : v = 3
  · rw [if_pos h3]
    exact hadd _ 0 rfl
  rw [if_neg h3]
  by_cases h4 : v = 4
  · rw [if_pos h4]
    exact hadd _ 0 rfl
  rw [if_neg h4]
  by_cases hfg : v ∈ fgCodes
  · rw [if_pos hfg]
    exact hadd _ 0 rfl
  rw [if_neg hfg]
  by_cases h38 : v = 38
  · rw [if_pos h38]
    match rest, hpal with
    | [], _ => exact ⟨_, _, rfl⟩
    | sub :: rest1, hpal =>
      simp only
      by_cases hs5 : sub = 5
      · rw [if_pos hs5]
        match rest1, hpal with
        | [], _ => exact ⟨_, _, rfl⟩
        | n :: _, hpal =>
          simp only
          obtain ⟨fill, hfill⟩ := palette_some n (hpal n (by simp))
          rw [hfill]
          exact hadd _ 2 rfl
      · rw [if_neg hs5]
        by_cases hs2 : sub = 2
        · rw [if_pos hs2]
          match rest1, hpal with
          | [], _ => exact ⟨_, _, rfl⟩
          | [_], _ => exact ⟨_, _, rfl⟩
          | [_, _], _ => exact ⟨_, _, rfl⟩
          | r :: g :: b :: _, _ => exact hadd _ 4 rfl
        · rw [if_neg hs2]
          exact ⟨_, _, rfl⟩
  rw [if_neg h38]
  by_cases hbgc : v ∈ bgCodes
  · rw [if_pos hbgc]
    exact ⟨_, _, rfl⟩
  rw [if_neg hbgc]
  by_cases h48 : v = 48
  · rw [if_pos h48]
    match rest, hpal with
    | [], _ => exact ⟨_, _, rfl⟩
    | sub :: rest1, hpal =>
      simp only
      by_cases hs5 : sub = 5
      · rw [if_pos hs5]
        match rest1, hpal with
        | [], _ => exact ⟨_, _, rfl⟩
        | n :: _, hpal =>
          simp only
          obtain ⟨fill, hfill⟩ := palette_some n (hpal n (by simp))
          rw [hfill]
          exact ⟨_, _, rfl⟩
      · rw [if_neg hs5]
        by_cases hs2 : sub = 2
        · rw [if_pos hs2]
          match rest1, hpal with
          | [], _ => exact ⟨_, _, rfl⟩
          | [_], _ => exact ⟨_, _, rfl⟩
          | [_, _], _ => exact ⟨_, _, rfl⟩
          | r :: g :: b :: _, _ => exact ⟨_, _, rfl⟩
        · rw [if_neg hs2]
          exact ⟨_, _, rfl⟩
  rw [if_neg h48]
  exact ⟨_, _, rfl⟩

theorem sgrLoop_some (params : List Nat) (skip : Nat) (s : sgrState F) (line : TextElement F)
    (h : index s.p.lines s.p.row = some line) (hpal : ∀ n ∈ params, n < 256) :
    ∃ s1, sgrLoop params skip s = some s1 := by
  induction params generalizing skip s with
  | nil => exact ⟨s, by rw [sgrLoop]⟩
  | cons v rest ih =>
    have hrest : ∀ n ∈ rest, n < 256 := fun n hn => hpal n (by simp [hn])
    cases skip with
    | succ k =>
      rw [sgrLoop]
      exact ih k s h hrest
    | zero =>
      rw [sgrLoop]
      obtain ⟨k, s1, hs1⟩ := sgrStep_some v rest s line h hrest
      rw [hs1]
      obtain ⟨e1, e2, -, -⟩ := sgrStep_frame v rest s s1 k hs1
      exact ih k s1 (by rw [e1, e2]; exact h) hrest

/-- Where CsiDispatch does complete: on a row inside the grid, with every parameter
below 256, for every command. -/
theorem CsiDispatch_some_inside (p : dispatcher F) (cmd : Int) (params : List Nat)
    (h0 : 0 ≤ p.row) (h1 : p.row < p.lines.length) (hpal : ∀ n ∈ params, n < 256) :
    ∃ p1, p.CsiDispatch cmd params = some p1 := by
  obtain ⟨line, hline⟩ := index_of_bounds p.lines p.row h0 h1
  have hr : ∀ s : sgrState F, s.p = p → ∃ p1, s.reset.map sgrState.commit = some p1 := by
    intro s hs
    obtain ⟨s1, hs1⟩ := reset_some s line (by rw [hs]; exact hline)
    rw [hs1]
    exact ⟨_, rfl⟩
  have hl : ∀ s : sgrState F, s.p = p →
      ∃ p1, (sgrLoop params 0 s).map sgrState.commit = some p1 := by
    intro s hs
    obtain ⟨s1, hs1⟩ := sgrLoop_some params 0 s line (by rw [hs]; exact hline) hpal
    rw [hs1]
    exact ⟨_, rfl⟩
  unfold dispatcher.CsiDispatch
  split_ifs
  · exact ⟨p, rfl⟩
  · exact hr _ rfl
  · exact hl _ rfl

/-- C12: over a non-empty line list Print never fails, whatever the cursor row: it prints
on the line at the row clamped into `[0, lineCount-1]`, appends the rune to the
text of that line and leaves the other lines as they are; a row past the last
line prints on the last line, a negative row on the first. -/
theorem Print_clamps_row (RuneWidth : Char → Nat) (p : dispatcher F) (r : Char)
    (h : p.lines ≠ []) :
    ∃ p1 line line1, p.Print RuneWidth r = some p1 ∧
      p1.row = clamp p.row 0 ((p.lines.length : Int) - 1) ∧
      0 ≤ p1.row ∧ p1.row < p.lines.length ∧
      index p.lines p1.row = some line ∧
      p1.lines = p.lines.set p1.row.toNat line1 ∧
      line1.runText = line.runText ++ String.singleton r ∧
      ((p.lines.length : Int) ≤ p.row → p1.row = (p.lines.length : Int) - 1) ∧
      (p.row < 0 → p1.row = 0) := by
  have hpos : 0 < p.lines.length := List.length_pos.mpr h
  obtain ⟨hb0, hb1⟩ := clamp_bounds p.row p.lines.length hpos
  obtain ⟨line, hline⟩ := index_of_bounds p.lines _ hb0 hb1
  obtain ⟨line1, hp, htext⟩ := Print_inside_text RuneWidth
    ({ p with row := clamp p.row 0 ((p.lines.length : Int) - 1) } : dispatcher F) r line hline
  rw [← Print_clamped RuneWidth p r h] at hp
  refine ⟨_, line, line1, hp, rfl, hb0, hb1, hline, rfl, htext, ?_, ?_⟩
  · intro hge
    show clamp p.row 0 ((p.lines.length : Int) - 1) = (p.lines.length : Int) - 1
    unfold clamp
    split_ifs <;> omega
  · intro hneg
    show clamp p.row 0 ((p.lines.length : Int) - 1) = 0
    unfold clamp
    split_ifs
    omega

/-- C12, evaluated: on a two-line grid a rune printed at row 5 and a rune printed at row -3. -/
theorem Print_clamps_row_witness :
    (({ (newDispatcher [{ Attr := [], Child := [] }, { Attr := [], Child := [] }]
        (DefaultConfig : Config ℚ) 1) with row := 5 } : dispatcher ℚ).Print
        (plainText : Collaborators ℚ).RuneWidth 'x').map (fun p => (p.row, p.lineTexts))
      = some (1, ["", "x"]) ∧
    (({ (newDispatcher [{ Attr := [], Child := [] }, { Attr := [], Child := [] }]
        (DefaultConfig : Config ℚ) 1) with row := -3 } : dispatcher ℚ).Print
        (plainText : Collaborators ℚ).RuneWidth 'x').map (fun p => (p.row, p.lineTexts))
      = some (0, ["x", ""]) ∧
    ∃ p1 line line1,
      ({ (newDispatcher [{ Attr := [], Child := [] }, { Attr := [], Child := [] }]
        (DefaultConfig : Config ℚ) 1) with row := 5 } : dispatcher ℚ).Print
        (plainText : Collaborators ℚ).RuneWidth 'x' = some p1 ∧
      p1.row = clamp 5 0 ((2 : Int) - 1) ∧ 0 ≤ p1.row ∧ p1.row < (2 : Nat) ∧
      index [({ Attr := [], Child := [] } : TextElement ℚ), { Attr := [], Child := [] }] p1.row
        = some line ∧
      p1.lines = [({ Attr := [], Child := [] } : TextElement ℚ), { Attr := [], Child := [] }].set
        p1.row.toNat line1 ∧
      line1.runText = line.runText ++ String.singleton 'x' ∧
      (((2 : Nat) : Int) ≤ 5 → p1.row = ((2 : Nat) : Int) - 1) ∧ ((5 : Int) < 0 → p1.row = 0) :=
  ⟨by decide!, by decide!,
    Print_clamps_row (plainText : Collaborators ℚ).RuneWidth
      ({ (newDispatcher [{ Attr := [], Child := [] }, { Attr := [], Child := [] }]
        (DefaultConfig : Config ℚ) 1) with row := 5 } : dispatcher ℚ) 'x' (by simp [newDispatcher])⟩

/-- SGR 1 on a row inside the grid: a fresh run is appended to the line and nothing else
changes. -/
theorem CsiDispatch_bold (p : dispatcher F) (line : TextElement F)
    (h : index p.lines p.row = some line) :
    p.CsiDispatch 109 [1] = some { p with lines := (p.lines.set p.row.toNat
      (line.AddChild ((NewElement "tspan").CreateAttr "xml:space" (AttrValue.str "preserve")))) } := by
  simp [dispatcher.CsiDispatch, sgrLoop, sgrStep, sgrState.addSpan, sgrState.commit, h]

/-- C13 as stated fails: after the red foreground code a printed rune is red, and after the
red foreground code followed by the bold code it carries no fill. -/
theorem bold_resets_style_counterexample :
    ((newDispatcher [{ Attr := [], Child := [] }] (DefaultConfig : Config ℚ) 1).CsiDispatch 109
      [31]).bind (fun p => styleOfPrinted (plainText : Collaborators ℚ).RuneWidth p 'A')
      = some (some (AttrValue.str "#FF0000"), none, none) ∧
    (((newDispatcher [{ Attr := [], Child := [] }] (DefaultConfig : Config ℚ) 1).CsiDispatch 109
      [31]).bind (fun p => p.CsiDispatch 109 [1])).bind
      (fun p => styleOfPrinted (plainText : Collaborators ℚ).RuneWidth p 'A')
      = some (none, none, none) := by
  decide!

/-- C13, amended: SGR 1 adds no style attribute of its own but starts a new run. On a row
inside the grid CsiDispatch('m', [1]) completes, leaves the rectangles, the
open background, the cursor and the text of every line as they are, and a rune
printed after it carries no fill, font-style or text-decoration, whatever
applied before the bold code. -/
theorem bold_starts_unstyled_run (RuneWidth : Char → Nat) (p : dispatcher F) (r : Char)
    (h0 : 0 ≤ p.row) (h1 : p.row < p.lines.length) :
    ∃ p1, p.CsiDispatch 109 [1] = some p1 ∧
      p1.svg = p.svg ∧ p1.bg = p.bg ∧ p1.bgWidth = p.bgWidth ∧ p1.row = p.row ∧ p1.col = p.col ∧
      p1.lineTexts = p.lineTexts ∧
      styleOfPrinted RuneWidth p1 r = some (none, none, none) := by
  obtain ⟨line, hline⟩ := index_of_bounds p.lines p.row h0 h1
  have hbold := CsiDispatch_bold p line hline
  have hframe := CsiDispatch_frame p _ 109 [1] hbold
  generalize hq : ({ p with lines := (p.lines.set p.row.toNat
      (line.AddChild ((NewElement "tspan").CreateAttr "xml:space" (AttrValue.str "preserve")))) }
      : dispatcher F) = q at hbold hframe
  have qsvg : q.svg = p.svg := by rw [← hq]
  have qbg : q.bg = p.bg := by rw [← hq]
  have qw : q.bgWidth = p.bgWidth := by rw [← hq]
  have qrow : q.row = p.row := by rw [← hq]
  have qlines : q.lines = p.lines.set p.row.toNat
      (line.AddChild ((NewElement "tspan").CreateAttr "xml:space" (AttrValue.str "preserve"))) := by
    rw [← hq]
  refine ⟨q, hbold, qsvg, qbg, qw, qrow, hframe.2.2, hframe.1, ?_⟩
  have hidx : index q.lines q.row = some
      (line.AddChild ((NewElement "tspan").CreateAttr "xml:space" (AttrValue.str "preserve"))) := by
    rw [qlines, qrow]
    exact index_set p.lines p.row line _ hline
  obtain ⟨line2, hp2, -, hwide, -, hnarrow⟩ := Print_inside RuneWidth q r _ hidx
  have hch := ChildElements_AddChild line
    ((NewElement "tspan").CreateAttr "xml:space" (AttrValue.str "preserve") : Element F)
  have hidx2 : index (q.lines.set q.row.toNat line2) q.row = some line2 :=
    index_set q.lines q.row _ line2 hidx
  unfold styleOfPrinted
  rw [hp2]
  simp only [hidx2]
  by_cases hw : RuneWidth r > 1
  · rw [hwide hw _ _ hch]
    simp [styleOf, Element.SelectAttr, Element.CreateAttr, Element.SetText, NewElement, setAttr]
  · rw [hnarrow hw _ _ hch]
    simp [styleOf, Element.SelectAttr, Element.CreateAttr, Element.SetText, NewElement, setAttr]

/-- C13 amended, evaluated after the red foreground code and one printed rune. -/
theorem bold_starts_unstyled_run_witness :
    ∃ q p1,
      (newDispatcher [{ Attr := [], Child := [] }] (DefaultConfig : Config ℚ) 1).run
        (plainText : Collaborators ℚ).RuneWidth [Event.CsiDispatch 109 [31], Event.Print 'A']
        = some q ∧
      q.CsiDispatch 109 [1] = some p1 ∧
      p1.svg = q.svg ∧ p1.bg = q.bg ∧ p1.bgWidth = q.bgWidth ∧ p1.row = q.row ∧ p1.col = q.col ∧
      p1.lineTexts = q.lineTexts ∧
      styleOfPrinted (plainText : Collaborators ℚ).RuneWidth p1 'B' = some (none, none, none) := by
  cases h : (newDispatcher [{ Attr := [], Child := [] }] (DefaultConfig : Config ℚ) 1).run
        (plainText : Collaborators ℚ).RuneWidth [Event.CsiDispatch 109 [31], Event.Print 'A'] with
  | none => exact absurd h (by decide!)
  | some q =>
    have hrow : q.row = 0 ∧ q.lines.length = 1 := by
      have h2 : ((newDispatcher [{ Attr := [], Child := [] }] (DefaultConfig : Config ℚ) 1).run
        (plainText : Collaborators ℚ).RuneWidth [Event.CsiDispatch 109 [31], Event.Print 'A']).map
        (fun q => (q.row, q.lines.length)) = some (0, 1) := by decide!
      rw [h] at h2
      simpa using h2
    obtain ⟨p1, hp1⟩ := bold_starts_unstyled_run (plainText : Collaborators ℚ).RuneWidth q 'B'
      (by rw [hrow.1]) (by rw [hrow.1, hrow.2]; decide)
    exact ⟨q, p1, rfl, hp1⟩

/-! ### Geometry of the rendered document -/

theorem ok_of_lines_ne_none (o : Outcome (Document F)) (h : o.lines ≠ none) :
    ∃ d, o = Outcome.ok d := by
  cases o with
  | ok d => exact ⟨d, rfl⟩
  | error e => exact absurd rfl h
  | panic => exact absurd rfl h

/-- C14: when the render returns a document, an explicit width (`Width != 0`) is the
canvas width and an explicit height (`Height != 0`) is the canvas height,
whatever the content, padding, margin, border, window and line-number
settings. -/
theorem explicit_canvas_size_kept (X : Collaborators F) (c : Config F) (input : String)
    (it : X.Iterator) (isAnsi : Bool) (d : Document F)
    (h : generateSVGFromIterator X c input it isAnsi = Outcome.ok d) :
    ((c.Width == 0) = false → d.imageWidth = c.Width) ∧
    ((c.Height == 0) = false → d.imageHeight = c.Height) := by
  unfold generateSVGFromIterator at h
  simp only at h
  split at h
  · cases h
  · split at h
    · cases h
    · split at h
      · cases h
      · split at h
        · cases h
        · cases h
          constructor
          · intro hw
            simp [hw]
          · intro hh
            simp [hh]

/-- C14, evaluated: four lines rendered into 300 by 200 with window chrome, line numbers,
a border, padding and margin. -/
theorem explicit_canvas_size_kept_witness :
    ∃ d : Document ℚ,
      generateSVGFromIterator plainText
        { (DefaultConfig : Config ℚ) with
          Width := 300, Height := 200, Window := true, ShowLineNumbers := true,
          Margin := [10, 20], Border := { Radius := 4, Width := 2, Color := "#515151" } }
        "a\nbb\nccc\ndddd" "a\nbb\nccc\ndddd" false = Outcome.ok d ∧
      d.imageWidth = 300 ∧ d.imageHeight = 200 := by
  obtain ⟨d, h⟩ := ok_of_lines_ne_none (generateSVGFromIterator plainText
    { (DefaultConfig : Config ℚ) with
      Width := 300, Height := 200, Window := true, ShowLineNumbers := true,
      Margin := [10, 20], Border := { Radius := 4, Width := 2, Color := "#515151" } }
    "a\nbb\nccc\ndddd" "a\nbb\nccc\ndddd" false) (by decide!)
  have hk := explicit_canvas_size_kept plainText _ _ _ _ d h
  exact ⟨d, h, hk.1 (by decide!), hk.2 (by decide!)⟩

/-- The panel and canvas width of a document rendered with automatic width, as the code
computes them from the longest line of the processed input. -/
theorem auto_width_geometry (X : Collaborators F) (c : Config F) (input : String)
    (it : X.Iterator) (isAnsi : Bool) (d : Document F)
    (h : generateSVGFromIterator X c input it isAnsi = Outcome.ok d)
    (hw : (c.Width == 0) = true) :
    ∃ cut, (if c.Lines.length = 2 then cutLines input c.Lines else some input) = some cut ∧
      d.terminalWidth =
        (if c.ShowLineNumbers then
          (if c.Border.Width > 0 then
            ((X.Width (expandTabs (if isAnsi then 6 else 4)
                (X.Strip (if c.Wrap > 0 then X.Wrap cut c.Wrap else cut))) + 1 : Int) : F)
              * (c.Font.Size / fontHeightToWidthRatio) * (1.0 : F)
              + (side (c.expandPadding (1.0 : F)) left + side (c.expandPadding (1.0 : F)) right)
              - c.Border.Width * ((2 : Nat) : F)
          else
            ((X.Width (expandTabs (if isAnsi then 6 else 4)
                (X.Strip (if c.Wrap > 0 then X.Wrap cut c.Wrap else cut))) + 1 : Int) : F)
              * (c.Font.Size / fontHeightToWidthRatio) * (1.0 : F)
              + (side (c.expandPadding (1.0 : F)) left + side (c.expandPadding (1.0 : F)) right))
            + c.Font.Size * ((3 : Nat) : F) * (1.0 : F)
        else
          (if c.Border.Width > 0 then
            ((X.Width (expandTabs (if isAnsi then 6 else 4)
                (X.Strip (if c.Wrap > 0 then X.Wrap cut c.Wrap else cut))) + 1 : Int) : F)
              * (c.Font.Size / fontHeightToWidthRatio) * (1.0 : F)
              + (side (c.expandPadding (1.0 : F)) left + side (c.expandPadding (1.0 : F)) right)
              - c.Border.Width * ((2 : Nat) : F)
          else
            ((X.Width (expandTabs (if isAnsi then 6 else 4)
                (X.Strip (if c.Wrap > 0 then X.Wrap cut c.Wrap else cut))) + 1 : Int) : F)
              * (c.Font.Size / fontHeightToWidthRatio) * (1.0 : F)
              + (side (c.expandPadding (1.0 : F)) left + side (c.expandPadding (1.0 : F)) right))) ∧
      d.imageWidth =
        (if c.ShowLineNumbers then
          ((X.Width (expandTabs (if isAnsi then 6 else 4)
              (X.Strip (if c.Wrap > 0 then X.Wrap cut c.Wrap else cut))) + 1 : Int) : F)
            * (c.Font.Size / fontHeightToWidthRatio) * (1.0 : F)
            + (side (c.expandPadding (1.0 : F)) left + side (c.expandPadding (1.0 : F)) right)
            + (side (c.expandMargin (1.0 : F)) left + side (c.expandMargin (1.0 : F)) right)
            + c.Font.Size * ((3 : Nat) : F) * (1.0 : F)
        else
          ((X.Width (expandTabs (if isAnsi then 6 else 4)
              (X.Strip (if c.Wrap > 0 then X.Wrap cut c.Wrap else cut))) + 1 : Int) : F)
            * (c.Font.Size / fontHeightToWidthRatio) * (1.0 : F)
            + (side (c.expandPadding (1.0 : F)) left + side (c.expandPadding (1.0 : F)) right)
            + (side (c.expandMargin (1.0 : F)) left + side (c.expandMargin (1.0 : F)) right)) := by
  unfold generateSVGFromIterator at h
  simp only at h
  split at h
  · cases h
  · rename_i cut hcut
    refine ⟨cut, hcut, ?_⟩
    split at h
    · cases h
    · split at h
      · cases h
      · split at h
        · cases h
        · cases h
          constructor
          · simp only [hw, if_true]
          · simp only [hw, if_true]
            cases isAnsi <;> cases c.ShowLineNumbers <;> simp

/-- In exact arithmetic the panel width is strictly increasing in the font size, also
for sizes that are not positive (the width `lipgloss.Width` measures is never
negative). -/
theorem auto_width_strict_exact (X : Collaborators ℚ) (c : Config ℚ) (input : String)
    (it : X.Iterator) (isAnsi : Bool) (s1 s2 : ℚ) (d1 d2 : Document ℚ)
    (hw : c.Width = 0) (hlt : s1 < s2) (hX : ∀ s, 0 ≤ X.Width s)
    (h1 : generateSVGFromIterator X { c with Font := { c.Font with Size := s1 } } input it isAnsi
      = Outcome.ok d1)
    (h2 : generateSVGFromIterator X { c with Font := { c.Font with Size := s2 } } input it isAnsi
      = Outcome.ok d2) :
    d1.terminalWidth < d2.terminalWidth := by
  have hw' : ∀ s : ℚ, (({ c with Font := { c.Font with Size := s } } : Config ℚ).Width == 0) = true := by
    intro s
    show decide (c.Width = 0) = true
    simp [hw]
  obtain ⟨cut1, hcut1, ht1, -⟩ := auto_width_geometry X _ input it isAnsi d1 h1 (hw' s1)
  obtain ⟨cut2, hcut2, ht2, -⟩ := auto_width_geometry X _ input it isAnsi d2 h2 (hw' s2)
  have hcut : cut1 = cut2 := Option.some.inj (hcut1.symm.trans hcut2)
  subst hcut
  rw [ht1, ht2]
  have hL := hX (expandTabs (if isAnsi then 6 else 4)
    (X.Strip (if c.Wrap > 0 then X.Wrap cut1 c.Wrap else cut1)))
  generalize X.Width (expandTabs (if isAnsi then 6 else 4)
    (X.Strip (if c.Wrap > 0 then X.Wrap cut1 c.Wrap else cut1))) = L at hL
  have hA : (0 : ℚ) < ((L + 1 : Int) : ℚ) := by exact_mod_cast (by omega : (0 : Int) < L + 1)
  have hpad : ∀ s : ℚ, ({ c with Font := { c.Font with Size := s } } : Config ℚ).expandPadding 1.0
      = c.expandPadding 1.0 := fun s => rfl
  simp only [hpad]
  generalize side (c.expandPadding 1.0) left + side (c.expandPadding 1.0) right = P
  have hdiv : s1 / (1.68 : ℚ) < s2 / 1.68 := div_lt_div_of_pos_right hlt (by norm_num)
  have key : ((L + 1 : Int) : ℚ) * (s1 / 1.68) * 1.0 < ((L + 1 : Int) : ℚ) * (s2 / 1.68) * 1.0 := by
    have := mul_lt_mul_of_pos_left hdiv hA
    norm_num at this ⊢
    linarith
  have key3 : s1 * ((3 : Nat) : ℚ) * 1.0 < s2 * ((3 : Nat) : ℚ) * 1.0 := by
    norm_num
    linarith
  show (if c.ShowLineNumbers = true then
      (if c.Border.Width > 0 then
        ((L + 1 : Int) : ℚ) * (s1 / 1.68) * 1.0 + P - c.Border.Width * ((2 : Nat) : ℚ)
      else ((L + 1 : Int) : ℚ) * (s1 / 1.68) * 1.0 + P) + s1 * ((3 : Nat) : ℚ) * 1.0
    else
      (if c.Border.Width > 0 then
        ((L + 1 : Int) : ℚ) * (s1 / 1.68) * 1.0 + P - c.Border.Width * ((2 : Nat) : ℚ)
      else ((L + 1 : Int) : ℚ) * (s1 / 1.68) * 1.0 + P))
    < (if c.ShowLineNumbers = true then
      (if c.Border.Width > 0 then
        ((L + 1 : Int) : ℚ) * (s2 / 1.68) * 1.0 + P - c.Border.Width * ((2 : Nat) : ℚ)
      else ((L + 1 : Int) : ℚ) * (s2 / 1.68) * 1.0 + P) + s2 * ((3 : Nat) : ℚ) * 1.0
    else
      (if c.Border.Width > 0 then
        ((L + 1 : Int) : ℚ) * (s2 / 1.68) * 1.0 + P - c.Border.Width * ((2 : Nat) : ℚ)
      else ((L + 1 : Int) : ℚ) * (s2 / 1.68) * 1.0 + P))
  split_ifs <;> linarith

theorem le_of_lt_law (hF : MonotoneArithmetic F) (a b : F) (h : a < b) : a ≤ b := by
  rcases hF.le_total a b with hab | hba
  · exact hab
  · exact absurd h ((hF.not_lt b a).mpr hba)

theorem le_refl_law (hF : MonotoneArithmetic F) (a : F) : a ≤ a := by
  rcases hF.le_total a a with h | h <;> exact h

/-- C15 as stated fails: in binary64 arithmetic the text `ab`, rendered with the default
configuration and automatic width, has the panel width 65 at the font size 14
and at the next size up, 14.000000000000002 (both sizes divided by 1.68 round
to the same number). -/
theorem auto_width_equal_counterexample :
    (((14 : Nat) : Binary64) < (14.000000000000002 : Binary64)) ∧
    (match generateSVGFromIterator plainText
        { (DefaultConfig : Config Binary64) with
          Font := { (DefaultConfig : Config Binary64).Font with Size := ((14 : Nat) : Binary64) } }
        "ab" "ab" false with
      | Outcome.ok d => some d.terminalWidth
      | _ => none) = some ⟨65⟩ ∧
    (match generateSVGFromIterator plainText
        { (DefaultConfig : Config Binary64) with
          Font := { (DefaultConfig : Config Binary64).Font with Size := (14.000000000000002 : Binary64) } }
        "ab" "ab" false with
      | Outcome.ok d => some d.terminalWidth
      | _ => none) = some ⟨65⟩ := by
  refine ⟨by decide!, by decide!, by decide!⟩

/-- C15, amended: with automatic width and everything but the font size fixed, the panel
width of the rendered document does not decrease when the font size grows:
for font sizes `s1 < s2` the width computed with `s1` is at most the one
computed with `s2`.  This holds in every arithmetic with the order laws,
binary64 included (the width `lipgloss.Width` measures is never negative). -/
theorem auto_width_monotone (hF : MonotoneArithmetic F) (X : Collaborators F) (c : Config F)
    (input : String) (it : X.Iterator) (isAnsi : Bool) (s1 s2 : F) (d1 d2 : Document F)
    (hw : (c.Width == 0) = true) (hlt : s1 < s2) (hX : ∀ s, 0 ≤ X.Width s)
    (h1 : generateSVGFromIterator X { c with Font := { c.Font with Size := s1 } } input it isAnsi
      = Outcome.ok d1)
    (h2 : generateSVGFromIterator X { c with Font := { c.Font with Size := s2 } } input it isAnsi
      = Outcome.ok d2) :
    d1.terminalWidth ≤ d2.terminalWidth := by
  obtain ⟨cut1, hcut1, ht1, -⟩ := auto_width_geometry X _ input it isAnsi d1 h1 hw
  obtain ⟨cut2, hcut2, ht2, -⟩ := auto_width_geometry X _ input it isAnsi d2 h2 hw
  have hcut : cut1 = cut2 := Option.some.inj (hcut1.symm.trans hcut2)
  subst hcut
  rw [ht1, ht2]
  have hL := hX (expandTabs (if isAnsi then 6 else 4)
    (X.Strip (if c.Wrap > 0 then X.Wrap cut1 c.Wrap else cut1)))
  generalize X.Width (expandTabs (if isAnsi then 6 else 4)
    (X.Strip (if c.Wrap > 0 then X.Wrap cut1 c.Wrap else cut1))) = L at hL
  have hA : (0 : F) ≤ ((L + 1 : Int) : F) := hF.intCast_nonneg (L + 1) (by omega)
  have hpad : ∀ s : F, ({ c with Font := { c.Font with Size := s } } : Config F).expandPadding 1.0
      = c.expandPadding 1.0 := fun s => rfl
  simp only [hpad]
  generalize side (c.expandPadding 1.0) left + side (c.expandPadding 1.0) right = P
  have hle : s1 ≤ s2 := le_of_lt_law hF s1 s2 hlt
  -- the cell width, the text width and the text width with the padding
  have hdiv : s1 / (fontHeightToWidthRatio : F) ≤ s2 / fontHeightToWidthRatio :=
    hF.div_le_div_right _ _ _ hF.fontRatio_pos hle
  have hmul : ((L + 1 : Int) : F) * (s1 / fontHeightToWidthRatio) * (1.0 : F)
      ≤ ((L + 1 : Int) : F) * (s2 / fontHeightToWidthRatio) * (1.0 : F) :=
    hF.mul_le_mul_right _ _ _ hF.one_nonneg (hF.mul_le_mul_left _ _ _ hA hdiv)
  have hP : ((L + 1 : Int) : F) * (s1 / fontHeightToWidthRatio) * (1.0 : F) + P
      ≤ ((L + 1 : Int) : F) * (s2 / fontHeightToWidthRatio) * (1.0 : F) + P :=
    hF.add_le_add _ _ _ _ hmul (le_refl_law hF P)
  have hB : ((L + 1 : Int) : F) * (s1 / fontHeightToWidthRatio) * (1.0 : F) + P
        - c.Border.Width * ((2 : Nat) : F)
      ≤ ((L + 1 : Int) : F) * (s2 / fontHeightToWidthRatio) * (1.0 : F) + P
        - c.Border.Width * ((2 : Nat) : F) :=
    hF.sub_le_sub_right _ _ _ hP
  -- the width of the gutter
  have h3 : s1 * ((3 : Nat) : F) * (1.0 : F) ≤ s2 * ((3 : Nat) : F) * (1.0 : F) :=
    hF.mul_le_mul_right _ _ _ hF.one_nonneg
      (hF.mul_le_mul_right _ _ _ (hF.natCast_nonneg 3) hle)
  show (if c.ShowLineNumbers = true then
      (if c.Border.Width > 0 then
        ((L + 1 : Int) : F) * (s1 / fontHeightToWidthRatio) * 1.0 + P
          - c.Border.Width * ((2 : Nat) : F)
      else ((L + 1 : Int) : F) * (s1 / fontHeightToWidthRatio) * 1.0 + P)
        + s1 * ((3 : Nat) : F) * 1.0
    else
      (if c.Border.Width > 0 then
        ((L + 1 : Int) : F) * (s1 / fontHeightToWidthRatio) * 1.0 + P
          - c.Border.Width * ((2 : Nat) : F)
      else ((L + 1 : Int) : F) * (s1 / fontHeightToWidthRatio) * 1.0 + P))
    ≤ (if c.ShowLineNumbers = true then
      (if c.Border.Width > 0 then
        ((L + 1 : Int) : F) * (s2 / fontHeightToWidthRatio) * 1.0 + P
          - c.Border.Width * ((2 : Nat) : F)
      else ((L + 1 : Int) : F) * (s2 / fontHeightToWidthRatio) * 1.0 + P)
        + s2 * ((3 : Nat) : F) * 1.0
    else
      (if c.Border.Width > 0 then
        ((L + 1 : Int) : F) * (s2 / fontHeightToWidthRatio) * 1.0 + P
          - c.Border.Width * ((2 : Nat) : F)
      else ((L + 1 : Int) : F) * (s2 / fontHeightToWidthRatio) * 1.0 + P))
  by_cases hn : c.ShowLineNumbers = true
  · simp only [hn, if_true]
    by_cases hb : c.Border.Width > 0
    · simp only [hb, if_true]
      exact hF.add_le_add _ _ _ _ hB h3
    · simp only [hb, if_false]
      exact hF.add_le_add _ _ _ _ hP h3
  · simp only [hn, if_false]
    by_cases hb : c.Border.Width > 0
    · simp only [hb, if_true]
      exact hB
    · simp only [hb, if_false]
      exact hP

/-- C15, evaluated in binary64: the text `ab` rendered at the font sizes 14 and
14.000000000000002 with the default configuration. -/
theorem auto_width_monotone_witness :
    ∃ d1 d2 : Document Binary64,
      generateSVGFromIterator plainText
        { (DefaultConfig : Config Binary64) with
          Font := { (DefaultConfig : Config Binary64).Font with Size := ((14 : Nat) : Binary64) } }
        "ab" "ab" false = Outcome.ok d1 ∧
      generateSVGFromIterator plainText
        { (DefaultConfig : Config Binary64) with
          Font := { (DefaultConfig : Config Binary64).Font with Size := (14.000000000000002 : Binary64) } }
        "ab" "ab" false = Outcome.ok d2 ∧
      d1.terminalWidth ≤ d2.terminalWidth := by
  obtain ⟨d1, h1⟩ := ok_of_lines_ne_none (generateSVGFromIterator plainText
    { (DefaultConfig : Config Binary64) with
      Font := { (DefaultConfig : Config Binary64).Font with Size := ((14 : Nat) : Binary64) } }
    "ab" "ab" false) (by decide!)
  obtain ⟨d2, h2⟩ := ok_of_lines_ne_none (generateSVGFromIterator plainText
    { (DefaultConfig : Config Binary64) with
      Font := { (DefaultConfig : Config Binary64).Font with Size := (14.000000000000002 : Binary64) } }
    "ab" "ab" false) (by decide!)
  exact ⟨d1, d2, h1, h2,
    auto_width_monotone monotoneArithmetic_binary64 plainText (DefaultConfig : Config Binary64)
      "ab" "ab" false ((14 : Nat) : Binary64) (14.000000000000002 : Binary64) d1 d2 (by decide!)
      (by decide!) (fun s => Int.ofNat_nonneg _) h1 h2⟩

/-! ### Configurations in memory -/

theorem keeps_refl (m : Memory F) : m.keeps m :=
  ⟨fun _ _ h => h, fun _ _ h => h, fun _ _ h => h⟩

theorem keeps_trans (m m1 m2 : Memory F) (h1 : m.keeps m1) (h2 : m1.keeps m2) : m.keeps m2 :=
  ⟨fun a x h => h2.1 a x (h1.1 a x h), fun a x h => h2.2.1 a x (h1.2.1 a x h),
    fun a x h => h2.2.2 a x (h1.2.2 a x h)⟩

theorem get?_append_of_some {α : Type} (xs ys : List α) (a : Nat) (x : α)
    (h : xs.get? a = some x) : (xs ++ ys).get? a = some x := by
  have hlt : a < xs.length := by
    by_contra hge
    rw [List.get?_eq_none.mpr (by omega)] at h
    exact absurd h (by simp)
  rw [List.get?_eq_getElem?] at h ⊢
  rw [List.getElem?_append_left hlt]
  exact h

theorem get?_set_of_none {α : Type} (xs ys : List α) (a b : Nat) (x y : α)
    (hb : xs.get? b = none) (h : xs.get? a = some x)
    (hys : ∀ k z, xs.get? k = some z → ys.get? k = some z) :
    (ys.set b y).get? a = some x := by
  have hne : b ≠ a := by
    intro heq
    rw [heq, h] at hb
    exact absurd hb (by simp)
  rw [List.get?_eq_getElem?, List.getElem?_set_ne hne, ← List.get?_eq_getElem?]
  exact hys a x h

theorem keeps_allocFloats (m : Memory F) (xs : List F) : m.keeps (m.allocFloats xs).1 :=
  ⟨fun a x h => get?_append_of_some _ _ a x h, fun _ _ h => h, fun _ _ h => h⟩

theorem keeps_allocInts (m : Memory F) (xs : List Int) : m.keeps (m.allocInts xs).1 :=
  ⟨fun _ _ h => h, fun a x h => get?_append_of_some _ _ a x h, fun _ _ h => h⟩

theorem keeps_allocConfig (m : Memory F) (cell : ConfigCell F) : m.keeps (m.allocConfig cell).1 :=
  ⟨fun _ _ h => h, fun _ _ h => h, fun a x h => get?_append_of_some _ _ a x h⟩

/-- A pointer shows the same configuration in a memory that keeps what it points at. -/
theorem load_of_keeps (m m1 : Memory F) (c : Nat) (cfg : Config F) (hk : m.keeps m1)
    (h : m.load c = some cfg) : m1.load c = some cfg := by
  unfold Memory.load at h ⊢
  cases hc : m.configs.get? c with
  | none => rw [hc] at h; exact absurd h (by simp)
  | some cell =>
    rw [hc] at h
    rw [hk.2.2 c cell hc]
    simp only at h ⊢
    cases hm : m.floats.get? cell.Margin with
    | none => rw [hm] at h; exact absurd h (by simp)
    | some margin =>
      cases hp : m.floats.get? cell.Padding with
      | none => rw [hm, hp] at h; exact absurd h (by simp)
      | some padding =>
        cases hl : m.ints.get? cell.Lines with
        | none => rw [hm, hp, hl] at h; exact absurd h (by simp)
        | some lines =>
          rw [hm, hp, hl] at h
          rw [hk.1 _ _ hm, hk.1 _ _ hp, hk.2.1 _ _ hl]
          exact h

/-- A change within structs and arrays that `m` does not have keeps what `m` has. -/
theorem keeps_write (m m1 : Memory F) (w : Write F) (c margin padding lines : Nat)
    (hk : m.keeps m1) (hc : m.configs.get? c = none) (hm : m.floats.get? margin = none)
    (hp : m.floats.get? padding = none) (hl : m.ints.get? lines = none)
    (hw : w.within c margin padding lines) : m.keeps (m1.write w) := by
  cases w with
  | float a i v =>
    refine ⟨fun k x h => ?_, hk.2.1, hk.2.2⟩
    have ha : m.floats.get? a = none := by
      rcases hw with rfl | rfl
      · exact hm
      · exact hp
    exact get?_set_of_none m.floats m1.floats k a x _ ha h hk.1
  | int a i v =>
    refine ⟨hk.1, fun k x h => ?_, hk.2.2⟩
    have ha : m.ints.get? a = none := by
      have : a = lines := hw
      rw [this]
      exact hl
    exact get?_set_of_none m.ints m1.ints k a x _ ha h hk.2.1
  | config c1 cell =>
    refine ⟨hk.1, hk.2.1, fun k x h => ?_⟩
    have ha : m.configs.get? c1 = none := by
      have : c1 = c := hw
      rw [this]
      exact hc
    exact get?_set_of_none m.configs m1.configs k c1 x _ ha h hk.2.2

theorem keeps_writes (m m1 : Memory F) (ws : List (Write F)) (c margin padding lines : Nat)
    (hk : m.keeps m1) (hc : m.configs.get? c = none) (hm : m.floats.get? margin = none)
    (hp : m.floats.get? padding = none) (hl : m.ints.get? lines = none)
    (hw : ∀ w ∈ ws, w.within c margin padding lines) : m.keeps (m1.writes ws) := by
  induction ws generalizing m1 with
  | nil => exact hk
  | cons w ws ih =>
    exact ih (m1.write w)
      (keeps_write m m1 w c margin padding lines hk hc hm hp hl (hw w (by simp)))
      (fun w1 h1 => hw w1 (by simp [h1]))

theorem goCopy_make {α : Type} (z : α) (src : List α) :
    goCopy (List.replicate src.length z) src = src := by
  simp [goCopy]

theorem load_some (m : Memory F) (c : Nat) (cfg : Config F) (h : m.load c = some cfg) :
    ∃ cell margin padding lines, m.configs.get? c = some cell ∧
      m.floats.get? cell.Margin = some margin ∧ m.floats.get? cell.Padding = some padding ∧
      m.ints.get? cell.Lines = some lines ∧
      cfg =
        { Background := cell.Background
          Margin := margin
          Padding := padding
          Window := cell.Window
          Width := cell.Width
          Height := cell.Height
          Language := cell.Language
          Theme := cell.Theme
          Wrap := cell.Wrap
          Border := cell.Border
          Shadow := cell.Shadow
          Font := cell.Font
          LineHeight := cell.LineHeight
          Lines := lines
          ShowLineNumbers := cell.ShowLineNumbers } := by
  unfold Memory.load at h
  cases hc : m.configs.get? c with
  | none => rw [hc] at h; exact absurd h (by simp)
  | some cell =>
    rw [hc] at h
    simp only at h
    cases hm : m.floats.get? cell.Margin with
    | none => rw [hm] at h; exact absurd h (by simp)
    | some margin =>
      cases hp : m.floats.get? cell.Padding with
      | none => rw [hm, hp] at h; exact absurd h (by simp)
      | some padding =>
        cases hl : m.ints.get? cell.Lines with
        | none => rw [hm, hp, hl] at h; exact absurd h (by simp)
        | some lines =>
          rw [hm, hp, hl] at h
          exact ⟨cell, margin, padding, lines, rfl, hm, hp, hl, (Option.some.inj h).symm⟩

theorem load_of_gets (m : Memory F) (c : Nat) (cell : ConfigCell F) (margin padding : List F)
    (lines : List Int) (hc : m.configs.get? c = some cell)
    (hm : m.floats.get? cell.Margin = some margin) (hp : m.floats.get? cell.Padding = some padding)
    (hl : m.ints.get? cell.Lines = some lines) :
    m.load c = some
        { Background := cell.Background
          Margin := margin
          Padding := padding
          Window := cell.Window
          Width := cell.Width
          Height := cell.Height
          Language := cell.Language
          Theme := cell.Theme
          Wrap := cell.Wrap
          Border := cell.Border
          Shadow := cell.Shadow
          Font := cell.Font
          LineHeight := cell.LineHeight
          Lines := lines
          ShowLineNumbers := cell.ShowLineNumbers } := by
  unfold Memory.load
  rw [hc]
  simp only [hm, hp, hl]

theorem get?_length_append {α : Type} (xs : List α) (x : α) (ys : List α) :
    (xs ++ x :: ys).get? xs.length = some x := by
  rw [List.get?_eq_getElem?, List.getElem?_append_right (le_refl _)]
  simp

theorem get?_length_none {α : Type} (xs : List α) (k : Nat) : xs.get? (xs.length + k) = none :=
  List.get?_eq_none.mpr (by omega)

/-- What Clone allocates: copies of the three backing arrays behind the arrays of the
memory, and the struct with the addresses of the copies behind the structs. -/
theorem Clone_eq (m : Memory F) (c : Nat) (cell : ConfigCell F) (margin padding : List F)
    (lines : List Int) (hc : m.configs.get? c = some cell)
    (hm : m.floats.get? cell.Margin = some margin) (hp : m.floats.get? cell.Padding = some padding)
    (hl : m.ints.get? cell.Lines = some lines) :
    Clone m c = some
      ({ floats := m.floats ++ [margin, padding]
         ints := m.ints ++ [lines]
         configs := m.configs ++
          [{ cell with Margin := m.floats.length, Padding := m.floats.length + 1,
                       Lines := m.ints.length }] },
        m.configs.length) := by
  unfold Clone
  rw [hc]
  simp only [hm, hp, hl, goCopy_make, Memory.allocFloats, Memory.allocInts, Memory.allocConfig,
    List.length_append, List.length_singleton, List.append_assoc, List.singleton_append]

/-- C17: Clone is a deep copy. The clone shows the same configuration as `c`, field by
field and element by element; it is a struct of its own with backing arrays of
its own; and after any later changes to the fields of the clone or to the
elements of its Margin, Padding or Lines, `c` still shows the configuration it
showed before. -/
theorem Clone_deep_copy (m : Memory F) (c : Nat) (cfg : Config F) (h : m.load c = some cfg) :
    ∃ m1 c1 cell1, Clone m c = some (m1, c1) ∧ m1.configs.get? c1 = some cell1 ∧
      m1.load c1 = some cfg ∧ m1.load c = some cfg ∧ c1 ≠ c ∧
      ∀ ws : List (Write F),
        (∀ w ∈ ws, w.within c1 cell1.Margin cell1.Padding cell1.Lines) →
        (m1.writes ws).load c = some cfg := by
  obtain ⟨cell, margin, padding, lines, hc, hm, hp, hl, hcfg⟩ := load_some m c cfg h
  have hclone := Clone_eq m c cell margin padding lines hc hm hp hl
  have hk : m.keeps
      ({ floats := m.floats ++ [margin, padding]
         ints := m.ints ++ [lines]
         configs := m.configs ++
          [{ cell with Margin := m.floats.length, Padding := m.floats.length + 1,
                       Lines := m.ints.length }] } : Memory F) :=
    ⟨fun a x hx => get?_append_of_some _ _ a x hx, fun a x hx => get?_append_of_some _ _ a x hx,
      fun a x hx => get?_append_of_some _ _ a x hx⟩
  have hload1 :
      ({ floats := m.floats ++ [margin, padding]
         ints := m.ints ++ [lines]
         configs := m.configs ++
          [{ cell with Margin := m.floats.length, Padding := m.floats.length + 1,
                       Lines := m.ints.length }] } : Memory F).load m.configs.length = some cfg := by
    rw [hcfg]
    refine load_of_gets _ _
      ({ cell with Margin := m.floats.length, Padding := m.floats.length + 1,
                   Lines := m.ints.length } : ConfigCell F)
      margin padding lines (get?_length_append _ _ _) ?_ ?_ ?_
    · exact get?_length_append _ _ _
    · show (m.floats ++ [margin, padding]).get? (m.floats.length + 1) = some padding
      rw [List.get?_eq_getElem?, List.getElem?_append_right (by omega)]
      simp
    · exact get?_length_append _ _ _
  refine ⟨_, _, _, hclone, get?_length_append _ _ _, hload1, load_of_keeps m _ c cfg hk h, ?_, ?_⟩
  · intro heq
    have := get?_length_none m.configs 0
    rw [Nat.add_zero, heq, hc] at this
    exact absurd this (by simp)
  · intro ws hws
    exact load_of_keeps m _ c cfg
      (keeps_writes m _ ws m.configs.length m.floats.length (m.floats.length + 1) m.ints.length hk
        (get?_length_none _ 0) (get?_length_none _ 0) (get?_length_none _ 1) (get?_length_none _ 0)
        hws) h

theorem load_eq_read (m : Memory F) (c : Nat) (cell : ConfigCell F)
    (hc : m.configs.get? c = some cell) : m.load c = m.read cell := by
  unfold Memory.load Memory.read
  rw [hc]

/-- The body of the With methods: the new instance shows the configuration the setter
makes of the receiver's, and the receiver's pointer shows what it showed. -/
theorem withSetter_spec (f : Freeze) (m : Memory F) (cfg cfg1 : Config F)
    (set : ConfigCell F → ConfigCell F) (h : m.load f.config = some cfg)
    (hset : ∀ (m1 : Memory F) (cell1 : ConfigCell F), m.keeps m1 → m1.read cell1 = some cfg →
      m1.read (set cell1) = some cfg1) :
    IsNewInstance f cfg (f.withSetter m set) cfg1 := by
  obtain ⟨cell, margin, padding, lines, hc, hm, hp, hl, hcfg⟩ := load_some m f.config cfg h
  have hclone := Clone_eq m f.config cell margin padding lines hc hm hp hl
  generalize hm1 :
      ({ floats := m.floats ++ [margin, padding]
         ints := m.ints ++ [lines]
         configs := m.configs ++
          [{ cell with Margin := m.floats.length, Padding := m.floats.length + 1,
                       Lines := m.ints.length }] } : Memory F) = m1 at hclone
  generalize hcell1 :
      ({ cell with Margin := m.floats.length, Padding := m.floats.length + 1,
                   Lines := m.ints.length } : ConfigCell F) = cell1 at hm1
  have hk : m.keeps m1 := by
    rw [← hm1]
    exact ⟨fun a x hx => get?_append_of_some _ _ a x hx,
      fun a x hx => get?_append_of_some _ _ a x hx, fun a x hx => get?_append_of_some _ _ a x hx⟩
  have hget1 : m1.configs.get? m.configs.length = some cell1 := by
    rw [← hm1]
    exact get?_length_append _ _ _
  have hlen1 : m.configs.length < m1.configs.length := by
    rw [← hm1]
    simp
  have hread1 : m1.read cell1 = some cfg := by
    rw [← load_eq_read m1 _ cell1 hget1, ← hm1, ← hcell1, hcfg]
    refine load_of_gets _ _
      ({ cell with Margin := m.floats.length, Padding := m.floats.length + 1,
                   Lines := m.ints.length } : ConfigCell F)
      margin padding lines (get?_length_append _ _ _) ?_ ?_ ?_
    · exact get?_length_append _ _ _
    · show (m.floats ++ [margin, padding]).get? (m.floats.length + 1) = some padding
      rw [List.get?_eq_getElem?, List.getElem?_append_right (by omega)]
      simp
    · exact get?_length_append _ _ _
  have hk2 : m.keeps (m1.write (Write.config m.configs.length (set cell1))) :=
    keeps_write m m1 _ m.configs.length m.floats.length m.floats.length m.ints.length hk
      (get?_length_none _ 0) (get?_length_none _ 0) (get?_length_none _ 0) (get?_length_none _ 0) rfl
  have hne : m.configs.length ≠ f.config := by
    intro heq
    have := get?_length_none m.configs 0
    rw [Nat.add_zero, heq, hc] at this
    exact absurd this (by simp)
  have hget2 : (m1.write (Write.config m.configs.length (set cell1))).configs.get? m.configs.length
      = some (set cell1) := by
    show (m1.configs.set m.configs.length (set cell1)).get? m.configs.length = some (set cell1)
    rw [List.get?_eq_getElem?, List.getElem?_set_self hlen1]
  have hload2 : (m1.write (Write.config m.configs.length (set cell1))).load m.configs.length
      = some cfg1 := by
    rw [load_eq_read _ _ _ hget2]
    exact hset m1 cell1 hk hread1
  unfold IsNewInstance Freeze.withSetter Freeze.Clone
  rw [hclone]
  simp only [NewWithConfig, NewGenerator, Memory.update, hget1]
  exact ⟨_, _, rfl, hload2, load_of_keeps m _ _ cfg hk2 h, hne, rfl⟩

theorem read_some (m : Memory F) (cell : ConfigCell F) (cfg : Config F)
    (h : m.read cell = some cfg) :
    ∃ margin padding lines, m.floats.get? cell.Margin = some margin ∧
      m.floats.get? cell.Padding = some padding ∧ m.ints.get? cell.Lines = some lines ∧
      cfg =
        { Background := cell.Background
          Margin := margin
          Padding := padding
          Window := cell.Window
          Width := cell.Width
          Height := cell.Height
          Language := cell.Language
          Theme := cell.Theme
          Wrap := cell.Wrap
          Border := cell.Border
          Shadow := cell.Shadow
          Font := cell.Font
          LineHeight := cell.LineHeight
          Lines := lines
          ShowLineNumbers := cell.ShowLineNumbers } := by
  unfold Memory.read at h
  cases hm : m.floats.get? cell.Margin with
  | none => rw [hm] at h; exact absurd h (by simp)
  | some margin =>
    cases hp : m.floats.get? cell.Padding with
    | none => rw [hm, hp] at h; exact absurd h (by simp)
    | some padding =>
      cases hl : m.ints.get? cell.Lines with
      | none => rw [hm, hp, hl] at h; exact absurd h (by simp)
      | some lines =>
        rw [hm, hp, hl] at h
        exact ⟨margin, padding, lines, rfl, rfl, rfl, (Option.some.inj h).symm⟩

theorem read_of_gets (m : Memory F) (cell : ConfigCell F) (margin padding : List F)
    (lines : List Int) (hm : m.floats.get? cell.Margin = some margin)
    (hp : m.floats.get? cell.Padding = some padding) (hl : m.ints.get? cell.Lines = some lines) :
    m.read cell = some
        { Background := cell.Background
          Margin := margin
          Padding := padding
          Window := cell.Window
          Width := cell.Width
          Height := cell.Height
          Language := cell.Language
          Theme := cell.Theme
          Wrap := cell.Wrap
          Border := cell.Border
          Shadow := cell.Shadow
          Font := cell.Font
          LineHeight := cell.LineHeight
          Lines := lines
          ShowLineNumbers := cell.ShowLineNumbers } := by
  unfold Memory.read
  simp only [hm, hp, hl]

/-- C18: each With method of Freeze returns a new instance. Its configuration is the
receiver's except for the fields the method names (for WithPadding and
WithMargin the list is the one passed), it is held through another pointer,
and the receiver's configuration is what it was. -/
theorem With_methods_return_new_instance (f : Freeze) (m : Memory F) (cfg : Config F)
    (h : m.load f.config = some cfg) :
    (∀ theme, IsNewInstance f cfg (f.WithTheme m theme) { cfg with Theme := theme }) ∧
    (∀ family size, IsNewInstance f cfg (f.WithFont m family size)
      { cfg with Font := { cfg.Font with Family := family, Size := size } }) ∧
    (∀ color, IsNewInstance f cfg (f.WithBackground m color) { cfg with Background := color }) ∧
    (∀ enabled, IsNewInstance f cfg (f.WithWindow m enabled) { cfg with Window := enabled }) ∧
    (∀ enabled, IsNewInstance f cfg (f.WithLineNumbers m enabled)
      { cfg with ShowLineNumbers := enabled }) ∧
    (∀ blur x y, IsNewInstance f cfg (f.WithShadow m blur x y)
      { cfg with Shadow := { Blur := blur, X := x, Y := y } }) ∧
    (∀ width radius color, IsNewInstance f cfg (f.WithBorder m width radius color)
      { cfg with Border := { Width := width, Radius := radius, Color := color } }) ∧
    (∀ values vs, m.floats.get? values = some vs →
      IsNewInstance f cfg (f.WithPadding m values) { cfg with Padding := vs }) ∧
    (∀ values vs, m.floats.get? values = some vs →
      IsNewInstance f cfg (f.WithMargin m values) { cfg with Margin := vs }) ∧
    (∀ width height, IsNewInstance f cfg (f.WithDimensions m width height)
      { cfg with Width := width, Height := height }) := by
  refine ⟨?_, ?_, ?_, ?_, ?_, ?_, ?_, ?_, ?_, ?_⟩
  · intro theme
    refine withSetter_spec f m cfg _ _ h ?_
    intro m1 cell1 _ hr
    obtain ⟨margin, padding, lines, hm, hp, hl, hcfg⟩ := read_some m1 cell1 cfg hr
    rw [hcfg]
    exact read_of_gets m1 (cell1.SetTheme theme) margin padding lines hm hp hl
  · intro family size
    refine withSetter_spec f m cfg _ _ h ?_
    intro m1 cell1 _ hr
    obtain ⟨margin, padding, lines, hm, hp, hl, hcfg⟩ := read_some m1 cell1 cfg hr
    rw [hcfg]
    exact read_of_gets m1 (cell1.SetFont family size) margin padding lines hm hp hl
  · intro color
    refine withSetter_spec f m cfg _ _ h ?_
    intro m1 cell1 _ hr
    obtain ⟨margin, padding, lines, hm, hp, hl, hcfg⟩ := read_some m1 cell1 cfg hr
    rw [hcfg]
    exact read_of_gets m1 (cell1.SetBackground color) margin padding lines hm hp hl
  · intro enabled
    refine withSetter_spec f m cfg _ _ h ?_
    intro m1 cell1 _ hr
    obtain ⟨margin, padding, lines, hm, hp, hl, hcfg⟩ := read_some m1 cell1 cfg hr
    rw [hcfg]
    exact read_of_gets m1 (cell1.SetWindow enabled) margin padding lines hm hp hl
  · intro enabled
    refine withSetter_spec f m cfg _ _ h ?_
    intro m1 cell1 _ hr
    obtain ⟨margin, padding, lines, hm, hp, hl, hcfg⟩ := read_some m1 cell1 cfg hr
    rw [hcfg]
    exact read_of_gets m1 (cell1.SetLineNumbers enabled) margin padding lines hm hp hl
  · intro blur x y
    refine withSetter_spec f m cfg _ _ h ?_
    intro m1 cell1 _ hr
    obtain ⟨margin, padding, lines, hm, hp, hl, hcfg⟩ := read_some m1 cell1 cfg hr
    rw [hcfg]
    exact read_of_gets m1 (cell1.SetShadow blur x y) margin padding lines hm hp hl
  · intro width radius color
    refine withSetter_spec f m cfg _ _ h ?_
    intro m1 cell1 _ hr
    obtain ⟨margin, padding, lines, hm, hp, hl, hcfg⟩ := read_some m1 cell1 cfg hr
    rw [hcfg]
    exact read_of_gets m1 (cell1.SetBorder width radius color) margin padding lines hm hp hl
  · intro values vs hv
    refine withSetter_spec f m cfg _ _ h ?_
    intro m1 cell1 hk hr
    obtain ⟨margin, padding, lines, hm, hp, hl, hcfg⟩ := read_some m1 cell1 cfg hr
    rw [hcfg]
    exact read_of_gets m1 (cell1.SetPadding values) margin vs lines hm (hk.1 values vs hv) hl
  · intro values vs hv
    refine withSetter_spec f m cfg _ _ h ?_
    intro m1 cell1 hk hr
    obtain ⟨margin, padding, lines, hm, hp, hl, hcfg⟩ := read_some m1 cell1 cfg hr
    rw [hcfg]
    exact read_of_gets m1 (cell1.SetMargin values) vs padding lines (hk.1 values vs hv) hp hl
  · intro width height
    refine withSetter_spec f m cfg _ _ h ?_
    intro m1 cell1 _ hr
    obtain ⟨margin, padding, lines, hm, hp, hl, hcfg⟩ := read_some m1 cell1 cfg hr
    rw [hcfg]
    exact read_of_gets m1 (cell1.SetDimensions width height) margin padding lines hm hp hl

/-- C16: a render leaves the configuration the caller's pointer shows as it was, Padding
and Margin element by element included, also with `Window = true`: the 15 is
added to an array that `expandPadding` allocated. -/
theorem render_keeps_config (X : Collaborators F) (m : Memory F) (config : Nat)
    (input : String) (it : X.Iterator) (isAnsi : Bool) (cfg : Config F)
    (h : m.load config = some cfg) :
    ∃ m1, generateSVGFromIteratorMem X m config input it isAnsi
        = some (m1, generateSVGFromIterator X cfg input it isAnsi) ∧
      m1.load config = some cfg ∧
      (m1.load config).map (fun c => (c.Padding, c.Margin)) = some (cfg.Padding, cfg.Margin) := by
  have hk1 : m.keeps (m.allocFloats (cfg.expandMargin (1.0 : F))).1 := keeps_allocFloats m _
  have hk2 : m.keeps ((m.allocFloats (cfg.expandMargin (1.0 : F))).1.allocFloats
      (cfg.expandPadding (1.0 : F))).1 :=
    keeps_trans _ _ _ hk1 (keeps_allocFloats _ _)
  have hfresh : m.floats.get? ((m.allocFloats (cfg.expandMargin (1.0 : F))).1.allocFloats
      (cfg.expandPadding (1.0 : F))).2 = none := by
    show m.floats.get? (m.floats ++ [cfg.expandMargin (1.0 : F)]).length = none
    exact List.get?_eq_none.mpr (by simp)
  have hk3 : ∀ v : F, m.keeps (((m.allocFloats (cfg.expandMargin (1.0 : F))).1.allocFloats
      (cfg.expandPadding (1.0 : F))).1.write (Write.float
        ((m.allocFloats (cfg.expandMargin (1.0 : F))).1.allocFloats
          (cfg.expandPadding (1.0 : F))).2 top v)) := fun v =>
    keeps_write m _ _ m.configs.length _ _ m.ints.length hk2 (get?_length_none _ 0) hfresh hfresh
      (get?_length_none _ 0) (Or.inl rfl)
  unfold generateSVGFromIteratorMem
  rw [h]
  simp only
  split_ifs
  · exact ⟨_, rfl, load_of_keeps m _ config cfg (hk3 _) h,
      by rw [load_of_keeps m _ config cfg (hk3 _) h]; rfl⟩
  · exact ⟨_, rfl, load_of_keeps m _ config cfg hk2 h,
      by rw [load_of_keeps m _ config cfg hk2 h]; rfl⟩

/-- C16, evaluated: a four-value padding with window chrome. The render allocates the
expanded margin and padding behind the caller's arrays, adds 15 to the top of
the expanded padding, and the caller's arrays are what they were. -/
theorem render_keeps_config_witness :
    ∃ m1,
      generateSVGFromIteratorMem plainText windowMemory 0 "ab" "ab" false
        = some (m1, generateSVGFromIterator plainText windowConfig "ab" "ab" false) ∧
      m1.load 0 = some windowConfig ∧
      (m1.load 0).map (fun c => (c.Padding, c.Margin)) = some ([20, 10, 20, 10], [0]) :=
  render_keeps_config plainText windowMemory 0 "ab" "ab" false windowConfig (by decide!)

/-- The memory after the render of `windowMemory`: the expanded padding, with its top
at 35, is a fourth array, and the first two arrays are the caller's. -/
theorem render_allocates_expanded_padding :
    (generateSVGFromIteratorMem plainText windowMemory 0 "ab" "ab" false).map
        (fun r => r.1.floats)
      = some [[0], [20, 10, 20, 10], [0, 0, 0, 0], [35, 10, 20, 10]] := by
  decide!

/-- C17, evaluated on the default configuration in an otherwise empty memory. -/
theorem Clone_deep_copy_witness :
    ∃ m1 c1 cell1, Clone (DefaultConfigMem (emptyMemory : Memory ℚ)).1 0 = some (m1, c1) ∧
      m1.configs.get? c1 = some cell1 ∧
      m1.load c1 = some DefaultConfig ∧ m1.load 0 = some DefaultConfig ∧ c1 ≠ 0 ∧
      ∀ ws : List (Write ℚ),
        (∀ w ∈ ws, w.within c1 cell1.Margin cell1.Padding cell1.Lines) →
        (m1.writes ws).load 0 = some DefaultConfig :=
  Clone_deep_copy (DefaultConfigMem (emptyMemory : Memory ℚ)).1 0 DefaultConfig (by decide!)

/-- The clone of `windowMemory`: three new arrays with the contents of the old ones and
a second struct that points at them. -/
theorem Clone_windowMemory :
    (Clone windowMemory 0).map (fun r => r.1.floats) = some [[0], [20, 10, 20, 10], [0], [20, 10, 20, 10]] ∧
    (Clone windowMemory 0).map (fun r => r.1.ints) = some [[], []] ∧
    (Clone windowMemory 0).map (fun r => r.2) = some 1 ∧
    (Clone windowMemory 0).map (fun r => (r.1.configs.get? r.2).map
        (fun c => [c.Margin, c.Padding, c.Lines])) = some (some [2, 3, 1]) := by
  decide!

/-- C18, evaluated on `New()` with one more array `[20, 40, 20, 20]` in the memory:
`WithTheme`, and `WithPadding` of that array. -/
theorem With_methods_return_new_instance_witness :
    (∀ theme, IsNewInstance (New (emptyMemory : Memory ℚ)).2 DefaultConfig
      ((New (emptyMemory : Memory ℚ)).2.WithTheme
        ((New (emptyMemory : Memory ℚ)).1.allocFloats [20, 40, 20, 20]).1 theme)
      { (DefaultConfig : Config ℚ) with Theme := theme }) ∧
    IsNewInstance (New (emptyMemory : Memory ℚ)).2 DefaultConfig
      ((New (emptyMemory : Memory ℚ)).2.WithPadding
        ((New (emptyMemory : Memory ℚ)).1.allocFloats [20, 40, 20, 20]).1 2)
      { (DefaultConfig : Config ℚ) with Padding := [20, 40, 20, 20] } :=
  ⟨(With_methods_return_new_instance (New (emptyMemory : Memory ℚ)).2
      ((New (emptyMemory : Memory ℚ)).1.allocFloats [20, 40, 20, 20]).1 DefaultConfig
      (by decide!)).1,
   (With_methods_return_new_instance (New (emptyMemory : Memory ℚ)).2
      ((New (emptyMemory : Memory ℚ)).1.allocFloats [20, 40, 20, 20]).1 DefaultConfig
      (by decide!)).2.2.2.2.2.2.2.1 2 [20, 40, 20, 20] (by decide!)⟩


/-! ### Custom mappings of the language detector -/

theorem lookup_mapDelete_self (kvs : List (String × String)) (k : String) :
    (mapDelete kvs k).lookup k = none := by
  induction kvs with
  | nil => rfl
  | cons kv kvs ih =>
    obtain ⟨a, b⟩ := kv
    by_cases hak : a = k
    · simpa [mapDelete, List.filter_cons, hak] using ih
    · have hka : (k == a) = false := by simpa using fun h : k = a => hak h.symm
      have : mapDelete ((a, b) :: kvs) k = (a, b) :: mapDelete kvs k := by
        simp [mapDelete, List.filter_cons, hak]
      rw [this, List.lookup_cons, hka]
      exact ih

theorem lookup_mapDelete_of_ne (kvs : List (String × String)) (k k1 : String) (h : k1 ≠ k) :
    (mapDelete kvs k).lookup k1 = kvs.lookup k1 := by
  induction kvs with
  | nil => rfl
  | cons kv kvs ih =>
    obtain ⟨a, b⟩ := kv
    by_cases hak : a = k
    · have hka : (k1 == a) = false := by simpa [hak] using h
      have : mapDelete ((a, b) :: kvs) k = mapDelete kvs k := by
        simp [mapDelete, List.filter_cons, hak]
      rw [this, List.lookup_cons, hka]
      exact ih
    · have : mapDelete ((a, b) :: kvs) k = (a, b) :: mapDelete kvs k := by
        simp [mapDelete, List.filter_cons, hak]
      rw [this, List.lookup_cons, List.lookup_cons, ih]

theorem mapDelete_of_lookup_none (kvs : List (String × String)) (k : String)
    (h : kvs.lookup k = none) : mapDelete kvs k = kvs := by
  induction kvs with
  | nil => rfl
  | cons kv kvs ih =>
    obtain ⟨a, b⟩ := kv
    rw [List.lookup_cons] at h
    by_cases hka : (k == a) = true
    · rw [hka] at h
      exact absurd h (Option.some_ne_none _)
    · have hka1 : (k == a) = false := by simpa using hka
      rw [hka1] at h
      have hak : a ≠ k := fun e => hka (by simp [e])
      have : mapDelete ((a, b) :: kvs) k = (a, b) :: mapDelete kvs k := by
        simp [mapDelete, List.filter_cons, hak]
      rw [this, ih h]

theorem mapDelete_mapAssign (kvs : List (String × String)) (k v : String) :
    mapDelete (mapAssign kvs k v) k = mapDelete kvs k := by
  have h1 : mapDelete ((k, v) :: mapDelete kvs k) k = mapDelete (mapDelete kvs k) k := by
    simp [mapDelete, List.filter_cons]
  rw [mapAssign, h1]
  exact mapDelete_of_lookup_none _ _ (lookup_mapDelete_self kvs k)

theorem mapIndex_AddCustomMapping (L : Packages) (ld : LanguageDetector) (e l : String) :
    mapIndex (ld.AddCustomMapping L e l).CustomMappings (L.ToLower e) = some l := by
  simp [LanguageDetector.AddCustomMapping, mapIndex, mapAssign, List.lookup_cons]

theorem Remove_Add_mappings (L : Packages) (ld : LanguageDetector) (e l : String)
    (h : mapIndex ld.CustomMappings (L.ToLower e) = none) :
    ((ld.AddCustomMapping L e l).RemoveCustomMapping L e).CustomMappings
      = some (match ld.CustomMappings with
        | none => []
        | some kvs => kvs) := by
  cases hc : ld.CustomMappings with
  | none =>
    have h0 : mapDelete (mapAssign [] (L.ToLower e) l) (L.ToLower e) = [] := by
      rw [mapDelete_mapAssign]; rfl
    simp [LanguageDetector.AddCustomMapping, LanguageDetector.RemoveCustomMapping, hc, h0]
  | some kvs =>
    rw [hc] at h
    simp [LanguageDetector.AddCustomMapping, LanguageDetector.RemoveCustomMapping, hc,
      mapDelete_mapAssign, mapDelete_of_lookup_none kvs _ h]

theorem Remove_Add_fields (L : Packages) (ld : LanguageDetector) (e l : String) :
    ((ld.AddCustomMapping L e l).RemoveCustomMapping L e).EnableContentAnalysis
      = ld.EnableContentAnalysis ∧
    ((ld.AddCustomMapping L e l).RemoveCustomMapping L e).EnableFilenameAnalysis
      = ld.EnableFilenameAnalysis ∧
    ((ld.AddCustomMapping L e l).RemoveCustomMapping L e).FallbackLanguage
      = ld.FallbackLanguage := by
  simp [LanguageDetector.AddCustomMapping, LanguageDetector.RemoveCustomMapping]

theorem DetectLanguageFromFilename_congr (L : Packages) (ld ld1 : LanguageDetector)
    (h1 : ld1.EnableFilenameAnalysis = ld.EnableFilenameAnalysis)
    (h2 : ld1.FallbackLanguage = ld.FallbackLanguage)
    (h3 : ∀ k, mapIndex ld1.CustomMappings k = mapIndex ld.CustomMappings k)
    (filename : String) :
    ld1.DetectLanguageFromFilename L filename = ld.DetectLanguageFromFilename L filename := by
  simp only [LanguageDetector.DetectLanguageFromFilename,
    LanguageDetector.detectFromExtension, h1, h2, h3]

/-- C19: with filename analysis enabled, after `AddCustomMapping(e, l)` the detector returns
`l` for every filename whose extension is `e` up to letter case (both are
compared in lower case), whatever `lexers.Match` and the built-in table say of
the file; and when `e` had no mapping, a following `RemoveCustomMapping(e)`
leaves a table with the entries of the one before the Add (the same detector
when the map was not nil), so every filename is detected as before the Add. -/
theorem custom_mapping_add_remove (L : Packages) (ld : LanguageDetector) (e l : String)
    (h : ld.EnableFilenameAnalysis = true) :
    (∀ filename, L.ToLower (L.Ext filename) = L.ToLower e →
      (ld.AddCustomMapping L e l).DetectLanguageFromFilename L filename = l) ∧
    (mapIndex ld.CustomMappings (L.ToLower e) = none →
      (∀ k, mapIndex ((ld.AddCustomMapping L e l).RemoveCustomMapping L e).CustomMappings k
        = mapIndex ld.CustomMappings k) ∧
      (ld.CustomMappings ≠ none →
        (ld.AddCustomMapping L e l).RemoveCustomMapping L e = ld) ∧
      (∀ filename,
        ((ld.AddCustomMapping L e l).RemoveCustomMapping L e).DetectLanguageFromFilename L
          filename = ld.DetectLanguageFromFilename L filename)) := by
  refine ⟨?_, ?_⟩
  · intro filename hext
    have hen : (ld.AddCustomMapping L e l).EnableFilenameAnalysis = true := h
    simp only [LanguageDetector.DetectLanguageFromFilename, hen, hext,
      mapIndex_AddCustomMapping]
    rfl
  · intro hnone
    have hm := Remove_Add_mappings L ld e l hnone
    obtain ⟨hf1, hf2, hf3⟩ := Remove_Add_fields L ld e l
    have hk : ∀ k, mapIndex ((ld.AddCustomMapping L e l).RemoveCustomMapping L e).CustomMappings k
        = mapIndex ld.CustomMappings k := by
      intro k
      rw [hm]
      cases hc : ld.CustomMappings <;> rfl
    refine ⟨hk, ?_, DetectLanguageFromFilename_congr L ld _ hf2 hf3 hk⟩
    intro hne
    cases hc : ld.CustomMappings with
    | none => exact absurd hc hne
    | some kvs =>
      rw [hc] at hm
      generalize ((ld.AddCustomMapping L e l).RemoveCustomMapping L e) = ld1 at hm hf1 hf2 hf3
      cases ld1
      cases ld
      simp only at hm hf1 hf2 hf3 hc
      simp only [LanguageDetector.mk.injEq]
      exact ⟨hf1, hf2, hf3, hm.trans hc.symm⟩

/-- C19, evaluated: on a new detector, `.GO` mapped to `custom-go` wins over the lexer
that `lexers.Match` finds for `Main.Go` and for `cmd/main.go`; after the
removal the detector is the new detector again and `cmd/main.go` is `go`. -/
theorem custom_mapping_add_remove_witness :
    (NewLanguageDetector.DetectLanguageFromFilename stubPackages "cmd/main.go" = "go" ∧
      (NewLanguageDetector.AddCustomMapping stubPackages ".GO"
        "custom-go").DetectLanguageFromFilename stubPackages "Main.Go" = "custom-go" ∧
      (NewLanguageDetector.AddCustomMapping stubPackages ".GO"
        "custom-go").DetectLanguageFromFilename stubPackages "cmd/main.go" = "custom-go") ∧
    (NewLanguageDetector.AddCustomMapping stubPackages ".GO" "custom-go").RemoveCustomMapping
        stubPackages ".GO" = NewLanguageDetector ∧
    ((NewLanguageDetector.AddCustomMapping stubPackages ".GO" "custom-go").RemoveCustomMapping
        stubPackages ".GO").DetectLanguageFromFilename stubPackages "cmd/main.go" = "go" :=
  ⟨⟨by decide!,
    (custom_mapping_add_remove stubPackages NewLanguageDetector ".GO" "custom-go" rfl).1
      "Main.Go" (by decide!),
    (custom_mapping_add_remove stubPackages NewLanguageDetector ".GO" "custom-go" rfl).1
      "cmd/main.go" (by decide!)⟩,
   ((custom_mapping_add_remove stubPackages NewLanguageDetector ".GO" "custom-go" rfl).2
      (by decide!)).2.1 (by decide!),
   by decide!⟩

/-- The two checks of `TestLanguageDetectorCustomMappings`, with a lexer lookup that does
not know the extension: `python` after the Add, the fallback after the Remove. -/
theorem TestLanguageDetectorCustomMappings :
    (NewLanguageDetector.AddCustomMapping stubPackages ".myext"
        "python").DetectLanguageFromFilename stubPackages "script.myext" = "python" ∧
    ((NewLanguageDetector.AddCustomMapping stubPackages ".myext" "python").RemoveCustomMapping
        stubPackages ".myext").DetectLanguageFromFilename stubPackages "script.myext"
      = "text" := by
  decide!

/-- C20: `DetectLanguage` returns `FallbackLanguage` when content analysis is disabled, and
`DetectLanguageFromFilename` returns it when filename analysis is disabled,
whatever the custom mappings hold. -/
theorem disabled_detection_returns_fallback (L : Packages) (ld : LanguageDetector) :
    (ld.EnableContentAnalysis = false →
      ∀ code, ld.DetectLanguage L code = ld.FallbackLanguage) ∧
    (ld.EnableFilenameAnalysis = false →
      ∀ filename, ld.DetectLanguageFromFilename L filename = ld.FallbackLanguage) := by
  refine ⟨?_, ?_⟩
  · intro h code
    simp [LanguageDetector.DetectLanguage, h]
  · intro h filename
    simp [LanguageDetector.DetectLanguageFromFilename, h]

/-- C20, evaluated: with both analyses off and `.go` mapped to `custom-go`, a Go file name
is detected as the fallback `text`, while the same detector with filename
analysis on answers `custom-go`. -/
theorem disabled_detection_returns_fallback_witness :
    (∀ code, LanguageDetector.DetectLanguage
        { EnableContentAnalysis := false, EnableFilenameAnalysis := false,
          FallbackLanguage := "text", CustomMappings := some [(".go", "custom-go")] }
        stubPackages code = "text") ∧
    LanguageDetector.DetectLanguageFromFilename
        { EnableContentAnalysis := false, EnableFilenameAnalysis := false,
          FallbackLanguage := "text", CustomMappings := some [(".go", "custom-go")] }
        stubPackages "main.go" = "text" ∧
    LanguageDetector.DetectLanguageFromFilename
        { EnableContentAnalysis := false, EnableFilenameAnalysis := true,
          FallbackLanguage := "text", CustomMappings := some [(".go", "custom-go")] }
        stubPackages "main.go" = "custom-go" :=
  ⟨(disabled_detection_returns_fallback stubPackages
      { EnableContentAnalysis := false, EnableFilenameAnalysis := false,
        FallbackLanguage := "text", CustomMappings := some [(".go", "custom-go")] }).1 rfl,
   (disabled_detection_returns_fallback stubPackages
      { EnableContentAnalysis := false, EnableFilenameAnalysis := false,
        FallbackLanguage := "text", CustomMappings := some [(".go", "custom-go")] }).2 rfl
      "main.go",
   by decide!⟩


/-! ### Reading dimensions back -/

theorem digitChar_digit (m : Nat) (h : m < 10) :
    (Nat.digitChar m).isDigit = true ∧ (Nat.digitChar m).toNat - '0'.toNat = m := by
  interval_cases m <;> exact ⟨by decide, by decide⟩

theorem digitsValue_snoc (ds : List Char) (c : Char) :
    digitsValue (ds ++ [c]) = digitsValue ds * 10 + (c.toNat - '0'.toNat) := by
  simp [digitsValue, List.foldl_append]

/-- The digits `Nat.toDigitsCore` puts in front of `tail`, base ten, when the fuel
exceeds the number. -/
theorem decimal_digits_of_core (n fuel : Nat) (tail : List Char) (hfuel : n + 1 ≤ fuel) :
    ∃ ds : List Char, ds ≠ [] ∧ digitsValue ds = n ∧ (∀ ch ∈ ds, ch.isDigit = true) ∧
      Nat.toDigitsCore 10 fuel n tail = ds ++ tail := by
  induction fuel generalizing n tail with
  | zero => omega
  | succ k ih =>
    obtain ⟨hdig, hval⟩ := digitChar_digit (n % 10) (by omega)
    rcases Nat.eq_zero_or_pos (n / 10) with hq | hq
    · refine ⟨[Nat.digitChar (n % 10)], List.cons_ne_nil _ _, ?_, ?_, ?_⟩
      · show 0 * 10 + ((Nat.digitChar (n % 10)).toNat - '0'.toNat) = n
        rw [hval]; omega
      · intro ch hch
        rw [List.mem_singleton.mp hch]; exact hdig
      · rw [Nat.toDigitsCore, if_pos hq]; rfl
    · obtain ⟨front, -, hfv, hfd, hfe⟩ := ih (n / 10) (Nat.digitChar (n % 10) :: tail) (by omega)
      refine ⟨front ++ [Nat.digitChar (n % 10)], by simp, ?_, ?_, ?_⟩
      · rw [digitsValue_snoc, hfv, hval]; omega
      · intro ch hch
        rcases List.mem_append.mp hch with hin | hin
        · exact hfd ch hin
        · rw [List.mem_singleton.mp hin]; exact hdig
      · rw [Nat.toDigitsCore, if_neg (by omega), hfe, List.append_assoc]; rfl

theorem repr_decimal (n : Nat) :
    (Nat.repr n).data ≠ [] ∧ (∀ c ∈ (Nat.repr n).data, c.isDigit = true) ∧
      digitsValue (Nat.repr n).data = n := by
  obtain ⟨ds, hne, hval, hall, hds⟩ := decimal_digits_of_core n (n + 1) [] (le_refl _)
  have : (Nat.repr n).data = ds := by
    show (Nat.toDigits 10 n).asString.data = ds
    unfold Nat.toDigits
    rw [hds]
    simp [List.asString]
  rw [this]
  exact ⟨hne, hall, hval⟩

theorem digit_ne_sign (c : Char) (h : c.isDigit = true) : c ≠ '-' ∧ c ≠ '+' := by
  constructor <;> intro e <;> rw [e] at h <;> exact absurd h (by decide)

theorem Atoi_digits (ds : List Char) (hne : ds ≠ []) (hall : ∀ c ∈ ds, c.isDigit = true)
    (hhi : (digitsValue ds : Int) < (2 : Int) ^ 63) :
    Atoi (String.mk ds) = some (digitsValue ds : Int) := by
  cases ds with
  | nil => exact absurd rfl hne
  | cons c cs =>
    obtain ⟨h1, h2⟩ := digit_ne_sign c (hall c (List.mem_cons_self _ _))
    have hd : (match (String.mk (c :: cs)).data with
        | '-' :: ds => ds
        | '+' :: ds => ds
        | ds => ds) = c :: cs := by
      show (match c :: cs with
        | '-' :: ds => ds
        | '+' :: ds => ds
        | ds => ds) = c :: cs
      split
      · rename_i heq; exact absurd (List.cons.inj heq).1 h1
      · rename_i heq; exact absurd (List.cons.inj heq).1 h2
      · rfl
    have hn : (match (String.mk (c :: cs)).data with
        | '-' :: _ => true
        | _ => false) = false := by
      show (match c :: cs with
        | '-' :: _ => true
        | _ => false) = false
      split
      · rename_i heq; exact absurd (List.cons.inj heq).1 h1
      · rfl
    unfold Atoi
    simp only [hd, hn]
    have h0 : (0 : Int) ≤ (digitsValue (c :: cs) : Int) := Int.ofNat_nonneg _
    have hcond : ¬ ((c :: cs) = [] ∨ ¬ ∀ ch ∈ c :: cs, ch.isDigit = true) := by
      intro h
      rcases h with h | h
      · exact List.cons_ne_nil _ _ h
      · exact h hall
    rw [if_neg hcond]
    have hr : ¬ ((digitsValue (c :: cs) : Int) < -(2 : Int) ^ 63 ∨
        (digitsValue (c :: cs) : Int) ≥ (2 : Int) ^ 63) := by
      intro h
      rcases h with h | h
      · have : (-(2 : Int) ^ 63) ≤ 0 := by norm_num
        omega
      · omega
    simp only [Bool.false_eq_true, if_false]
    rw [if_neg hr]

theorem Atoi_minus_digits (ds : List Char) (hne : ds ≠ []) (hall : ∀ c ∈ ds, c.isDigit = true)
    (hlo : -(2 : Int) ^ 63 ≤ -(digitsValue ds : Int)) :
    Atoi (String.mk ('-' :: ds)) = some (-(digitsValue ds : Int)) := by
  unfold Atoi
  have hcond : ¬ (ds = [] ∨ ¬ ∀ ch ∈ ds, ch.isDigit = true) := by
    intro h
    rcases h with h | h
    · exact hne h
    · exact h hall
  have h0 : (0 : Int) ≤ (digitsValue ds : Int) := Int.ofNat_nonneg _
  have hr : ¬ (-(digitsValue ds : Int) < -(2 : Int) ^ 63 ∨
      -(digitsValue ds : Int) ≥ (2 : Int) ^ 63) := by
    intro h
    rcases h with h | h
    · omega
    · have : (0 : Int) < (2 : Int) ^ 63 := by norm_num
      omega
  simp only [if_true]
  rw [if_neg hcond, if_neg hr]

theorem Atoi_none_of_tail (l : List Char) (h : ∃ ch ∈ l.tail, ch.isDigit = false) :
    Atoi (String.mk l) = none := by
  obtain ⟨ch, hmem, hch⟩ := h
  unfold Atoi
  have hsub : ch ∈ (match (String.mk l).data with
      | '-' :: ds => ds
      | '+' :: ds => ds
      | ds => ds) := by
    show ch ∈ (match l with
      | '-' :: ds => ds
      | '+' :: ds => ds
      | ds => ds)
    split
    · exact hmem
    · exact hmem
    · exact List.mem_of_mem_tail hmem
  rw [if_pos]
  right
  intro hall
  have := hall ch hsub
  rw [hch] at this
  exact absurd this (by decide)

theorem TrimSuffix_of_append (u : List Char) :
    TrimSuffix (String.mk (u ++ ['p', 'x'])) "px" = String.mk u := by
  unfold TrimSuffix
  have h : ("px" : String).data = ['p', 'x'] := rfl
  have hs : (['p', 'x'] : List Char).isSuffixOf (u ++ ['p', 'x']) = true := by
    rw [List.isSuffixOf_iff_suffix]
    exact List.suffix_append _ _
  simp only [h, hs, if_true]
  congr 1
  simp

theorem TrimSuffix_of_not_suffix (t : List Char) (h : ¬ (['p', 'x'] : List Char) <:+ t) :
    TrimSuffix (String.mk t) "px" = String.mk t := by
  unfold TrimSuffix
  have hd : ("px" : String).data = ['p', 'x'] := rfl
  have hs : (['p', 'x'] : List Char).isSuffixOf t = false := by
    rw [Bool.eq_false_iff]
    intro hh
    exact h (List.isSuffixOf_iff_suffix.mp hh)
  simp only [hd, hs]
  rfl

theorem not_px_suffix_of_last_digit (a : List Char) (d : Char)
    (hl : a.getLast? = some d) (hd : d.isDigit = true) : ¬ (['p', 'x'] : List Char) <:+ a := by
  intro h
  obtain ⟨u, hu⟩ := h
  rw [← hu] at hl
  have : (u ++ ['p', 'x']).getLast? = some 'x' := by simp
  rw [this] at hl
  have e : d = 'x' := (Option.some.inj hl).symm
  rw [e] at hd
  exact absurd hd (by decide)

/-- After the trim of `px`, a string made of `a` (ending in a digit) and a suffix that
starts with a character that is no digit and is not `px` still holds a
character that is no digit behind its first character. -/
theorem TrimSuffix_keeps_nondigit (a : List Char) (d c : Char) (w : List Char)
    (hl : a.getLast? = some d) (hd : d.isDigit = true) (hc : c.isDigit = false)
    (hpx : c :: w ≠ ['p', 'x']) :
    ∃ ch ∈ (TrimSuffix (String.mk (a ++ c :: w)) "px").data.tail, ch.isDigit = false := by
  have hane : a ≠ [] := by
    intro e
    rw [e] at hl
    exact absurd hl (by simp)
  obtain ⟨a0, a1, ha⟩ := List.exists_cons_of_ne_nil hane
  by_cases hs : (['p', 'x'] : List Char) <:+ a ++ c :: w
  · obtain ⟨u, hu⟩ := hs
    have htrim : TrimSuffix (String.mk (a ++ c :: w)) "px" = String.mk u := by
      rw [← hu]; exact TrimSuffix_of_append u
    rw [htrim]
    -- the length of `w` decides where the suffix `px` lies
    rcases w with _ | ⟨y, w1⟩
    · -- suffix of one character: `a` would end in `p`
      have h1 : (u ++ ['p']) ++ ['x'] = a ++ [c] := by simpa using hu
      have h2 := List.append_inj' h1 rfl
      have h3 : a.getLast? = some 'p' := by rw [← h2.1]; simp
      rw [h3] at hl
      have e : d = 'p' := (Option.some.inj hl).symm
      rw [e] at hd
      exact absurd hd (by decide)
    · rcases w1 with _ | ⟨z, w2⟩
      · -- suffix of two characters: it is `px`
        have h2 := List.append_inj' hu rfl
        exact absurd h2.2.symm hpx
      · -- three or more: the first character of the suffix stays
        have hlen : (z :: w2).length ≥ 1 := by simp
        obtain ⟨v, hv⟩ : ∃ v, z :: w2 = v ++ [(z :: w2).getLast (List.cons_ne_nil _ _)] :=
          ⟨_, (List.dropLast_append_getLast (List.cons_ne_nil z w2)).symm⟩
        generalize (z :: w2).getLast (List.cons_ne_nil _ _) = q at hv
        have hu1 : u ++ ['p', 'x'] = (a ++ c :: y :: v) ++ [q] := by
          rw [hu, hv]; simp
        rcases List.eq_nil_or_concat v with hv0 | ⟨v1, q1, hv1⟩
        · subst hv0
          have hu2 : u ++ ['p', 'x'] = (a ++ [c]) ++ [y, q] := by rw [hu1]; simp
          have h2 := List.append_inj' hu2 rfl
          refine ⟨c, ?_, hc⟩
          show c ∈ (String.mk u).data.tail
          rw [show (String.mk u).data = u from rfl, h2.1, ha]
          simp
        · subst hv1
          have hu2 : u ++ ['p', 'x'] = (a ++ c :: y :: v1) ++ [q1, q] := by rw [hu1]; simp
          have h2 := List.append_inj' hu2 rfl
          refine ⟨c, ?_, hc⟩
          show c ∈ (String.mk u).data.tail
          rw [show (String.mk u).data = u from rfl, h2.1, ha]
          simp
  · rw [TrimSuffix_of_not_suffix _ hs]
    refine ⟨c, ?_, hc⟩
    show c ∈ (a ++ c :: w).tail
    rw [ha]
    simp

theorem toString_int_decimal (n : Int) :
    ∃ ds : List Char, ds ≠ [] ∧ (∀ c ∈ ds, c.isDigit = true) ∧
      ((toString n = String.mk ds ∧ n = (digitsValue ds : Int)) ∨
        (toString n = String.mk ('-' :: ds) ∧ n = -(digitsValue ds : Int))) := by
  cases n with
  | ofNat m =>
    obtain ⟨hne, hall, hval⟩ := repr_decimal m
    refine ⟨(Nat.repr m).data, hne, hall, Or.inl ⟨rfl, ?_⟩⟩
    rw [hval]; rfl
  | negSucc m =>
    obtain ⟨hne, hall, hval⟩ := repr_decimal (m + 1)
    refine ⟨(Nat.repr (m + 1)).data, hne, hall, Or.inr ⟨rfl, ?_⟩⟩
    rw [hval]; rfl

theorem getLast?_digits (sign ds : List Char) (hne : ds ≠ [])
    (hall : ∀ c ∈ ds, c.isDigit = true) :
    ∃ d, (sign ++ ds).getLast? = some d ∧ d.isDigit = true := by
  refine ⟨ds.getLast hne, ?_, hall _ (List.getLast_mem hne)⟩
  rw [List.getLast?_append_of_ne_nil _ hne, List.getLast?_eq_getLast _ hne]

/-- The value of dimensionToInt on a decimal integer followed by a suffix that does not go
on with a digit. -/
theorem dimensionToInt_decimal (n : Int) (suffix : String)
    (hlo : -(2 : Int) ^ 63 ≤ n) (hhi : n < (2 : Int) ^ 63)
    (hs : ∀ ch, suffix.data.head? = some ch → ch.isDigit = false) :
    dimensionToInt (toString n ++ suffix) = (if suffix = "px" ∨ suffix = "" then n else 0) := by
  obtain ⟨ds, hne, hall, hrepr⟩ := toString_int_decimal n
  -- the characters of the integer, with its sign
  obtain ⟨a, ha, hAtoi, hlast⟩ : ∃ a : List Char, toString n = String.mk a ∧
      Atoi (String.mk a) = some n ∧ ∃ d, a.getLast? = some d ∧ d.isDigit = true := by
    rcases hrepr with ⟨h1, h2⟩ | ⟨h1, h2⟩
    · refine ⟨ds, h1, ?_, getLast?_digits [] ds hne hall⟩
      rw [h2]; exact Atoi_digits ds hne hall (by rw [← h2]; exact hhi)
    · refine ⟨'-' :: ds, h1, ?_, getLast?_digits ['-'] ds hne hall⟩
      rw [h2]; exact Atoi_minus_digits ds hne hall (by rw [← h2]; exact hlo)
  obtain ⟨d, hl, hd⟩ := hlast
  have hdata : toString n ++ suffix = String.mk (a ++ suffix.data) := by
    rw [ha]; rfl
  rw [hdata]
  unfold dimensionToInt
  rcases hsd : suffix.data with _ | ⟨c, w⟩
  · -- no suffix
    have hsuf : suffix = "" := by
      cases suffix; simp only at hsd; rw [hsd]
    rw [if_pos (Or.inr hsuf), List.append_nil,
      TrimSuffix_of_not_suffix a (not_px_suffix_of_last_digit a d hl hd), hAtoi]
  · by_cases hpx : c :: w = ['p', 'x']
    · have hsuf : suffix = "px" := by
        cases suffix; simp only at hsd; rw [hsd, hpx]
      rw [if_pos (Or.inl hsuf), hpx, TrimSuffix_of_append a, hAtoi]
    · have hc : c.isDigit = false := hs c (by rw [hsd]; rfl)
      have hne1 : ¬ (suffix = "px" ∨ suffix = "") := by
        intro h
        rcases h with h | h
        · rw [h] at hsd; exact hpx hsd.symm
        · rw [h] at hsd; exact absurd hsd (by simp)
      rw [if_neg hne1]
      have hnone := Atoi_none_of_tail _ (TrimSuffix_keeps_nondigit a d c w hl hd hc hpx)
      have hmk : String.mk (TrimSuffix (String.mk (a ++ c :: w)) "px").data
          = TrimSuffix (String.mk (a ++ c :: w)) "px" := rfl
      rw [hmk] at hnone
      rw [hnone]

/-- C21 as stated fails: the emitted two-decimal form is not read back, `"120.00px"`
gives 0, where the integer form `"120px"` gives 120; an element without the
attributes gives 0. -/
theorem dimensionToInt_two_decimals_counterexample :
    dimensionToInt "120.00px" = 0 ∧ dimensionToInt "120px" = 120 ∧
    GetDimensions (fun _ : ℚ => "")
      { Tag := "svg",
        Attr := [{ Key := "width", Value := AttrValue.str "120.00px" },
          { Key := "height", Value := AttrValue.str "80px" }],
        Text := "" } = (0, 80) ∧
    GetDimensions (fun _ : ℚ => "") { Tag := "svg", Attr := [], Text := "" } = (0, 0) := by
  decide!

/-- C21, amended: the attributes are read back by converting the whole string after one
trailing `px` is removed.  For a decimal integer in the range of `int`
followed by a suffix that does not go on with a digit, dimensionToInt and
GetDimensions return the integer when the suffix is `px` or empty, and 0 for
every other suffix. -/
theorem dimensions_read_back (Sprintf2 : F → String) (e : Element F) (w h : Int)
    (sw sh : String)
    (hw : -(2 : Int) ^ 63 ≤ w ∧ w < (2 : Int) ^ 63) (hh : -(2 : Int) ^ 63 ≤ h ∧ h < (2 : Int) ^ 63)
    (hsw : ∀ ch, sw.data.head? = some ch → ch.isDigit = false)
    (hsh : ∀ ch, sh.data.head? = some ch → ch.isDigit = false)
    (hew : e.SelectAttr "width" = some (AttrValue.str (toString w ++ sw)))
    (heh : e.SelectAttr "height" = some (AttrValue.str (toString h ++ sh))) :
    dimensionToInt (toString w ++ sw) = (if sw = "px" ∨ sw = "" then w else 0) ∧
    dimensionToInt (toString h ++ sh) = (if sh = "px" ∨ sh = "" then h else 0) ∧
    GetDimensions Sprintf2 e =
      (if sw = "px" ∨ sw = "" then w else 0, if sh = "px" ∨ sh = "" then h else 0) := by
  have h1 := dimensionToInt_decimal w sw hw.1 hw.2 hsw
  have h2 := dimensionToInt_decimal h sh hh.1 hh.2 hsh
  refine ⟨h1, h2, ?_⟩
  unfold GetDimensions Element.SelectAttrValue
  rw [hew, heh]
  show (dimensionToInt (toString w ++ sw), dimensionToInt (toString h ++ sh)) = _
  rw [h1, h2]

/-- C21, evaluated: width `120px` and height `80.00px` are read back as 120 and 0. -/
theorem dimensions_read_back_witness :
    dimensionToInt (toString (120 : Int) ++ "px") = 120 ∧
    dimensionToInt (toString (80 : Int) ++ ".00px") = 0 ∧
    GetDimensions (fun _ : ℚ => "")
      { Tag := "svg",
        Attr := [{ Key := "width", Value := AttrValue.str (toString (120 : Int) ++ "px") },
          { Key := "height", Value := AttrValue.str (toString (80 : Int) ++ ".00px") }],
        Text := "" } = (120, 0) :=
  dimensions_read_back (fun _ : ℚ => "") _ 120 80 "px" ".00px"
    ⟨by norm_num, by norm_num⟩ ⟨by norm_num, by norm_num⟩
    (by decide!) (by decide!) (by decide!) (by decide!)


/-! ### The built-in configurations -/

theorem lookup_some_mem {β : Type} (xs : List (String × β)) (k : String) (v : β)
    (h : xs.lookup k = some v) : v ∈ xs.map Prod.snd := by
  induction xs with
  | nil => exact absurd h (by simp [List.lookup])
  | cons kv xs ih =>
    obtain ⟨a, b⟩ := kv
    rw [List.lookup_cons] at h
    by_cases hka : (k == a) = true
    · rw [hka] at h
      simp only [List.map_cons, List.mem_cons]
      exact Or.inl (Option.some.inj h).symm
    · have hka1 : (k == a) = false := by simpa using hka
      rw [hka1] at h
      simp only [List.map_cons, List.mem_cons]
      exact Or.inr (ih h)

theorem lookup_isSome_iff {β : Type} (xs : List (String × β)) (k : String) :
    (xs.lookup k).isSome = true ↔ k ∈ xs.map Prod.fst := by
  induction xs with
  | nil => simp [List.lookup]
  | cons kv xs ih =>
    obtain ⟨a, b⟩ := kv
    rw [List.lookup_cons]
    by_cases hka : (k == a) = true
    · rw [hka]
      have : k = a := by simpa using hka
      simp [this]
    · have hka1 : (k == a) = false := by simpa using hka
      have hne : k ≠ a := by simpa using hka
      rw [hka1]
      simp only [List.map_cons, List.mem_cons]
      rw [ih]
      constructor
      · exact Or.inr
      · intro h
        rcases h with h | h
        · exact absurd h hne
        · exact h

theorem PresetMap_valid :
    ∀ c ∈ (PresetMap : List (String × Config ℚ)).map Prod.snd, c.Validate = none := by
  decide!

theorem DefaultConfig_valid : (DefaultConfig : Config ℚ).Validate = none := by
  decide!

/-- C30: every built-in configuration is valid.  For every name, `GetPreset(name)` is one
of the ten presets when the name is in PresetMap and DefaultConfig otherwise,
it passes `Validate` in both cases, and `IsValidPreset(name)` holds exactly
for the ten names of PresetMap. -/
theorem presets_valid (name : String) :
    (GetPreset name : Config ℚ).Validate = none ∧
    (IsValidPreset ℚ name = true ↔
      name ∈ ["base", "full", "terminal", "presentation", "minimal", "dark", "light", "retro",
        "neon", "compact"]) ∧
    (IsValidPreset ℚ name = true →
      (GetPreset name : Config ℚ) ∈ [BasePreset, FullPreset, TerminalPreset, PresentationPreset,
        MinimalPreset, DarkPreset, LightPreset, RetroPreset, NeonPreset, CompactPreset]) ∧
    (IsValidPreset ℚ name = false → (GetPreset name : Config ℚ) = DefaultConfig) := by
  refine ⟨?_, ?_, ?_, ?_⟩
  · unfold GetPreset
    cases h : (PresetMap : List (String × Config ℚ)).lookup name with
    | none => exact DefaultConfig_valid
    | some preset => exact PresetMap_valid preset (lookup_some_mem _ _ _ h)
  · unfold IsValidPreset
    rw [lookup_isSome_iff]
    rfl
  · intro hv
    unfold IsValidPreset at hv
    unfold GetPreset
    cases h : (PresetMap : List (String × Config ℚ)).lookup name with
    | none => rw [h] at hv; exact absurd hv (by simp)
    | some preset => exact lookup_some_mem _ _ _ h
  · intro hv
    unfold IsValidPreset at hv
    unfold GetPreset
    cases h : (PresetMap : List (String × Config ℚ)).lookup name with
    | none => rfl
    | some preset => rw [h] at hv; exact absurd hv (by simp)

/-- C30, evaluated: `presentation` is a preset name and gives the presentation preset; the
name `Presentation` is none and gives the default configuration. -/
theorem presets_valid_witness :
    (IsValidPreset ℚ "presentation" = true ∧
      (GetPreset "presentation" : Config ℚ) = PresentationPreset ∧
      (GetPreset "presentation" : Config ℚ).Validate = none) ∧
    (IsValidPreset ℚ "Presentation" = false ∧
      (GetPreset "Presentation" : Config ℚ) = DefaultConfig ∧
      (GetPreset "Presentation" : Config ℚ).Validate = none) :=
  ⟨⟨by decide!, by decide!, (presets_valid "presentation").1⟩,
   ⟨by decide!, (presets_valid "Presentation").2.2.2 (by decide!),
    (presets_valid "Presentation").1⟩⟩


/-! ### The configuration across `GenerateFromCode` -/

theorem generateSVGFromIteratorMem_keeps (X : Collaborators F) (m : Memory F) (config : Nat)
    (input : String) (it : X.Iterator) (isAnsi : Bool) (cfg : Config F)
    (h : m.load config = some cfg) :
    ∃ m1, generateSVGFromIteratorMem X m config input it isAnsi
        = some (m1, generateSVGFromIterator X cfg input it isAnsi) ∧ m.keeps m1 := by
  have hk1 : m.keeps (m.allocFloats (cfg.expandMargin (1.0 : F))).1 := keeps_allocFloats m _
  have hk2 : m.keeps ((m.allocFloats (cfg.expandMargin (1.0 : F))).1.allocFloats
      (cfg.expandPadding (1.0 : F))).1 :=
    keeps_trans _ _ _ hk1 (keeps_allocFloats _ _)
  have hfresh : m.floats.get? ((m.allocFloats (cfg.expandMargin (1.0 : F))).1.allocFloats
      (cfg.expandPadding (1.0 : F))).2 = none := by
    show m.floats.get? (m.floats ++ [cfg.expandMargin (1.0 : F)]).length = none
    exact List.get?_eq_none.mpr (by simp)
  have hk3 : ∀ v : F, m.keeps (((m.allocFloats (cfg.expandMargin (1.0 : F))).1.allocFloats
      (cfg.expandPadding (1.0 : F))).1.write (Write.float
        ((m.allocFloats (cfg.expandMargin (1.0 : F))).1.allocFloats
          (cfg.expandPadding (1.0 : F))).2 top v)) := fun v =>
    keeps_write m _ _ m.configs.length _ _ m.ints.length hk2 (get?_length_none _ 0) hfresh hfresh
      (get?_length_none _ 0) (Or.inl rfl)
  unfold generateSVGFromIteratorMem
  rw [h]
  simp only
  split_ifs
  · exact ⟨_, rfl, hk3 _⟩
  · exact ⟨_, rfl, hk2⟩

theorem update_spec (m : Memory F) (c : Nat) (cell : ConfigCell F)
    (set : ConfigCell F → ConfigCell F) (hc : m.configs.get? c = some cell) :
    ∃ m1, m.update c set = some m1 ∧ m1.floats = m.floats ∧ m1.ints = m.ints ∧
      m1.configs.get? c = some (set cell) ∧
      ∀ c1, c1 ≠ c → m1.configs.get? c1 = m.configs.get? c1 := by
  unfold Memory.update
  rw [hc]
  refine ⟨_, rfl, rfl, rfl, ?_, ?_⟩
  · have hlt : c < m.configs.length := by
      by_contra hge
      rw [List.get?_eq_none.mpr (by omega)] at hc
      exact absurd hc (by simp)
    simp [List.get?_eq_getElem?, List.getElem?_set_self hlt]
  · intro c1 hne
    simp [List.get?_eq_getElem?, List.getElem?_set_ne (Ne.symm hne)]

theorem load_congr (m m1 : Memory F) (c : Nat) (hf : m1.floats = m.floats)
    (hi : m1.ints = m.ints) (hc : m1.configs.get? c = m.configs.get? c) :
    m1.load c = m.load c := by
  unfold Memory.load
  rw [hc, hf, hi]

theorem load_update_Language (m m1 : Memory F) (c : Nat) (cell : ConfigCell F) (cfg : Config F)
    (language : String) (h : m.load c = some cfg) (hc : m.configs.get? c = some cell)
    (hf : m1.floats = m.floats) (hi : m1.ints = m.ints)
    (hc1 : m1.configs.get? c = some { cell with Language := language }) :
    m1.load c = some { cfg with Language := language } := by
  obtain ⟨cell0, margin, padding, lines, h0, hm, hp, hl, hcfg⟩ := load_some m c cfg h
  have e : cell0 = cell := Option.some.inj (h0.symm.trans hc)
  subst e
  rw [hcfg]
  exact load_of_gets m1 c { cell0 with Language := language } margin padding lines hc1
    (by rw [hf]; exact hm) (by rw [hf]; exact hp) (by rw [hi]; exact hl)

theorem GenerateFromCode_valid (X : Collaborators F) (cfg : Config F) (code language : String)
    (hv : cfg.Validate = none) :
    GenerateFromCode X cfg code language =
      (if language ≠ "" then { cfg with Language := language } else cfg,
        match X.GetLexer (if language ≠ "" then { cfg with Language := language } else cfg).Language
            code with
        | none => Outcome.error "could not determine language for syntax highlighting"
        | some lexer =>
          generateSVG X (if language ≠ "" then { cfg with Language := language } else cfg) code
            lexer false) := by
  unfold GenerateFromCode
  rw [hv]
  simp only
  cases X.GetLexer (if language ≠ "" then { cfg with Language := language } else cfg).Language
    code <;> rfl

/-- The call on the memory, for a valid configuration: the document is the one of the call
on the configuration value, the pointer shows the configuration that call
leaves, and every other pointer shows what it showed. -/
theorem GenerateFromCode_mem (X : Collaborators F) (g : Generator) (m : Memory F)
    (cfg : Config F) (code language : String) (h : m.load g.config = some cfg)
    (hv : cfg.Validate = none) :
    ∃ m1, g.GenerateFromCode X m code language
        = some (m1, (GenerateFromCode X cfg code language).2) ∧
      m1.load g.config = some (if language ≠ "" then { cfg with Language := language } else cfg) ∧
      ∀ c cfg0, c ≠ g.config → m.load c = some cfg0 → m1.load c = some cfg0 := by
  -- the memory after the assignment of the field
  obtain ⟨m1, hm1, hload1, hframe1⟩ : ∃ m1,
      (if language ≠ "" then m.update g.config (fun c => { c with Language := language })
        else some m) = some m1 ∧
      m1.load g.config = some (if language ≠ "" then { cfg with Language := language } else cfg) ∧
      ∀ c cfg0, c ≠ g.config → m.load c = some cfg0 → m1.load c = some cfg0 := by
    by_cases hl : language ≠ ""
    · obtain ⟨cell, -, -, -, hc, -⟩ := load_some m g.config cfg h
      obtain ⟨m1, hu, hf, hi, hc1, hne⟩ :=
        update_spec m g.config cell (fun c => { c with Language := language }) hc
      refine ⟨m1, by rw [if_pos hl]; exact hu, ?_, ?_⟩
      · rw [if_pos hl]
        exact load_update_Language m m1 g.config cell cfg language h hc hf hi hc1
      · intro c cfg0 hcne h0
        rw [load_congr m m1 c hf hi (hne c hcne)]
        exact h0
    · refine ⟨m, by rw [if_neg hl], by rw [if_neg hl]; exact h, fun _ _ _ h0 => h0⟩
  rw [GenerateFromCode_valid X cfg code language hv]
  unfold Generator.GenerateFromCode
  rw [h]
  simp only [hv, hm1, hload1]
  generalize (if language ≠ "" then { cfg with Language := language } else cfg) = cfg1 at hload1 ⊢
  cases hlex : X.GetLexer cfg1.Language code with
  | none => exact ⟨m1, rfl, hload1, hframe1⟩
  | some lexer =>
    simp only [generateSVG, Bool.false_eq_true, if_false]
    cases htok : X.Tokenise lexer code with
    | error e => exact ⟨m1, rfl, hload1, hframe1⟩
    | ok it =>
      obtain ⟨m2, hg, hk⟩ := generateSVGFromIteratorMem_keeps X m1 g.config code it false cfg1 hload1
      refine ⟨m2, hg, load_of_keeps m1 m2 _ _ hk hload1, ?_⟩
      intro c cfg0 hcne h0
      exact load_of_keeps m1 m2 _ _ hk (hframe1 c cfg0 hcne h0)

theorem Validate_Language (cfg : Config F) (language : String) :
    ({ cfg with Language := language } : Config F).Validate = cfg.Validate := rfl

/-- C29: GenerateFromCode changes the shared configuration only in its Language field.
For a valid configuration behind the pointer of the generator, after the call
the pointer shows the configuration with `Language` set to a non-empty
argument and the same configuration for an empty argument, every other
pointer shows what it showed, and a following call with an empty language
looks the lexer up under the language of the first call. -/
theorem GenerateFromCode_sets_Language (X : Collaborators F) (f : Freeze) (m : Memory F)
    (cfg : Config F) (code language code2 : String)
    (h : m.load f.generator.config = some cfg) (hv : cfg.Validate = none) :
    ∃ m1, f.GenerateFromCode X m code language
        = some (m1, (GenerateFromCode X cfg code language).2) ∧
      (GenerateFromCode X cfg code language).1
        = (if language ≠ "" then { cfg with Language := language } else cfg) ∧
      m1.load f.generator.config
        = some (if language ≠ "" then { cfg with Language := language } else cfg) ∧
      (∀ c cfg0, c ≠ f.generator.config → m.load c = some cfg0 → m1.load c = some cfg0) ∧
      (language ≠ "" →
        ∃ m2, f.GenerateFromCode X m1 code2 ""
            = some (m2, match X.GetLexer language code2 with
              | none => Outcome.error "could not determine language for syntax highlighting"
              | some lexer => generateSVG X { cfg with Language := language } code2 lexer false) ∧
          m2.load f.generator.config = some { cfg with Language := language }) := by
  obtain ⟨m1, hr, hl1, hfr⟩ := GenerateFromCode_mem X f.generator m cfg code language h hv
  refine ⟨m1, hr, ?_, hl1, hfr, ?_⟩
  · rw [GenerateFromCode_valid X cfg code language hv]
  · intro hne
    rw [if_pos hne] at hl1
    obtain ⟨m2, hr2, hl2, -⟩ := GenerateFromCode_mem X f.generator m1
      { cfg with Language := language } code2 "" hl1 ((Validate_Language cfg language).trans hv)
    refine ⟨m2, ?_, ?_⟩
    · rw [Freeze.GenerateFromCode, hr2,
        GenerateFromCode_valid X _ code2 "" ((Validate_Language cfg language).trans hv)]
      simp
    · simpa using hl2

/-- C29, evaluated on `New()`: after `GenerateFromCode("ab", "go")` the configuration of the
instance is the default one with `Language = "go"`. -/
theorem GenerateFromCode_sets_Language_witness :
    ∃ m1, (New (emptyMemory : Memory ℚ)).2.GenerateFromCode plainText
        (New (emptyMemory : Memory ℚ)).1 "ab" "go"
        = some (m1, (GenerateFromCode plainText (DefaultConfig : Config ℚ) "ab" "go").2) ∧
      (GenerateFromCode plainText (DefaultConfig : Config ℚ) "ab" "go").1
        = { (DefaultConfig : Config ℚ) with Language := "go" } ∧
      m1.load (New (emptyMemory : Memory ℚ)).2.generator.config
        = some { (DefaultConfig : Config ℚ) with Language := "go" } ∧
      (∀ c cfg0, c ≠ (New (emptyMemory : Memory ℚ)).2.generator.config →
        (New (emptyMemory : Memory ℚ)).1.load c = some cfg0 → m1.load c = some cfg0) ∧
      ("go" ≠ "" →
        ∃ m2, (New (emptyMemory : Memory ℚ)).2.GenerateFromCode plainText m1 "cd" ""
            = some (m2, match plainText.GetLexer "go" "cd" with
              | none => Outcome.error "could not determine language for syntax highlighting"
              | some lexer =>
                generateSVG plainText { (DefaultConfig : Config ℚ) with Language := "go" } "cd"
                  lexer false) ∧
          m2.load (New (emptyMemory : Memory ℚ)).2.generator.config
            = some { (DefaultConfig : Config ℚ) with Language := "go" }) :=
  GenerateFromCode_sets_Language plainText (New (emptyMemory : Memory ℚ)).2
    (New (emptyMemory : Memory ℚ)).1 DefaultConfig "ab" "go" "cd" (by decide!) (by decide!)

/-- The memory of `New()` after `GenerateFromCode("ab", "go")`: the struct at address 0 has
the language, and the instance and its generator hold that address. -/
theorem GenerateFromCode_New :
    ((New (emptyMemory : Memory ℚ)).2.GenerateFromCode plainText
        (New (emptyMemory : Memory ℚ)).1 "ab" "go").map
        (fun r => (r.1.configs.map (fun c => c.Language), r.1.load 0 == some
          { (DefaultConfig : Config ℚ) with Language := "go" }))
      = some (["go"], true) ∧
    (New (emptyMemory : Memory ℚ)).2.config = 0 ∧
    (New (emptyMemory : Memory ℚ)).2.generator.config = 0 := by
  decide!


/-! ### The layout of a rendered document -/

/-- What a render that returns a document has computed, in the terms of the source: the
formatter returned a skeleton with its rectangle, the text layer was built
without a panic, and every field of the document is the value the code gives it. -/
theorem render_ok_layout (X : Collaborators F) (c : Config F) (input : String)
    (it : X.Iterator) (isAnsi : Bool) (d : Document F)
    (h : generateSVGFromIterator X c input it isAnsi = Outcome.ok d) :
    ∃ cut image,
      (if c.Lines.length = 2 then cutLines input c.Lines else some input) = some cut ∧
      X.Format c.Theme c.Background c.Font it = Except.ok image ∧
      image.terminal = true ∧
      textLayer X c isAnsi (1.0 : F)
        (if c.Window then
          (c.expandPadding (1.0 : F)).set top
            (side (c.expandPadding (1.0 : F)) top + ((15 : Nat) : F) * (1.0 : F))
        else c.expandPadding (1.0 : F))
        (c.expandMargin (1.0 : F)) d.imageHeight
        (if c.Wrap > 0 then X.Wrap cut c.Wrap else cut) image.textGroup
        = some (d.backgrounds, d.text) ∧
      d.imageHeight =
        (if !(c.Height == 0) then c.Height
        else ((image.h : Int) : F) * (1.0 : F) * (c.Font.Size / defaultFontSize)
            * (c.LineHeight / defaultLineHeight)
          + (side (c.expandMargin (1.0 : F)) top + side (c.expandMargin (1.0 : F)) bottom
            + (side (c.expandPadding (1.0 : F)) top + side (c.expandPadding (1.0 : F)) bottom))) ∧
      d.terminalHeight =
        (if c.Border.Width > 0 then
          (if !(c.Height == 0) then
            c.Height - (side (c.expandMargin (1.0 : F)) top + side (c.expandMargin (1.0 : F)) bottom)
          else ((image.h : Int) : F) * (1.0 : F) * (c.Font.Size / defaultFontSize)
              * (c.LineHeight / defaultLineHeight)
            + (side (c.expandPadding (1.0 : F)) top + side (c.expandPadding (1.0 : F)) bottom))
            - c.Border.Width * ((2 : Nat) : F)
        else
          (if !(c.Height == 0) then
            c.Height - (side (c.expandMargin (1.0 : F)) top + side (c.expandMargin (1.0 : F)) bottom)
          else ((image.h : Int) : F) * (1.0 : F) * (c.Font.Size / defaultFontSize)
              * (c.LineHeight / defaultLineHeight)
            + (side (c.expandPadding (1.0 : F)) top + side (c.expandPadding (1.0 : F)) bottom))) ∧
      d.shadow =
        (if c.Shadow.Blur > 0 ∨ c.Shadow.X > 0 ∨ c.Shadow.Y > 0 then
          some (c.Shadow.X * (1.0 : F), c.Shadow.Y * (1.0 : F), c.Shadow.Blur * (1.0 : F))
        else none) ∧
      d.windowControls =
        (if c.Window then
          some (side (c.expandMargin (1.0 : F)) left, side (c.expandMargin (1.0 : F)) top)
        else none) := by
  unfold generateSVGFromIterator at h
  simp only at h
  split at h
  · cases h
  · rename_i cut hcut
    split at h
    · cases h
    · rename_i image himage
      split at h
      · cases h
      · rename_i hterm
        split at h
        · cases h
        · rename_i backgrounds text htext
          cases h
          refine ⟨cut, image, hcut, himage, by simpa using hterm, htext, rfl, ?_, rfl, rfl⟩
          rfl

/-- C27 as stated fails: a negative offset alone attaches no shadow.  With
`Shadow = {Blur: 0, X: -5, Y: 0}` the render returns a document without a
filter, where `{Blur: 0, X: 5, Y: 0}` and `{Blur: 0, X: -5, Y: 3}` give one. -/
theorem shadow_negative_offset_counterexample :
    (∃ d, generateSVGFromIterator plainText
        { (DefaultConfig : Config ℚ) with Shadow := { Blur := 0, X := -5, Y := 0 } }
        "ab" "ab" false = Outcome.ok d ∧ d.shadow = none) ∧
    (∃ d, generateSVGFromIterator plainText
        { (DefaultConfig : Config ℚ) with Shadow := { Blur := 0, X := 5, Y := 0 } }
        "ab" "ab" false = Outcome.ok d ∧ d.shadow = some (5, 0, 0)) ∧
    (∃ d, generateSVGFromIterator plainText
        { (DefaultConfig : Config ℚ) with Shadow := { Blur := 0, X := -5, Y := 3 } }
        "ab" "ab" false = Outcome.ok d ∧ d.shadow = some (-5, 3, 0)) := by
  refine ⟨?_, ?_, ?_⟩
  · obtain ⟨d, h⟩ := ok_of_lines_ne_none (generateSVGFromIterator plainText
      { (DefaultConfig : Config ℚ) with Shadow := { Blur := 0, X := -5, Y := 0 } }
      "ab" "ab" false) (by decide!)
    obtain ⟨-, -, -, -, -, -, -, -, hs, -⟩ := render_ok_layout _ _ _ _ _ d h
    refine ⟨d, h, ?_⟩
    rw [hs]
    norm_num
  · obtain ⟨d, h⟩ := ok_of_lines_ne_none (generateSVGFromIterator plainText
      { (DefaultConfig : Config ℚ) with Shadow := { Blur := 0, X := 5, Y := 0 } }
      "ab" "ab" false) (by decide!)
    obtain ⟨-, -, -, -, -, -, -, -, hs, -⟩ := render_ok_layout _ _ _ _ _ d h
    refine ⟨d, h, ?_⟩
    rw [hs]
    norm_num
  · obtain ⟨d, h⟩ := ok_of_lines_ne_none (generateSVGFromIterator plainText
      { (DefaultConfig : Config ℚ) with Shadow := { Blur := 0, X := -5, Y := 3 } }
      "ab" "ab" false) (by decide!)
    obtain ⟨-, -, -, -, -, -, -, -, hs, -⟩ := render_ok_layout _ _ _ _ _ d h
    refine ⟨d, h, ?_⟩
    rw [hs]
    norm_num

/-- C27, amended: in a render that returns a document, the shadow filter is attached (with
the offsets and the blur of the configuration) if and only if at least one of
`Blur`, `X`, `Y` is greater than zero; when none of them is, no filter is
attached. -/
theorem shadow_iff_positive (X : Collaborators F) (c : Config F) (input : String)
    (it : X.Iterator) (isAnsi : Bool) (d : Document F)
    (h : generateSVGFromIterator X c input it isAnsi = Outcome.ok d) :
    (d.shadow ≠ none ↔ (c.Shadow.Blur > 0 ∨ c.Shadow.X > 0 ∨ c.Shadow.Y > 0)) ∧
    ((c.Shadow.Blur > 0 ∨ c.Shadow.X > 0 ∨ c.Shadow.Y > 0) →
      d.shadow = some (c.Shadow.X * (1.0 : F), c.Shadow.Y * (1.0 : F), c.Shadow.Blur * (1.0 : F))) ∧
    (¬ (c.Shadow.Blur > 0 ∨ c.Shadow.X > 0 ∨ c.Shadow.Y > 0) → d.shadow = none) := by
  obtain ⟨-, -, -, -, -, -, -, -, hs, -⟩ := render_ok_layout X c input it isAnsi d h
  rw [hs]
  by_cases hp : c.Shadow.Blur > 0 ∨ c.Shadow.X > 0 ∨ c.Shadow.Y > 0
  · rw [if_pos hp]
    exact ⟨⟨fun _ => hp, fun _ => Option.some_ne_none _⟩, fun _ => rfl, fun hn => absurd hp hn⟩
  · rw [if_neg hp]
    exact ⟨⟨fun hne => absurd rfl hne, fun hp1 => absurd hp1 hp⟩, fun hp1 => absurd hp1 hp,
      fun _ => rfl⟩

/-- C27, evaluated: the full preset (blur 20, offset 10 down) rendered on two lines. -/
theorem shadow_iff_positive_witness :
    ∃ d, generateSVGFromIterator plainText (FullPreset : Config ℚ) "a\nb" "a\nb" false
        = Outcome.ok d ∧ d.shadow ≠ none ∧
      d.shadow = some ((0 : ℚ) * 1.0, (10 : ℚ) * 1.0, (20 : ℚ) * 1.0) := by
  obtain ⟨d, h⟩ := ok_of_lines_ne_none (generateSVGFromIterator plainText
    (FullPreset : Config ℚ) "a\nb" "a\nb" false) (by decide!)
  exact ⟨d, h, (shadow_iff_positive plainText FullPreset "a\nb" "a\nb" false d h).1.mpr
      (Or.inl (by norm_num [FullPreset])),
    (shadow_iff_positive plainText FullPreset "a\nb" "a\nb" false d h).2.1
      (Or.inl (by norm_num [FullPreset]))⟩


/-- C25, in exact arithmetic: with automatic width the panel width of the rendered document
is `(L+1)*s/1.68 + P - 2*b + 3*s` and the canvas width is
`(L+1)*s/1.68 + P + M + 3*s`, with `L` the width `lipgloss.Width` measures on
the stripped, tab-expanded text, `2*b` counted with a border only and `3*s`
with line numbers only; and both are the same for a formatter that declares
any other width. -/
theorem auto_width_formula (X : Collaborators ℚ) (c : Config ℚ) (input : String)
    (it : X.Iterator) (isAnsi : Bool) (d : Document ℚ)
    (hw : c.Width = 0)
    (h : generateSVGFromIterator X c input it isAnsi = Outcome.ok d) :
    ∃ cut, (if c.Lines.length = 2 then cutLines input c.Lines else some input) = some cut ∧
      d.terminalWidth =
        ((X.Width (expandTabs (if isAnsi then 6 else 4)
            (X.Strip (if c.Wrap > 0 then X.Wrap cut c.Wrap else cut))) : ℚ) + 1) * c.Font.Size / 1.68
          + (side (c.expandPadding 1.0) left + side (c.expandPadding 1.0) right)
          - (if c.Border.Width > 0 then 2 * c.Border.Width else 0)
          + (if c.ShowLineNumbers then 3 * c.Font.Size else 0) ∧
      d.imageWidth =
        ((X.Width (expandTabs (if isAnsi then 6 else 4)
            (X.Strip (if c.Wrap > 0 then X.Wrap cut c.Wrap else cut))) : ℚ) + 1) * c.Font.Size / 1.68
          + (side (c.expandPadding 1.0) left + side (c.expandPadding 1.0) right)
          + (side (c.expandMargin 1.0) left + side (c.expandMargin 1.0) right)
          + (if c.ShowLineNumbers then 3 * c.Font.Size else 0) ∧
      ∀ (declared : Int → Int) (d1 : Document ℚ),
        generateSVGFromIterator
            { X with
              Format := fun theme background font it1 =>
                (X.Format theme background font it1).map
                  (fun image => { image with w := declared image.w }) }
            c input it isAnsi = Outcome.ok d1 →
          d1.terminalWidth = d.terminalWidth ∧ d1.imageWidth = d.imageWidth := by
  have hw1 : (c.Width == 0) = true := by
    show decide (c.Width = 0) = true
    simp [hw]
  obtain ⟨cut, hcut, ht, hi⟩ := auto_width_geometry X c input it isAnsi d h hw1
  refine ⟨cut, hcut, ?_, ?_, ?_⟩
  · rw [ht]
    have e : (fontHeightToWidthRatio : ℚ) = 1.68 := rfl
    rw [e]
    push_cast
    split_ifs <;> norm_num <;> ring
  · rw [hi]
    have e : (fontHeightToWidthRatio : ℚ) = 1.68 := rfl
    rw [e]
    push_cast
    split_ifs <;> norm_num <;> ring
  · intro declared d1 h1
    obtain ⟨cut1, hcut1, ht1, hi1⟩ := auto_width_geometry
      { X with
        Format := fun theme background font it1 =>
          (X.Format theme background font it1).map
            (fun image => { image with w := declared image.w }) }
      c input it isAnsi d1 h1 hw1
    have hc : cut1 = cut := Option.some.inj (hcut1.symm.trans hcut)
    subst hc
    exact ⟨ht1.trans ht.symm, hi1.trans hi.symm⟩

/-- C25, evaluated: the text `"ab"` (two cells) with the default configuration and line
numbers: panel and canvas are `3 * 14 / 1.68 + 40 + 42 = 107` wide, where the
stand-in formatter declares 16. -/
theorem auto_width_formula_witness :
    ∃ d : Document ℚ,
      generateSVGFromIterator plainText
        { (DefaultConfig : Config ℚ) with ShowLineNumbers := true } "ab" "ab" false = Outcome.ok d ∧
      d.terminalWidth = 107 ∧ d.imageWidth = 107 := by
  obtain ⟨d, h⟩ := ok_of_lines_ne_none (generateSVGFromIterator plainText
    { (DefaultConfig : Config ℚ) with ShowLineNumbers := true } "ab" "ab" false) (by decide!)
  obtain ⟨cut, hcut, ht, hi, -⟩ := auto_width_formula plainText
    { (DefaultConfig : Config ℚ) with ShowLineNumbers := true } "ab" "ab" false d rfl h
  have hc : cut = "ab" := (Option.some.inj hcut).symm
  subst hc
  refine ⟨d, h, ?_, ?_⟩
  · rw [ht]
    have e : (plainText : Collaborators ℚ).Width (expandTabs 4 "ab") = 2 := by decide!
    simp only [Bool.false_eq_true, if_false]
    have e2 : (plainText : Collaborators ℚ).Strip
        (if ({ (DefaultConfig : Config ℚ) with ShowLineNumbers := true } : Config ℚ).Wrap > 0 then
          (plainText : Collaborators ℚ).Wrap "ab"
            ({ (DefaultConfig : Config ℚ) with ShowLineNumbers := true } : Config ℚ).Wrap
        else "ab") = "ab" := by decide!
    rw [e2, e]
    norm_num [DefaultConfig, Config.expandPadding, side, left, right]
  · rw [hi]
    have e : (plainText : Collaborators ℚ).Width (expandTabs 4 "ab") = 2 := by decide!
    simp only [Bool.false_eq_true, if_false]
    have e2 : (plainText : Collaborators ℚ).Strip
        (if ({ (DefaultConfig : Config ℚ) with ShowLineNumbers := true } : Config ℚ).Wrap > 0 then
          (plainText : Collaborators ℚ).Wrap "ab"
            ({ (DefaultConfig : Config ℚ) with ShowLineNumbers := true } : Config ℚ).Wrap
        else "ab") = "ab" := by decide!
    rw [e2, e]
    norm_num [DefaultConfig, Config.expandPadding, Config.expandMargin, side, left, right]


/-! ### Properties of a line that the handler calls keep

The handler calls change a line in two ways only: a run is appended
(`AddChild`), or the text of its last run is extended by one rune.  A property
of lines that both changes keep therefore holds of every line after any
sequence of handler calls.
-/

theorem set_preserves {α : Type} (P : Nat → α → Prop) (xs : List α) (k : Nat) (x y : α)
    (hx : xs.get? k = some x) (hy : P k x → P k y)
    (hP : ∀ i t, xs.get? i = some t → P i t) :
    ∀ i t, (xs.set k y).get? i = some t → P i t := by
  intro i t ht
  rw [List.get?_eq_getElem?, List.getElem?_set] at ht
  split at ht
  · rename_i hki
    subst hki
    split at ht
    · cases ht
      exact hy (hP k x hx)
    · exact absurd ht (by simp)
  · rw [← List.get?_eq_getElem?] at ht
    exact hP i t ht

theorem index_get? {α : Type} (xs : List α) (i : Int) (x : α) (h : index xs i = some x) :
    xs.get? i.toNat = some x := by
  unfold index at h
  split at h
  · exact absurd h (by simp)
  · exact h

theorem Print_preserves (P : Nat → TextElement F → Prop)
    (hAdd : ∀ i t (e : Element F), P i t → P i (t.AddChild e))
    (hText : ∀ i t (r : Char), P i t →
      P i (t.setLastChildElement
        ((t.ChildElements.getLastD
            ((NewElement "tspan").CreateAttr "xml:space" (AttrValue.str "preserve"))).SetText
          ((t.ChildElements.getLastD
            ((NewElement "tspan").CreateAttr "xml:space" (AttrValue.str "preserve"))).Text
            ++ String.singleton r))))
    (RuneWidth : Char → Nat) (p p1 : dispatcher F) (r : Char)
    (h : p.Print RuneWidth r = some p1)
    (hP : ∀ i t, p.lines.get? i = some t → P i t) :
    (∀ i t, p1.lines.get? i = some t → P i t) ∧ p1.lines.length = p.lines.length := by
  unfold dispatcher.Print at h
  simp only at h
  split at h
  · exact absurd h (by simp)
  · rename_i line hline
    cases h
    refine ⟨?_, by simp⟩
    refine set_preserves P p.lines _ line _ (index_get? _ _ _ hline) ?_ hP
    intro hPl
    by_cases hfirst : line.ChildElements.length = 0
    · simp only [hfirst, if_true]
      have hP1 := hAdd _ line
        ((NewElement "tspan").CreateAttr "xml:space" (AttrValue.str "preserve")) hPl
      split
      · exact hAdd _ _ _ hP1
      · have hlast : (line.AddChild
            ((NewElement "tspan").CreateAttr "xml:space"
              (AttrValue.str "preserve"))).ChildElements.getLastD
            ((NewElement "tspan").CreateAttr "xml:space" (AttrValue.str "preserve"))
            = ((NewElement "tspan").CreateAttr "xml:space" (AttrValue.str "preserve") :
                Element F) := by
          rw [ChildElements_AddChild]
          simp
        have := hText _ _ r hP1
        rw [hlast] at this
        exact this
    · simp only [hfirst, if_false]
      split
      · exact hAdd _ _ _ hPl
      · exact hText _ _ r hPl

theorem tabLoop_preserves (P : Nat → TextElement F → Prop)
    (hAdd : ∀ i t (e : Element F), P i t → P i (t.AddChild e))
    (hText : ∀ i t (r : Char), P i t →
      P i (t.setLastChildElement
        ((t.ChildElements.getLastD
            ((NewElement "tspan").CreateAttr "xml:space" (AttrValue.str "preserve"))).SetText
          ((t.ChildElements.getLastD
            ((NewElement "tspan").CreateAttr "xml:space" (AttrValue.str "preserve"))).Text
            ++ String.singleton r))))
    (RuneWidth : Char → Nat) (fuel : Nat) (p p1 : dispatcher F)
    (h : dispatcher.tabLoop RuneWidth fuel p = some p1)
    (hP : ∀ i t, p.lines.get? i = some t → P i t) :
    (∀ i t, p1.lines.get? i = some t → P i t) ∧ p1.lines.length = p.lines.length := by
  induction fuel generalizing p with
  | zero =>
    unfold dispatcher.tabLoop at h
    split_ifs at h
    cases h
    exact ⟨hP, rfl⟩
  | succ fuel ih =>
    unfold dispatcher.tabLoop at h
    split_ifs at h
    · cases h
      exact ⟨hP, rfl⟩
    · split at h
      · exact absurd h (by simp)
      · rename_i p2 hp2
        obtain ⟨hP2, hl2⟩ := Print_preserves P hAdd hText RuneWidth p p2 ' ' hp2 hP
        obtain ⟨hP3, hl3⟩ := ih p2 h hP2
        exact ⟨hP3, hl3.trans hl2⟩

theorem Execute_preserves (P : Nat → TextElement F → Prop)
    (hAdd : ∀ i t (e : Element F), P i t → P i (t.AddChild e))
    (hText : ∀ i t (r : Char), P i t →
      P i (t.setLastChildElement
        ((t.ChildElements.getLastD
            ((NewElement "tspan").CreateAttr "xml:space" (AttrValue.str "preserve"))).SetText
          ((t.ChildElements.getLastD
            ((NewElement "tspan").CreateAttr "xml:space" (AttrValue.str "preserve"))).Text
            ++ String.singleton r))))
    (RuneWidth : Char → Nat) (code : Nat) (p p1 : dispatcher F)
    (h : p.Execute RuneWidth code = some p1)
    (hP : ∀ i t, p.lines.get? i = some t → P i t) :
    (∀ i t, p1.lines.get? i = some t → P i t) ∧ p1.lines.length = p.lines.length := by
  unfold dispatcher.Execute at h
  split at h
  · exact absurd h (by simp)
  · rename_i p2 hp2
    have h2 : (∀ i t, p2.lines.get? i = some t → P i t) ∧ p2.lines.length = p.lines.length := by
      split_ifs at hp2
      · exact tabLoop_preserves P hAdd hText RuneWidth 16 p p2 hp2 hP
      · cases hp2
        exact ⟨hP, rfl⟩
    split_ifs at h
    · cases h
      have e := (endBackground_frame p2).1
      exact ⟨by simpa [e] using h2.1, by simpa [e] using h2.2⟩
    · cases h
      exact h2

theorem commit_preserves (P : Nat → TextElement F → Prop)
    (hAdd : ∀ i t (e : Element F), P i t → P i (t.AddChild e)) (s : sgrState F)
    (hP : ∀ i t, s.p.lines.get? i = some t → P i t) :
    (∀ i t, s.commit.lines.get? i = some t → P i t) ∧ s.commit.lines.length = s.p.lines.length := by
  unfold sgrState.commit
  split
  · split
    · rename_i line hline
      refine ⟨?_, by simp⟩
      exact set_preserves P s.p.lines _ line _ (index_get? _ _ _ hline) (hAdd _ _ _) hP
    · exact ⟨hP, rfl⟩
  · exact ⟨hP, rfl⟩

theorem CsiDispatch_preserves (P : Nat → TextElement F → Prop)
    (hAdd : ∀ i t (e : Element F), P i t → P i (t.AddChild e))
    (cmd : Int) (params : List Nat) (p p1 : dispatcher F)
    (h : p.CsiDispatch cmd params = some p1)
    (hP : ∀ i t, p.lines.get? i = some t → P i t) :
    (∀ i t, p1.lines.get? i = some t → P i t) ∧ p1.lines.length = p.lines.length := by
  have key : ∀ s s1 : sgrState F, s.p = p →
      (s.reset = some s1 ∨ sgrLoop params 0 s = some s1) →
      (∀ i t, s1.commit.lines.get? i = some t → P i t) ∧
        s1.commit.lines.length = p.lines.length := by
    intro s s1 hs hor
    have hf : s1.p.lines = p.lines := by
      rcases hor with hr | hl
      · rw [(reset_frame s s1 hr).1, hs]
      · rw [(sgrLoop_frame params 0 s s1 hl).1, hs]
    have := commit_preserves P hAdd s1 (by rw [hf]; exact hP)
    rw [hf] at this
    exact this
  unfold dispatcher.CsiDispatch at h
  split_ifs at h
  · cases h
    exact ⟨hP, rfl⟩
  · simp only [Option.map_eq_some'] at h
    obtain ⟨s1, hs1, rfl⟩ := h
    exact key _ s1 rfl (Or.inl hs1)
  · simp only [Option.map_eq_some'] at h
    obtain ⟨s1, hs1, rfl⟩ := h
    exact key _ s1 rfl (Or.inr hs1)

theorem run_preserves (P : Nat → TextElement F → Prop)
    (hAdd : ∀ i t (e : Element F), P i t → P i (t.AddChild e))
    (hText : ∀ i t (r : Char), P i t →
      P i (t.setLastChildElement
        ((t.ChildElements.getLastD
            ((NewElement "tspan").CreateAttr "xml:space" (AttrValue.str "preserve"))).SetText
          ((t.ChildElements.getLastD
            ((NewElement "tspan").CreateAttr "xml:space" (AttrValue.str "preserve"))).Text
            ++ String.singleton r))))
    (RuneWidth : Char → Nat) (es : List Event) (p p1 : dispatcher F)
    (h : p.run RuneWidth es = some p1)
    (hP : ∀ i t, p.lines.get? i = some t → P i t) :
    (∀ i t, p1.lines.get? i = some t → P i t) ∧ p1.lines.length = p.lines.length := by
  induction es generalizing p with
  | nil =>
    cases h
    exact ⟨hP, rfl⟩
  | cons e es ih =>
    unfold dispatcher.run at h
    split at h
    · exact absurd h (by simp)
    · rename_i p2 hp2
      have h2 : (∀ i t, p2.lines.get? i = some t → P i t) ∧ p2.lines.length = p.lines.length := by
        cases e with
        | Print r => exact Print_preserves P hAdd hText RuneWidth p p2 r hp2 hP
        | Execute code => exact Execute_preserves P hAdd hText RuneWidth code p p2 hp2 hP
        | CsiDispatch cmd params => exact CsiDispatch_preserves P hAdd cmd params p p2 hp2 hP
      obtain ⟨hP3, hl3⟩ := ih p2 h h2.1
      exact ⟨hP3, hl3.trans h2.2⟩

theorem processLines_preserves (P : Nat → TextElement F → Prop)
    (hAdd : ∀ i t (e : Element F), P i t → P i (t.AddChild e))
    (hText : ∀ i t (r : Char), P i t →
      P i (t.setLastChildElement
        ((t.ChildElements.getLastD
            ((NewElement "tspan").CreateAttr "xml:space" (AttrValue.str "preserve"))).SetText
          ((t.ChildElements.getLastD
            ((NewElement "tspan").CreateAttr "xml:space" (AttrValue.str "preserve"))).Text
            ++ String.singleton r))))
    (X : Collaborators F) (ls : List String) (parser : X.ParserState) (p p1 : dispatcher F)
    (h : processLines X ls parser p = some p1)
    (hP : ∀ i t, p.lines.get? i = some t → P i t) :
    (∀ i t, p1.lines.get? i = some t → P i t) ∧ p1.lines.length = p.lines.length := by
  induction ls generalizing p parser with
  | nil =>
    cases h
    exact ⟨hP, rfl⟩
  | cons l ls ih =>
    unfold processLines at h
    split at h
    · exact absurd h (by simp)
    · rename_i p2 hp2
      split at h
      · exact absurd h (by simp)
      · rename_i p3 hp3
        obtain ⟨hP2, hl2⟩ := run_preserves P hAdd hText X.RuneWidth _ p p2 hp2 hP
        obtain ⟨hP3, hl3⟩ := Execute_preserves P hAdd hText X.RuneWidth 10 p2 p3 hp3 hP2
        obtain ⟨hP4, hl4⟩ := ih _ p3 h hP3
        exact ⟨hP4, hl4.trans (hl3.trans hl2)⟩

theorem placeLines_get? (X : Collaborators F) (c : Config F) (isAnsi : Bool) (scale : F)
    (pad mar : List F) (H : F) (text : List (TextElement F)) :
    ∀ (k i : Nat), (placeLines X c isAnsi scale pad mar H k text).get? i
      = (text.get? i).map (placeLine X c isAnsi scale pad mar H (k + i)) := by
  induction text with
  | nil => intro k i; simp [placeLines]
  | cons t text ih =>
    intro k i
    cases i with
    | zero => simp [placeLines]
    | succ i =>
      simp only [placeLines, List.get?_cons_succ]
      rw [ih (k + 1) i, show k + 1 + i = k + (i + 1) by omega]

theorem placeLines_length (X : Collaborators F) (c : Config F) (isAnsi : Bool) (scale : F)
    (pad mar : List F) (H : F) (text : List (TextElement F)) :
    ∀ k : Nat, (placeLines X c isAnsi scale pad mar H k text).length = text.length := by
  induction text with
  | nil => intro k; rfl
  | cons t text ih => intro k; simp [placeLines, ih (k + 1)]

/-- The text layer of a document: the lines the loop has placed, after the handler calls
in terminal mode, of which the ones not removed are left in the group.  Every
property the loop establishes and the handler calls keep holds of each line. -/
theorem textLayer_lines (X : Collaborators F) (c : Config F) (isAnsi : Bool) (scale : F)
    (pad mar : List F) (H : F) (input : String) (text : List (TextElement F))
    (bgs : List (Element F)) (out : List (TextElement F))
    (h : textLayer X c isAnsi scale pad mar H input (some text) = some (bgs, out)) :
    ∃ lines : List (TextElement F), lines.length = text.length ∧
      out = keptLines lines ((placeLines X c isAnsi scale pad mar H 0 text).map (fun lk => lk.2)) ∧
      (isAnsi = false → lines = (placeLines X c isAnsi scale pad mar H 0 text).map (fun lk => lk.1)) ∧
      ∀ P : Nat → TextElement F → Prop,
        (∀ i t (e : Element F), P i t → P i (t.AddChild e)) →
        (∀ i t (r : Char), P i t →
          P i (t.setLastChildElement
            ((t.ChildElements.getLastD
                ((NewElement "tspan").CreateAttr "xml:space" (AttrValue.str "preserve"))).SetText
              ((t.ChildElements.getLastD
                ((NewElement "tspan").CreateAttr "xml:space" (AttrValue.str "preserve"))).Text
                ++ String.singleton r)))) →
        (∀ i t, text.get? i = some t → P i (placeLine X c isAnsi scale pad mar H i t).1) →
        ∀ i t, lines.get? i = some t → P i t := by
  have hbase : ∀ P : Nat → TextElement F → Prop,
      (∀ i t, text.get? i = some t → P i (placeLine X c isAnsi scale pad mar H i t).1) →
      ∀ i t, ((placeLines X c isAnsi scale pad mar H 0 text).map (fun lk => lk.1)).get? i = some t →
        P i t := by
    intro P hb i t ht
    rw [List.get?_eq_getElem?, List.getElem?_map, ← List.get?_eq_getElem?, placeLines_get?,
      Nat.zero_add] at ht
    cases hti : text.get? i with
    | none => rw [hti] at ht; exact absurd ht (by simp)
    | some t0 =>
      rw [hti] at ht
      simp only [Option.map_some'] at ht
      cases ht
      exact hb i t0 hti
  unfold textLayer at h
  simp only at h
  split_ifs at h with ha
  · split at h
    · exact absurd h (by simp)
    · rename_i d hd
      cases h
      unfold processANSI at hd
      refine ⟨d.lines, ?_, rfl, fun hf => absurd ha (by simp [hf]), ?_⟩
      · have := (processLines_preserves (fun _ _ => True) (fun _ _ _ _ => trivial)
          (fun _ _ _ _ => trivial) X _ _ _ d hd (fun _ _ _ => trivial)).2
        rw [this]
        simp [newDispatcher, placeLines_length]
      · intro P hAdd hText hb
        exact (processLines_preserves P hAdd hText X _ _ _ d hd (hbase P hb)).1
  · cases h
    refine ⟨_, by simp [placeLines_length], rfl, fun _ => rfl, ?_⟩
    intro P _ _ hb
    exact hbase P hb


/-! ### Positions of the text lines -/

theorem find?_created (key : String) (value : AttrValue F) (as : List (Attr F)) :
    (((match setAttr key value as with
      | some as1 => as1
      | none => as ++ [Attr.mk key value] : List (Attr F))).find? (fun a => a.Key = key)).map
        (fun a => a.Value) = some value := by
  induction as with
  | nil => simp [setAttr]
  | cons a as ih =>
    unfold setAttr
    by_cases hk : a.Key = key
    · simp [hk]
    · simp only [hk, if_false]
      cases hs : setAttr key value as with
      | none =>
        rw [hs] at ih
        simp only [Option.map_none', List.cons_append]
        rw [List.find?_cons_of_neg _ (by simpa using hk)]
        exact ih
      | some as1 =>
        rw [hs] at ih
        simp only [Option.map_some']
        rw [List.find?_cons_of_neg _ (by simpa using hk)]
        exact ih

theorem find?_created_other (key k : String) (value : AttrValue F) (as : List (Attr F))
    (hne : k ≠ key) :
    ((match setAttr key value as with
      | some as1 => as1
      | none => as ++ [Attr.mk key value] : List (Attr F))).find? (fun a => a.Key = k)
      = as.find? (fun a => a.Key = k) := by
  induction as with
  | nil =>
    simp only [setAttr, List.nil_append]
    rw [List.find?_cons_of_neg _ (by simpa using fun e : key = k => hne e.symm)]
  | cons a as ih =>
    unfold setAttr
    by_cases hk : a.Key = key
    · simp only [hk, if_true]
      have hak : ¬ a.Key = k := fun e => hne (e.symm.trans hk)
      rw [List.find?_cons_of_neg _ (by simpa [hk] using fun e : key = k => hne e.symm),
        List.find?_cons_of_neg _ (by simpa using hak)]
    · simp only [hk, if_false]
      cases hs : setAttr key value as with
      | none =>
        rw [hs] at ih
        simp only [Option.map_none', List.cons_append]
        by_cases hak : a.Key = k
        · rw [List.find?_cons_of_pos _ (by simpa using hak),
            List.find?_cons_of_pos _ (by simpa using hak)]
        · rw [List.find?_cons_of_neg _ (by simpa using hak),
            List.find?_cons_of_neg _ (by simpa using hak)]
          exact ih
      | some as1 =>
        rw [hs] at ih
        simp only [Option.map_some']
        by_cases hak : a.Key = k
        · rw [List.find?_cons_of_pos _ (by simpa using hak),
            List.find?_cons_of_pos _ (by simpa using hak)]
        · rw [List.find?_cons_of_neg _ (by simpa using hak),
            List.find?_cons_of_neg _ (by simpa using hak)]
          exact ih

theorem SelectAttr_CreateAttr (t : TextElement F) (key : String) (value : AttrValue F) :
    (t.CreateAttr key value).SelectAttr key = some value := by
  have := find?_created key value t.Attr
  unfold TextElement.SelectAttr TextElement.CreateAttr
  cases hs : setAttr key value t.Attr with
  | none => rw [hs] at this; exact this
  | some as1 => rw [hs] at this; exact this

theorem SelectAttr_CreateAttr_other (t : TextElement F) (key k : String) (value : AttrValue F)
    (hne : k ≠ key) : (t.CreateAttr key value).SelectAttr k = t.SelectAttr k := by
  have := find?_created_other key k value t.Attr hne
  unfold TextElement.SelectAttr TextElement.CreateAttr
  cases hs : setAttr key value t.Attr with
  | none => rw [hs] at this; simp only [this]
  | some as1 => rw [hs] at this; simp only [this]

theorem Move_position (t : TextElement F) (x y : F) :
    (Move t x y).SelectAttr "x" = some (AttrValue.px x) ∧
      (Move t x y).SelectAttr "y" = some (AttrValue.px y) ∧ (Move t x y).Child = t.Child := by
  unfold Move
  refine ⟨?_, SelectAttr_CreateAttr _ _ _, ?_⟩
  · rw [SelectAttr_CreateAttr_other _ "y" "x" _ (by decide)]
    exact SelectAttr_CreateAttr _ _ _
  · unfold TextElement.CreateAttr
    split <;> split <;> rfl

theorem expandPadding_length (c : Config F) (scale : F) : (c.expandPadding scale).length = 4 := by
  unfold Config.expandPadding
  split <;> rfl

theorem expandMargin_length (c : Config F) (scale : F) : (c.expandMargin scale).length = 4 := by
  unfold Config.expandMargin
  split <;> rfl

theorem side_set_top (l : List F) (v : F) (h : l.length = 4) :
    side (l.set top v) top = v ∧ side (l.set top v) right = side l right ∧
      side (l.set top v) bottom = side l bottom ∧ side (l.set top v) left = side l left := by
  match l, h with
  | [a, b, c, d], _ => exact ⟨rfl, rfl, rfl, rfl⟩

/-- The expanded padding the text loop reads: the top has the 15 of the window chrome. -/
theorem windowPadding_sides (c : Config F) :
    side (if c.Window then
        (c.expandPadding (1.0 : F)).set top
          (side (c.expandPadding (1.0 : F)) top + ((15 : Nat) : F) * (1.0 : F))
      else c.expandPadding (1.0 : F)) top
      = (if c.Window then side (c.expandPadding (1.0 : F)) top + ((15 : Nat) : F) * (1.0 : F)
        else side (c.expandPadding (1.0 : F)) top) ∧
    side (if c.Window then
        (c.expandPadding (1.0 : F)).set top
          (side (c.expandPadding (1.0 : F)) top + ((15 : Nat) : F) * (1.0 : F))
      else c.expandPadding (1.0 : F)) bottom = side (c.expandPadding (1.0 : F)) bottom ∧
    side (if c.Window then
        (c.expandPadding (1.0 : F)).set top
          (side (c.expandPadding (1.0 : F)) top + ((15 : Nat) : F) * (1.0 : F))
      else c.expandPadding (1.0 : F)) left = side (c.expandPadding (1.0 : F)) left := by
  obtain ⟨h1, -, h3, h4⟩ := side_set_top (c.expandPadding (1.0 : F))
    (side (c.expandPadding (1.0 : F)) top + ((15 : Nat) : F) * (1.0 : F))
    (expandPadding_length c _)
  by_cases hw : c.Window = true
  · simp only [hw, if_true]
    exact ⟨h1, h3, h4⟩
  · simp only [hw]
    exact ⟨rfl, rfl, rfl⟩

/-- The text lines of a rendered document: the `text` elements of the formatter's group, each
placed by the loop and, in terminal mode, filled by the handler calls; the ones
the loop removed are left out. -/
theorem render_text_layout (X : Collaborators F) (c : Config F) (input : String)
    (it : X.Iterator) (isAnsi : Bool) (d : Document F)
    (h : generateSVGFromIterator X c input it isAnsi = Outcome.ok d) :
    ∃ (image : Skeleton F) (lines : List (TextElement F)),
      X.Format c.Theme c.Background c.Font it = Except.ok image ∧
      lines.length = (image.textGroup.getD []).length ∧
      d.text = keptLines lines
        ((placeLines X c isAnsi (1.0 : F)
          (if c.Window then
            (c.expandPadding (1.0 : F)).set top
              (side (c.expandPadding (1.0 : F)) top + ((15 : Nat) : F) * (1.0 : F))
          else c.expandPadding (1.0 : F))
          (c.expandMargin (1.0 : F)) d.imageHeight 0 (image.textGroup.getD [])).map
            (fun lk => lk.2)) ∧
      (isAnsi = false → lines =
        (placeLines X c isAnsi (1.0 : F)
          (if c.Window then
            (c.expandPadding (1.0 : F)).set top
              (side (c.expandPadding (1.0 : F)) top + ((15 : Nat) : F) * (1.0 : F))
          else c.expandPadding (1.0 : F))
          (c.expandMargin (1.0 : F)) d.imageHeight 0 (image.textGroup.getD [])).map
            (fun lk => lk.1)) ∧
      ∀ P : Nat → TextElement F → Prop,
        (∀ i t (e : Element F), P i t → P i (t.AddChild e)) →
        (∀ i t (r : Char), P i t →
          P i (t.setLastChildElement
            ((t.ChildElements.getLastD
                ((NewElement "tspan").CreateAttr "xml:space" (AttrValue.str "preserve"))).SetText
              ((t.ChildElements.getLastD
                ((NewElement "tspan").CreateAttr "xml:space" (AttrValue.str "preserve"))).Text
                ++ String.singleton r)))) →
        (∀ i t, (image.textGroup.getD []).get? i = some t →
          P i (placeLine X c isAnsi (1.0 : F)
            (if c.Window then
              (c.expandPadding (1.0 : F)).set top
                (side (c.expandPadding (1.0 : F)) top + ((15 : Nat) : F) * (1.0 : F))
            else c.expandPadding (1.0 : F))
            (c.expandMargin (1.0 : F)) d.imageHeight i t).1) →
        ∀ i t, lines.get? i = some t → P i t := by
  obtain ⟨cut, image, -, himage, -, htext, -⟩ := render_ok_layout X c input it isAnsi d h
  cases hg : image.textGroup with
  | none =>
    rw [hg] at htext
    have : d.text = [] := by
      unfold textLayer at htext
      simp only at htext
      exact (Prod.mk.inj (Option.some.inj htext)).2.symm
    refine ⟨image, [], himage, by rw [hg]; rfl, ?_, ?_, ?_⟩
    · rw [this, hg]; rfl
    · intro _; rw [hg]; rfl
    · intro P _ _ _ i t ht
      exact absurd ht (by simp)
  | some text =>
    rw [hg] at htext
    obtain ⟨lines, hlen, hout, hplain, hP⟩ := textLayer_lines X c isAnsi _ _ _ _ _ text _ _ htext
    exact ⟨image, lines, himage, by rw [hg]; exact hlen, by rw [hg]; exact hout,
      by rw [hg]; exact hplain, by rw [hg]; exact hP⟩


theorem placeLine_position (X : Collaborators F) (c : Config F) (isAnsi : Bool) (scale : F)
    (pad mar : List F) (H : F) (i : Nat) (t : TextElement F) :
    (placeLine X c isAnsi scale pad mar H i t).1.SelectAttr "x"
        = some (AttrValue.px (side pad left + side mar left)) ∧
      (placeLine X c isAnsi scale pad mar H i t).1.SelectAttr "y"
        = some (AttrValue.px ((((i + 1 : Nat) : F)) * (c.Font.Size * (c.LineHeight * scale))
            + side pad top + side mar top)) ∧
      (placeLine X c isAnsi scale pad mar H i t).2
        = !(decide ((((i + 1 : Nat) : F)) * (c.Font.Size * (c.LineHeight * scale))
            + side pad top + side mar top > H - side mar bottom - side pad bottom)) := by
  unfold placeLine
  exact ⟨(Move_position _ _ _).1, (Move_position _ _ _).2.1, rfl⟩

/-- Where the loop puts the text lines, and which of them it removes (exact arithmetic). -/
theorem text_positions (X : Collaborators ℚ) (c : Config ℚ) (input : String)
    (it : X.Iterator) (isAnsi : Bool) (d : Document ℚ)
    (h : generateSVGFromIterator X c input it isAnsi = Outcome.ok d) :
    ∃ (image : Skeleton ℚ) (lines : List (TextElement ℚ)) (kept : List Bool),
      X.Format c.Theme c.Background c.Font it = Except.ok image ∧
      lines.length = (image.textGroup.getD []).length ∧
      kept.length = (image.textGroup.getD []).length ∧
      d.text = keptLines lines kept ∧
      ∀ i, i < (image.textGroup.getD []).length →
        (∃ line, lines.get? i = some line ∧
          line.SelectAttr "x" = some (AttrValue.px
            (side (c.expandPadding 1.0) left + side (c.expandMargin 1.0) left)) ∧
          line.SelectAttr "y" = some (AttrValue.px
            (((i : ℚ) + 1) * c.Font.Size * c.LineHeight
              + (side (c.expandPadding 1.0) top + (if c.Window then 15 else 0))
              + side (c.expandMargin 1.0) top))) ∧
        kept.get? i = some (decide
          (((i : ℚ) + 1) * c.Font.Size * c.LineHeight
              + (side (c.expandPadding 1.0) top + (if c.Window then 15 else 0))
              + side (c.expandMargin 1.0) top
            ≤ d.imageHeight - side (c.expandMargin 1.0) bottom
              - side (c.expandPadding 1.0) bottom)) := by
  obtain ⟨image, lines, himage, hlen, htext, -, hP⟩ := render_text_layout X c input it isAnsi d h
  obtain ⟨ptop, pbot, pleft⟩ := windowPadding_sides c
  -- the position the loop computes, in the form of the statement
  have hy : ∀ i : Nat,
      (((i + 1 : Nat) : ℚ)) * (c.Font.Size * (c.LineHeight * (1.0 : ℚ)))
        + side (if c.Window then
            (c.expandPadding (1.0 : ℚ)).set top
              (side (c.expandPadding (1.0 : ℚ)) top + ((15 : Nat) : ℚ) * (1.0 : ℚ))
          else c.expandPadding (1.0 : ℚ)) top
        + side (c.expandMargin (1.0 : ℚ)) top
      = ((i : ℚ) + 1) * c.Font.Size * c.LineHeight
        + (side (c.expandPadding 1.0) top + (if c.Window then 15 else 0))
        + side (c.expandMargin 1.0) top := by
    intro i
    rw [ptop]
    push_cast
    split_ifs <;> norm_num <;> ring
  refine ⟨image, lines, _, himage, hlen, ?_, htext, ?_⟩
  · simp [placeLines_length]
  · intro i hi
    obtain ⟨t0, ht0⟩ : ∃ t0, (image.textGroup.getD []).get? i = some t0 :=
      ⟨_, List.get?_eq_get hi⟩
    have hlt : i < lines.length := by rw [hlen]; exact hi
    refine ⟨⟨lines.get ⟨i, hlt⟩, List.get?_eq_get hlt, ?_⟩, ?_⟩
    · refine hP (fun i t =>
        t.SelectAttr "x" = some (AttrValue.px
            (side (c.expandPadding 1.0) left + side (c.expandMargin 1.0) left)) ∧
          t.SelectAttr "y" = some (AttrValue.px
            (((i : ℚ) + 1) * c.Font.Size * c.LineHeight
              + (side (c.expandPadding 1.0) top + (if c.Window then 15 else 0))
              + side (c.expandMargin 1.0) top)))
        (fun _ _ _ hh => hh) (fun _ _ _ hh => hh) ?_ i _ (List.get?_eq_get hlt)
      intro j t _
      obtain ⟨hx, hyj, -⟩ := placeLine_position X c isAnsi (1.0 : ℚ)
        (if c.Window then
          (c.expandPadding (1.0 : ℚ)).set top
            (side (c.expandPadding (1.0 : ℚ)) top + ((15 : Nat) : ℚ) * (1.0 : ℚ))
        else c.expandPadding (1.0 : ℚ))
        (c.expandMargin (1.0 : ℚ)) d.imageHeight j t
      rw [pleft] at hx
      rw [hy j] at hyj
      exact ⟨hx, hyj⟩
    · rw [List.get?_eq_getElem?, List.getElem?_map, ← List.get?_eq_getElem?, placeLines_get?,
        ht0, Nat.zero_add]
      simp only [Option.map_some']
      rw [(placeLine_position X c isAnsi (1.0 : ℚ) _ _ d.imageHeight i t0).2.2, hy i, pbot]
      congr 1
      simp only [gt_iff_lt, ← not_le, decide_not, Bool.not_not]

theorem not_decide_gt (hF : MonotoneArithmetic F) (y l : F) :
    (!(decide (y > l))) = decide (y ≤ l) := by
  by_cases h : l < y
  · have : ¬ y ≤ l := fun hle => ((hF.not_lt y l).mpr hle) h
    simp [h, this]
  · have : y ≤ l := (hF.not_lt y l).mp h
    simp [h, this]

/-- C26: text line `i` of the formatter's group is positioned at
`x = paddingLeft + marginLeft` and
`y = float64(i+1) * (fontSize * lineHeight) + paddingTop + marginTop`, the top
padding with the 15 of the window chrome, and it is left in the document
unless `y > canvasHeight - marginBottom - paddingBottom`, which in an
arithmetic with the order laws is: if and only if
`y <= canvasHeight - marginBottom - paddingBottom`.  The sums and products are
those of the carrier, in the order the code forms them (the scale is 1.0), so
in binary64 each of them is rounded. -/
theorem text_line_positions (X : Collaborators F) (c : Config F) (input : String)
    (it : X.Iterator) (isAnsi : Bool) (d : Document F)
    (h : generateSVGFromIterator X c input it isAnsi = Outcome.ok d) :
    ∃ (image : Skeleton F) (lines : List (TextElement F)) (kept : List Bool),
      X.Format c.Theme c.Background c.Font it = Except.ok image ∧
      lines.length = (image.textGroup.getD []).length ∧
      kept.length = (image.textGroup.getD []).length ∧
      d.text = keptLines lines kept ∧
      ∀ i, i < (image.textGroup.getD []).length →
        (∃ line, lines.get? i = some line ∧
          line.SelectAttr "x" = some (AttrValue.px
            (side (c.expandPadding 1.0) left + side (c.expandMargin 1.0) left)) ∧
          line.SelectAttr "y" = some (AttrValue.px
            (((i + 1 : Nat) : F) * (c.Font.Size * (c.LineHeight * (1.0 : F)))
              + (if c.Window then side (c.expandPadding 1.0) top + ((15 : Nat) : F) * (1.0 : F)
                else side (c.expandPadding 1.0) top)
              + side (c.expandMargin 1.0) top))) ∧
        kept.get? i = some (!(decide
          (((i + 1 : Nat) : F) * (c.Font.Size * (c.LineHeight * (1.0 : F)))
              + (if c.Window then side (c.expandPadding 1.0) top + ((15 : Nat) : F) * (1.0 : F)
                else side (c.expandPadding 1.0) top)
              + side (c.expandMargin 1.0) top
            > d.imageHeight - side (c.expandMargin 1.0) bottom
              - side (c.expandPadding 1.0) bottom))) ∧
        (MonotoneArithmetic F →
          kept.get? i = some (decide
            (((i + 1 : Nat) : F) * (c.Font.Size * (c.LineHeight * (1.0 : F)))
                + (if c.Window then side (c.expandPadding 1.0) top + ((15 : Nat) : F) * (1.0 : F)
                  else side (c.expandPadding 1.0) top)
                + side (c.expandMargin 1.0) top
              ≤ d.imageHeight - side (c.expandMargin 1.0) bottom
                - side (c.expandPadding 1.0) bottom))) := by
  obtain ⟨image, lines, himage, hlen, htext, -, hP⟩ := render_text_layout X c input it isAnsi d h
  obtain ⟨ptop, pbot, pleft⟩ := windowPadding_sides c
  refine ⟨image, lines, _, himage, hlen, ?_, htext, ?_⟩
  · simp [placeLines_length]
  · intro i hi
    obtain ⟨t0, ht0⟩ : ∃ t0, (image.textGroup.getD []).get? i = some t0 :=
      ⟨_, List.get?_eq_get hi⟩
    have hlt : i < lines.length := by rw [hlen]; exact hi
    have hkept : ((placeLines X c isAnsi (1.0 : F)
          (if c.Window then
            (c.expandPadding (1.0 : F)).set top
              (side (c.expandPadding (1.0 : F)) top + ((15 : Nat) : F) * (1.0 : F))
          else c.expandPadding (1.0 : F))
          (c.expandMargin (1.0 : F)) d.imageHeight 0 (image.textGroup.getD [])).map
            (fun lk => lk.2)).get? i
        = some (!(decide
          (((i + 1 : Nat) : F) * (c.Font.Size * (c.LineHeight * (1.0 : F)))
              + (if c.Window then side (c.expandPadding 1.0) top + ((15 : Nat) : F) * (1.0 : F)
                else side (c.expandPadding 1.0) top)
              + side (c.expandMargin 1.0) top
            > d.imageHeight - side (c.expandMargin 1.0) bottom
              - side (c.expandPadding 1.0) bottom))) := by
      rw [List.get?_eq_getElem?, List.getElem?_map, ← List.get?_eq_getElem?, placeLines_get?,
        ht0, Nat.zero_add]
      simp only [Option.map_some']
      rw [(placeLine_position X c isAnsi (1.0 : F) _ _ d.imageHeight i t0).2.2, ptop, pbot]
    refine ⟨⟨lines.get ⟨i, hlt⟩, List.get?_eq_get hlt, ?_⟩, hkept, ?_⟩
    · refine hP (fun i t =>
        t.SelectAttr "x" = some (AttrValue.px
            (side (c.expandPadding 1.0) left + side (c.expandMargin 1.0) left)) ∧
          t.SelectAttr "y" = some (AttrValue.px
            (((i + 1 : Nat) : F) * (c.Font.Size * (c.LineHeight * (1.0 : F)))
              + (if c.Window then side (c.expandPadding 1.0) top + ((15 : Nat) : F) * (1.0 : F)
                else side (c.expandPadding 1.0) top)
              + side (c.expandMargin 1.0) top)))
        (fun _ _ _ hh => hh) (fun _ _ _ hh => hh) ?_ i _ (List.get?_eq_get hlt)
      intro j t _
      obtain ⟨hx, hyj, -⟩ := placeLine_position X c isAnsi (1.0 : F)
        (if c.Window then
          (c.expandPadding (1.0 : F)).set top
            (side (c.expandPadding (1.0 : F)) top + ((15 : Nat) : F) * (1.0 : F))
        else c.expandPadding (1.0 : F))
        (c.expandMargin (1.0 : F)) d.imageHeight j t
      rw [pleft] at hx
      rw [ptop] at hyj
      exact ⟨hx, hyj⟩
    · intro hF
      rw [hkept, not_decide_gt hF]

/-- C26, evaluated in binary64: two lines in a canvas 73.6 high.  The second line is at
`y = 2 * (14 * 1.2) + 20 + 0`, which rounds to 53.600000000000001, above the
limit `73.6 - 0 - 20`, which rounds to 53.599999999999994: the line is not
in the document. -/
theorem text_line_positions_witness :
    (generateSVGFromIterator plainText heightConfig "a\nb" "a\nb" false).lines = some ["a"] ∧
    ∃ d : Document Binary64,
      generateSVGFromIterator plainText heightConfig "a\nb" "a\nb" false = Outcome.ok d ∧
      ∃ (image : Skeleton Binary64) (lines : List (TextElement Binary64)) (kept : List Bool),
        (plainText : Collaborators Binary64).Format heightConfig.Theme heightConfig.Background
          heightConfig.Font "a\nb" = Except.ok image ∧
        lines.length = (image.textGroup.getD []).length ∧
        kept.length = (image.textGroup.getD []).length ∧
        d.text = keptLines lines kept ∧
        ∀ i, i < (image.textGroup.getD []).length →
          (∃ line, lines.get? i = some line ∧
            line.SelectAttr "x" = some (AttrValue.px
              (side (heightConfig.expandPadding 1.0) left
                + side (heightConfig.expandMargin 1.0) left)) ∧
            line.SelectAttr "y" = some (AttrValue.px
              (((i + 1 : Nat) : Binary64)
                  * (heightConfig.Font.Size * (heightConfig.LineHeight * (1.0 : Binary64)))
                + (if heightConfig.Window then
                    side (heightConfig.expandPadding 1.0) top
                      + ((15 : Nat) : Binary64) * (1.0 : Binary64)
                  else side (heightConfig.expandPadding 1.0) top)
                + side (heightConfig.expandMargin 1.0) top))) ∧
          kept.get? i = some (!(decide
            (((i + 1 : Nat) : Binary64)
                  * (heightConfig.Font.Size * (heightConfig.LineHeight * (1.0 : Binary64)))
                + (if heightConfig.Window then
                    side (heightConfig.expandPadding 1.0) top
                      + ((15 : Nat) : Binary64) * (1.0 : Binary64)
                  else side (heightConfig.expandPadding 1.0) top)
                + side (heightConfig.expandMargin 1.0) top
              > d.imageHeight - side (heightConfig.expandMargin 1.0) bottom
                - side (heightConfig.expandPadding 1.0) bottom))) ∧
          (MonotoneArithmetic Binary64 →
            kept.get? i = some (decide
              (((i + 1 : Nat) : Binary64)
                    * (heightConfig.Font.Size * (heightConfig.LineHeight * (1.0 : Binary64)))
                  + (if heightConfig.Window then
                      side (heightConfig.expandPadding 1.0) top
                        + ((15 : Nat) : Binary64) * (1.0 : Binary64)
                    else side (heightConfig.expandPadding 1.0) top)
                  + side (heightConfig.expandMargin 1.0) top
                ≤ d.imageHeight - side (heightConfig.expandMargin 1.0) bottom
                  - side (heightConfig.expandPadding 1.0) bottom))) := by
  refine ⟨by decide!, ?_⟩
  obtain ⟨d, h⟩ := ok_of_lines_ne_none
    (generateSVGFromIterator plainText heightConfig "a\nb" "a\nb" false) (by decide!)
  exact ⟨d, h, text_line_positions plainText heightConfig "a\nb" "a\nb" false d h⟩

/-- The numbers of that evaluation: the position of the second line and the limit. -/
theorem text_line_positions_rounded :
    ((2 : Nat) : Binary64) * (((14 : Nat) : Binary64) * ((1.2 : Binary64) * (1.0 : Binary64)))
        + ((20 : Nat) : Binary64) * (1.0 : Binary64) + (0 : Binary64) * (1.0 : Binary64)
      = ⟨7543529375845581 / 140737488355328⟩ ∧
    (73.6 : Binary64) - (0 : Binary64) * (1.0 : Binary64)
        - ((20 : Nat) : Binary64) * (1.0 : Binary64)
      = ⟨3771764687922790 / 70368744177664⟩ := by
  refine ⟨by decide!, by decide!⟩


/-! ### The window chrome -/

/-- The widths of a rendered document, as the code computes them. -/
theorem render_ok_widths (X : Collaborators F) (c : Config F) (input : String)
    (it : X.Iterator) (isAnsi : Bool) (d : Document F)
    (h : generateSVGFromIterator X c input it isAnsi = Outcome.ok d) :
    ∃ cut image,
      (if c.Lines.length = 2 then cutLines input c.Lines else some input) = some cut ∧
      X.Format c.Theme c.Background c.Font it = Except.ok image ∧
      let hPadding := side (c.expandPadding (1.0 : F)) left + side (c.expandPadding (1.0 : F)) right
      let hMargin := side (c.expandMargin (1.0 : F)) left + side (c.expandMargin (1.0 : F)) right
      let longestLine := X.Width (expandTabs (if isAnsi then 6 else 4)
        (X.Strip (if c.Wrap > 0 then X.Wrap cut c.Wrap else cut)))
      let terminalWidth2 :=
        if (c.Width == 0) then
          ((longestLine + 1 : Int) : F) * (c.Font.Size / fontHeightToWidthRatio) * (1.0 : F)
            + hPadding
        else if !(c.Width == 0) then c.Width - hMargin
        else ((image.w : Int) : F) * (1.0 : F) + hPadding
      let imageWidth2 :=
        if (c.Width == 0) then terminalWidth2 + hMargin
        else if !(c.Width == 0) then c.Width
        else ((image.w : Int) : F) * (1.0 : F) + (hMargin + hPadding)
      let terminalWidth3 :=
        if c.Border.Width > 0 then terminalWidth2 - c.Border.Width * ((2 : Nat) : F)
        else terminalWidth2
      d.terminalWidth =
        (if c.ShowLineNumbers then
          if (c.Width == 0) then terminalWidth3 + c.Font.Size * ((3 : Nat) : F) * (1.0 : F)
          else terminalWidth3 - c.Font.Size * ((3 : Nat) : F)
        else terminalWidth3) ∧
      d.imageWidth =
        (if c.ShowLineNumbers && (c.Width == 0) then
          imageWidth2 + c.Font.Size * ((3 : Nat) : F) * (1.0 : F)
        else imageWidth2) := by
  unfold generateSVGFromIterator at h
  simp only at h
  split at h
  · cases h
  · rename_i cut hcut
    split at h
    · cases h
    · rename_i image himage
      split at h
      · cases h
      · split at h
        · cases h
        · cases h
          exact ⟨cut, image, hcut, himage, rfl, rfl⟩

/-- The sizes of a rendered document do not depend on `Window`. -/
theorem window_sizes (X : Collaborators F) (c : Config F) (input : String)
    (it : X.Iterator) (isAnsi : Bool) (d0 d1 : Document F)
    (h0 : generateSVGFromIterator X { c with Window := false } input it isAnsi = Outcome.ok d0)
    (h1 : generateSVGFromIterator X { c with Window := true } input it isAnsi = Outcome.ok d1) :
    d1.imageWidth = d0.imageWidth ∧ d1.imageHeight = d0.imageHeight ∧
      d1.terminalWidth = d0.terminalWidth ∧ d1.terminalHeight = d0.terminalHeight := by
  obtain ⟨cut0, image0, hcut0, himage0, htw0, hiw0⟩ := render_ok_widths X _ input it isAnsi d0 h0
  obtain ⟨cut1, image1, hcut1, himage1, htw1, hiw1⟩ := render_ok_widths X _ input it isAnsi d1 h1
  obtain ⟨cut2, image2, -, himage2, -, -, hih0, hth0, -⟩ :=
    render_ok_layout X _ input it isAnsi d0 h0
  obtain ⟨cut3, image3, -, himage3, -, -, hih1, hth1, -⟩ :=
    render_ok_layout X _ input it isAnsi d1 h1
  have hc : cut1 = cut0 := Option.some.inj (hcut1.symm.trans hcut0)
  have hi1 : image1 = image0 := by
    have := himage1.symm.trans himage0
    injection this
  have hi2 : image2 = image0 := by
    have := himage2.symm.trans himage0
    injection this
  have hi3 : image3 = image0 := by
    have := himage3.symm.trans himage0
    injection this
  subst hc hi1 hi2 hi3
  exact ⟨hiw1.trans hiw0.symm, hih1.trans hih0.symm, htw1.trans htw0.symm, hth1.trans hth0.symm⟩

/-- C28, in exact arithmetic: when the render returns a document both without and with
the window chrome, the canvas and the panel have the same width and height in
both; the chrome adds the window controls at the margin corner, leaves the `x`
of every text line and adds 15 to its `y`, and the limit for keeping a line is
the same, so a line kept with the chrome is kept without it. -/
theorem window_keeps_sizes (X : Collaborators ℚ) (c : Config ℚ) (input : String)
    (it : X.Iterator) (isAnsi : Bool) (d0 d1 : Document ℚ)
    (h0 : generateSVGFromIterator X { c with Window := false } input it isAnsi = Outcome.ok d0)
    (h1 : generateSVGFromIterator X { c with Window := true } input it isAnsi = Outcome.ok d1) :
    (d1.imageWidth = d0.imageWidth ∧ d1.imageHeight = d0.imageHeight ∧
      d1.terminalWidth = d0.terminalWidth ∧ d1.terminalHeight = d0.terminalHeight) ∧
    d0.windowControls = none ∧
    d1.windowControls = some (side (c.expandMargin 1.0) left, side (c.expandMargin 1.0) top) ∧
    ∃ (image : Skeleton ℚ) (lines0 lines1 : List (TextElement ℚ)) (kept0 kept1 : List Bool),
      X.Format c.Theme c.Background c.Font it = Except.ok image ∧
      lines0.length = (image.textGroup.getD []).length ∧
      lines1.length = (image.textGroup.getD []).length ∧
      d0.text = keptLines lines0 kept0 ∧ d1.text = keptLines lines1 kept1 ∧
      ∀ i, i < (image.textGroup.getD []).length →
        ∃ (line0 line1 : TextElement ℚ) (x y : ℚ) (k0 k1 : Bool),
          lines0.get? i = some line0 ∧ lines1.get? i = some line1 ∧
          kept0.get? i = some k0 ∧ kept1.get? i = some k1 ∧
          line0.SelectAttr "x" = some (AttrValue.px x) ∧
          line1.SelectAttr "x" = some (AttrValue.px x) ∧
          line0.SelectAttr "y" = some (AttrValue.px y) ∧
          line1.SelectAttr "y" = some (AttrValue.px (y + 15)) ∧
          (k1 = true → k0 = true) := by
  have hs := window_sizes X c input it isAnsi d0 d1 h0 h1
  obtain ⟨-, -, -, -, -, -, -, -, -, hw0⟩ := render_ok_layout X _ input it isAnsi d0 h0
  obtain ⟨-, -, -, -, -, -, -, -, -, hw1⟩ := render_ok_layout X _ input it isAnsi d1 h1
  obtain ⟨image0, lines0, kept0, himage0, hlen0, -, htext0, hpos0⟩ :=
    text_positions X _ input it isAnsi d0 h0
  obtain ⟨image1, lines1, kept1, himage1, hlen1, -, htext1, hpos1⟩ :=
    text_positions X _ input it isAnsi d1 h1
  have hi : image1 = image0 := by
    have := himage1.symm.trans himage0
    injection this
  subst hi
  refine ⟨hs, hw0, hw1, image1, lines0, lines1, kept0, kept1, himage0, hlen0, hlen1, htext0,
    htext1, ?_⟩
  intro i hi
  obtain ⟨⟨line0, hl0, hx0, hy0⟩, hk0⟩ := hpos0 i hi
  obtain ⟨⟨line1, hl1, hx1, hy1⟩, hk1⟩ := hpos1 i hi
  refine ⟨line0, line1, _, _, _, _, hl0, hl1, hk0, hk1, hx0, hx1, hy0, ?_, ?_⟩
  · rw [hy1]
    congr 2
    show ((i : ℚ) + 1) * c.Font.Size * c.LineHeight
        + (side (c.expandPadding 1.0) top + 15) + side (c.expandMargin 1.0) top
      = ((i : ℚ) + 1) * c.Font.Size * c.LineHeight
        + (side (c.expandPadding 1.0) top + 0) + side (c.expandMargin 1.0) top + 15
    ring
  · intro hk
    rw [decide_eq_true_iff] at hk ⊢
    have e : d1.imageHeight = d0.imageHeight := hs.2.1
    rw [e] at hk
    have hk' : ((i : ℚ) + 1) * c.Font.Size * c.LineHeight
        + (side (c.expandPadding 1.0) top + 15) + side (c.expandMargin 1.0) top
        ≤ d0.imageHeight - side (c.expandMargin 1.0) bottom
          - side (c.expandPadding 1.0) bottom := hk
    show ((i : ℚ) + 1) * c.Font.Size * c.LineHeight
        + (side (c.expandPadding 1.0) top + 0) + side (c.expandMargin 1.0) top
        ≤ d0.imageHeight - side (c.expandMargin 1.0) bottom
          - side (c.expandPadding 1.0) bottom
    linarith

/-- C28, evaluated: three lines in a canvas 100 high.  Without the chrome the three lines
are in the document, with it the third one is not; the canvas is 100 high in
both. -/
theorem window_keeps_sizes_witness :
    ((generateSVGFromIterator plainText
        { (DefaultConfig : Config ℚ) with Height := 100, Window := false }
        "a\nb\nc" "a\nb\nc" false).lines = some ["a", "b", "c"] ∧
      (generateSVGFromIterator plainText
        { (DefaultConfig : Config ℚ) with Height := 100, Window := true }
        "a\nb\nc" "a\nb\nc" false).lines = some ["a", "b"]) ∧
    ∃ d0 d1 : Document ℚ,
      generateSVGFromIterator plainText
        { (DefaultConfig : Config ℚ) with Height := 100, Window := false }
        "a\nb\nc" "a\nb\nc" false = Outcome.ok d0 ∧
      generateSVGFromIterator plainText
        { (DefaultConfig : Config ℚ) with Height := 100, Window := true }
        "a\nb\nc" "a\nb\nc" false = Outcome.ok d1 ∧
      d1.imageWidth = d0.imageWidth ∧ d1.imageHeight = d0.imageHeight ∧
      d1.terminalWidth = d0.terminalWidth ∧ d1.terminalHeight = d0.terminalHeight := by
  refine ⟨⟨by decide!, by decide!⟩, ?_⟩
  obtain ⟨d0, h0⟩ := ok_of_lines_ne_none (generateSVGFromIterator plainText
    { (DefaultConfig : Config ℚ) with Height := 100, Window := false }
    "a\nb\nc" "a\nb\nc" false) (by decide!)
  obtain ⟨d1, h1⟩ := ok_of_lines_ne_none (generateSVGFromIterator plainText
    { (DefaultConfig : Config ℚ) with Height := 100, Window := true }
    "a\nb\nc" "a\nb\nc" false) (by decide!)
  exact ⟨d0, d1, h0, h1, (window_keeps_sizes plainText
    { (DefaultConfig : Config ℚ) with Height := 100 } "a\nb\nc" "a\nb\nc" false d0 d1 h0 h1).1⟩


/-! ### The line-number gutter -/

theorem keptLines_nil_of_false (lines : List (TextElement F)) (flags : List Bool)
    (h : ∀ i, flags.get? i ≠ some true) : keptLines lines flags = [] := by
  induction lines generalizing flags with
  | nil => simp [keptLines]
  | cons l ls ih =>
    cases flags with
    | nil => simp [keptLines]
    | cons f fs =>
      have hf : f = false := by
        cases f
        · rfl
        · exact absurd rfl (h 0)
      subst hf
      have := ih fs (fun i => h (i + 1))
      simpa [keptLines] using this

/-- When the lines removed are the last ones, the lines left are the first ones. -/
theorem keptLines_take (lines : List (TextElement F)) (flags : List Bool)
    (hmono : ∀ i j, i ≤ j → flags.get? j = some true → flags.get? i = some true) :
    ∃ k, keptLines lines flags = lines.take k := by
  induction lines generalizing flags with
  | nil => exact ⟨0, by simp [keptLines]⟩
  | cons l ls ih =>
    cases flags with
    | nil => exact ⟨0, by simp [keptLines]⟩
    | cons f fs =>
      cases f with
      | false =>
        refine ⟨0, ?_⟩
        have hall : ∀ i, fs.get? i ≠ some true := by
          intro i hi
          have := hmono 0 (i + 1) (Nat.zero_le _) hi
          exact absurd this (by simp)
        have := keptLines_nil_of_false ls fs hall
        simpa [keptLines] using this
      | true =>
        obtain ⟨k, hk⟩ := ih fs (fun i j hij hj => hmono (i + 1) (j + 1) (by omega) hj)
        refine ⟨k + 1, ?_⟩
        have : keptLines (l :: ls) (true :: fs) = l :: keptLines ls fs := by
          simp [keptLines]
        rw [this, hk]
        rfl

theorem gutter_element (colour : String) (n : Int) :
    ((((NewElement "tspan").CreateAttr "xml:space" (AttrValue.str "preserve")).CreateAttr "fill"
        (AttrValue.str colour)).SetText (lineNumberText n) : Element F)
      = { Tag := "tspan"
          Attr := [{ Key := "xml:space", Value := AttrValue.str "preserve" },
            { Key := "fill", Value := AttrValue.str colour }]
          Text := lineNumberText n } := by
  simp [NewElement, Element.CreateAttr, Element.SetText, setAttr]

theorem placeLine_gutter (X : Collaborators F) (c : Config F) (isAnsi : Bool) (scale : F)
    (pad mar : List F) (H : F) (i : Nat) (t : TextElement F) (hn : c.ShowLineNumbers = true) :
    (placeLine X c isAnsi scale pad mar H i t).1.Child
      = Token.Elem
          { Tag := "tspan"
            Attr := [{ Key := "xml:space", Value := AttrValue.str "preserve" },
              { Key := "fill", Value := AttrValue.str (X.LineNumbersColour c.Theme c.Background) }]
            Text := lineNumberText (wrapInt64 ((i : Int) + 1
              + (if c.Lines.length > 0 then c.Lines.getD 0 0 else 0))) }
        :: (if isAnsi then t.clearText else t).Child := by
  unfold placeLine
  simp only [hn, if_true]
  rw [(Move_position _ _ _).2.2, gutter_element]
  rfl

theorem Validate_positive (hF : MonotoneArithmetic F) (c : Config F) (hv : c.Validate = none) :
    (0 : F) ≤ c.Font.Size ∧ (0 : F) ≤ c.LineHeight := by
  unfold Config.Validate at hv
  split_ifs at hv with h1 h2
  exact ⟨(hF.le_total _ _).resolve_right h1, (hF.le_total _ _).resolve_right h2⟩

theorem lt_of_lt_of_le_law (hF : MonotoneArithmetic F) (a b c : F) (h1 : a < b) (h2 : b ≤ c) :
    a < c := by
  by_contra hn
  have hca : c ≤ a := (hF.not_lt c a).mp hn
  exact ((hF.not_lt b a).mpr (hF.le_trans _ _ _ h2 hca)) h1

/-- With a valid configuration the lines the loop removes are the last ones: the lines
left in the document are the first lines of the list, in order. -/
theorem kept_lines_first (hF : MonotoneArithmetic F) (X : Collaborators F) (c : Config F)
    (isAnsi : Bool) (pad mar : List F) (H : F) (text lines : List (TextElement F))
    (hv : c.Validate = none) :
    ∃ k, keptLines lines ((placeLines X c isAnsi (1.0 : F) pad mar H 0 text).map (fun lk => lk.2))
      = lines.take k := by
  obtain ⟨hS, hL⟩ := Validate_positive hF c hv
  apply keptLines_take
  intro i j hij hj
  rw [List.get?_eq_getElem?, List.getElem?_map, ← List.get?_eq_getElem?, placeLines_get?,
    Nat.zero_add] at hj ⊢
  cases htj : text.get? j with
  | none => rw [htj] at hj; exact absurd hj (by simp)
  | some tj =>
    have hjlt : j < text.length := by
      by_contra hge
      rw [List.get?_eq_none.mpr (by omega)] at htj
      exact absurd htj (by simp)
    have hilt : i < text.length := by omega
    rw [List.get?_eq_get hilt]
    rw [htj] at hj
    simp only [Option.map_some', Option.some.injEq] at hj ⊢
    rw [(placeLine_position X c isAnsi (1.0 : F) pad mar H j tj).2.2] at hj
    rw [(placeLine_position X c isAnsi (1.0 : F) pad mar H i _).2.2]
    simp only [Bool.not_eq_true', decide_eq_false_iff_not, gt_iff_lt] at hj ⊢
    have hstep : (0 : F) ≤ c.Font.Size * (c.LineHeight * (1.0 : F)) :=
      hF.mul_nonneg _ _ hS (hF.mul_nonneg _ _ hL hF.one_nonneg)
    have hcast : (((i + 1 : Nat) : F)) ≤ (((j + 1 : Nat) : F)) :=
      hF.natCast_le _ _ (Nat.succ_le_succ hij)
    have hy : ((i + 1 : Nat) : F) * (c.Font.Size * (c.LineHeight * (1.0 : F)))
          + side pad top + side mar top
        ≤ ((j + 1 : Nat) : F) * (c.Font.Size * (c.LineHeight * (1.0 : F)))
          + side pad top + side mar top :=
      hF.add_le_add _ _ _ _
        (hF.add_le_add _ _ _ _ (hF.mul_le_mul_right _ _ _ hstep hcast) (le_refl_law hF _))
        (le_refl_law hF _)
    intro hi
    exact hj (lt_of_lt_of_le_law hF _ _ _ hi hy)

theorem gutter_kept_by_text (A : List (Attr F)) (g : String) (t : TextElement F) (r : Char)
    (h : ∃ (e : Element F) (rest : List (Token F)), t.Child = Token.Elem e :: rest ∧
      e.Tag = "tspan" ∧ e.Attr = A ∧ g.data <+: e.Text.data) :
    ∃ (e : Element F) (rest : List (Token F)),
      (t.setLastChildElement
        ((t.ChildElements.getLastD
            ((NewElement "tspan").CreateAttr "xml:space" (AttrValue.str "preserve"))).SetText
          ((t.ChildElements.getLastD
            ((NewElement "tspan").CreateAttr "xml:space" (AttrValue.str "preserve"))).Text
            ++ String.singleton r))).Child = Token.Elem e :: rest ∧
      e.Tag = "tspan" ∧ e.Attr = A ∧ g.data <+: e.Text.data := by
  obtain ⟨e, rest, hc, htag, hattr, hpre⟩ := h
  unfold TextElement.setLastChildElement
  simp only [hc]
  unfold replaceLastElem
  by_cases hr : hasElem rest = true
  · simp only [hr, if_true]
    exact ⟨e, _, rfl, htag, hattr, hpre⟩
  · simp only [hr]
    have hnil : rest.filterMap (fun c => match c with
        | Token.Elem e => some e
        | Token.CharData _ => none) = [] := by
      by_contra hne
      exact hr ((hasElem_iff rest).mpr hne)
    have hce : t.ChildElements = [e] := by
      unfold TextElement.ChildElements
      rw [hc]
      simp only [List.filterMap_cons, hnil]
    rw [hce]
    refine ⟨_, rest, rfl, htag, hattr, ?_⟩
    show g.data <+: (e.Text ++ String.singleton r).data
    rw [String.data_append]
    exact hpre.trans (List.prefix_append _ _)

theorem wrapInt64_of_range (n : Int) (h0 : -2 ^ 63 ≤ n) (h1 : n < 2 ^ 63) : wrapInt64 n = n := by
  unfold wrapInt64
  omega

/-- C22 as stated fails: `Lines = [MaxInt64, MaxInt64]` passes `Validate`, and the gutter of
the first line shows `-9223372036854775808`, not
`0 + 1 + 9223372036854775807 = 9223372036854775808`: the sum of Go `int`s wraps
around. -/
theorem gutter_number_wraps_counterexample :
    ({ (DefaultConfig : Config Binary64) with
        Lines := [9223372036854775807, 9223372036854775807],
        ShowLineNumbers := true } : Config Binary64).Validate = none ∧
    (generateSVGFromIterator plainText
        { (DefaultConfig : Config Binary64) with
          Lines := [9223372036854775807, 9223372036854775807], ShowLineNumbers := true }
        "a" "a" false).lines = some ["-9223372036854775808  a"] ∧
    lineNumberText ((0 : Int) + 1 + 9223372036854775807) = "9223372036854775808  " := by
  refine ⟨by decide!, by decide!, by decide!⟩

/-- C22, amended, for a valid configuration: with line numbers enabled, line `i` of the
rendered document begins with the gutter run, a `tspan` in the line-number
colour whose text is `fmt.Sprintf("%3d  ", i + 1 + start)` with the sum formed
in 64-bit `int` arithmetic, `start` being the first element of `Lines` when
that list is not empty and 0 otherwise.  The number shown is `i + 1 + start`
itself whenever that sum is in the range of a 64-bit `int`.  In terminal mode
the handler calls append the text of the line to that run, so its text begins
with the number. -/
theorem gutter_numbers (hF : MonotoneArithmetic F) (X : Collaborators F) (c : Config F)
    (input : String) (it : X.Iterator) (isAnsi : Bool) (d : Document F)
    (hv : c.Validate = none) (hn : c.ShowLineNumbers = true)
    (h : generateSVGFromIterator X c input it isAnsi = Outcome.ok d) :
    ∀ i line, d.text.get? i = some line →
      ∃ (e : Element F) (rest : List (Token F)),
        line.Child = Token.Elem e :: rest ∧ e.Tag = "tspan" ∧
        e.Attr = [{ Key := "xml:space", Value := AttrValue.str "preserve" },
          { Key := "fill", Value := AttrValue.str (X.LineNumbersColour c.Theme c.Background) }] ∧
        (lineNumberText (wrapInt64 ((i : Int) + 1
            + (if c.Lines.length > 0 then c.Lines.getD 0 0 else 0)))).data <+: e.Text.data ∧
        (isAnsi = false → e.Text = lineNumberText (wrapInt64 ((i : Int) + 1
            + (if c.Lines.length > 0 then c.Lines.getD 0 0 else 0)))) ∧
        (-2 ^ 63 ≤ (i : Int) + 1 + (if c.Lines.length > 0 then c.Lines.getD 0 0 else 0) →
          (i : Int) + 1 + (if c.Lines.length > 0 then c.Lines.getD 0 0 else 0) < 2 ^ 63 →
          wrapInt64 ((i : Int) + 1 + (if c.Lines.length > 0 then c.Lines.getD 0 0 else 0))
            = (i : Int) + 1 + (if c.Lines.length > 0 then c.Lines.getD 0 0 else 0)) := by
  obtain ⟨image, lines, -, -, htext, hplain, hP⟩ := render_text_layout X c input it isAnsi d h
  obtain ⟨k, hk⟩ := kept_lines_first hF X c isAnsi _ (c.expandMargin (1.0 : F)) d.imageHeight
    (image.textGroup.getD []) lines hv
  rw [hk] at htext
  intro i line hline
  -- line `i` of the document is line `i` of the loop
  have hl : lines.get? i = some line := by
    rw [htext, List.get?_eq_getElem?, List.getElem?_take] at hline
    split at hline
    · rw [List.get?_eq_getElem?]; exact hline
    · exact absurd hline (by simp)
  have hgut := hP (fun i t => ∃ (e : Element F) (rest : List (Token F)),
      t.Child = Token.Elem e :: rest ∧ e.Tag = "tspan" ∧
      e.Attr = [{ Key := "xml:space", Value := AttrValue.str "preserve" },
        { Key := "fill", Value := AttrValue.str (X.LineNumbersColour c.Theme c.Background) }] ∧
      (lineNumberText (wrapInt64 ((i : Int) + 1
          + (if c.Lines.length > 0 then c.Lines.getD 0 0 else 0)))).data <+: e.Text.data)
    (by
      intro i t e1 ⟨e, rest, hc, htag, hattr, hpre⟩
      exact ⟨e, rest ++ [Token.Elem e1], by simp [TextElement.AddChild, hc], htag, hattr, hpre⟩)
    (fun i t r hh => gutter_kept_by_text _ _ t r hh)
    (by
      intro i t _
      exact ⟨_, _, placeLine_gutter X c isAnsi (1.0 : F) _ _ d.imageHeight i t hn, rfl, rfl,
        List.prefix_refl _⟩)
    i line hl
  obtain ⟨e, rest, hc, htag, hattr, hpre⟩ := hgut
  refine ⟨e, rest, hc, htag, hattr, hpre, ?_, wrapInt64_of_range _⟩
  intro hf
  have hlines := hplain hf
  rw [hlines, List.get?_eq_getElem?, List.getElem?_map, ← List.get?_eq_getElem?, placeLines_get?,
    Nat.zero_add] at hl
  cases hti : (image.textGroup.getD []).get? i with
  | none => rw [hti] at hl; exact absurd hl (by simp)
  | some t0 =>
    rw [hti] at hl
    simp only [Option.map_some', Option.some.injEq] at hl
    have hc2 := placeLine_gutter X c isAnsi (1.0 : F)
      (if c.Window then
        (c.expandPadding (1.0 : F)).set top
          (side (c.expandPadding (1.0 : F)) top + ((15 : Nat) : F) * (1.0 : F))
      else c.expandPadding (1.0 : F))
      (c.expandMargin (1.0 : F)) d.imageHeight i t0 hn
    rw [hl, hc] at hc2
    have := (List.cons.inj hc2).1
    injection this with he
    rw [he]

/-- C22, evaluated in binary64: ten lines with `Lines = [2, 4]` and line numbers.  The
first three lines of the document carry the gutters 3, 4 and 5. -/
theorem gutter_numbers_witness :
    ((generateSVGFromIterator plainText
        { (DefaultConfig : Config Binary64) with Lines := [2, 4], ShowLineNumbers := true }
        "l0\nl1\nl2\nl3\nl4\nl5\nl6\nl7\nl8\nl9" "l0\nl1\nl2\nl3\nl4\nl5\nl6\nl7\nl8\nl9"
        false).lines.map (fun ls => ls.take 3)) = some ["  3  l0", "  4  l1", "  5  l2"] ∧
    ∃ d : Document Binary64,
      generateSVGFromIterator plainText
        { (DefaultConfig : Config Binary64) with Lines := [2, 4], ShowLineNumbers := true }
        "l0\nl1\nl2\nl3\nl4\nl5\nl6\nl7\nl8\nl9" "l0\nl1\nl2\nl3\nl4\nl5\nl6\nl7\nl8\nl9"
        false = Outcome.ok d ∧
      ∀ i line, d.text.get? i = some line →
        ∃ (e : Element Binary64) (rest : List (Token Binary64)),
          line.Child = Token.Elem e :: rest ∧ e.Tag = "tspan" ∧
          e.Attr = [{ Key := "xml:space", Value := AttrValue.str "preserve" },
            { Key := "fill", Value := AttrValue.str "#7f7f7f" }] ∧
          (lineNumberText (wrapInt64 ((i : Int) + 1 + 2))).data <+: e.Text.data ∧
          (false = false → e.Text = lineNumberText (wrapInt64 ((i : Int) + 1 + 2))) ∧
          (-2 ^ 63 ≤ (i : Int) + 1 + 2 → (i : Int) + 1 + 2 < 2 ^ 63 →
            wrapInt64 ((i : Int) + 1 + 2) = (i : Int) + 1 + 2) := by
  refine ⟨by decide!, ?_⟩
  obtain ⟨d, h⟩ := ok_of_lines_ne_none (generateSVGFromIterator plainText
    { (DefaultConfig : Config Binary64) with Lines := [2, 4], ShowLineNumbers := true }
    "l0\nl1\nl2\nl3\nl4\nl5\nl6\nl7\nl8\nl9" "l0\nl1\nl2\nl3\nl4\nl5\nl6\nl7\nl8\nl9"
    false) (by decide!)
  exact ⟨d, h, gutter_numbers monotoneArithmetic_binary64 plainText
    { (DefaultConfig : Config Binary64) with Lines := [2, 4], ShowLineNumbers := true }
    "l0\nl1\nl2\nl3\nl4\nl5\nl6\nl7\nl8\nl9" "l0\nl1\nl2\nl3\nl4\nl5\nl6\nl7\nl8\nl9"
    false d (by decide!) rfl h⟩

/-- In terminal mode the text of a line is printed into its gutter run: the line `ab`
becomes the single run `"  1  ab"`. -/
theorem gutter_run_terminal_mode :
    (match generateSVGFromIterator plainText
        { (DefaultConfig : Config ℚ) with ShowLineNumbers := true } "ab" "ab" true with
      | Outcome.ok d => some (d.text.map (fun t => t.runs))
      | _ => none) = some [["  1  ab"]] := by
  decide!


/-! ### Sub-parameters of the extended colour forms -/

theorem sgrLoop_skip_two (a b : Nat) (rest : List Nat) (s : sgrState F) :
    sgrLoop (a :: b :: rest) 2 s = sgrLoop rest 0 s := by
  simp [sgrLoop]

theorem sgrLoop_skip_four (a b c e : Nat) (rest : List Nat) (s : sgrState F) :
    sgrLoop (a :: b :: c :: e :: rest) 4 s = sgrLoop rest 0 s := by
  simp [sgrLoop]

theorem sgrLoop_extended (n r g b : Nat) (rest : List Nat) (fill : String) (s : sgrState F)
    (hfill : palette.get? n = some fill) :
    sgrLoop (38 :: 5 :: n :: rest) 0 s
      = ((s.createAttr "fill" fill).addSpan).bind (sgrLoop rest 0) ∧
    sgrLoop (38 :: 2 :: r :: g :: b :: rest) 0 s
      = ((s.createAttr "fill" (rgb r g b)).addSpan).bind (sgrLoop rest 0) ∧
    sgrLoop (48 :: 5 :: n :: rest) 0 s
      = sgrLoop rest 0 { s with p := s.p.openBackground fill } ∧
    sgrLoop (48 :: 2 :: r :: g :: b :: rest) 0 s
      = sgrLoop rest 0 { s with p := s.p.openBackground (rgb r g b) } := by
  have hfill1 : palette[n]? = some fill := by rw [← List.get?_eq_getElem?]; exact hfill
  refine ⟨?_, ?_, ?_, ?_⟩
  · rw [sgrLoop]
    have : sgrStep 38 (5 :: n :: rest) s
        = ((s.createAttr "fill" fill).addSpan).map (fun s1 => (2, s1)) := by
      simp [sgrStep, fgCodes, hfill1]
    rw [this]
    cases (s.createAttr "fill" fill).addSpan with
    | none => rfl
    | some s1 => exact sgrLoop_skip_two 5 n rest s1
  · rw [sgrLoop]
    have : sgrStep 38 (2 :: r :: g :: b :: rest) s
        = ((s.createAttr "fill" (rgb r g b)).addSpan).map (fun s1 => (4, s1)) := by
      simp [sgrStep, fgCodes]
    rw [this]
    cases (s.createAttr "fill" (rgb r g b)).addSpan with
    | none => rfl
    | some s1 => exact sgrLoop_skip_four 2 r g b rest s1
  · rw [sgrLoop]
    have : sgrStep 48 (5 :: n :: rest) s
        = some (2, { s with p := s.p.openBackground fill }) := by
      simp [sgrStep, fgCodes, bgCodes, hfill1]
    rw [this]
    exact sgrLoop_skip_two 5 n rest _
  · rw [sgrLoop]
    have : sgrStep 48 (2 :: r :: g :: b :: rest) s
        = some (4, { s with p := s.p.openBackground (rgb r g b) }) := by
      simp [sgrStep, fgCodes, bgCodes]
    rw [this]
    exact sgrLoop_skip_four 2 r g b rest _

/-- C23: the operands of a complete extended-colour form are not read as codes.  For a
palette index `n < 256` and any `r`, `g`, `b` and `rest`, CsiDispatch on
`38;5;n;rest` sets the fill `palette[n]` on the run and adds it to the line, on
`38;2;r;g;b;rest` it does so with `rgb(r,g,b)`, on `48;5;n;rest` and
`48;2;r;g;b;rest` it opens the background rectangle of that colour; in each case
the loop then goes on with the first parameter of `rest`, so the call with a
background form is the call on `rest` after the rectangle is opened. -/
theorem extended_colour_operands_skipped (p : dispatcher F) (n r g b : Nat) (rest : List Nat)
    (hn : n < 256) :
    ∃ fill, palette.get? n = some fill ∧
      p.CsiDispatch 109 (38 :: 5 :: n :: rest)
        = ((((sgrState.mk p ((NewElement "tspan").CreateAttr "xml:space"
            (AttrValue.str "preserve")) false).createAttr "fill" fill).addSpan).bind
              (sgrLoop rest 0)).map sgrState.commit ∧
      p.CsiDispatch 109 (38 :: 2 :: r :: g :: b :: rest)
        = ((((sgrState.mk p ((NewElement "tspan").CreateAttr "xml:space"
            (AttrValue.str "preserve")) false).createAttr "fill" (rgb r g b)).addSpan).bind
              (sgrLoop rest 0)).map sgrState.commit ∧
      p.CsiDispatch 109 (48 :: 5 :: n :: rest)
        = (sgrLoop rest 0 (sgrState.mk (p.openBackground fill) ((NewElement "tspan").CreateAttr
            "xml:space" (AttrValue.str "preserve")) false)).map sgrState.commit ∧
      p.CsiDispatch 109 (48 :: 2 :: r :: g :: b :: rest)
        = (sgrLoop rest 0 (sgrState.mk (p.openBackground (rgb r g b))
            ((NewElement "tspan").CreateAttr "xml:space" (AttrValue.str "preserve"))
            false)).map sgrState.commit ∧
      (rest ≠ [] →
        p.CsiDispatch 109 (48 :: 5 :: n :: rest)
          = (p.openBackground fill).CsiDispatch 109 rest ∧
        p.CsiDispatch 109 (48 :: 2 :: r :: g :: b :: rest)
          = (p.openBackground (rgb r g b)).CsiDispatch 109 rest) := by
  obtain ⟨fill, hfill⟩ := palette_some n hn
  have hloop := fun s : sgrState F => sgrLoop_extended n r g b rest fill s hfill
  have h1 : p.CsiDispatch 109 (38 :: 5 :: n :: rest)
      = ((((sgrState.mk p ((NewElement "tspan").CreateAttr "xml:space"
          (AttrValue.str "preserve")) false).createAttr "fill" fill).addSpan).bind
            (sgrLoop rest 0)).map sgrState.commit := by
    unfold dispatcher.CsiDispatch
    simp only [ne_eq, not_true_eq_false, if_false, List.length_cons]
    rw [if_neg (by omega), (hloop _).1]
  have h2 : p.CsiDispatch 109 (38 :: 2 :: r :: g :: b :: rest)
      = ((((sgrState.mk p ((NewElement "tspan").CreateAttr "xml:space"
          (AttrValue.str "preserve")) false).createAttr "fill" (rgb r g b)).addSpan).bind
            (sgrLoop rest 0)).map sgrState.commit := by
    unfold dispatcher.CsiDispatch
    simp only [ne_eq, not_true_eq_false, if_false, List.length_cons]
    rw [if_neg (by omega), (hloop _).2.1]
  have h3 : p.CsiDispatch 109 (48 :: 5 :: n :: rest)
      = (sgrLoop rest 0 (sgrState.mk (p.openBackground fill) ((NewElement "tspan").CreateAttr
          "xml:space" (AttrValue.str "preserve")) false)).map sgrState.commit := by
    unfold dispatcher.CsiDispatch
    simp only [ne_eq, not_true_eq_false, if_false, List.length_cons]
    rw [if_neg (by omega), (hloop _).2.2.1]
  have h4 : p.CsiDispatch 109 (48 :: 2 :: r :: g :: b :: rest)
      = (sgrLoop rest 0 (sgrState.mk (p.openBackground (rgb r g b))
          ((NewElement "tspan").CreateAttr "xml:space" (AttrValue.str "preserve"))
          false)).map sgrState.commit := by
    unfold dispatcher.CsiDispatch
    simp only [ne_eq, not_true_eq_false, if_false, List.length_cons]
    rw [if_neg (by omega), (hloop _).2.2.2]
  refine ⟨fill, hfill, h1, h2, h3, h4, ?_⟩
  intro hne
  have hlen : ¬ rest.length = 0 := fun e => hne (List.length_eq_zero.mp e)
  have hrest : ∀ q : dispatcher F, q.CsiDispatch 109 rest
      = (sgrLoop rest 0 (sgrState.mk q ((NewElement "tspan").CreateAttr "xml:space"
          (AttrValue.str "preserve")) false)).map sgrState.commit := by
    intro q
    unfold dispatcher.CsiDispatch
    simp only [ne_eq, not_true_eq_false, if_false]
    rw [if_neg hlen]
  exact ⟨by rw [h3, hrest], by rw [h4, hrest]⟩

/-- C23, evaluated on one empty line: `38;5;1;4` leaves one run with the palette colour 1
and the underline, as `38;5;1` followed in the same call by `4` does. -/
theorem extended_colour_operands_skipped_witness :
    ∃ fill, palette.get? 1 = some fill ∧
      (newDispatcher [{ Attr := [], Child := [] }] (DefaultConfig : Config ℚ) 1).CsiDispatch 109
          (38 :: 5 :: 1 :: [4])
        = ((((sgrState.mk (newDispatcher [{ Attr := [], Child := [] }]
            (DefaultConfig : Config ℚ) 1) ((NewElement "tspan").CreateAttr "xml:space"
            (AttrValue.str "preserve")) false).createAttr "fill" fill).addSpan).bind
              (sgrLoop [4] 0)).map sgrState.commit :=
  (extended_colour_operands_skipped
    (newDispatcher [{ Attr := [], Child := [] }] (DefaultConfig : Config ℚ) 1) 1 0 0 0 [4]
    (by decide)).imp (fun _ h => ⟨h.1, h.2.1⟩)

/-- The runs `38;5;1;4` leaves on an empty line: one `tspan` with fill `#800000` and
underline. -/
theorem CsiDispatch_palette_then_underline :
    ((newDispatcher [{ Attr := [], Child := [] }] (DefaultConfig : Config ℚ) 1).CsiDispatch 109
        [38, 5, 1, 4]).map (fun p => p.lines.map (fun t => t.ChildElements))
      = some [[{ Tag := "tspan",
                 Attr := [{ Key := "xml:space", Value := AttrValue.str "preserve" },
                   { Key := "fill", Value := AttrValue.str "#800000" },
                   { Key := "text-decoration", Value := AttrValue.str "underline" }],
                 Text := "" }]] := by
  decide!


/-! ### The tab stop -/

theorem clamp_inside (v : Int) (n : Nat) (h0 : 0 ≤ v) (h1 : v < n) :
    clamp v 0 ((n : Int) - 1) = v := by
  unfold clamp
  split_ifs <;> omega

/-- The tab loop, when a space is one cell wide: it ends within the fuel, after the
prints of `(16 - col mod 16) mod 16` spaces. -/
theorem tabLoop_spaces (RuneWidth : Char → Nat) (hsp : RuneWidth ' ' = 1) (fuel : Nat) :
    ∀ p : dispatcher F, p.lines ≠ [] → (16 - p.col % 16) % 16 ≤ fuel →
      ∃ p1, dispatcher.tabLoop RuneWidth fuel p = some p1 ∧
        p.run RuneWidth (List.replicate ((16 - p.col % 16) % 16) (Event.Print ' ')) = some p1 ∧
        p1.col = p.col + (16 - p.col % 16) % 16 ∧
        p1.row = (if p.col % 16 = 0 then p.row
          else clamp p.row 0 ((p.lines.length : Int) - 1)) ∧
        p1.lines.length = p.lines.length := by
  induction fuel with
  | zero =>
    intro p _ hfuel
    have h0 : p.col % 16 = 0 := by omega
    refine ⟨p, ?_, ?_, ?_, ?_, rfl⟩
    · unfold dispatcher.tabLoop
      rw [if_pos h0]
    · rw [h0]; rfl
    · omega
    · rw [if_pos h0]
  | succ fuel ih =>
    intro p hne hfuel
    by_cases h0 : p.col % 16 = 0
    · refine ⟨p, ?_, ?_, ?_, ?_, rfl⟩
      · unfold dispatcher.tabLoop
        rw [if_pos h0]
      · rw [h0]; rfl
      · omega
      · rw [if_pos h0]
    · obtain ⟨p1, hp1, -, -, -, -, hlen, -, hcol, hr0, hr1⟩ := Print_frame RuneWidth p ' ' hne
      obtain ⟨q, hq, hrow, -, -⟩ := Print_texts RuneWidth p ' ' hne
      have hqp : q = p1 := Option.some.inj (hq.symm.trans hp1)
      subst hqp
      rw [hsp] at hcol
      have hne1 : q.lines ≠ [] := by
        intro hnil
        rw [hnil] at hlen
        exact hne (List.length_eq_zero.mp hlen.symm)
      have hneed : (16 - p.col % 16) % 16 = (16 - q.col % 16) % 16 + 1 := by
        rw [hcol]; omega
      obtain ⟨p2, ht2, hrun2, hcol2, hrow2, hlen2⟩ := ih q hne1 (by omega)
      refine ⟨p2, ?_, ?_, ?_, ?_, hlen2.trans hlen⟩
      · unfold dispatcher.tabLoop
        rw [if_neg h0, hp1]
        exact ht2
      · rw [hneed, List.replicate_succ]
        unfold dispatcher.run
        simp only [dispatcher.handle, hp1]
        exact hrun2
      · rw [hcol2, hneed, hcol]; omega
      · rw [if_neg h0, hrow2]
        have hrq : clamp q.row 0 ((q.lines.length : Int) - 1) = q.row :=
          clamp_inside q.row q.lines.length hr0 hr1
        have hrowq : q.row = clamp p.row 0 ((p.lines.length : Int) - 1) := by
          rw [hrow]; simp [dispatcher.lineTexts]
        split_ifs
        · exact hrowq
        · rw [hrq]; exact hrowq

/-- The tab on any dispatcher value over a non-empty line list, a space being one cell
wide: `Execute('\t')` ends after the prints of `(16 - c mod 16) mod 16`
spaces, at the smallest multiple of 16 that is `>= c`, and the row is the one
`Print` leaves: unchanged when no space is printed or the row is inside the
line list. -/
theorem Execute_tab_frame (RuneWidth : Char → Nat) (p : dispatcher F) (hsp : RuneWidth ' ' = 1)
    (hne : p.lines ≠ []) :
    ∃ p1, p.Execute RuneWidth 9 = some p1 ∧
      p.run RuneWidth (List.replicate ((16 - p.col % 16) % 16) (Event.Print ' ')) = some p1 ∧
      p1.col = p.col + (16 - p.col % 16) % 16 ∧
      p1.col % 16 = 0 ∧ p.col ≤ p1.col ∧ (∀ m, m % 16 = 0 → p.col ≤ m → p1.col ≤ m) ∧
      p1.row = (if p.col % 16 = 0 then p.row else clamp p.row 0 ((p.lines.length : Int) - 1)) ∧
      (0 ≤ p.row → p.row < p.lines.length → p1.row = p.row) := by
  obtain ⟨p1, ht, hrun, hcol, hrow, -⟩ :=
    tabLoop_spaces RuneWidth hsp 16 p hne (by omega)
  refine ⟨p1, ?_, hrun, hcol, by omega, by omega, fun m hm hle => by omega, hrow, ?_⟩
  · unfold dispatcher.Execute
    simp only [if_true, ht]
    rfl
  · intro h0 h1
    rw [hrow, clamp_inside p.row p.lines.length h0 h1]
    split_ifs <;> rfl

theorem tabLoop_row_invariant (RuneWidth : Char → Nat) (fuel : Nat) :
    ∀ p p1 : dispatcher F, p.lines ≠ [] →
      dispatcher.tabLoop RuneWidth fuel p = some p1 →
      (0 ≤ p.row ∧ (p.row < p.lines.length ∨ p.col = 0)) →
      p1.lines ≠ [] ∧ 0 ≤ p1.row ∧ (p1.row < p1.lines.length ∨ p1.col = 0) := by
  induction fuel with
  | zero =>
    intro p p1 hne h hJ
    unfold dispatcher.tabLoop at h
    split_ifs at h
    cases h
    exact ⟨hne, hJ⟩
  | succ fuel ih =>
    intro p p1 hne h hJ
    unfold dispatcher.tabLoop at h
    split_ifs at h
    · cases h
      exact ⟨hne, hJ⟩
    · obtain ⟨q, hq, -, -, -, -, hlen, -, -, hr0, hr1⟩ := Print_frame RuneWidth p ' ' hne
      rw [hq] at h
      have hne1 : q.lines ≠ [] := by
        intro hnil
        rw [hnil] at hlen
        exact hne (List.length_eq_zero.mp hlen.symm)
      exact ih q p1 hne1 h ⟨hr0, Or.inl hr1⟩

/-- The states the handler calls reach from a new dispatcher: the row is not negative, and
it is inside the line list whenever the column is not 0 (a newline, which can
move the row past the last line, puts the column at 0). -/
theorem run_row_invariant (RuneWidth : Char → Nat) (es : List Event) :
    ∀ p p1 : dispatcher F, p.lines ≠ [] → p.run RuneWidth es = some p1 →
      (0 ≤ p.row ∧ (p.row < p.lines.length ∨ p.col = 0)) →
      p1.lines ≠ [] ∧ 0 ≤ p1.row ∧ (p1.row < p1.lines.length ∨ p1.col = 0) := by
  induction es with
  | nil =>
    intro p p1 hne h hJ
    cases h
    exact ⟨hne, hJ⟩
  | cons e es ih =>
    intro p p1 hne h hJ
    unfold dispatcher.run at h
    split at h
    · exact absurd h (by simp)
    · rename_i q hq
      have hq1 : q.lines ≠ [] ∧ 0 ≤ q.row ∧ (q.row < q.lines.length ∨ q.col = 0) := by
        cases e with
        | Print r =>
          obtain ⟨q1, hq1, -, -, -, -, hlen, -, -, hr0, hr1⟩ := Print_frame RuneWidth p r hne
          have e1 : q = q1 := Option.some.inj (hq.symm.trans hq1)
          subst e1
          refine ⟨?_, hr0, Or.inl hr1⟩
          intro hnil
          rw [hnil] at hlen
          exact hne (List.length_eq_zero.mp hlen.symm)
        | Execute code =>
          simp only [dispatcher.handle] at hq
          unfold dispatcher.Execute at hq
          split at hq
          · exact absurd hq (by simp)
          · rename_i q2 hq2
            have h2 : q2.lines ≠ [] ∧ 0 ≤ q2.row ∧ (q2.row < q2.lines.length ∨ q2.col = 0) := by
              split_ifs at hq2
              · exact tabLoop_row_invariant RuneWidth 16 p q2 hne hq2 hJ
              · cases hq2
                exact ⟨hne, hJ⟩
            split_ifs at hq
            · cases hq
              obtain ⟨e1, e2, -⟩ := endBackground_frame q2
              refine ⟨by simpa [e1] using h2.1, ?_, Or.inr rfl⟩
              show 0 ≤ q2.endBackground.row + 1
              rw [e2]
              have := h2.2.1
              omega
            · cases hq
              exact h2
        | CsiDispatch cmd params =>
          obtain ⟨e1, e2, e3⟩ := CsiDispatch_frame p q cmd params hq
          have hlen : q.lines.length = p.lines.length := by
            have := congrArg List.length e1
            simpa [dispatcher.lineTexts] using this
          refine ⟨?_, by rw [e2]; exact hJ.1, ?_⟩
          · intro hnil
            rw [hnil] at hlen
            exact hne (List.length_eq_zero.mp hlen.symm)
          · rw [e2, e3, hlen]; exact hJ.2
      exact ih q p1 hq1.1 h hq1.2

/-- C24: in every state that handler calls reach from a new dispatcher over a non-empty
line list, a space being one cell wide, `Execute('\t')` ends after the prints
of exactly `(16 - c mod 16) mod 16` spaces, with `c` the column: the result is
the one of that many calls of `Print(' ')`.  It leaves the column at the
smallest multiple of 16 that is `>= c`, so a tab at a column divisible by 16
prints nothing, and it leaves the row unchanged. -/
theorem Execute_tab (RuneWidth : Char → Nat) (hsp : RuneWidth ' ' = 1)
    (lines : List (TextElement F)) (config : Config F) (scale : F) (es : List Event)
    (p : dispatcher F) (hne : lines ≠ [])
    (h : (newDispatcher lines config scale).run RuneWidth es = some p) :
    ∃ p1, p.Execute RuneWidth 9 = some p1 ∧
      p.run RuneWidth (List.replicate ((16 - p.col % 16) % 16) (Event.Print ' ')) = some p1 ∧
      p1.col = p.col + (16 - p.col % 16) % 16 ∧
      p1.col % 16 = 0 ∧ p.col ≤ p1.col ∧ (∀ m, m % 16 = 0 → p.col ≤ m → p1.col ≤ m) ∧
      p1.row = p.row := by
  obtain ⟨hne1, hr0, hr⟩ := run_row_invariant RuneWidth es (newDispatcher lines config scale) p
    hne h ⟨le_refl _, Or.inr rfl⟩
  obtain ⟨p1, ht, hrun, hcol, hrow, -⟩ := tabLoop_spaces RuneWidth hsp 16 p hne1 (by omega)
  refine ⟨p1, ?_, hrun, hcol, by omega, by omega, fun m hm hle => by omega, ?_⟩
  · unfold dispatcher.Execute
    simp only [if_true, ht]
    rfl
  · rw [hrow]
    split_ifs with h0
    · rfl
    · rcases hr with hr | hr
      · exact clamp_inside p.row p.lines.length hr0 hr
      · rw [hr] at h0
        exact absurd rfl h0

/-- C24, evaluated: after the prints of `abc` on a one-line grid the column is 3; the tab
prints 13 spaces and stops at column 16, on the same row. -/
theorem Execute_tab_witness :
    ∃ p p1 : dispatcher ℚ,
      (newDispatcher [{ Attr := [], Child := [] }] (DefaultConfig : Config ℚ) 1).run
          (plainText : Collaborators ℚ).RuneWidth
          [Event.Print 'a', Event.Print 'b', Event.Print 'c'] = some p ∧
      p.col = 3 ∧ p.row = 0 ∧
      p.Execute (plainText : Collaborators ℚ).RuneWidth 9 = some p1 ∧
      p.run (plainText : Collaborators ℚ).RuneWidth (List.replicate 13 (Event.Print ' '))
        = some p1 ∧
      p1.col = 16 ∧ p1.row = 0 ∧ p1.lineTexts = ["abc             "] := by
  have hsome : ((newDispatcher [{ Attr := [], Child := [] }] (DefaultConfig : Config ℚ) 1).run
      (plainText : Collaborators ℚ).RuneWidth
      [Event.Print 'a', Event.Print 'b', Event.Print 'c']).map (fun p => (p.col, p.row))
        = some (3, 0) := by decide!
  have htext : (((newDispatcher [{ Attr := [], Child := [] }] (DefaultConfig : Config ℚ) 1).run
      (plainText : Collaborators ℚ).RuneWidth
      [Event.Print 'a', Event.Print 'b', Event.Print 'c']).bind
        (fun p => p.Execute (plainText : Collaborators ℚ).RuneWidth 9)).map
          (fun p => p.lineTexts) = some ["abc             "] := by decide!
  cases hp : (newDispatcher [{ Attr := [], Child := [] }] (DefaultConfig : Config ℚ) 1).run
      (plainText : Collaborators ℚ).RuneWidth
      [Event.Print 'a', Event.Print 'b', Event.Print 'c'] with
  | none => rw [hp] at hsome; exact absurd hsome (by simp)
  | some p =>
    rw [hp] at hsome htext
    have hcol : p.col = 3 := congrArg Prod.fst (Option.some.inj hsome)
    have hrow : p.row = 0 := congrArg Prod.snd (Option.some.inj hsome)
    obtain ⟨p1, h1, hrun, hc1, -, -, -, hr1⟩ := Execute_tab (plainText : Collaborators ℚ).RuneWidth
      (by decide) [{ Attr := [], Child := [] }] (DefaultConfig : Config ℚ) 1
      [Event.Print 'a', Event.Print 'b', Event.Print 'c'] p (by simp) hp
    rw [hcol] at hrun hc1
    have htext1 : (p.Execute (plainText : Collaborators ℚ).RuneWidth 9).map
        (fun p => p.lineTexts) = some ["abc             "] := htext
    rw [h1] at htext1
    exact ⟨p, p1, rfl, hcol, hrow, h1, hrun, hc1, by rw [hr1, hrow], Option.some.inj htext1⟩

end Freezelib
